import Mathlib

/-!
UART transaction engine of the UPS serial-to-SNMP bridge.

Shallow embedding of `src/uart_engine.c`.  The file-scope statics of the C
translation unit (`s_queue`, `s_q_head`, ..., `s_hb_queued_or_active`) become the
fields of one record `Engine`, together with the two pieces of the outside
world the engine writes: the serial-port mutex and the telemetry globals.
Every C function becomes a function on that record.  What the engine reads
from the outside world during one pass of the tick loop (clock, driver
results, parser callbacks) is the record `StepInput`.

Machine integers are natural numbers; 32-bit clock arithmetic is written with
explicit reduction modulo `2^32`.
-/

namespace UartEngine

/-! ## Compile-time constants -/

/-- Capacity of the ring buffer, `UART_ENGINE_QUEUE_SIZE`. -/
def UART_ENGINE_QUEUE_SIZE : Nat := 32

/-- Size of the receive buffer, `UART_ENGINE_MAX_EXPECTED_LEN`. -/
def UART_ENGINE_MAX_EXPECTED_LEN : Nat := 256

/-- Timeout of the transmit phase, `UART_ENGINE_TX_TIMEOUT_MS`. -/
def UART_ENGINE_TX_TIMEOUT_MS : Nat := 250

/-- Delay before a re-queued Job may start, `UART_ENGINE_RETRY_COOLDOWN_MS`. -/
def UART_ENGINE_RETRY_COOLDOWN_MS : Nat := 25

/-- Bound of the loop in `uart_engine_tick`, `UART_ENGINE_MAX_STEPS_PER_TICK`. -/
def UART_ENGINE_MAX_STEPS_PER_TICK : Nat := 8

/-- The two macros that `uart_engine.c` takes from `uart_engine.h`, a header that is
not part of the sources at hand; they are parameters of the embedding. -/
structure Config where
  UART_ENGINE_MAX_ENDING_LEN : Nat
  UART_ENGINE_INTERJOB_COOLDOWN_MS : Nat
  deriving DecidableEq, Repr

/-- Modelled from the spec: the header `uart_engine.h` is missing.  The spec gives
`interjob_cooldown_ms` the default 0 and leaves `max_ending_len` open; the
configuration used to evaluate the engine on concrete inputs has no inter-job
cooldown and admits endings of up to 4 bytes (enough for the two-byte terminator of
the spec's heartbeat scenario). -/
def defaultConfig : Config :=
  { UART_ENGINE_MAX_ENDING_LEN := 4, UART_ENGINE_INTERJOB_COOLDOWN_MS := 0 }

/-! ## 32-bit clock arithmetic -/

/-- The modulus of `uint32_t`. -/
def U32 : Nat := 4294967296

/-- Addition of `uint32_t` values. -/
def add32 (a b : Nat) : Nat := (a + b) % U32

/-- Subtraction of `uint32_t` values, wrapping. -/
def sub32 (a b : Nat) : Nat := (a % U32 + (U32 - b % U32)) % U32

/-- The cast `(int32_t)x` of a `uint32_t` value (two's complement). -/
def asInt32 (x : Nat) : Int :=
  if x % U32 < 2147483648 then ((x % U32 : Nat) : Int) else ((x % U32 : Nat) : Int) - 4294967296

/-! ## Data model -/

/-- The states of the engine, `uart_engine_state_t`. -/
inductive uart_engine_state_t where
  | IDLE
  | TX_START
  | TX_WAIT
  | RX_WAIT
  | PROCESS
  deriving DecidableEq, Repr

/-- Result codes of `uart_engine_enqueue`, `uart_engine_result_t`. -/
inductive uart_engine_result_t where
  | OK
  | ERR_DISABLED
  | ERR_BAD_PARAM
  | ERR_QUEUE_FULL
  deriving DecidableEq, Repr

/-- A request descriptor, `uart_engine_request_t`, with the fields `uart_engine.c`
reads (the type is declared in `uart_engine.h`).  The function pointer `process_fn` is
an identifier of the callback (`none` is `NULL`); `out_value` is the address handed to
the callback.  `expected_ending_bytes` stands for a byte array: positions beyond the
list read as 0. -/
structure uart_engine_request_t where
  cmd : Nat
  cmd_bits : Nat
  expected_len : Nat
  expected_ending : Bool
  expected_ending_len : Nat
  expected_ending_bytes : List Nat
  timeout_ms : Nat
  max_retries : Nat
  process_fn : Option Nat
  out_value : Nat
  deriving DecidableEq, Repr

/-- Heartbeat configuration, `uart_engine_heartbeat_cfg_t`. -/
structure uart_engine_heartbeat_cfg_t where
  req : uart_engine_request_t
  interval_ms : Nat
  failure_threshold : Nat
  deriving DecidableEq, Repr

/-- Queue element, `uart_engine_job_t`. -/
structure uart_engine_job_t where
  req : uart_engine_request_t
  retries_left : Nat
  is_heartbeat : Bool
  deriving DecidableEq, Repr

/-- The all-zero request (what `memset(.., 0, ..)` leaves). -/
def zeroRequest : uart_engine_request_t :=
  { cmd := 0, cmd_bits := 0, expected_len := 0, expected_ending := false,
    expected_ending_len := 0, expected_ending_bytes := [], timeout_ms := 0,
    max_retries := 0, process_fn := none, out_value := 0 }

/-- The all-zero heartbeat configuration. -/
def zeroHeartbeatCfg : uart_engine_heartbeat_cfg_t :=
  { req := zeroRequest, interval_ms := 0, failure_threshold := 0 }

/-- The all-zero Job. -/
def zeroJob : uart_engine_job_t :=
  { req := zeroRequest, retries_left := 0, is_heartbeat := false }

/-- Telemetry record `g_power_summary_present_status` (declared in `ups_data.h`; the
fields are those the sources read and write). -/
structure PresentStatus where
  ac_present : Bool
  charging : Bool
  discharging : Bool
  fully_charged : Bool
  need_replacement : Bool
  below_remaining_capacity_limit : Bool
  battery_present : Bool
  overload : Bool
  shutdown_imminent : Bool
  deriving DecidableEq, Repr

/-- Telemetry record `g_battery`. -/
structure Battery where
  battery_voltage : Int
  battery_current : Int
  config_voltage : Nat
  run_time_to_empty_s : Nat
  remaining_time_limit_s : Nat
  temperature : Nat
  manufacturer_date : Nat
  remaining_capacity : Nat
  deriving DecidableEq, Repr

/-- Telemetry record `g_power_summary`. -/
structure Summary where
  rechargeable : Bool
  capacity_mode : Nat
  design_capacity : Nat
  full_charge_capacity : Nat
  warning_capacity_limit : Nat
  remaining_capacity_limit : Nat
  i_device_chemistry : Nat
  capacity_granularity_1 : Nat
  capacity_granularity_2 : Nat
  i_manufacturer_2bit : Nat
  i_product_2bit : Nat
  i_serial_number_2bit : Nat
  i_name_2bit : Nat
  deriving DecidableEq, Repr

/-- Telemetry record `g_input`. -/
structure Input where
  voltage : Nat
  frequency : Nat
  config_voltage : Nat
  low_voltage_transfer : Nat
  high_voltage_transfer : Nat
  deriving DecidableEq, Repr

/-- Telemetry record `g_output`. -/
structure Output where
  percent_load : Nat
  config_active_power : Nat
  config_voltage : Nat
  voltage : Nat
  current : Int
  frequency : Nat
  deriving DecidableEq, Repr

/-- The process-wide telemetry globals. -/
structure Telemetry where
  g_power_summary_present_status : PresentStatus
  g_power_summary : Summary
  g_battery : Battery
  g_input : Input
  g_output : Output
  deriving DecidableEq, Repr

/-- Telemetry with every field zero, the content of the globals at power-on. -/
def zeroTelemetry : Telemetry :=
  { g_power_summary_present_status :=
      { ac_present := false, charging := false, discharging := false, fully_charged := false,
        need_replacement := false, below_remaining_capacity_limit := false,
        battery_present := false, overload := false, shutdown_imminent := false },
    g_power_summary :=
      { rechargeable := false, capacity_mode := 0, design_capacity := 0,
        full_charge_capacity := 0, warning_capacity_limit := 0, remaining_capacity_limit := 0,
        i_device_chemistry := 0, capacity_granularity_1 := 0, capacity_granularity_2 := 0,
        i_manufacturer_2bit := 0, i_product_2bit := 0, i_serial_number_2bit := 0,
        i_name_2bit := 0 },
    g_battery :=
      { battery_voltage := 0, battery_current := 0, config_voltage := 0,
        run_time_to_empty_s := 0, remaining_time_limit_s := 0, temperature := 0,
        manufacturer_date := 0, remaining_capacity := 0 },
    g_input :=
      { voltage := 0, frequency := 0, config_voltage := 0, low_voltage_transfer := 0,
        high_voltage_transfer := 0 },
    g_output :=
      { percent_load := 0, config_active_power := 0, config_voltage := 0, voltage := 0,
        current := 0, frequency := 0 } }

/-- The statics of `uart_engine.c`, the serial mutex (`uart_lock_held`) and the
telemetry globals. -/
structure Engine where
  s_queue : List uart_engine_job_t
  s_q_head : Nat
  s_q_tail : Nat
  s_q_count : Nat
  s_active : uart_engine_job_t
  s_state : uart_engine_state_t
  s_state_start_ms : Nat
  s_retry_not_before_ms : Nat
  s_rx_buf : List Nat
  s_rx_got : Nat
  s_tx_buf : List Nat
  s_enabled : Bool
  s_hb_enabled : Bool
  s_hb_cfg : uart_engine_heartbeat_cfg_t
  s_hb_next_due_ms : Nat
  s_hb_consecutive_failures : Nat
  s_hb_queued_or_active : Bool
  uart_lock_held : Bool
  telemetry : Telemetry
  deriving DecidableEq, Repr

/-- What one pass of the tick loop observes of the outside world: the clock
(`ups_tick_ms`), whether `UART2_SendBytesDMA` reports `ESP_OK`, the value of
`UART2_TxDone`, the bytes the driver has buffered (`UART2_Read(dst, len)` copies the
first `len` of them), and the behaviour of the parser callbacks: `parser fn cmd rx
out_value t` is the result of calling callback `fn` and the telemetry it leaves. -/
structure StepInput where
  now_ms : Nat
  send_ok : Bool
  tx_done : Bool
  rx_avail : List Nat
  parser : Nat → Nat → List Nat → Nat → Telemetry → Bool × Telemetry

/-- The state of the statics at power-on: all zero, mutex free. -/
def boot (t : Telemetry) : Engine :=
  { s_queue := List.replicate UART_ENGINE_QUEUE_SIZE zeroJob,
    s_q_head := 0, s_q_tail := 0, s_q_count := 0,
    s_active := zeroJob, s_state := uart_engine_state_t.IDLE,
    s_state_start_ms := 0, s_retry_not_before_ms := 0,
    s_rx_buf := List.replicate UART_ENGINE_MAX_EXPECTED_LEN 0, s_rx_got := 0,
    s_tx_buf := List.replicate 8 0,
    s_enabled := false, s_hb_enabled := false, s_hb_cfg := zeroHeartbeatCfg,
    s_hb_next_due_ms := 0, s_hb_consecutive_failures := 0, s_hb_queued_or_active := false,
    uart_lock_held := false, telemetry := t }

/-! ## The serial mutex -/

/-- The call `UART2_TryLock()`: takes the mutex when it is free and reports whether it
did. -/
def UART2_TryLock (s : Engine) : Bool × Engine :=
  if s.uart_lock_held then (false, s) else (true, { s with uart_lock_held := true })

/-- The call `UART2_Unlock()`: gives the mutex back. -/
def UART2_Unlock (s : Engine) : Engine :=
  { s with uart_lock_held := false }

/-! ## Helpers of `uart_engine.c` -/

/-- The function `engine_now_ms`: reads the 32-bit millisecond clock. -/
def engine_now_ms (inp : StepInput) : Nat := inp.now_ms % U32

/-- The function `set_not_before_ms`. -/
def set_not_before_ms (candidate_ms : Nat) (s : Engine) : Engine :=
  if asInt32 (sub32 candidate_ms s.s_retry_not_before_ms) > 0 then
    { s with s_retry_not_before_ms := candidate_ms }
  else s

/-- The function `apply_interjob_cooldown`; the preprocessor test is a test on the
configuration. -/
def apply_interjob_cooldown (cfg : Config) (now_ms : Nat) (s : Engine) : Engine :=
  if cfg.UART_ENGINE_INTERJOB_COOLDOWN_MS > 0 then
    set_not_before_ms (add32 now_ms cfg.UART_ENGINE_INTERJOB_COOLDOWN_MS) s
  else s

/-- The function `queue_is_full`. -/
def queue_is_full (s : Engine) : Bool :=
  decide (s.s_q_count ≥ UART_ENGINE_QUEUE_SIZE)

/-- The function `queue_push`; `req = none` is the null pointer. -/
def queue_push (req : Option uart_engine_request_t) (is_heartbeat : Bool) (s : Engine) :
    Bool × Engine :=
  match req with
  | none => (false, s)
  | some r =>
    if queue_is_full s then (false, s)
    else
      (true,
       { s with
         s_queue := s.s_queue.set s.s_q_tail
           { req := r, retries_left := r.max_retries, is_heartbeat := is_heartbeat },
         s_q_tail := (s.s_q_tail + 1) % UART_ENGINE_QUEUE_SIZE,
         s_q_count := (s.s_q_count + 1) % 256 })

/-- The function `queue_pop`; the Job written through `out` is the first component. -/
def queue_pop (s : Engine) : Option uart_engine_job_t × Engine :=
  if s.s_q_count = 0 then (none, s)
  else
    (some (s.s_queue.getD s.s_q_head zeroJob),
     { s with
       s_q_head := (s.s_q_head + 1) % UART_ENGINE_QUEUE_SIZE,
       s_q_count := s.s_q_count - 1 })

/-- The function `build_cmd_bytes`: the number of bytes written and the buffer. -/
def build_cmd_bytes (tx : List Nat) (tx_cap : Nat) (cmd : Nat) (cmd_bits : Nat) :
    Nat × List Nat :=
  if tx_cap = 0 then (0, tx)
  else if cmd_bits = 8 then
    if tx_cap < 1 then (0, tx) else (1, tx.set 0 (cmd % 256))
  else if cmd_bits = 16 then
    if tx_cap < 2 then (0, tx) else (2, (tx.set 0 (cmd / 256 % 256)).set 1 (cmd % 256))
  else (0, tx)

/-- The function `request_is_valid`; `none` is the null pointer. -/
def request_is_valid (cfg : Config) (req : Option uart_engine_request_t) : Bool :=
  match req with
  | none => false
  | some r =>
    if r.cmd_bits ≠ 8 ∧ r.cmd_bits ≠ 16 then false
    else if r.expected_len > UART_ENGINE_MAX_EXPECTED_LEN then false
    else if r.expected_ending then
      if r.expected_ending_len = 0 ∨ r.expected_ending_len > cfg.UART_ENGINE_MAX_ENDING_LEN then
        false
      else true
    else true

/-- The function `request_rx_cap`. -/
def request_rx_cap (r : uart_engine_request_t) : Nat :=
  if !r.expected_ending then r.expected_len
  else if r.expected_len = 0 then UART_ENGINE_MAX_EXPECTED_LEN
  else r.expected_len

/-- The test `memcmp(&a[off], b, n) == 0`. -/
def memcmp_eq (a : List Nat) (off : Nat) (b : List Nat) (n : Nat) : Bool :=
  (List.range n).all (fun i => a.getD (off + i) 0 == b.getD i 0)

/-- The function `rx_has_expected_ending`. -/
def rx_has_expected_ending (cfg : Config) (r : uart_engine_request_t) (rx : List Nat)
    (rx_len : Nat) : Bool :=
  if !r.expected_ending then false
  else
    let ending_len := r.expected_ending_len
    if ending_len = 0 ∨ ending_len > cfg.UART_ENGINE_MAX_ENDING_LEN ∨ rx_len < ending_len then
      false
    else memcmp_eq rx (rx_len - ending_len) r.expected_ending_bytes ending_len

/-- The function `active_clear`. -/
def active_clear (s : Engine) : Engine :=
  { s with s_active := zeroJob, s_rx_got := 0 }

/-- The function `on_job_success`. -/
def on_job_success (job : uart_engine_job_t) (s : Engine) : Engine :=
  if job.is_heartbeat then { s with s_hb_consecutive_failures := 0 } else s

/-- The eight telemetry writes of the degraded state in `on_job_final_failure`. -/
def degraded_writes (t : Telemetry) : Telemetry :=
  { t with
    g_battery := { t.g_battery with remaining_capacity := 1, remaining_time_limit_s := 1 },
    g_power_summary_present_status :=
      { t.g_power_summary_present_status with
        fully_charged := false,
        below_remaining_capacity_limit := true,
        shutdown_imminent := true,
        charging := false,
        discharging := true,
        ac_present := false } }

/-- The saturating increment at the head of `on_job_final_failure`:
`if (s_hb_consecutive_failures < 255U) s_hb_consecutive_failures++;`. -/
def bump_hb_failures (s : Engine) : Engine :=
  if s.s_hb_consecutive_failures < 255 then
    { s with s_hb_consecutive_failures := s.s_hb_consecutive_failures + 1 }
  else s

/-- The rest of `on_job_final_failure`: the threshold (5 when configured as 0) and the
degraded-state writes when the counter has reached it. -/
def degrade_if_threshold (s : Engine) : Engine :=
  let threshold : Nat :=
    if s.s_hb_cfg.failure_threshold = 0 then 5 else s.s_hb_cfg.failure_threshold
  if s.s_hb_consecutive_failures ≥ threshold then
    { s with telemetry := degraded_writes s.telemetry }
  else s

/-- The function `on_job_final_failure`. -/
def on_job_final_failure (job : uart_engine_job_t) (s : Engine) : Engine :=
  if !job.is_heartbeat then s
  else degrade_if_threshold (bump_hb_failures s)

/-! ## Public operations other than the tick -/

/-- The function `uart_engine_init`. -/
def uart_engine_init (s : Engine) : Engine :=
  active_clear
    { s with
      s_q_head := 0, s_q_tail := 0, s_q_count := 0,
      s_state := uart_engine_state_t.IDLE,
      s_state_start_ms := 0, s_retry_not_before_ms := 0,
      s_hb_enabled := false, s_hb_cfg := zeroHeartbeatCfg,
      s_hb_next_due_ms := 0, s_hb_consecutive_failures := 0,
      s_hb_queued_or_active := false,
      s_enabled := true }

/-- The function `uart_engine_reset_internal`. -/
def uart_engine_reset_internal (s : Engine) : Engine :=
  UART2_Unlock
    (active_clear
      { s with
        s_q_head := 0, s_q_tail := 0, s_q_count := 0,
        s_state := uart_engine_state_t.IDLE,
        s_state_start_ms := 0, s_retry_not_before_ms := 0,
        s_hb_enabled := false, s_hb_cfg := zeroHeartbeatCfg,
        s_hb_next_due_ms := 0, s_hb_consecutive_failures := 0,
        s_hb_queued_or_active := false })

/-- The function `uart_engine_set_enabled`. -/
def uart_engine_set_enabled (enable : Bool) (s : Engine) : Engine :=
  if enable = s.s_enabled then s
  else
    let s1 : Engine := { s with s_enabled := enable }
    if !s1.s_enabled then uart_engine_reset_internal s1 else s1

/-- The function `uart_engine_is_enabled`. -/
def uart_engine_is_enabled (s : Engine) : Bool := s.s_enabled

/-- The function `uart_engine_is_busy`. -/
def uart_engine_is_busy (s : Engine) : Bool :=
  decide (s.s_state ≠ uart_engine_state_t.IDLE) || decide (s.s_q_count ≠ 0)

/-- The function `uart_engine_enqueue`; `none` is the null pointer. -/
def uart_engine_enqueue (cfg : Config) (req : Option uart_engine_request_t) (s : Engine) :
    uart_engine_result_t × Engine :=
  if !s.s_enabled then (uart_engine_result_t.ERR_DISABLED, s)
  else if !request_is_valid cfg req then (uart_engine_result_t.ERR_BAD_PARAM, s)
  else
    match queue_push req false s with
    | (false, s1) => (uart_engine_result_t.ERR_QUEUE_FULL, s1)
    | (true, s1) => (uart_engine_result_t.OK, s1)

/-- The function `uart_engine_set_heartbeat`; `none` is the null pointer and `now_ms`
is what `ups_tick_ms` returns during the call. -/
def uart_engine_set_heartbeat (cfg : Config) (now_ms : Nat)
    (hb : Option uart_engine_heartbeat_cfg_t) (s : Engine) : Engine :=
  if !s.s_enabled then s
  else
    match hb with
    | none =>
      { s with s_hb_enabled := false, s_hb_queued_or_active := false,
               s_hb_consecutive_failures := 0 }
    | some c =>
      let s1 : Engine := { s with s_hb_cfg := c }
      if !request_is_valid cfg (some s1.s_hb_cfg.req) then { s1 with s_hb_enabled := false }
      else
        let s2 : Engine :=
          if s1.s_hb_cfg.failure_threshold = 0 then
            { s1 with s_hb_cfg := { s1.s_hb_cfg with failure_threshold := 5 } }
          else s1
        { s2 with s_hb_enabled := true, s_hb_next_due_ms := now_ms % U32,
                  s_hb_consecutive_failures := 0, s_hb_queued_or_active := false }

/-! ## The tick -/

/-- The function `maybe_enqueue_heartbeat`. -/
def maybe_enqueue_heartbeat (now_ms : Nat) (s : Engine) : Engine :=
  if !s.s_hb_enabled || s.s_hb_queued_or_active then s
  else if asInt32 (sub32 now_ms s.s_hb_next_due_ms) < 0 then s
  else
    match queue_push (some s.s_hb_cfg.req) true s with
    | (true, s1) =>
      let interval : Nat := if s1.s_hb_cfg.interval_ms = 0 then 1000 else s1.s_hb_cfg.interval_ms
      { s1 with s_hb_queued_or_active := true, s_hb_next_due_ms := add32 now_ms interval }
    | (false, s1) => s1

/-- The statement `if (s_active.is_heartbeat) s_hb_queued_or_active = false;`. -/
def clear_flag_if_heartbeat (s : Engine) : Engine :=
  if s.s_active.is_heartbeat then { s with s_hb_queued_or_active := false } else s

/-- The statement `s_active.retries_left--;`. -/
def dec_retries (s : Engine) : Engine :=
  { s with s_active := { s.s_active with retries_left := s.s_active.retries_left - 1 } }

/-- The common tail of every exit from an active state:
`s_state = UART_ENGINE_STATE_IDLE; apply_interjob_cooldown(now_ms); active_clear();`. -/
def back_to_idle (cfg : Config) (now_ms : Nat) (s : Engine) : Engine :=
  active_clear
    (apply_interjob_cooldown cfg now_ms { s with s_state := uart_engine_state_t.IDLE })

/-- The `if (s_active.retries_left > 0U) ... else ...` block of `job_finish_failure`. -/
def finish_failure_retry (now_ms : Nat) (s : Engine) : Engine :=
  if s.s_active.retries_left > 0 then
    match queue_push (some (dec_retries s).s_active.req) (dec_retries s).s_active.is_heartbeat
        (dec_retries s) with
    | (true, s2) =>
      { s2 with s_retry_not_before_ms := add32 now_ms UART_ENGINE_RETRY_COOLDOWN_MS }
    | (false, s2) => clear_flag_if_heartbeat (on_job_final_failure s2.s_active s2)
  else clear_flag_if_heartbeat (on_job_final_failure s.s_active s)

/-- The function `job_finish_failure` (the `reason` string only feeds the debug
print). -/
def job_finish_failure (cfg : Config) (now_ms : Nat) (s : Engine) : Engine :=
  back_to_idle cfg now_ms (finish_failure_retry now_ms (UART2_Unlock s))

/-- The function `job_start_tx`. -/
def job_start_tx (cfg : Config) (inp : StepInput) (now_ms : Nat) (s : Engine) : Engine :=
  let built := build_cmd_bytes s.s_tx_buf 8 s.s_active.req.cmd s.s_active.req.cmd_bits
  let s1 : Engine := { s with s_tx_buf := built.2 }
  if built.1 = 0 then job_finish_failure cfg now_ms s1
  else if !inp.send_ok then job_finish_failure cfg now_ms s1
  else { s1 with s_state := uart_engine_state_t.TX_WAIT, s_state_start_ms := now_ms }

/-- The store of `got` into `s_rx_buf` at offset `off` done by `UART2_Read`. -/
def rx_store (buf : List Nat) (off : Nat) (got : List Nat) : List Nat :=
  buf.take off ++ got ++ buf.drop (off + got.length)

/-- The call of the parser in the `PROCESS` case: `ok` (true without a parser) and the
telemetry the callback leaves. -/
def call_process_fn (inp : StepInput) (s : Engine) : Bool × Telemetry :=
  match s.s_active.req.process_fn with
  | none => (true, s.telemetry)
  | some fn =>
    inp.parser fn s.s_active.req.cmd (s.s_rx_buf.take s.s_rx_got) s.s_active.req.out_value
      s.telemetry

/-- The `if (s_active.retries_left > 0U) ... else ...` block of the `PROCESS` case, run
after the parser returned false. -/
def process_failure_retry (now_ms : Nat) (s : Engine) : Engine :=
  if s.s_active.retries_left > 0 then
    match queue_push (some (dec_retries s).s_active.req) (dec_retries s).s_active.is_heartbeat
        (dec_retries s) with
    | (true, s3) =>
      { s3 with s_retry_not_before_ms := add32 now_ms UART_ENGINE_RETRY_COOLDOWN_MS }
    | (false, s3) => on_job_final_failure s3.s_active s3
  else on_job_final_failure s.s_active s

/-- The `PROCESS` case after the parser call and `UART2_Unlock()`: `ok` is the parser's
verdict. -/
def process_outcome (cfg : Config) (now_ms : Nat) (ok : Bool) (s : Engine) : Engine :=
  if ok then
    back_to_idle cfg now_ms (clear_flag_if_heartbeat (on_job_success s.s_active s))
  else
    back_to_idle cfg now_ms (process_failure_retry now_ms (clear_flag_if_heartbeat s))

/-- The `UART_ENGINE_STATE_PROCESS` case of `uart_engine_tick`. -/
def tick_process (cfg : Config) (inp : StepInput) (now_ms : Nat) (s : Engine) : Engine :=
  process_outcome cfg now_ms (call_process_fn inp s).1
    (UART2_Unlock { s with telemetry := (call_process_fn inp s).2 })

/-- The read block of the `RX_WAIT` case: `UART2_Read(&s_rx_buf[s_rx_got], want)` when
`s_rx_got < rx_cap`; the second component is `progressed`. -/
def rx_read (inp : StepInput) (rx_cap : Nat) (s : Engine) : Engine × Bool :=
  if s.s_rx_got < rx_cap then
    let want := (rx_cap - s.s_rx_got) % 65536
    let got := inp.rx_avail.take want
    if got.length > 0 then
      ({ s with s_rx_buf := rx_store s.s_rx_buf s.s_rx_got got,
                s_rx_got := (s.s_rx_got + got.length) % 65536 }, true)
    else (s, false)
  else (s, false)

/-- The `RX_WAIT` case after the read block: ending test, cap test, timeout. -/
def rx_decide (cfg : Config) (now_ms : Nat) (rx_cap : Nat) (progressed : Bool) (s : Engine) :
    Engine × Bool :=
  if s.s_active.req.expected_ending then
    if rx_has_expected_ending cfg s.s_active.req s.s_rx_buf s.s_rx_got then
      ({ s with s_state := uart_engine_state_t.PROCESS }, true)
    else if s.s_rx_got ≥ rx_cap then (job_finish_failure cfg now_ms s, true)
    else if sub32 now_ms s.s_state_start_ms ≥ s.s_active.req.timeout_ms then
      (job_finish_failure cfg now_ms s, true)
    else (s, progressed)
  else if s.s_rx_got ≥ rx_cap then
    ({ s with s_state := uart_engine_state_t.PROCESS }, true)
  else if sub32 now_ms s.s_state_start_ms ≥ s.s_active.req.timeout_ms then
    (job_finish_failure cfg now_ms s, true)
  else (s, progressed)

/-- The `UART_ENGINE_STATE_RX_WAIT` case of `uart_engine_tick`; the second component
is `progressed`. -/
def tick_rx_wait (cfg : Config) (inp : StepInput) (now_ms : Nat) (s : Engine) :
    Engine × Bool :=
  if request_rx_cap s.s_active.req = 0 then
    ({ s with s_state := uart_engine_state_t.PROCESS }, true)
  else
    rx_decide cfg now_ms (request_rx_cap s.s_active.req)
      (rx_read inp (request_rx_cap s.s_active.req) s).2
      (rx_read inp (request_rx_cap s.s_active.req) s).1

/-- The assignments after a successful `queue_pop(&s_active)` in the `IDLE` case. -/
def start_job (now_ms : Nat) (job : uart_engine_job_t) (s : Engine) : Engine :=
  { s with
    s_active := job, s_state := uart_engine_state_t.TX_START, s_state_start_ms := now_ms,
    s_hb_queued_or_active := if job.is_heartbeat then true else s.s_hb_queued_or_active }

/-- The `UART_ENGINE_STATE_IDLE` case of `uart_engine_tick`; the second component is
false on `return`. -/
def tick_idle (now_ms : Nat) (s : Engine) : Engine × Bool :=
  if s.s_q_count = 0 then (s, false)
  else
    match UART2_TryLock s with
    | (false, s1) => (s1, false)
    | (true, s1) =>
      match queue_pop s1 with
      | (none, s2) => (UART2_Unlock s2, false)
      | (some job, s2) => (start_job now_ms job s2, true)

/-- The `UART_ENGINE_STATE_TX_WAIT` case of `uart_engine_tick`. -/
def tick_tx_wait (cfg : Config) (inp : StepInput) (now_ms : Nat) (s : Engine) :
    Engine × Bool :=
  if inp.tx_done then
    ({ s with s_state := uart_engine_state_t.RX_WAIT, s_state_start_ms := now_ms,
              s_rx_got := 0 }, true)
  else if sub32 now_ms s.s_state_start_ms ≥ UART_ENGINE_TX_TIMEOUT_MS then
    (job_finish_failure cfg now_ms s, true)
  else (s, false)

/-- The body of the `for` loop of `uart_engine_tick` after `maybe_enqueue_heartbeat`:
the cooldown gate and the `switch`.  The second component tells whether the loop goes
on: it is false on `return` and when `progressed` is false. -/
def tick_dispatch (cfg : Config) (inp : StepInput) (now_ms : Nat) (s : Engine) :
    Engine × Bool :=
  if asInt32 (sub32 now_ms s.s_retry_not_before_ms) < 0 then (s, false)
  else
    match s.s_state with
    | uart_engine_state_t.IDLE => tick_idle now_ms s
    | uart_engine_state_t.TX_START => (job_start_tx cfg inp now_ms s, true)
    | uart_engine_state_t.TX_WAIT => tick_tx_wait cfg inp now_ms s
    | uart_engine_state_t.RX_WAIT => tick_rx_wait cfg inp now_ms s
    | uart_engine_state_t.PROCESS => (tick_process cfg inp now_ms s, true)

/-- One pass of the `for` loop of `uart_engine_tick`. -/
def tick_step (cfg : Config) (inp : StepInput) (s : Engine) : Engine × Bool :=
  tick_dispatch cfg inp (engine_now_ms inp)
    (maybe_enqueue_heartbeat (engine_now_ms inp) s)

/-- The `for` loop of `uart_engine_tick`: `fuel` passes remain, `step` is the loop
counter and `ins step` is what pass `step` observes. -/
def tick_loop (cfg : Config) (ins : Nat → StepInput) : Nat → Nat → Engine → Engine
  | 0, _, s => s
  | fuel + 1, step, s =>
    match tick_step cfg (ins step) s with
    | (s1, true) => tick_loop cfg ins fuel (step + 1) s1
    | (s1, false) => s1

/-- The function `uart_engine_tick`. -/
def uart_engine_tick (cfg : Config) (ins : Nat → StepInput) (s : Engine) : Engine :=
  if !s.s_enabled then s
  else tick_loop cfg ins UART_ENGINE_MAX_STEPS_PER_TICK 0 s

/-- The Jobs waiting in the ring buffer, oldest first. -/
def queued (s : Engine) : List uart_engine_job_t :=
  (List.range s.s_q_count).map
    (fun i => s.s_queue.getD ((s.s_q_head + i) % UART_ENGINE_QUEUE_SIZE) zeroJob)

/-- Well-formedness of the ring buffer: 32 slots, indices in range, and the tail is
`count` slots after the head. -/
def RingWF (s : Engine) : Prop :=
  s.s_queue.length = UART_ENGINE_QUEUE_SIZE ∧ s.s_q_head < UART_ENGINE_QUEUE_SIZE ∧
    s.s_q_count ≤ UART_ENGINE_QUEUE_SIZE ∧
    s.s_q_tail = (s.s_q_head + s.s_q_count) % UART_ENGINE_QUEUE_SIZE

instance decidableRingWF (s : Engine) : Decidable (RingWF s) := by
  unfold RingWF; infer_instance

/-- The Job that `queue_push` stores for a request. -/
def job_of (r : uart_engine_request_t) (is_heartbeat : Bool) : uart_engine_job_t :=
  { req := r, retries_left := r.max_retries, is_heartbeat := is_heartbeat }

/-- The four statics that make up the ring buffer. -/
def ring (s : Engine) : List uart_engine_job_t × Nat × Nat × Nat :=
  (s.s_queue, s.s_q_head, s.s_q_tail, s.s_q_count)

/-- A step of the engine that pops nothing: the ring stays well formed, the head index
stays, and either the tail index stays and the queue is unchanged or, with the engine back
in `IDLE`, the tail index advances by one slot and the queue is extended at the tail by
the re-pushed request of the Job that was active. -/
def NoPop (s s1 : Engine) : Prop :=
  RingWF s1 ∧ s1.s_q_head = s.s_q_head ∧
    ((s1.s_q_tail = s.s_q_tail ∧ queued s1 = queued s) ∨
      (s1.s_q_tail = (s.s_q_tail + 1) % UART_ENGINE_QUEUE_SIZE ∧
        s1.s_state = uart_engine_state_t.IDLE ∧
        queued s1 = queued s ++ [job_of s.s_active.req s.s_active.is_heartbeat]))

/-! ## Concrete inputs used to evaluate the engine -/

/-- A parser callback that accepts every reply and writes nothing. -/
def silentParser : Nat → Nat → List Nat → Nat → Telemetry → Bool × Telemetry :=
  fun _ _ _ _ t => (true, t)

/-- A serial line on which transmission works and nothing is ever received, observed
at clock value `now` by every pass of the tick loop. -/
def quietLine (now : Nat) : Nat → StepInput :=
  fun _ =>
    { now_ms := now, send_ok := true, tx_done := true, rx_avail := [], parser := silentParser }

/-- Telemetry of a UPS on mains with a charged battery. -/
def healthyTelemetry : Telemetry :=
  { zeroTelemetry with
    g_battery :=
      { zeroTelemetry.g_battery with remaining_capacity := 80, remaining_time_limit_s := 120 },
    g_power_summary_present_status :=
      { zeroTelemetry.g_power_summary_present_status with
        ac_present := true, charging := true, fully_charged := true, battery_present := true } }

/-- A heartbeat request: one-byte command, one reply byte expected within 10 ms, no
retries, no parser. -/
def hb3Req : uart_engine_request_t :=
  { cmd := 0x59, cmd_bits := 8, expected_len := 1, expected_ending := false,
    expected_ending_len := 0, expected_ending_bytes := [], timeout_ms := 10,
    max_retries := 0, process_fn := none, out_value := 0 }

/-- Heartbeat every 1000 ms with failure threshold 3. -/
def hb3Cfg : uart_engine_heartbeat_cfg_t :=
  { req := hb3Req, interval_ms := 1000, failure_threshold := 3 }

/-- The engine after `k` heartbeats that each time out in `RX_WAIT`: the heartbeat is
installed at time 0 on a freshly initialised engine; heartbeat `k` is injected and
started by the tick at `1000 * k` and times out in the tick at `1000 * k + 10`. -/
def hbTimeouts : Nat → Engine
  | 0 =>
    uart_engine_set_heartbeat defaultConfig 0 (some hb3Cfg)
      (uart_engine_init (boot healthyTelemetry))
  | k + 1 =>
    uart_engine_tick defaultConfig (quietLine (1000 * k + 10))
      (uart_engine_tick defaultConfig (quietLine (1000 * k)) (hbTimeouts k))

/-- A parser callback that rejects every reply and writes nothing. -/
def rejectParser : Nat → Nat → List Nat → Nat → Telemetry → Bool × Telemetry :=
  fun _ _ _ _ t => (false, t)

/-- A parser callback that stores the first reply byte in `g_battery.remaining_capacity`
and accepts. -/
def capacityParser : Nat → Nat → List Nat → Nat → Telemetry → Bool × Telemetry :=
  fun _ _ rx _ t =>
    (true, { t with g_battery := { t.g_battery with remaining_capacity := rx.getD 0 0 } })

/-- A serial line on which transmission works, nothing is received, and every parser
callback rejects. -/
def rejectLine (now : Nat) : Nat → StepInput :=
  fun _ =>
    { now_ms := now, send_ok := true, tx_done := true, rx_avail := [], parser := rejectParser }

/-- A serial line on which the transmission is started but never completes. -/
def stalledLine (now : Nat) : Nat → StepInput :=
  fun _ =>
    { now_ms := now, send_ok := true, tx_done := false, rx_avail := [], parser := silentParser }

/-- A serial line on which the UPS answers with `bytes`, parsed by `capacityParser`. -/
def answerLine (now : Nat) (bytes : List Nat) : Nat → StepInput :=
  fun _ =>
    { now_ms := now, send_ok := true, tx_done := true, rx_avail := bytes,
      parser := capacityParser }

/-- A poll request with `max_retries = 2`: one-byte command, one reply byte expected
within 10 ms, no parser. -/
def pollReq : uart_engine_request_t :=
  { cmd := 0x51, cmd_bits := 8, expected_len := 1, expected_ending := false,
    expected_ending_len := 0, expected_ending_bytes := [], timeout_ms := 10,
    max_retries := 2, process_fn := none, out_value := 0 }

/-- A request with `max_retries = 2` that expects no reply bytes and hands the (empty)
reply to parser callback 7. -/
def parsedReq : uart_engine_request_t :=
  { cmd := 0x52, cmd_bits := 8, expected_len := 0, expected_ending := false,
    expected_ending_len := 0, expected_ending_bytes := [], timeout_ms := 10,
    max_retries := 2, process_fn := some 7, out_value := 0 }

/-- A request that reads one reply byte and hands it to parser callback 1. -/
def capacityReq : uart_engine_request_t :=
  { cmd := 0x66, cmd_bits := 8, expected_len := 1, expected_ending := false,
    expected_ending_len := 0, expected_ending_bytes := [], timeout_ms := 10,
    max_retries := 0, process_fn := some 1, out_value := 0 }

/-- A freshly initialised engine with `pollReq` queued. -/
def pollQueued : Engine :=
  (uart_engine_enqueue defaultConfig (some pollReq)
    (uart_engine_init (boot healthyTelemetry))).2

/-- The engine after `k` attempts of `pollReq` that each time out in `RX_WAIT`: attempt
`k` is started by the tick at `35 * k` and times out in the tick at `35 * k + 10`, so the
next attempt starts 25 ms after the failure. -/
def pollTimeouts : Nat → Engine
  | 0 => pollQueued
  | k + 1 =>
    uart_engine_tick defaultConfig (quietLine (35 * k + 10))
      (uart_engine_tick defaultConfig (quietLine (35 * k)) (pollTimeouts k))

/-- A heartbeat request with `max_retries = 1` whose (empty) reply goes to parser
callback 0. -/
def hbRetryReq : uart_engine_request_t :=
  { cmd := 0x59, cmd_bits := 8, expected_len := 0, expected_ending := false,
    expected_ending_len := 0, expected_ending_bytes := [], timeout_ms := 10,
    max_retries := 1, process_fn := some 0, out_value := 0 }

/-- Heartbeat every 10 ms with one retry. -/
def hbRetryCfg : uart_engine_heartbeat_cfg_t :=
  { req := hbRetryReq, interval_ms := 10, failure_threshold := 3 }

/-- The engine after the tick at time 0 in which the first heartbeat of `hbRetryCfg` is
injected, started and rejected by its parser. -/
def hbRejected : Engine :=
  uart_engine_tick defaultConfig (rejectLine 0)
    (uart_engine_set_heartbeat defaultConfig 0 (some hbRetryCfg)
      (uart_engine_init (boot healthyTelemetry)))

/-- A heartbeat request with `max_retries = 1` that expects one reply byte within 10 ms. -/
def hbSlowReq : uart_engine_request_t :=
  { cmd := 0x59, cmd_bits := 8, expected_len := 1, expected_ending := false,
    expected_ending_len := 0, expected_ending_bytes := [], timeout_ms := 10,
    max_retries := 1, process_fn := some 0, out_value := 0 }

/-- The engine after the first heartbeat `hbSlowReq`, injected and started by the tick at
time 0, has timed out in `RX_WAIT` in the tick at time 10. -/
def hbTimedOut : Engine :=
  uart_engine_tick defaultConfig (quietLine 10)
    (uart_engine_tick defaultConfig (quietLine 0)
      (uart_engine_set_heartbeat defaultConfig 0
        (some { req := hbSlowReq, interval_ms := 1000, failure_threshold := 3 })
        (uart_engine_init (boot healthyTelemetry))))

/-- The engine with `pollReq` in flight (waiting for the end of the transmission) at the
moment `uart_engine_init` is called again. -/
def pollInFlight : Engine :=
  uart_engine_tick defaultConfig (stalledLine 0) pollQueued

/-- The engine after three heartbeat timeouts (degraded state reached) followed by a
successful poll of the battery capacity, answered with 80 at time 2020. -/
def recoveredCapacity : Engine :=
  uart_engine_tick defaultConfig (answerLine 2020 [80])
    (uart_engine_enqueue defaultConfig (some capacityReq) (hbTimeouts 3)).2

/-- The engine after the fourth heartbeat, injected at 3000, has timed out at 3010. -/
def fourthTimeout : Engine :=
  uart_engine_tick defaultConfig (quietLine 3010)
    (uart_engine_tick defaultConfig (quietLine 3000) recoveredCapacity)

/-- A serial line on which `UART2_SendBytesDMA` fails, observed at clock value `now`. -/
def deadLine (now : Nat) : Nat → StepInput :=
  fun _ =>
    { now_ms := now, send_ok := false, tx_done := false, rx_avail := [], parser := silentParser }

/-- The engine holds exactly the Job made from `r` in its queue and is ready to start it:
enabled, in `IDLE`, mutex free, ring well formed, no heartbeat configured. -/
def Waiting (r : uart_engine_request_t) (s : Engine) : Prop :=
  s.s_enabled = true ∧ s.s_state = uart_engine_state_t.IDLE ∧ s.uart_lock_held = false ∧
    RingWF s ∧ s.s_hb_enabled = false ∧
    queued s = [{ req := r, retries_left := r.max_retries, is_heartbeat := false }]

/-- The engine after `k` attempts of the request `r`, enqueued on a freshly initialised
engine, on a line where every transmission fails: attempt `k` is made by the tick at
time `25 * k`. -/
def failedAttempts (cfg : Config) (r : uart_engine_request_t) : Nat → Engine
  | 0 => (uart_engine_enqueue cfg (some r) (uart_engine_init (boot zeroTelemetry))).2
  | k + 1 => uart_engine_tick cfg (deadLine (25 * k)) (failedAttempts cfg r k)

/-- The mutex is held exactly when the engine is not in `IDLE`. -/
def LockInv (s : Engine) : Prop :=
  s.uart_lock_held = true ↔ s.s_state ≠ uart_engine_state_t.IDLE

/-! ## The log of pushes and pops -/

/-- The Jobs pushed during one pass of the tick loop, in push order.  A push advances the
tail index: the heartbeat injection pushes the configured heartbeat request, the rest of
the pass pushes the request of the active Job (a retry). -/
def pass_pushed (cfg : Config) (inp : StepInput) (s : Engine) : List uart_engine_job_t :=
  (if (maybe_enqueue_heartbeat (engine_now_ms inp) s).s_q_tail = s.s_q_tail then []
   else [job_of s.s_hb_cfg.req true]) ++
  (if (tick_step cfg inp s).1.s_q_tail = (maybe_enqueue_heartbeat (engine_now_ms inp) s).s_q_tail
   then []
   else [job_of s.s_active.req s.s_active.is_heartbeat])

/-- The Jobs popped during one pass of the tick loop.  A pop advances the head index and
makes the popped Job the active one. -/
def pass_popped (cfg : Config) (inp : StepInput) (s : Engine) : List uart_engine_job_t :=
  if (tick_step cfg inp s).1.s_q_head = s.s_q_head then [] else [(tick_step cfg inp s).1.s_active]

/-- The Jobs pushed and the Jobs popped by the `for` loop of `uart_engine_tick`, pass after
pass (same recursion as `tick_loop`). -/
def tick_log (cfg : Config) (ins : Nat → StepInput) :
    Nat → Nat → Engine → List uart_engine_job_t × List uart_engine_job_t
  | 0, _, _ => ([], [])
  | fuel + 1, step, s =>
    if (tick_step cfg (ins step) s).2 then
      (pass_pushed cfg (ins step) s ++
          (tick_log cfg ins fuel (step + 1) (tick_step cfg (ins step) s).1).1,
       pass_popped cfg (ins step) s ++
          (tick_log cfg ins fuel (step + 1) (tick_step cfg (ins step) s).1).2)
    else (pass_pushed cfg (ins step) s, pass_popped cfg (ins step) s)

/-- The public operations that leave queued Jobs in place (`uart_engine_init` and
`uart_engine_set_enabled(false)` drop the whole queue). -/
inductive Op where
  | enqueue (req : Option uart_engine_request_t)
  | set_heartbeat (now_ms : Nat) (hb : Option uart_engine_heartbeat_cfg_t)
  | tick (ins : Nat → StepInput)

/-- The state after an operation. -/
def apply_op (cfg : Config) : Op → Engine → Engine
  | Op.enqueue req, s => (uart_engine_enqueue cfg req s).2
  | Op.set_heartbeat now_ms hb, s => uart_engine_set_heartbeat cfg now_ms hb s
  | Op.tick ins, s => uart_engine_tick cfg ins s

/-- The Jobs pushed by an operation, in push order: `uart_engine_enqueue` pushes its Job
when it returns `OK`. -/
def op_pushed (cfg : Config) : Op → Engine → List uart_engine_job_t
  | Op.enqueue req, s =>
    match req, (uart_engine_enqueue cfg req s).1 with
    | some r, uart_engine_result_t.OK => [job_of r false]
    | _, _ => []
  | Op.set_heartbeat _ _, _ => []
  | Op.tick ins, s =>
    if s.s_enabled then (tick_log cfg ins UART_ENGINE_MAX_STEPS_PER_TICK 0 s).1 else []

/-- The Jobs popped by an operation, in pop order. -/
def op_popped (cfg : Config) : Op → Engine → List uart_engine_job_t
  | Op.enqueue _, _ => []
  | Op.set_heartbeat _ _, _ => []
  | Op.tick ins, s =>
    if s.s_enabled then (tick_log cfg ins UART_ENGINE_MAX_STEPS_PER_TICK 0 s).2 else []

/-- The state after a history of operations. -/
def run (cfg : Config) : List Op → Engine → Engine
  | [], s => s
  | o :: os, s => run cfg os (apply_op cfg o s)

/-- All Jobs pushed during a history, in push order. -/
def run_pushed (cfg : Config) : List Op → Engine → List uart_engine_job_t
  | [], _ => []
  | o :: os, s => op_pushed cfg o s ++ run_pushed cfg os (apply_op cfg o s)

/-- All Jobs popped during a history, in pop order. -/
def run_popped (cfg : Config) : List Op → Engine → List uart_engine_job_t
  | [], _ => []
  | o :: os, s => op_popped cfg o s ++ run_popped cfg os (apply_op cfg o s)

/-- A history on a line that never answers: `pollReq` is enqueued, the heartbeat `hb3Cfg`
is installed and injected by the tick at 0, `parsedReq` is enqueued while `pollReq` is in
flight, and the engine ticks at 10, 35 and 45 ms. -/
def mixedHistory : List Op :=
  [Op.enqueue (some pollReq), Op.set_heartbeat 0 (some hb3Cfg), Op.tick (quietLine 0),
   Op.enqueue (some parsedReq), Op.tick (quietLine 10), Op.tick (quietLine 35),
   Op.tick (quietLine 45)]

/-! ## Histories of calls of all public operations -/

/-- A call of one of the public operations that write the statics of the engine
(`uart_engine_is_enabled` and `uart_engine_is_busy` only read them). -/
inductive Call where
  | init
  | set_enabled (enable : Bool)
  | enqueue (req : Option uart_engine_request_t)
  | set_heartbeat (now_ms : Nat) (hb : Option uart_engine_heartbeat_cfg_t)
  | tick (ins : Nat → StepInput)

/-- The state after a call. -/
def apply_call (cfg : Config) : Call → Engine → Engine
  | Call.init, s => uart_engine_init s
  | Call.set_enabled enable, s => uart_engine_set_enabled enable s
  | Call.enqueue req, s => (uart_engine_enqueue cfg req s).2
  | Call.set_heartbeat now_ms hb, s => uart_engine_set_heartbeat cfg now_ms hb s
  | Call.tick ins, s => uart_engine_tick cfg ins s

/-- The state after a history of calls. -/
def run_calls (cfg : Config) : List Call → Engine → Engine
  | [], s => s
  | c :: cs, s => run_calls cfg cs (apply_call cfg c s)

/-- Whether a call enables the engine: `uart_engine_init` and
`uart_engine_set_enabled(true)` do. -/
def Call.enables : Call → Bool
  | Call.init => true
  | Call.set_enabled enable => enable
  | _ => false

/-- The engine with the third heartbeat of `hb3Cfg` in the `PROCESS` state: after two
heartbeat timeouts the heartbeat injected at 2000 is answered with one byte, and four
passes of the tick loop take the Job from the queue to `PROCESS`. -/
def hbInProcess : Engine :=
  tick_loop defaultConfig (answerLine 2000 [0x55]) 4 0 (hbTimeouts 2)

/-- The engine with `capacityReq` in the `PROCESS` state after two heartbeat timeouts. -/
def pollInProcess : Engine :=
  tick_loop defaultConfig (answerLine 1020 [80]) 4 0
    (uart_engine_enqueue defaultConfig (some capacityReq) (hbTimeouts 2)).2

/-! ## The SNMP responder (`snmp_agent.c`): types and the OID catalog

Bytes are natural numbers, a byte array is a list and its C length is the length of the
list; a pointer into a packet is an offset into the list. -/

/-- The constant `SNMP_TYPE_INTEGER` of `snmp_type_t`. -/
def SNMP_TYPE_INTEGER : Nat := 0x02

/-- The constant `SNMP_TYPE_OCTET_STRING` of `snmp_type_t`. -/
def SNMP_TYPE_OCTET_STRING : Nat := 0x04

/-- The constant `SNMP_TYPE_NULL` of `snmp_type_t`. -/
def SNMP_TYPE_NULL : Nat := 0x05

/-- The constant `SNMP_TYPE_OBJECT_ID` of `snmp_type_t`. -/
def SNMP_TYPE_OBJECT_ID : Nat := 0x06

/-- The constant `SNMP_TYPE_SEQUENCE` of `snmp_type_t`. -/
def SNMP_TYPE_SEQUENCE : Nat := 0x30

/-- The constant `SNMP_TYPE_GET_REQUEST` of `snmp_type_t`. -/
def SNMP_TYPE_GET_REQUEST : Nat := 0xA0

/-- The constant `SNMP_TYPE_GET_NEXT_REQUEST` of `snmp_type_t`. -/
def SNMP_TYPE_GET_NEXT_REQUEST : Nat := 0xA1

/-- The constant `SNMP_TYPE_GET_RESPONSE` of `snmp_type_t`. -/
def SNMP_TYPE_GET_RESPONSE : Nat := 0xA2

/-- The constant `SNMP_ERR_NOERROR` of `snmp_error_status_t`. -/
def SNMP_ERR_NOERROR : Int := 0

/-- The constant `SNMP_ERR_NOSUCHNAME` of `snmp_error_status_t`. -/
def SNMP_ERR_NOSUCHNAME : Int := 2

/-- The constant `SNMP_ERR_GENERR` of `snmp_error_status_t`. -/
def SNMP_ERR_GENERR : Int := 5

/-- The write cursor `snmp_buf_t`: `buf` holds the `len` bytes written so far. -/
structure snmp_buf_t where
  buf : List Nat
  cap : Nat
  deriving DecidableEq, Repr

/-- The enumeration `value_kind_t`. -/
inductive value_kind_t where
  | VALUE_KIND_INT32
  | VALUE_KIND_OCTETS
  deriving DecidableEq, Repr

/-- The structure `snmp_value_t`; `octets` stands for the pointer and `octets_len`. -/
structure snmp_value_t where
  kind : value_kind_t
  i32 : Int
  octets : List Nat
  deriving DecidableEq, Repr

/-- The structure `snmp_request_t`; `request_oid` is `none` for a null `oid` pointer. -/
structure snmp_request_t where
  version : Int
  community : List Nat
  request_id : Int
  pdu_type : Nat
  request_oid : Option (List Nat)
  deriving DecidableEq, Repr

def OID_SYS_DESCR : List Nat :=
  [0x2B, 0x06, 0x01, 0x02, 0x01, 0x01, 0x01, 0x00]

def OID_SYS_NAME : List Nat :=
  [0x2B, 0x06, 0x01, 0x02, 0x01, 0x01, 0x05, 0x00]

def OID_UPS_IDENT_MANUFACTURER : List Nat :=
  [0x2B, 0x06, 0x01, 0x02, 0x01, 0x21, 0x01, 0x01, 0x01, 0x00]

def OID_UPS_IDENT_MODEL : List Nat :=
  [0x2B, 0x06, 0x01, 0x02, 0x01, 0x21, 0x01, 0x01, 0x02, 0x00]

def OID_UPS_IDENT_UPS_SW_VER : List Nat :=
  [0x2B, 0x06, 0x01, 0x02, 0x01, 0x21, 0x01, 0x01, 0x03, 0x00]

def OID_UPS_IDENT_AGENT_SW_VER : List Nat :=
  [0x2B, 0x06, 0x01, 0x02, 0x01, 0x21, 0x01, 0x01, 0x04, 0x00]

def OID_UPS_IDENT_NAME : List Nat :=
  [0x2B, 0x06, 0x01, 0x02, 0x01, 0x21, 0x01, 0x01, 0x05, 0x00]

def OID_UPS_IDENT_ATTACHED_DEVICES : List Nat :=
  [0x2B, 0x06, 0x01, 0x02, 0x01, 0x21, 0x01, 0x01, 0x06, 0x00]

def OID_UPS_BATTERY_STATUS_STD : List Nat :=
  [0x2B, 0x06, 0x01, 0x02, 0x01, 0x21, 0x01, 0x02, 0x01, 0x00]

def OID_UPS_SECONDS_ON_BATTERY_STD : List Nat :=
  [0x2B, 0x06, 0x01, 0x02, 0x01, 0x21, 0x01, 0x02, 0x02, 0x00]

def OID_UPS_EST_MINUTES_REMAINING_STD : List Nat :=
  [0x2B, 0x06, 0x01, 0x02, 0x01, 0x21, 0x01, 0x02, 0x03, 0x00]

def OID_UPS_EST_CHARGE_REMAINING_STD : List Nat :=
  [0x2B, 0x06, 0x01, 0x02, 0x01, 0x21, 0x01, 0x02, 0x04, 0x00]

def OID_UPS_BATTERY_VOLTAGE_STD : List Nat :=
  [0x2B, 0x06, 0x01, 0x02, 0x01, 0x21, 0x01, 0x02, 0x05, 0x00]

def OID_UPS_BATTERY_CURRENT_STD : List Nat :=
  [0x2B, 0x06, 0x01, 0x02, 0x01, 0x21, 0x01, 0x02, 0x06, 0x00]

def OID_UPS_BATTERY_TEMP_STD : List Nat :=
  [0x2B, 0x06, 0x01, 0x02, 0x01, 0x21, 0x01, 0x02, 0x07, 0x00]

def OID_UPS_INPUT_LINE_BADS_STD : List Nat :=
  [0x2B, 0x06, 0x01, 0x02, 0x01, 0x21, 0x01, 0x03, 0x01, 0x00]

def OID_UPS_INPUT_NUM_LINES_STD : List Nat :=
  [0x2B, 0x06, 0x01, 0x02, 0x01, 0x21, 0x01, 0x03, 0x02, 0x00]

def OID_UPS_INPUT_FREQUENCY_STD : List Nat :=
  [0x2B, 0x06, 0x01, 0x02, 0x01, 0x21, 0x01, 0x03, 0x03, 0x01, 0x02, 0x01]

def OID_UPS_INPUT_VOLTAGE_STD : List Nat :=
  [0x2B, 0x06, 0x01, 0x02, 0x01, 0x21, 0x01, 0x03, 0x03, 0x01, 0x03, 0x01]

def OID_UPS_OUTPUT_SOURCE_STD : List Nat :=
  [0x2B, 0x06, 0x01, 0x02, 0x01, 0x21, 0x01, 0x04, 0x01, 0x00]

def OID_UPS_OUTPUT_FREQUENCY_STD : List Nat :=
  [0x2B, 0x06, 0x01, 0x02, 0x01, 0x21, 0x01, 0x04, 0x02, 0x00]

def OID_UPS_OUTPUT_NUM_LINES_STD : List Nat :=
  [0x2B, 0x06, 0x01, 0x02, 0x01, 0x21, 0x01, 0x04, 0x03, 0x00]

def OID_UPS_OUTPUT_VOLTAGE_STD : List Nat :=
  [0x2B, 0x06, 0x01, 0x02, 0x01, 0x21, 0x01, 0x04, 0x04, 0x01, 0x02, 0x01]

def OID_UPS_OUTPUT_CURRENT_STD : List Nat :=
  [0x2B, 0x06, 0x01, 0x02, 0x01, 0x21, 0x01, 0x04, 0x04, 0x01, 0x03, 0x01]

def OID_UPS_OUTPUT_POWER_STD : List Nat :=
  [0x2B, 0x06, 0x01, 0x02, 0x01, 0x21, 0x01, 0x04, 0x04, 0x01, 0x04, 0x01]

def OID_UPS_OUTPUT_PERCENT_LOAD_STD : List Nat :=
  [0x2B, 0x06, 0x01, 0x02, 0x01, 0x21, 0x01, 0x04, 0x04, 0x01, 0x05, 0x01]

def OID_UPS_CONFIG_INPUT_VOLTAGE_STD : List Nat :=
  [0x2B, 0x06, 0x01, 0x02, 0x01, 0x21, 0x01, 0x09, 0x01, 0x00]

def OID_UPS_CONFIG_OUTPUT_VOLTAGE_STD : List Nat :=
  [0x2B, 0x06, 0x01, 0x02, 0x01, 0x21, 0x01, 0x09, 0x03, 0x00]

def OID_UPS_CONFIG_OUTPUT_POWER_STD : List Nat :=
  [0x2B, 0x06, 0x01, 0x02, 0x01, 0x21, 0x01, 0x09, 0x06, 0x00]

def OID_UPS_CONFIG_LOW_BATT_TIME_STD : List Nat :=
  [0x2B, 0x06, 0x01, 0x02, 0x01, 0x21, 0x01, 0x09, 0x07, 0x00]

def OID_UPS_CONFIG_LOW_XFER_STD : List Nat :=
  [0x2B, 0x06, 0x01, 0x02, 0x01, 0x21, 0x01, 0x09, 0x09, 0x00]

def OID_UPS_CONFIG_HIGH_XFER_STD : List Nat :=
  [0x2B, 0x06, 0x01, 0x02, 0x01, 0x21, 0x01, 0x09, 0x0A, 0x00]

/-- The catalog `k_oid_table`, in the order of the source. -/
def k_oid_table : List (List Nat) :=
  [OID_SYS_DESCR, OID_SYS_NAME, OID_UPS_IDENT_MANUFACTURER, OID_UPS_IDENT_MODEL,
   OID_UPS_IDENT_UPS_SW_VER, OID_UPS_IDENT_AGENT_SW_VER, OID_UPS_IDENT_NAME,
   OID_UPS_IDENT_ATTACHED_DEVICES, OID_UPS_BATTERY_STATUS_STD, OID_UPS_SECONDS_ON_BATTERY_STD,
   OID_UPS_EST_MINUTES_REMAINING_STD, OID_UPS_EST_CHARGE_REMAINING_STD,
   OID_UPS_BATTERY_VOLTAGE_STD, OID_UPS_BATTERY_CURRENT_STD, OID_UPS_BATTERY_TEMP_STD,
   OID_UPS_INPUT_LINE_BADS_STD, OID_UPS_INPUT_NUM_LINES_STD, OID_UPS_INPUT_FREQUENCY_STD,
   OID_UPS_INPUT_VOLTAGE_STD, OID_UPS_OUTPUT_SOURCE_STD, OID_UPS_OUTPUT_FREQUENCY_STD,
   OID_UPS_OUTPUT_NUM_LINES_STD, OID_UPS_OUTPUT_VOLTAGE_STD, OID_UPS_OUTPUT_CURRENT_STD,
   OID_UPS_OUTPUT_POWER_STD, OID_UPS_OUTPUT_PERCENT_LOAD_STD,
   OID_UPS_CONFIG_INPUT_VOLTAGE_STD, OID_UPS_CONFIG_OUTPUT_VOLTAGE_STD,
   OID_UPS_CONFIG_OUTPUT_POWER_STD, OID_UPS_CONFIG_LOW_BATT_TIME_STD,
   OID_UPS_CONFIG_LOW_XFER_STD, OID_UPS_CONFIG_HIGH_XFER_STD]

/-- The `for` loop of `snmp_oid_compare`: `k` passes remain and `i` is the loop index;
`none` when the loop ends without a `return`. -/
def snmp_oid_compare_loop (lhs rhs : List Nat) : Nat → Nat → Option Int
  | 0, _ => none
  | k + 1, i =>
    if lhs.getD i 0 < rhs.getD i 0 then some (-1)
    else if lhs.getD i 0 > rhs.getD i 0 then some 1
    else snmp_oid_compare_loop lhs rhs k (i + 1)

/-- The function `snmp_oid_compare`. -/
def snmp_oid_compare (lhs rhs : List Nat) : Int :=
  match snmp_oid_compare_loop lhs rhs
      (if lhs.length < rhs.length then lhs.length else rhs.length) 0 with
  | some r => r
  | none =>
    if lhs.length < rhs.length then -1
    else if lhs.length > rhs.length then 1
    else 0

/-- The `for` loop of `snmp_lookup_next`: `k` passes remain and `i` is the loop index. -/
def snmp_lookup_next_loop (oid : List Nat) : Nat → Nat → Option Nat
  | 0, _ => none
  | k + 1, i =>
    if snmp_oid_compare (k_oid_table.getD i []) oid > 0 then some i
    else snmp_lookup_next_loop oid k (i + 1)

/-- The function `snmp_lookup_next`: `some i` is `true` with `*out_index = i`, `none` is
`false`; the argument is `none` for a null `oid.oid`. -/
def snmp_lookup_next (oid : Option (List Nat)) : Option Nat :=
  match oid with
  | none => none
  | some o => snmp_lookup_next_loop o k_oid_table.length 0

/-! ## The SNMP responder: BER readers

A packet is the list `pkt`; the C pointers `*pp`, `end` and `*value` are offsets into it.
A reader returns `none` where the C function returns `false`. -/

/-- The `for` loop of `snmp_read_len` that collects the `count` length bytes found at
offset `pp`: `k` passes remain, `i` is the loop index and `len` the value so far. -/
def snmp_read_len_loop (pkt : List Nat) (pp : Nat) : Nat → Nat → Nat → Nat
  | 0, _, len => len
  | k + 1, i, len => snmp_read_len_loop pkt pp k (i + 1) ((len <<< 8) ||| pkt.getD (pp + i) 0)

/-- The function `snmp_read_len`: on success the new `*pp` and `*out_len`. -/
def snmp_read_len (pkt : List Nat) (pp end_ : Nat) : Option (Nat × Nat) :=
  if pp ≥ end_ then none
  else if pkt.getD pp 0 &&& 0x80 = 0 then
    if end_ - (pp + 1) ≥ pkt.getD pp 0 then some (pp + 1, pkt.getD pp 0) else none
  else if pkt.getD pp 0 &&& 0x7F = 0 ∨ pkt.getD pp 0 &&& 0x7F > 2 ∨
      end_ - (pp + 1) < pkt.getD pp 0 &&& 0x7F then none
  else if end_ - (pp + 1 + (pkt.getD pp 0 &&& 0x7F)) ≥
      snmp_read_len_loop pkt (pp + 1) (pkt.getD pp 0 &&& 0x7F) 0 0 then
    some (pp + 1 + (pkt.getD pp 0 &&& 0x7F),
      snmp_read_len_loop pkt (pp + 1) (pkt.getD pp 0 &&& 0x7F) 0 0)
  else none

/-- The function `snmp_expect_tlv`: on success the new `*pp`, the offset `*value` and
`*value_len`. -/
def snmp_expect_tlv (pkt : List Nat) (pp end_ expected_type : Nat) :
    Option (Nat × Nat × Nat) :=
  if pp ≥ end_ ∨ pkt.getD pp 0 ≠ expected_type then none
  else
    match snmp_read_len pkt (pp + 1) end_ with
    | none => none
    | some (p1, value_len) => some (p1 + value_len, p1, value_len)

/-- The `len` bytes of the packet that start at offset `off`: what a pair of pointer and
length such as `(value, value_len)` denotes. -/
def bytes_at (pkt : List Nat) (off len : Nat) : List Nat :=
  (pkt.drop off).take len

/-- The function `snmp_decode_int32` on the bytes `buf[0 .. len-1]`.  The `int32_t`
accumulator `v` is held as its 32-bit pattern (`-1` is `0xFFFFFFFF`), `(v << 8) | buf[i]`
is computed on the pattern and cut to 32 bits, and the result is read as two's
complement. -/
def snmp_decode_int32 (buf : List Nat) : Option Int :=
  if buf.length = 0 ∨ buf.length > 4 then none
  else
    some (asInt32
      (buf.foldl (fun v b => ((v <<< 8) ||| b) % U32)
        (if buf.getD 0 0 &&& 0x80 ≠ 0 then U32 - 1 else 0)))

/-! ## The SNMP responder: BER writers -/

/-- The function `snmp_len_field_size`. -/
def snmp_len_field_size (len : Nat) : Nat :=
  if len < 128 then 1
  else if len ≤ 0xFF then 2
  else 3

/-- The function `snmp_buf_put_u8`; the caller passes the byte after its `(uint8_t)`
cast. -/
def snmp_buf_put_u8 (w : snmp_buf_t) (v : Nat) : Bool × snmp_buf_t :=
  if w.buf.length ≥ w.cap then (false, w)
  else (true, { w with buf := w.buf ++ [v] })

/-- The function `snmp_buf_put_mem`; `src` stands for the pointer and the length. -/
def snmp_buf_put_mem (w : snmp_buf_t) (src : List Nat) : Bool × snmp_buf_t :=
  if w.buf.length + src.length > w.cap then (false, w)
  else if src.length > 0 then (true, { w with buf := w.buf ++ src })
  else (true, w)

/-- The operator `&&` between two writes on the same cursor: the second write runs only
if the first succeeded. -/
def and_then (r : Bool × snmp_buf_t) (f : snmp_buf_t → Bool × snmp_buf_t) :
    Bool × snmp_buf_t :=
  if r.1 then f r.2 else (false, r.2)

/-- The function `snmp_buf_put_len`; `% 256` is the cast `(uint8_t)`. -/
def snmp_buf_put_len (w : snmp_buf_t) (len : Nat) : Bool × snmp_buf_t :=
  if len < 128 then snmp_buf_put_u8 w (len % 256)
  else if len ≤ 0xFF then
    and_then (snmp_buf_put_u8 w 0x81) (fun w1 => snmp_buf_put_u8 w1 (len % 256))
  else
    and_then
      (and_then (snmp_buf_put_u8 w 0x82)
        (fun w1 => snmp_buf_put_u8 w1 (((len >>> 8) &&& 0xFF) % 256)))
      (fun w2 => snmp_buf_put_u8 w2 ((len &&& 0xFF) % 256))

/-- The byte `(uint8_t)((value >> shift) & 0xFF)` of an `int32_t` value: `>>` is the
arithmetic shift and `& 0xFF` keeps the value modulo 256. -/
def int32_byte (value : Int) (shift : Nat) : Nat :=
  ((value >>> shift) % 256).toNat

/-- The array `bytes[4]` filled at the head of `snmp_int32_encoded_len` and of
`snmp_put_int32`. -/
def int32_bytes (value : Int) : List Nat :=
  [int32_byte value 24, int32_byte value 16, int32_byte value 8, int32_byte value 0]

/-- The `while (len > 1U)` loop of `snmp_int32_encoded_len`, entered with `len`. -/
def snmp_int32_encoded_len_loop (bytes : List Nat) : Nat → Nat
  | 0 => 0
  | 1 => 1
  | len + 2 =>
    if bytes.getD (4 - (len + 2)) 0 = 0x00 ∧
        bytes.getD (4 - (len + 2) + 1) 0 &&& 0x80 = 0 then
      snmp_int32_encoded_len_loop bytes (len + 1)
    else if bytes.getD (4 - (len + 2)) 0 = 0xFF ∧
        bytes.getD (4 - (len + 2) + 1) 0 &&& 0x80 ≠ 0 then
      snmp_int32_encoded_len_loop bytes (len + 1)
    else len + 2

/-- The function `snmp_int32_encoded_len`. -/
def snmp_int32_encoded_len (value : Int) : Nat :=
  snmp_int32_encoded_len_loop (int32_bytes value) 4

/-- The function `snmp_put_tlv_header`. -/
def snmp_put_tlv_header (w : snmp_buf_t) (type value_len : Nat) : Bool × snmp_buf_t :=
  and_then (snmp_buf_put_u8 w type) (fun w1 => snmp_buf_put_len w1 value_len)

/-- The bytes `&bytes[start] .. ` of length `len` that `snmp_put_int32` copies: the
content of the INTEGER. -/
def int32_content (value : Int) : List Nat :=
  ((int32_bytes value).drop (4 - snmp_int32_encoded_len value)).take
    (snmp_int32_encoded_len value)

/-- The function `snmp_put_int32`. -/
def snmp_put_int32 (w : snmp_buf_t) (value : Int) : Bool × snmp_buf_t :=
  and_then (snmp_put_tlv_header w SNMP_TYPE_INTEGER (snmp_int32_encoded_len value))
    (fun w1 => snmp_buf_put_mem w1 (int32_content value))

/-- The function `snmp_put_octets`. -/
def snmp_put_octets (w : snmp_buf_t) (buf : List Nat) : Bool × snmp_buf_t :=
  and_then (snmp_put_tlv_header w SNMP_TYPE_OCTET_STRING buf.length)
    (fun w1 => snmp_buf_put_mem w1 buf)

/-- The function `snmp_put_oid`. -/
def snmp_put_oid (w : snmp_buf_t) (oid : List Nat) : Bool × snmp_buf_t :=
  and_then (snmp_put_tlv_header w SNMP_TYPE_OBJECT_ID oid.length)
    (fun w1 => snmp_buf_put_mem w1 oid)

/-- The function `snmp_put_null`. -/
def snmp_put_null (w : snmp_buf_t) : Bool × snmp_buf_t :=
  snmp_put_tlv_header w SNMP_TYPE_NULL 0

/-- The size `1U + snmp_len_field_size(len) + len` of a TLV with `len` content bytes, as
`snmp_build_response` computes it for each field. -/
def tlv_len (len : Nat) : Nat :=
  1 + snmp_len_field_size len + len

/-- The pre-sized `value_tlv_len` of `snmp_build_response`. -/
def value_tlv_len (error_status : Int) (value : Option snmp_value_t) : Nat :=
  match value with
  | some v =>
    if error_status = SNMP_ERR_NOERROR then
      match v.kind with
      | value_kind_t.VALUE_KIND_INT32 => tlv_len (snmp_int32_encoded_len v.i32)
      | value_kind_t.VALUE_KIND_OCTETS => tlv_len v.octets.length
    else 2
  | none => 2

/-- The pre-sized `varbind_content_len` of `snmp_build_response`. -/
def varbind_content_len (error_status : Int) (resp_oid : List Nat)
    (value : Option snmp_value_t) : Nat :=
  tlv_len resp_oid.length + value_tlv_len error_status value

/-- The pre-sized `pdu_content_len` of `snmp_build_response`; the length of the varbind
list is `varbind_tlv_len`, its TLV is `varbind_list_tlv_len`. -/
def pdu_content_len (req : snmp_request_t) (error_status error_index : Int)
    (resp_oid : List Nat) (value : Option snmp_value_t) : Nat :=
  tlv_len (snmp_int32_encoded_len req.request_id) +
    tlv_len (snmp_int32_encoded_len error_status) +
    tlv_len (snmp_int32_encoded_len error_index) +
    tlv_len (tlv_len (varbind_content_len error_status resp_oid value))

/-- The pre-sized `msg_content_len` of `snmp_build_response`. -/
def msg_content_len (req : snmp_request_t) (error_status error_index : Int)
    (resp_oid : List Nat) (value : Option snmp_value_t) : Nat :=
  tlv_len (snmp_int32_encoded_len req.version) + tlv_len req.community.length +
    tlv_len (pdu_content_len req error_status error_index resp_oid value)

/-- The last write of `snmp_build_response`: the value, or NULL for an error response or
a null `value`. -/
def put_value (w : snmp_buf_t) (error_status : Int) (value : Option snmp_value_t) :
    Bool × snmp_buf_t :=
  match value with
  | some v =>
    if error_status = SNMP_ERR_NOERROR then
      match v.kind with
      | value_kind_t.VALUE_KIND_INT32 => snmp_put_int32 w v.i32
      | value_kind_t.VALUE_KIND_OCTETS => snmp_put_octets w v.octets
    else snmp_put_null w
  | none => snmp_put_null w

/-- The function `snmp_build_response` for non-null `req`, `out_buf` and `out_len`;
`resp_oid` is `none` for a null pointer.  The result is the return value and the write
cursor: on `true`, `*out_len` is the number of bytes in the cursor. -/
def snmp_build_response (req : snmp_request_t) (error_status error_index : Int)
    (resp_oid : Option (List Nat)) (value : Option snmp_value_t) (out_cap : Nat) :
    Bool × snmp_buf_t :=
  match resp_oid with
  | none => (false, { buf := [], cap := out_cap })
  | some oid =>
    if oid.length = 0 then (false, { buf := [], cap := out_cap })
    else if tlv_len (msg_content_len req error_status error_index oid value) > out_cap then
      (false, { buf := [], cap := out_cap })
    else
      and_then (and_then (and_then (and_then (and_then (and_then (and_then (and_then
        (and_then (and_then
          (snmp_put_tlv_header { buf := [], cap := out_cap } SNMP_TYPE_SEQUENCE
            (msg_content_len req error_status error_index oid value))
          (fun w => snmp_put_int32 w req.version))
          (fun w => snmp_put_octets w req.community))
          (fun w => snmp_put_tlv_header w SNMP_TYPE_GET_RESPONSE
            (pdu_content_len req error_status error_index oid value)))
          (fun w => snmp_put_int32 w req.request_id))
          (fun w => snmp_put_int32 w error_status))
          (fun w => snmp_put_int32 w error_index))
          (fun w => snmp_put_tlv_header w SNMP_TYPE_SEQUENCE
            (tlv_len (varbind_content_len error_status oid value))))
          (fun w => snmp_put_tlv_header w SNMP_TYPE_SEQUENCE
            (varbind_content_len error_status oid value)))
          (fun w => snmp_put_oid w oid))
          (fun w => put_value w error_status value)


/-- The length field of BER in the form the specification gives it: one byte `n` up to
127, `0x81 n` up to 255, `0x82 hi lo` (big-endian, the two low bytes of `n`) beyond. -/
def snmp_len_bytes (n : Nat) : List Nat :=
  if n < 128 then [n]
  else if n ≤ 255 then [0x81, n]
  else [0x82, n / 256 % 256, n % 256]

/-- A whole TLV: the tag, the length field of the content, the content. -/
def tlv_bytes (type : Nat) (content : List Nat) : List Nat :=
  type :: (snmp_len_bytes content.length ++ content)

/-! ## Reading a GETRESPONSE back

`snmp_decode_request` accepts the PDU tags `0xA0` and `0xA1` only.  `decode_response` walks
a message in the same order with the same readers, accepts the tag `0xA2`, and also
decodes error-status, error-index and the value of the first varbind. -/

/-- The value of a varbind as a reader finds it. -/
inductive decoded_value_t where
  | int32 (v : Int)
  | octets (bytes : List Nat)
  | null
  deriving DecidableEq, Repr

/-- The fields of a GETRESPONSE message. -/
structure decoded_response_t where
  version : Int
  community : List Nat
  request_id : Int
  error_status : Int
  error_index : Int
  oid : List Nat
  value : decoded_value_t
  deriving DecidableEq, Repr

/-- An INTEGER read with `snmp_expect_tlv` and decoded with `snmp_decode_int32`: the new
`*pp` and the value. -/
def read_int32 (pkt : List Nat) (pp end_ : Nat) : Option (Nat × Int) :=
  match snmp_expect_tlv pkt pp end_ SNMP_TYPE_INTEGER with
  | none => none
  | some (p1, value, value_len) =>
    match snmp_decode_int32 (bytes_at pkt value value_len) with
    | none => none
    | some v => some (p1, v)

/-- The value of a varbind read with `snmp_expect_tlv`: an INTEGER, an OCTET STRING or
NULL. -/
def read_value (pkt : List Nat) (pp end_ : Nat) : Option decoded_value_t :=
  match snmp_expect_tlv pkt pp end_ SNMP_TYPE_INTEGER with
  | some (_, value, value_len) =>
    match snmp_decode_int32 (bytes_at pkt value value_len) with
    | none => none
    | some v => some (decoded_value_t.int32 v)
  | none =>
    match snmp_expect_tlv pkt pp end_ SNMP_TYPE_OCTET_STRING with
    | some (_, value, value_len) => some (decoded_value_t.octets (bytes_at pkt value value_len))
    | none =>
      match snmp_expect_tlv pkt pp end_ SNMP_TYPE_NULL with
      | some (_, _, value_len) => if value_len = 0 then some decoded_value_t.null else none
      | none => none

/-- The first varbind of the varbind list found at `pp`: its OID and its value. -/
def read_varbind_list (pkt : List Nat) (pp end_ : Nat) :
    Option (List Nat × decoded_value_t) :=
  match snmp_expect_tlv pkt pp end_ SNMP_TYPE_SEQUENCE with
  | none => none
  | some (_, vb_list_p, vb_list_len) =>
    match snmp_expect_tlv pkt vb_list_p (vb_list_p + vb_list_len) SNMP_TYPE_SEQUENCE with
    | none => none
    | some (_, vb_p, vb_len) =>
      match snmp_expect_tlv pkt vb_p (vb_p + vb_len) SNMP_TYPE_OBJECT_ID with
      | none => none
      | some (p1, oid, oid_len) =>
        match read_value pkt p1 (vb_p + vb_len) with
        | none => none
        | some v => some (bytes_at pkt oid oid_len, v)

/-- The PDU found at `pp`: the tag must be `0xA2`, the length is read with
`snmp_read_len`, then request-id, error-status, error-index and the varbind list. -/
def read_response_pdu (pkt : List Nat) (pp end_ : Nat) :
    Option (Int × Int × Int × List Nat × decoded_value_t) :=
  if pp ≥ end_ ∨ pkt.getD pp 0 ≠ SNMP_TYPE_GET_RESPONSE then none
  else
    match snmp_read_len pkt (pp + 1) end_ with
    | none => none
    | some (p0, pdu_len) =>
      match read_int32 pkt p0 (p0 + pdu_len) with
      | none => none
      | some (p1, request_id) =>
        match read_int32 pkt p1 (p0 + pdu_len) with
        | none => none
        | some (p2, error_status) =>
          match read_int32 pkt p2 (p0 + pdu_len) with
          | none => none
          | some (p3, error_index) =>
            match read_varbind_list pkt p3 (p0 + pdu_len) with
            | none => none
            | some (oid, v) => some (request_id, error_status, error_index, oid, v)

/-- A whole message read back: SEQUENCE, version, community, PDU. -/
def decode_response (pkt : List Nat) : Option decoded_response_t :=
  match snmp_expect_tlv pkt 0 pkt.length SNMP_TYPE_SEQUENCE with
  | none => none
  | some (_, msg_p, msg_len) =>
    match read_int32 pkt msg_p (msg_p + msg_len) with
    | none => none
    | some (p1, version) =>
      match snmp_expect_tlv pkt p1 (msg_p + msg_len) SNMP_TYPE_OCTET_STRING with
      | none => none
      | some (p2, community, community_len) =>
        match read_response_pdu pkt p2 (msg_p + msg_len) with
        | none => none
        | some (request_id, error_status, error_index, oid, v) =>
          some { version := version, community := bytes_at pkt community community_len,
                 request_id := request_id, error_status := error_status,
                 error_index := error_index, oid := oid, value := v }

/-- The value TLV of a response in the layout of the specification: the value for a
response without error, NULL for an error response or a missing value. -/
def value_bytes (error_status : Int) (value : Option snmp_value_t) : List Nat :=
  match value with
  | some v =>
    if error_status = SNMP_ERR_NOERROR then
      match v.kind with
      | value_kind_t.VALUE_KIND_INT32 => tlv_bytes SNMP_TYPE_INTEGER (int32_content v.i32)
      | value_kind_t.VALUE_KIND_OCTETS => tlv_bytes SNMP_TYPE_OCTET_STRING v.octets
    else tlv_bytes SNMP_TYPE_NULL []
  | none => tlv_bytes SNMP_TYPE_NULL []

/-- The PDU content of a response in the layout of the specification. -/
def pdu_bytes (req : snmp_request_t) (error_status error_index : Int)
    (resp_oid : List Nat) (value : Option snmp_value_t) : List Nat :=
  tlv_bytes SNMP_TYPE_INTEGER (int32_content req.request_id) ++
    (tlv_bytes SNMP_TYPE_INTEGER (int32_content error_status) ++
      (tlv_bytes SNMP_TYPE_INTEGER (int32_content error_index) ++
        tlv_bytes SNMP_TYPE_SEQUENCE
          (tlv_bytes SNMP_TYPE_SEQUENCE
            (tlv_bytes SNMP_TYPE_OBJECT_ID resp_oid ++ value_bytes error_status value))))

/-- The response message in the layout of the specification:
`SEQUENCE { version, community, GETRESPONSE { request-id, error-status, error-index,
SEQUENCE { SEQUENCE { name, value | NULL } } } }`. -/
def response_bytes (req : snmp_request_t) (error_status error_index : Int)
    (resp_oid : List Nat) (value : Option snmp_value_t) : List Nat :=
  tlv_bytes SNMP_TYPE_SEQUENCE
    (tlv_bytes SNMP_TYPE_INTEGER (int32_content req.version) ++
      (tlv_bytes SNMP_TYPE_OCTET_STRING req.community ++
        tlv_bytes SNMP_TYPE_GET_RESPONSE
          (pdu_bytes req error_status error_index resp_oid value)))

/-- What a reader must find for the value handed to `snmp_build_response`: the value when
the response carries no error, NULL otherwise. -/
def expected_value (error_status : Int) (value : Option snmp_value_t) : decoded_value_t :=
  match value with
  | some v =>
    if error_status = SNMP_ERR_NOERROR then
      match v.kind with
      | value_kind_t.VALUE_KIND_INT32 => decoded_value_t.int32 v.i32
      | value_kind_t.VALUE_KIND_OCTETS => decoded_value_t.octets v.octets
    else decoded_value_t.null
  | none => decoded_value_t.null

/-- A GET request for `upsEstimatedChargeRemaining` with community `public`. -/
def chargeRequest : snmp_request_t :=
  { version := 0, community := [0x70, 0x75, 0x62, 0x6C, 0x69, 0x63], request_id := 1234567,
    pdu_type := SNMP_TYPE_GET_REQUEST, request_oid := some OID_UPS_EST_CHARGE_REMAINING_STD }

/-- The INTEGER value 77. -/
def charge77 : snmp_value_t :=
  { kind := value_kind_t.VALUE_KIND_INT32, i32 := 77, octets := [] }

/-- The OCTET STRING value `"APC"`. -/
def octetsAPC : snmp_value_t :=
  { kind := value_kind_t.VALUE_KIND_OCTETS, i32 := 0, octets := [0x41, 0x50, 0x43] }

/-! ## The SNMP responder: value projection

The telemetry fields hold values of their C types, which are at most 32 bits wide
(`ups_data.h`).  Unsigned arithmetic is done on `unsigned int` (modulo 2^32), the cast
`(int32_t)` of an unsigned value is `asInt32`. -/

/-- The bytes of the string `VALUE_SYS_DESCR` (`"ESP32 UPS bridge"`), without the final NUL. -/
def VALUE_SYS_DESCR : List Nat :=
  [0x45, 0x53, 0x50, 0x33, 0x32, 0x20, 0x55, 0x50, 0x53, 0x20, 0x62, 0x72, 0x69, 0x64, 0x67, 0x65]

/-- The bytes of the string `VALUE_SYS_NAME` (`"esp32-ups"`), without the final NUL. -/
def VALUE_SYS_NAME : List Nat :=
  [0x65, 0x73, 0x70, 0x33, 0x32, 0x2D, 0x75, 0x70, 0x73]

/-- The bytes of the string `VALUE_UPS_IDENT_MANUFACTURER` (`"APC"`), without the final NUL. -/
def VALUE_UPS_IDENT_MANUFACTURER : List Nat :=
  [0x41, 0x50, 0x43]

/-- The bytes of the string `VALUE_UPS_IDENT_MODEL` (`"SPM2K"`), without the final NUL. -/
def VALUE_UPS_IDENT_MODEL : List Nat :=
  [0x53, 0x50, 0x4D, 0x32, 0x4B]

/-- The bytes of the string `VALUE_UPS_IDENT_UPS_SW_VER` (`"N/A"`), without the final NUL. -/
def VALUE_UPS_IDENT_UPS_SW_VER : List Nat :=
  [0x4E, 0x2F, 0x41]

/-- The bytes of the string `VALUE_UPS_IDENT_AGENT_SW_VER` (`"esp32-ups-snmp"`), without the final NUL. -/
def VALUE_UPS_IDENT_AGENT_SW_VER : List Nat :=
  [0x65, 0x73, 0x70, 0x33, 0x32, 0x2D, 0x75, 0x70, 0x73, 0x2D, 0x73, 0x6E, 0x6D, 0x70]

/-- The bytes of the string `VALUE_UPS_IDENT_NAME` (`"ESP32-UPS"`), without the final NUL. -/
def VALUE_UPS_IDENT_NAME : List Nat :=
  [0x45, 0x53, 0x50, 0x33, 0x32, 0x2D, 0x55, 0x50, 0x53]

/-- The bytes of the string `VALUE_UPS_IDENT_ATTACHED_DEVICES` (`"line1"`), without the final NUL. -/
def VALUE_UPS_IDENT_ATTACHED_DEVICES : List Nat :=
  [0x6C, 0x69, 0x6E, 0x65, 0x31]

/-- The conversion of a signed value to `unsigned int` (two's complement). -/
def u32_of_int (x : Int) : Nat :=
  (x % 4294967296).toNat

/-- The value `memset(out_value, 0, sizeof(*out_value))` leaves: kind `VALUE_KIND_INT32`
(the first enumerator), `i32 = 0`, no octets. -/
def zeroValue : snmp_value_t :=
  { kind := value_kind_t.VALUE_KIND_INT32, i32 := 0, octets := [] }

/-- An octet-string value: `kind`, `octets` and `octets_len` set after the `memset`. -/
def octets_value (bytes : List Nat) : snmp_value_t :=
  { zeroValue with kind := value_kind_t.VALUE_KIND_OCTETS, octets := bytes }

/-- An integer value: `kind` and `i32` set after the `memset`. -/
def int32_value (v : Int) : snmp_value_t :=
  { zeroValue with kind := value_kind_t.VALUE_KIND_INT32, i32 := v }

/-- The `i32` written by `case 8U` of `snmp_get_value_by_index` (upsBatteryStatus). -/
def battery_status (t : Telemetry) : Int :=
  if t.g_battery.remaining_capacity = 0 ∨
      t.g_power_summary_present_status.shutdown_imminent = true then 4
  else if t.g_power_summary_present_status.need_replacement = true then 4
  else if t.g_power_summary_present_status.below_remaining_capacity_limit = true ∨
      t.g_battery.remaining_capacity ≤ t.g_power_summary.remaining_capacity_limit then 3
  else 2

/-- The `i32` written by `case 19U` of `snmp_get_value_by_index` (upsOutputSource). -/
def output_source (t : Telemetry) : Int :=
  if t.g_power_summary_present_status.ac_present = true then 3
  else if t.g_power_summary_present_status.discharging = true then 5
  else 6

/-- The function `snmp_get_value_by_index` for a non-null `out_value`: `some v` is `true`
with `*out_value = v`, `none` is `false`. -/
def snmp_get_value_by_index (index : Nat) (t : Telemetry) : Option snmp_value_t :=
  match index with
  | 0 => some (octets_value VALUE_SYS_DESCR)
  | 1 => some (octets_value VALUE_SYS_NAME)
  | 2 => some (octets_value VALUE_UPS_IDENT_MANUFACTURER)
  | 3 => some (octets_value VALUE_UPS_IDENT_MODEL)
  | 4 => some (octets_value VALUE_UPS_IDENT_UPS_SW_VER)
  | 5 => some (octets_value VALUE_UPS_IDENT_AGENT_SW_VER)
  | 6 => some (octets_value VALUE_UPS_IDENT_NAME)
  | 7 => some (octets_value VALUE_UPS_IDENT_ATTACHED_DEVICES)
  | 8 => some (int32_value (battery_status t))
  | 9 =>
    some (int32_value
      (if t.g_power_summary_present_status.ac_present = true then 0
       else asInt32 t.g_battery.run_time_to_empty_s))
  | 10 => some (int32_value (asInt32 (t.g_battery.run_time_to_empty_s % U32 / 60)))
  | 11 => some (int32_value (asInt32 t.g_battery.remaining_capacity))
  | 12 => some (int32_value (asInt32 (u32_of_int t.g_battery.battery_voltage / 10)))
  | 13 => some (int32_value (asInt32 (u32_of_int (Int.tdiv t.g_battery.battery_current 10))))
  | 14 =>
    some (int32_value
      (if t.g_battery.temperature ≥ 2731 then
         asInt32 ((t.g_battery.temperature - 2731) % U32 / 10)
       else 0))
  | 15 => some (int32_value 0)
  | 16 => some (int32_value 1)
  | 17 => some (int32_value (asInt32 (t.g_input.frequency % U32 / 10)))
  | 18 => some (int32_value (asInt32 ((t.g_input.voltage + 50) % U32 / 100)))
  | 19 => some (int32_value (output_source t))
  | 20 => some (int32_value (asInt32 (t.g_output.frequency % U32 / 10)))
  | 21 => some (int32_value 1)
  | 22 => some (int32_value (asInt32 ((t.g_output.voltage + 50) % U32 / 100)))
  | 23 => some (int32_value (asInt32 (u32_of_int (Int.tdiv t.g_output.current 10))))
  | 24 =>
    some (int32_value
      (asInt32 ((t.g_output.config_active_power % U32) * (t.g_output.percent_load % U32) %
        U32 / 100)))
  | 25 => some (int32_value (asInt32 t.g_output.percent_load))
  | 26 => some (int32_value (asInt32 ((t.g_input.config_voltage + 50) % U32 / 100)))
  | 27 => some (int32_value (asInt32 ((t.g_output.config_voltage + 50) % U32 / 100)))
  | 28 => some (int32_value (asInt32 t.g_output.config_active_power))
  | 29 => some (int32_value (asInt32 (t.g_battery.remaining_time_limit_s % U32 / 60)))
  | 30 => some (int32_value (asInt32 ((t.g_input.low_voltage_transfer + 50) % U32 / 100)))
  | 31 => some (int32_value (asInt32 ((t.g_input.high_voltage_transfer + 50) % U32 / 100)))
  | _ => none

/-! ## The SNMP responder: request decoding, lookup and the reply to one datagram -/

/-- The end of `snmp_decode_request`, from the varbind list on: the three
`snmp_expect_tlv` calls on the varbind list, the first varbind and its OBJECT IDENTIFIER.
The result is `request_oid` as offset and length. -/
def decode_request_oid (pkt : List Nat) (msg_p pdu_end : Nat) : Option (Nat × Nat) :=
  match snmp_expect_tlv pkt msg_p pdu_end SNMP_TYPE_SEQUENCE with
  | none => none
  | some (_, vb_list_p, vb_list_len) =>
    match snmp_expect_tlv pkt vb_list_p (vb_list_p + vb_list_len) SNMP_TYPE_SEQUENCE with
    | none => none
    | some (_, vb_p, vb_len) =>
      match snmp_expect_tlv pkt vb_p (vb_p + vb_len) SNMP_TYPE_OBJECT_ID with
      | none => none
      | some (_, value, value_len) => some (value, value_len)

/-- The middle of `snmp_decode_request`, inside the PDU: request-id (decoded),
error-status and error-index (skipped), then the varbind list.  The result is
`request_id` and `request_oid`. -/
def decode_request_pdu (pkt : List Nat) (msg_p pdu_end : Nat) : Option (Int × Nat × Nat) :=
  match snmp_expect_tlv pkt msg_p pdu_end SNMP_TYPE_INTEGER with
  | none => none
  | some (p1, value, value_len) =>
    match snmp_decode_int32 (bytes_at pkt value value_len) with
    | none => none
    | some request_id =>
      match snmp_expect_tlv pkt p1 pdu_end SNMP_TYPE_INTEGER with
      | none => none
      | some (p2, _, _) =>
        match snmp_expect_tlv pkt p2 pdu_end SNMP_TYPE_INTEGER with
        | none => none
        | some (p3, _, _) =>
          match decode_request_oid pkt p3 pdu_end with
          | none => none
          | some (oid, oid_len) => some (request_id, oid, oid_len)

/-- The part of `snmp_decode_request` that starts at the PDU tag: the tag must be
`0xA0` or `0xA1`, the length is read with `snmp_read_len`, `pdu_end` is the end of the
PDU.  The result is `pdu_type`, `request_id` and `request_oid`. -/
def decode_request_tagged (pkt : List Nat) (msg_p msg_end : Nat) :
    Option (Nat × Int × Nat × Nat) :=
  if msg_p ≥ msg_end ∨
      (pkt.getD msg_p 0 ≠ SNMP_TYPE_GET_REQUEST ∧
        pkt.getD msg_p 0 ≠ SNMP_TYPE_GET_NEXT_REQUEST) then none
  else
    match snmp_read_len pkt (msg_p + 1) msg_end with
    | none => none
    | some (p1, value_len) =>
      match decode_request_pdu pkt p1 (p1 + value_len) with
      | none => none
      | some (request_id, oid, oid_len) => some (pkt.getD msg_p 0, request_id, oid, oid_len)

/-- The function `snmp_decode_request` for non-null arguments; `pkt_len` is the length of
`pkt`.  `some req` is `true` with `*out_req = req`; the views `community` and
`request_oid` are given by their bytes. -/
def snmp_decode_request (pkt : List Nat) : Option snmp_request_t :=
  match snmp_expect_tlv pkt 0 pkt.length SNMP_TYPE_SEQUENCE with
  | none => none
  | some (_, msg_p, msg_len) =>
    match snmp_expect_tlv pkt msg_p (msg_p + msg_len) SNMP_TYPE_INTEGER with
    | none => none
    | some (p1, value, value_len) =>
      match snmp_decode_int32 (bytes_at pkt value value_len) with
      | none => none
      | some version =>
        match snmp_expect_tlv pkt p1 (msg_p + msg_len) SNMP_TYPE_OCTET_STRING with
        | none => none
        | some (p2, community, community_len) =>
          match decode_request_tagged pkt p2 (msg_p + msg_len) with
          | none => none
          | some (pdu_type, request_id, oid, oid_len) =>
            some { version := version, community := bytes_at pkt community community_len,
                   request_id := request_id, pdu_type := pdu_type,
                   request_oid := some (bytes_at pkt oid oid_len) }

/-- The `for` loop of `snmp_lookup_exact`: `k` passes remain and `i` is the loop index. -/
def snmp_lookup_exact_loop (oid : List Nat) : Nat → Nat → Option Nat
  | 0, _ => none
  | k + 1, i =>
    if oid.length = (k_oid_table.getD i []).length ∧
        memcmp_eq oid 0 (k_oid_table.getD i []) oid.length = true then some i
    else snmp_lookup_exact_loop oid k (i + 1)

/-- The function `snmp_lookup_exact`: `some i` is `true` with `*out_index = i`, `none` is
`false`; the argument is `none` for a null `oid.oid`. -/
def snmp_lookup_exact (oid : Option (List Nat)) : Option Nat :=
  match oid with
  | none => none
  | some o => snmp_lookup_exact_loop o k_oid_table.length 0

/-- The default of the macro `UPS_SNMP_COMMUNITY`: `"public"`, with its final NUL. -/
def UPS_SNMP_COMMUNITY : List Nat :=
  [0x70, 0x75, 0x62, 0x6C, 0x69, 0x63, 0x00]

/-- The function `strlen` on a byte array that holds a C string. -/
def strlen (s : List Nat) : Nat :=
  (s.takeWhile (fun b => decide (b ≠ 0))).length

/-- The size `sizeof(tx_buf)` of the response buffer of `snmp_agent_task`. -/
def SNMP_TX_BUF_SIZE : Nat := 512

/-- The lookup of `snmp_agent_task`: `snmp_lookup_exact` for a GET request,
`snmp_lookup_next` otherwise. -/
def snmp_lookup (req : snmp_request_t) : Option Nat :=
  if req.pdu_type = SNMP_TYPE_GET_REQUEST then snmp_lookup_exact req.request_oid
  else snmp_lookup_next req.request_oid

/-- The arguments `snmp_agent_task` hands to `snmp_build_response` after the lookup:
`error_status`, `error_index`, `resp_oid` and `resp_value`. -/
def response_args (req : snmp_request_t) (t : Telemetry) :
    Int × Int × Option (List Nat) × snmp_value_t :=
  match snmp_lookup req with
  | none => (SNMP_ERR_NOSUCHNAME, 1, req.request_oid, zeroValue)
  | some oid_index =>
    match snmp_get_value_by_index oid_index t with
    | none => (SNMP_ERR_GENERR, 1, some (k_oid_table.getD oid_index []), zeroValue)
    | some v => (SNMP_ERR_NOERROR, 0, some (k_oid_table.getD oid_index []), v)

/-- The body of the `while` loop of `snmp_agent_task` after `lwip_recvfrom`: `community`
is the array of the macro `UPS_SNMP_COMMUNITY`, `t` the telemetry globals, `rx` the
`rlen` bytes received.  The result is the datagram handed to `lwip_sendto`, `none` when
the loop continues without sending. -/
def snmp_agent_reply (community : List Nat) (t : Telemetry) (rx : List Nat) :
    Option (List Nat) :=
  if rx.length ≤ 0 then none
  else
    match snmp_decode_request rx with
    | none => none
    | some req =>
      if ¬ (req.version = 0 ∨ req.version = 1) then none
      else if req.community.length ≠ strlen community ∨
          memcmp_eq req.community 0 community req.community.length = false then none
      else
        match snmp_build_response req (response_args req t).1 (response_args req t).2.1
            (response_args req t).2.2.1 (some (response_args req t).2.2.2)
            SNMP_TX_BUF_SIZE with
        | (false, _) => none
        | (true, w) => some w.buf

/-- The bytes of a GET or GETNEXT request as a manager sends it: version, community,
PDU tag, request-id, error-status 0, error-index 0 and one varbind with the OID and
NULL. -/
def request_bytes (version : Int) (community : List Nat) (pdu_type : Nat) (request_id : Int)
    (oid : List Nat) : List Nat :=
  tlv_bytes SNMP_TYPE_SEQUENCE
    (tlv_bytes SNMP_TYPE_INTEGER (int32_content version) ++
      (tlv_bytes SNMP_TYPE_OCTET_STRING community ++
        tlv_bytes pdu_type
          (tlv_bytes SNMP_TYPE_INTEGER (int32_content request_id) ++
            (tlv_bytes SNMP_TYPE_INTEGER (int32_content 0) ++
              (tlv_bytes SNMP_TYPE_INTEGER (int32_content 0) ++
                tlv_bytes SNMP_TYPE_SEQUENCE
                  (tlv_bytes SNMP_TYPE_SEQUENCE
                    (tlv_bytes SNMP_TYPE_OBJECT_ID oid ++ tlv_bytes SNMP_TYPE_NULL [])))))))

/-- The characters of `"public"`. -/
def publicBytes : List Nat := [0x70, 0x75, 0x62, 0x6C, 0x69, 0x63]

/-- Telemetry with `remaining_capacity = 77`. -/
def charge77Telemetry : Telemetry :=
  { healthyTelemetry with
    g_battery := { healthyTelemetry.g_battery with remaining_capacity := 77 } }

/-! ## The scheduler of `main.c`

The statics of `main.c` are the record `Scheduler`; the globals that
`ups_sub_adapter_select` copies from `spm2k.h`, a header that is not part of the sources
at hand, are the record `Adapter`, a parameter of the embedding.  The value of
`ups_tick_ms()` is an argument of the function that calls it. -/

/-- The macro `UPS_DYNAMIC_UPDATE_PERIOD_MS`. -/
def UPS_DYNAMIC_UPDATE_PERIOD_MS : Nat := 10 * 1000

/-- The macro `UPS_INIT_RETRY_PERIOD_MS`. -/
def UPS_INIT_RETRY_PERIOD_MS : Nat := 5 * 1000

/-- The macro `UPS_BOOTSTRAP_HEARTBEAT_RX_BUF_SIZE`. -/
def UPS_BOOTSTRAP_HEARTBEAT_RX_BUF_SIZE : Nat := 16

/-- The macro `UPS_ENQUEUE_BURST_PER_TICK`. -/
def UPS_ENQUEUE_BURST_PER_TICK : Nat := 8

/-- The states of the bootstrap, `ups_bootstrap_state_t`. -/
inductive ups_bootstrap_state_t where
  | UPS_BOOTSTRAP_ENQUEUE_HEARTBEAT
  | UPS_BOOTSTRAP_WAIT_HEARTBEAT_DRAIN
  | UPS_BOOTSTRAP_HEARTBEAT_VERIFY
  | UPS_BOOTSTRAP_WAIT_RETRY
  | UPS_BOOTSTRAP_ENQUEUE_CONSTANT
  | UPS_BOOTSTRAP_ENQUEUE_DYNAMIC
  | UPS_BOOTSTRAP_WAIT_DRAIN
  | UPS_BOOTSTRAP_SANITY_CHECK
  | UPS_BOOTSTRAP_DONE
  deriving DecidableEq, Repr

/-- The globals `g_sub_adapter_*` after `ups_sub_adapter_select`; `none` is a null
pointer and a table is the array the pointer refers to. -/
structure Adapter where
  g_sub_adapter_constant_lut : Option (List uart_engine_request_t)
  g_sub_adapter_constant_lut_count : Nat
  g_sub_adapter_dynamic_lut : Option (List uart_engine_request_t)
  g_sub_adapter_dynamic_lut_count : Nat
  g_sub_adapter_constant_heartbeat : Option uart_engine_request_t
  g_sub_adapter_constant_heartbeat_expect_return : Option (List Nat)
  g_sub_adapter_constant_heartbeat_expect_return_len : Nat
  deriving DecidableEq, Repr

/-- The statics of the scheduler in `main.c`. -/
structure Scheduler where
  s_ups_bootstrap_state : ups_bootstrap_state_t
  s_bootstrap_constant_idx : Nat
  s_bootstrap_dynamic_idx : Nat
  s_init_retry_not_before_ms : Nat
  s_init_bootstrap_start_ms : Nat
  s_init_bootstrap_started : Bool
  s_last_dynamic_cycle_start_ms : Nat
  s_bootstrap_heartbeat_rx : List Nat
  s_bootstrap_heartbeat_rx_len : Nat
  s_bootstrap_heartbeat_done : Bool
  s_dynamic_update_cycle_active : Bool
  s_dynamic_update_idx : Nat
  s_next_dynamic_update_ms : Nat
  deriving DecidableEq, Repr

/-- The statics of the scheduler at power-on. -/
def bootScheduler : Scheduler :=
  { s_ups_bootstrap_state := ups_bootstrap_state_t.UPS_BOOTSTRAP_ENQUEUE_HEARTBEAT,
    s_bootstrap_constant_idx := 0, s_bootstrap_dynamic_idx := 0,
    s_init_retry_not_before_ms := 0, s_init_bootstrap_start_ms := 0,
    s_init_bootstrap_started := false, s_last_dynamic_cycle_start_ms := 0,
    s_bootstrap_heartbeat_rx := List.replicate UPS_BOOTSTRAP_HEARTBEAT_RX_BUF_SIZE 0,
    s_bootstrap_heartbeat_rx_len := 0, s_bootstrap_heartbeat_done := false,
    s_dynamic_update_cycle_active := false, s_dynamic_update_idx := 0,
    s_next_dynamic_update_ms := 0 }

/-- The call `memcpy(dst, src, n)`: the array `dst` afterwards. -/
def memcpy (dst src : List Nat) (n : Nat) : List Nat :=
  (List.range n).map (fun k => src.getD k 0) ++ dst.drop n

/-- The identifier that stands for the address of `ups_bootstrap_heartbeat_capture` in
the field `process_fn` of a request. -/
def ups_bootstrap_heartbeat_capture_fn : Nat := 0

/-- The function `ups_bootstrap_heartbeat_capture`; `rx = none` is the null pointer. -/
def ups_bootstrap_heartbeat_capture (_cmd : Nat) (rx : Option (List Nat)) (rx_len : Nat)
    (_out_value : Nat) (b : Scheduler) : Bool × Scheduler :=
  let b1 : Scheduler :=
    { b with s_bootstrap_heartbeat_done := false, s_bootstrap_heartbeat_rx_len := 0 }
  match rx with
  | none => (false, b1)
  | some r =>
    if rx_len > UPS_BOOTSTRAP_HEARTBEAT_RX_BUF_SIZE then (false, b1)
    else
      (true,
       { b1 with
         s_bootstrap_heartbeat_rx := memcpy b1.s_bootstrap_heartbeat_rx r rx_len,
         s_bootstrap_heartbeat_rx_len := rx_len,
         s_bootstrap_heartbeat_done := true })

/-- The function `ups_bootstrap_heartbeat_matches_expected`. -/
def ups_bootstrap_heartbeat_matches_expected (a : Adapter) (b : Scheduler) : Bool :=
  match a.g_sub_adapter_constant_heartbeat_expect_return with
  | none => false
  | some expect =>
    if b.s_bootstrap_heartbeat_done = false ∨
        a.g_sub_adapter_constant_heartbeat_expect_return_len = 0 then false
    else if b.s_bootstrap_heartbeat_rx_len ≠
        a.g_sub_adapter_constant_heartbeat_expect_return_len then false
    else memcmp_eq b.s_bootstrap_heartbeat_rx 0 expect b.s_bootstrap_heartbeat_rx_len

/-- The function `ups_bootstrap_reset_for_retry`. -/
def ups_bootstrap_reset_for_retry (now_ms : Nat) (b : Scheduler) : Scheduler :=
  { b with
    s_bootstrap_constant_idx := 0,
    s_bootstrap_dynamic_idx := 0,
    s_bootstrap_heartbeat_rx_len := 0,
    s_bootstrap_heartbeat_done := false,
    s_init_retry_not_before_ms := add32 now_ms UPS_INIT_RETRY_PERIOD_MS,
    s_ups_bootstrap_state := ups_bootstrap_state_t.UPS_BOOTSTRAP_WAIT_RETRY }

/-- The `while` loop of `ups_enqueue_full_lut_step`: `fuel` passes remain, `burst` is the
loop counter and `idx` the value of `*inout_index`; the result is the final index and the
engine. -/
def ups_enqueue_full_lut_loop (cfg : Config) (lut : List uart_engine_request_t)
    (lut_count : Nat) : Nat → Nat → Nat → Engine → Nat × Engine
  | 0, _, idx, s => (idx, s)
  | fuel + 1, burst, idx, s =>
    if idx < lut_count ∧ burst < UPS_ENQUEUE_BURST_PER_TICK then
      match uart_engine_enqueue cfg (some (lut.getD idx zeroRequest)) s with
      | (uart_engine_result_t.OK, s1) =>
        ups_enqueue_full_lut_loop cfg lut lut_count fuel (burst + 1) (idx + 1) s1
      | (_, s1) => (idx, s1)
    else (idx, s)

/-- The function `ups_enqueue_full_lut_step`; `lut = none` is the null pointer, `idx` is
`*inout_index` and the first component of the result is its final value.  The loop ends
after at most `UPS_ENQUEUE_BURST_PER_TICK` passes, which is the fuel. -/
def ups_enqueue_full_lut_step (cfg : Config) (lut : Option (List uart_engine_request_t))
    (lut_count : Nat) (idx : Nat) (s : Engine) : Nat × Engine :=
  match lut with
  | none => (idx, s)
  | some l =>
    if idx ≥ lut_count then (idx, s)
    else ups_enqueue_full_lut_loop cfg l lut_count UPS_ENQUEUE_BURST_PER_TICK 0 idx s

/-- The head of `ups_bootstrap_task`: the first call records its time. -/
def mark_bootstrap_started (now_ms : Nat) (b : Scheduler) : Scheduler :=
  if !b.s_init_bootstrap_started then
    { b with s_init_bootstrap_started := true, s_init_bootstrap_start_ms := now_ms }
  else b

/-- The request `hb_req` that the `UPS_BOOTSTRAP_ENQUEUE_HEARTBEAT` case submits: the
heartbeat of the adapter with `out_value = NULL` and the capture parser. -/
def bootstrap_heartbeat_request (hb : uart_engine_request_t) : uart_engine_request_t :=
  { hb with out_value := 0, process_fn := some ups_bootstrap_heartbeat_capture_fn }

/-- The `switch` of `ups_bootstrap_task`; `tick2_ms` is what the second call of
`ups_tick_ms()`, in the `UPS_BOOTSTRAP_SANITY_CHECK` case, returns. -/
def bootstrap_switch (cfg : Config) (a : Adapter) (now_ms tick2_ms : Nat) (b : Scheduler)
    (s : Engine) : Scheduler × Engine :=
  match b.s_ups_bootstrap_state with
  | ups_bootstrap_state_t.UPS_BOOTSTRAP_ENQUEUE_HEARTBEAT =>
    match a.g_sub_adapter_constant_heartbeat with
    | none => (ups_bootstrap_reset_for_retry now_ms b, s)
    | some hb =>
      match uart_engine_enqueue cfg (some (bootstrap_heartbeat_request hb)) s with
      | (uart_engine_result_t.OK, s1) =>
        ({ b with
           s_bootstrap_heartbeat_done := false,
           s_ups_bootstrap_state := ups_bootstrap_state_t.UPS_BOOTSTRAP_WAIT_HEARTBEAT_DRAIN },
         s1)
      | (_, s1) => (b, s1)
  | ups_bootstrap_state_t.UPS_BOOTSTRAP_WAIT_HEARTBEAT_DRAIN =>
    if !uart_engine_is_busy s then
      ({ b with
         s_ups_bootstrap_state := ups_bootstrap_state_t.UPS_BOOTSTRAP_HEARTBEAT_VERIFY }, s)
    else (b, s)
  | ups_bootstrap_state_t.UPS_BOOTSTRAP_HEARTBEAT_VERIFY =>
    if ups_bootstrap_heartbeat_matches_expected a b then
      ({ b with
         s_ups_bootstrap_state := ups_bootstrap_state_t.UPS_BOOTSTRAP_ENQUEUE_CONSTANT }, s)
    else (ups_bootstrap_reset_for_retry now_ms b, s)
  | ups_bootstrap_state_t.UPS_BOOTSTRAP_WAIT_RETRY =>
    if asInt32 (sub32 now_ms b.s_init_retry_not_before_ms) ≥ 0 then
      ({ b with
         s_ups_bootstrap_state := ups_bootstrap_state_t.UPS_BOOTSTRAP_ENQUEUE_HEARTBEAT }, s)
    else (b, s)
  | ups_bootstrap_state_t.UPS_BOOTSTRAP_ENQUEUE_CONSTANT =>
    let r := ups_enqueue_full_lut_step cfg a.g_sub_adapter_constant_lut
      a.g_sub_adapter_constant_lut_count b.s_bootstrap_constant_idx s
    let b1 : Scheduler := { b with s_bootstrap_constant_idx := r.1 }
    if b1.s_bootstrap_constant_idx ≥ a.g_sub_adapter_constant_lut_count then
      ({ b1 with
         s_ups_bootstrap_state := ups_bootstrap_state_t.UPS_BOOTSTRAP_ENQUEUE_DYNAMIC }, r.2)
    else (b1, r.2)
  | ups_bootstrap_state_t.UPS_BOOTSTRAP_ENQUEUE_DYNAMIC =>
    let r := ups_enqueue_full_lut_step cfg a.g_sub_adapter_dynamic_lut
      a.g_sub_adapter_dynamic_lut_count b.s_bootstrap_dynamic_idx s
    let b1 : Scheduler := { b with s_bootstrap_dynamic_idx := r.1 }
    if b1.s_bootstrap_dynamic_idx ≥ a.g_sub_adapter_dynamic_lut_count then
      ({ b1 with s_ups_bootstrap_state := ups_bootstrap_state_t.UPS_BOOTSTRAP_WAIT_DRAIN },
       r.2)
    else (b1, r.2)
  | ups_bootstrap_state_t.UPS_BOOTSTRAP_WAIT_DRAIN =>
    if !uart_engine_is_busy s then
      ({ b with s_ups_bootstrap_state := ups_bootstrap_state_t.UPS_BOOTSTRAP_SANITY_CHECK },
       s)
    else (b, s)
  | ups_bootstrap_state_t.UPS_BOOTSTRAP_SANITY_CHECK =>
    if s.telemetry.g_battery.remaining_capacity > 0 then
      ({ b with
         s_next_dynamic_update_ms := add32 tick2_ms UPS_DYNAMIC_UPDATE_PERIOD_MS,
         s_ups_bootstrap_state := ups_bootstrap_state_t.UPS_BOOTSTRAP_DONE }, s)
    else (ups_bootstrap_reset_for_retry now_ms b, s)
  | ups_bootstrap_state_t.UPS_BOOTSTRAP_DONE => (b, s)

/-- The function `ups_bootstrap_task`; `now_ms` is what `ups_tick_ms()` returns at its
head. -/
def ups_bootstrap_task (cfg : Config) (a : Adapter) (now_ms tick2_ms : Nat) (b : Scheduler)
    (s : Engine) : Scheduler × Engine :=
  bootstrap_switch cfg a now_ms tick2_ms (mark_bootstrap_started now_ms b) s

/-- The start of a refresh cycle in `ups_dynamic_update_task`. -/
def dynamic_cycle_start (now_ms : Nat) (b : Scheduler) : Scheduler :=
  if !b.s_dynamic_update_cycle_active then
    { b with
      s_dynamic_update_cycle_active := true,
      s_dynamic_update_idx := 0,
      s_last_dynamic_cycle_start_ms := now_ms }
  else b

/-- The function `ups_dynamic_update_task`; `now_ms` is what `ups_tick_ms()` returns. -/
def ups_dynamic_update_task (cfg : Config) (a : Adapter) (now_ms : Nat) (b : Scheduler)
    (s : Engine) : Scheduler × Engine :=
  if b.s_ups_bootstrap_state ≠ ups_bootstrap_state_t.UPS_BOOTSTRAP_DONE then (b, s)
  else if (!b.s_dynamic_update_cycle_active) = true ∧
      asInt32 (sub32 now_ms b.s_next_dynamic_update_ms) < 0 then (b, s)
  else if (dynamic_cycle_start now_ms b).s_dynamic_update_idx <
      a.g_sub_adapter_dynamic_lut_count then
    ({ dynamic_cycle_start now_ms b with
       s_dynamic_update_idx :=
         (ups_enqueue_full_lut_step cfg a.g_sub_adapter_dynamic_lut
           a.g_sub_adapter_dynamic_lut_count
           (dynamic_cycle_start now_ms b).s_dynamic_update_idx s).1 },
     (ups_enqueue_full_lut_step cfg a.g_sub_adapter_dynamic_lut
        a.g_sub_adapter_dynamic_lut_count
        (dynamic_cycle_start now_ms b).s_dynamic_update_idx s).2)
  else if uart_engine_is_busy s then (dynamic_cycle_start now_ms b, s)
  else
    ({ dynamic_cycle_start now_ms b with
       s_dynamic_update_cycle_active := false,
       s_next_dynamic_update_ms := add32 now_ms UPS_DYNAMIC_UPDATE_PERIOD_MS }, s)

/-- A call made by `app_main`: `uart_engine_init`, `uart_engine_set_enabled`, and in the
loop `ups_bootstrap_task`, `ups_dynamic_update_task` and `uart_engine_tick`.  During a
tick the engine calls the parsers; `captures` are the arguments `rx` and `rx_len` of the
calls of `ups_bootstrap_heartbeat_capture` among them, which write statics of the
scheduler. -/
inductive MainCall where
  | init
  | set_enabled (enable : Bool)
  | bootstrap_task (now_ms tick2_ms : Nat)
  | dynamic_update_task (now_ms : Nat)
  | tick (ins : Nat → StepInput) (captures : List (Option (List Nat) × Nat))

/-- The statics of the scheduler after the calls `captures` of the capture parser. -/
def run_captures : List (Option (List Nat) × Nat) → Scheduler → Scheduler
  | [], b => b
  | c :: cs, b => run_captures cs (ups_bootstrap_heartbeat_capture 0 c.1 c.2 0 b).2

/-- The statics of the scheduler and of the engine after a call of `app_main`. -/
def apply_main_call (cfg : Config) (a : Adapter) :
    MainCall → Scheduler × Engine → Scheduler × Engine
  | MainCall.init, m => (m.1, uart_engine_init m.2)
  | MainCall.set_enabled enable, m => (m.1, uart_engine_set_enabled enable m.2)
  | MainCall.bootstrap_task now_ms tick2_ms, m =>
    ups_bootstrap_task cfg a now_ms tick2_ms m.1 m.2
  | MainCall.dynamic_update_task now_ms, m => ups_dynamic_update_task cfg a now_ms m.1 m.2
  | MainCall.tick ins captures, m => (run_captures captures m.1, uart_engine_tick cfg ins m.2)

/-- The statics after a history of calls of `app_main`. -/
def run_main (cfg : Config) (a : Adapter) :
    List MainCall → Scheduler × Engine → Scheduler × Engine
  | [], m => m
  | c :: cs, m => run_main cfg a cs (apply_main_call cfg a c m)

/-- A heartbeat request that expects a reply of two bytes within 10 ms. -/
def hbEchoReq : uart_engine_request_t :=
  { cmd := 0x59, cmd_bits := 8, expected_len := 2, expected_ending := false,
    expected_ending_len := 0, expected_ending_bytes := [], timeout_ms := 10,
    max_retries := 0, process_fn := none, out_value := 0 }

/-- An adapter with three constant descriptors, one dynamic descriptor and a heartbeat
whose expected reply is `AA BB`. -/
def echoAdapter : Adapter :=
  { g_sub_adapter_constant_lut := some [pollReq, capacityReq, parsedReq],
    g_sub_adapter_constant_lut_count := 3,
    g_sub_adapter_dynamic_lut := some [capacityReq],
    g_sub_adapter_dynamic_lut_count := 1,
    g_sub_adapter_constant_heartbeat := some hbEchoReq,
    g_sub_adapter_constant_heartbeat_expect_return := some [0xAA, 0xBB],
    g_sub_adapter_constant_heartbeat_expect_return_len := 2 }

/-- The scheduler in `UPS_BOOTSTRAP_HEARTBEAT_VERIFY` after the capture parser has
stored the reply `rx`. -/
def verifying (rx : List Nat) : Scheduler :=
  { (ups_bootstrap_heartbeat_capture 0 (some rx) rx.length 0 bootScheduler).2 with
    s_init_bootstrap_started := true,
    s_ups_bootstrap_state := ups_bootstrap_state_t.UPS_BOOTSTRAP_HEARTBEAT_VERIFY }

/-- The scheduler in `UPS_BOOTSTRAP_WAIT_RETRY` entered at time `t`. -/
def retrying (t : Nat) : Scheduler :=
  ups_bootstrap_reset_for_retry t { bootScheduler with s_init_bootstrap_started := true }

/-- The descriptors `idx`, `idx + 1`, ..., `idx + k - 1` of a table, as `lut[idx]` reads
them. -/
def lut_slice (lut : List uart_engine_request_t) (idx k : Nat) : List uart_engine_request_t :=
  (List.range k).map (fun j => lut.getD (idx + j) zeroRequest)

/-- The engine after the requests `rs` were submitted in order with
`uart_engine_enqueue`. -/
def enqueue_all (cfg : Config) : List uart_engine_request_t → Engine → Engine
  | [], s => s
  | r :: rs, s => enqueue_all cfg rs (uart_engine_enqueue cfg (some r) s).2

/-- Whether `uart_engine_enqueue` returns `UART_ENGINE_OK` for every one of the requests
`rs` submitted in order. -/
def all_accepted (cfg : Config) : List uart_engine_request_t → Engine → Bool
  | [], _ => true
  | r :: rs, s =>
    decide ((uart_engine_enqueue cfg (some r) s).1 = uart_engine_result_t.OK) &&
      all_accepted cfg rs (uart_engine_enqueue cfg (some r) s).2

/-- The engine has no heartbeat: the heartbeat is disabled, none is queued or active, the
failure counter is 0, neither the active Job nor a slot of the ring is tagged as a
heartbeat; and the telemetry has the property `P`. -/
def HbOff (P : Telemetry → Prop) (s : Engine) : Prop :=
  s.s_hb_enabled = false ∧ s.s_hb_queued_or_active = false ∧
    s.s_hb_consecutive_failures = 0 ∧ s.s_active.is_heartbeat = false ∧
    (∀ j ∈ s.s_queue, j.is_heartbeat = false) ∧ P s.telemetry

/-- Every parser callback keeps the property `P` of the telemetry. -/
def ParsersKeep (P : Telemetry → Prop) (ins : Nat → StepInput) : Prop :=
  ∀ (step fn cmd : Nat) (rx : List Nat) (out_value : Nat) (t : Telemetry),
    P t → P ((ins step).parser fn cmd rx out_value t).2

/-- The parser callbacks of the ticks of a history keep the property `P` of the
telemetry. -/
def MainKeeps (P : Telemetry → Prop) : List MainCall → Prop
  | [] => True
  | MainCall.tick ins _ :: cs => ParsersKeep P ins ∧ MainKeeps P cs
  | _ :: cs => MainKeeps P cs

/-- The engine with `capacityReq` in the `PROCESS` state after three heartbeat timeouts,
that is, with the degraded state written to the telemetry. -/
def degradedInProcess : Engine :=
  tick_loop defaultConfig (answerLine 2020 [80]) 4 0
    (uart_engine_enqueue defaultConfig (some capacityReq) (hbTimeouts 3)).2

/-- The scheduler in `UPS_BOOTSTRAP_SANITY_CHECK` after both tables of `echoAdapter` were
submitted. -/
def sanityChecking : Scheduler :=
  { bootScheduler with
    s_init_bootstrap_started := true,
    s_bootstrap_constant_idx := 3,
    s_bootstrap_dynamic_idx := 1,
    s_ups_bootstrap_state := ups_bootstrap_state_t.UPS_BOOTSTRAP_SANITY_CHECK }

/-- The receive phase of the active Job is complete: a fixed-length descriptor has
received exactly `expected_len` bytes, a framed one a buffer that ends with its ending
bytes. -/
def rx_complete (cfg : Config) (s : Engine) : Prop :=
  (s.s_active.req.expected_ending = false → s.s_rx_got = s.s_active.req.expected_len) ∧
  (s.s_active.req.expected_ending = true →
    rx_has_expected_ending cfg s.s_active.req s.s_rx_buf s.s_rx_got = true)

instance decidableRxComplete (cfg : Config) (s : Engine) : Decidable (rx_complete cfg s) := by
  unfold rx_complete; infer_instance

/-- What the queue and the heartbeat configuration keep for the receive buffer: the
buffer has `UART_ENGINE_MAX_EXPECTED_LEN` bytes, and neither a slot of the ring nor the
request of an enabled heartbeat expects more bytes than that. -/
def RxBase (s : Engine) : Prop :=
  s.s_rx_buf.length = UART_ENGINE_MAX_EXPECTED_LEN ∧
  (∀ j ∈ s.s_queue, j.req.expected_len ≤ UART_ENGINE_MAX_EXPECTED_LEN) ∧
  (s.s_hb_enabled = true → s.s_hb_cfg.req.expected_len ≤ UART_ENGINE_MAX_EXPECTED_LEN)

/-- The bounds of the receive phase: `RxBase`, the active Job expects at most
`UART_ENGINE_MAX_EXPECTED_LEN` bytes, `s_rx_got` is at most its cap, no byte is counted
in `IDLE`, and in `PROCESS` the receive phase is complete. -/
def RxInv (cfg : Config) (s : Engine) : Prop :=
  RxBase s ∧
  s.s_active.req.expected_len ≤ UART_ENGINE_MAX_EXPECTED_LEN ∧
  s.s_rx_got ≤ request_rx_cap s.s_active.req ∧
  (s.s_state = uart_engine_state_t.IDLE → s.s_rx_got = 0) ∧
  (s.s_state = uart_engine_state_t.PROCESS → rx_complete cfg s)

/-- The bytes that the read of a pass in `RX_WAIT` stores: the first `want` bytes the
driver has, where `want` is the room left below the cap. -/
def rx_step_bytes (inp : StepInput) (s : Engine) : List Nat :=
  inp.rx_avail.take (request_rx_cap s.s_active.req - s.s_rx_got)

/-- Passes of the tick loop in `RX_WAIT`, one for each input of the list, as long as the
engine stays in `RX_WAIT`; the second component is the log of the bytes read. -/
def rx_wait_run (cfg : Config) : List StepInput → Engine → Engine × List Nat
  | [], s => (s, [])
  | inp :: rest, s =>
    if s.s_state = uart_engine_state_t.RX_WAIT then
      ((rx_wait_run cfg rest (tick_rx_wait cfg inp (engine_now_ms inp) s).1).1,
       rx_step_bytes inp s ++
         (rx_wait_run cfg rest (tick_rx_wait cfg inp (engine_now_ms inp) s).1).2)
    else (s, [])

/-- A framed request: no fixed length, ending `0D 0A`, reply handed to parser
callback 1. -/
def framedReq : uart_engine_request_t :=
  { cmd := 0x51, cmd_bits := 8, expected_len := 0, expected_ending := true,
    expected_ending_len := 2, expected_ending_bytes := [0x0D, 0x0A], timeout_ms := 10,
    max_retries := 0, process_fn := some 1, out_value := 0 }

/-- The engine with `framedReq` in `RX_WAIT`, no byte read yet: three passes of the tick
at time 0 take the Job from the queue through `TX_START` and `TX_WAIT`. -/
def framedInRxWait : Engine :=
  tick_loop defaultConfig (quietLine 0) 3 0
    (uart_engine_enqueue defaultConfig (some framedReq)
      (uart_engine_init (boot healthyTelemetry))).2

/-- The test that ends the receive phase with success: a framed descriptor has its ending
bytes at the end of the bytes received, a fixed-length one has reached its cap. -/
def rx_phase_done (cfg : Config) (s : Engine) : Prop :=
  if s.s_active.req.expected_ending then
    rx_has_expected_ending cfg s.s_active.req s.s_rx_buf s.s_rx_got = true
  else s.s_rx_got ≥ request_rx_cap s.s_active.req

instance decidableRxPhaseDone (cfg : Config) (s : Engine) :
    Decidable (rx_phase_done cfg s) := by
  unfold rx_phase_done; infer_instance

/-! ## The SNMP responder: the decoder with every load checked

The readers once more, over the packet as a memory of `pkt_len` bytes: a load `*p` at an
offset that is not in `[0, pkt_len)` ends the run with `out_of_bounds`.  Tests and
arithmetic on pointers load nothing.  The pointers that `snmp_request_t` keeps are
offsets into the packet. -/

/-- How a checked reader ends: `out_of_bounds` when it loads a byte outside the packet,
`refused` when the C function returns `false`, `done a` when it returns `true` with
the outputs `a`. -/
inductive checked_t (α : Type) where
  | out_of_bounds : checked_t α
  | refused : checked_t α
  | done (a : α) : checked_t α
  deriving DecidableEq, Repr

/-- Sequencing: the rest of the function runs on the outputs of a call that returned
`true`. -/
def checked_t.bind {α β : Type} (x : checked_t α) (f : α → checked_t β) : checked_t β :=
  match x with
  | checked_t.out_of_bounds => checked_t.out_of_bounds
  | checked_t.refused => checked_t.refused
  | checked_t.done a => f a

/-- The outputs of a checked reader seen through `f`. -/
def checked_t.map {α β : Type} (f : α → β) (x : checked_t α) : checked_t β :=
  match x with
  | checked_t.out_of_bounds => checked_t.out_of_bounds
  | checked_t.refused => checked_t.refused
  | checked_t.done a => checked_t.done (f a)

/-- A reader that loads nothing outside the packet, as a checked reader. -/
def checked_t.of_option {α : Type} : Option α → checked_t α
  | none => checked_t.refused
  | some a => checked_t.done a

/-- The load `pkt[i]` from a packet of `pkt.length` bytes. -/
def load (pkt : List Nat) (i : Nat) : checked_t Nat :=
  match pkt[i]? with
  | some b => checked_t.done b
  | none => checked_t.out_of_bounds

/-- The `for` loop of `snmp_read_len`, with the load `(*pp)[i]` checked. -/
def snmp_read_len_loop_checked (pkt : List Nat) (pp : Nat) : Nat → Nat → Nat → checked_t Nat
  | 0, _, len => checked_t.done len
  | k + 1, i, len =>
    (load pkt (pp + i)).bind fun b =>
      snmp_read_len_loop_checked pkt pp k (i + 1) ((len <<< 8) ||| b)

/-- The function `snmp_read_len`, with the load `**pp` of `first` and the loads of its
loop checked. -/
def snmp_read_len_checked (pkt : List Nat) (pp end_ : Nat) : checked_t (Nat × Nat) :=
  if pp ≥ end_ then checked_t.refused
  else
    (load pkt pp).bind fun first =>
      if first &&& 0x80 = 0 then
        if end_ - (pp + 1) ≥ first then checked_t.done (pp + 1, first) else checked_t.refused
      else if first &&& 0x7F = 0 ∨ first &&& 0x7F > 2 ∨ end_ - (pp + 1) < first &&& 0x7F then
        checked_t.refused
      else
        (snmp_read_len_loop_checked pkt (pp + 1) (first &&& 0x7F) 0 0).bind fun len =>
          if end_ - (pp + 1 + (first &&& 0x7F)) ≥ len then
            checked_t.done (pp + 1 + (first &&& 0x7F), len)
          else checked_t.refused

/-- The function `snmp_expect_tlv`, with the load `**pp` of the tag checked; `*pp >= end`
is tested first and ends the function before the load. -/
def snmp_expect_tlv_checked (pkt : List Nat) (pp end_ expected_type : Nat) :
    checked_t (Nat × Nat × Nat) :=
  if pp ≥ end_ then checked_t.refused
  else
    (load pkt pp).bind fun b =>
      if b ≠ expected_type then checked_t.refused
      else
        (snmp_read_len_checked pkt (pp + 1) end_).bind fun r =>
          checked_t.done (r.1 + r.2, r.1, r.2)

/-- The `for` loop of `snmp_decode_int32` on the bytes at offset `buf` of the packet, with
the load `buf[i]` checked: `k` passes remain, `i` is the loop index, `v` the 32-bit
pattern of the accumulator. -/
def snmp_decode_int32_loop_checked (pkt : List Nat) (buf : Nat) :
    Nat → Nat → Nat → checked_t Nat
  | 0, _, v => checked_t.done v
  | k + 1, i, v =>
    (load pkt (buf + i)).bind fun b =>
      snmp_decode_int32_loop_checked pkt buf k (i + 1) (((v <<< 8) ||| b) % U32)

/-- The function `snmp_decode_int32` on `len` bytes at offset `buf` of the packet, with
the load `buf[0]` and the loads of its loop checked. -/
def snmp_decode_int32_checked (pkt : List Nat) (buf len : Nat) : checked_t Int :=
  if len = 0 ∨ len > 4 then checked_t.refused
  else
    (load pkt buf).bind fun b0 =>
      (snmp_decode_int32_loop_checked pkt buf len 0
        (if b0 &&& 0x80 ≠ 0 then U32 - 1 else 0)).bind fun v =>
          checked_t.done (asInt32 v)

/-- The structure `snmp_request_t` with its pointers: `community` and `oid` are the
offsets in the packet at which the two views start. -/
structure snmp_request_view_t where
  version : Int
  community : Nat
  community_len : Nat
  request_id : Int
  pdu_type : Nat
  oid : Nat
  oid_len : Nat
  deriving DecidableEq, Repr

/-- The request with each view replaced by the bytes it denotes. -/
def view_request (pkt : List Nat) (v : snmp_request_view_t) : snmp_request_t :=
  { version := v.version, community := bytes_at pkt v.community v.community_len,
    request_id := v.request_id, pdu_type := v.pdu_type,
    request_oid := some (bytes_at pkt v.oid v.oid_len) }

/-- The function `snmp_decode_request` for non-null arguments with every load checked,
statement by statement; `pkt_len` is the length of `pkt`.  A result `r` of
`snmp_expect_tlv` is the new `*pp`, `*value` and `*value_len`. -/
def snmp_decode_request_checked (pkt : List Nat) : checked_t snmp_request_view_t :=
  (snmp_expect_tlv_checked pkt 0 pkt.length SNMP_TYPE_SEQUENCE).bind fun r0 =>
  (snmp_expect_tlv_checked pkt r0.2.1 (r0.2.1 + r0.2.2) SNMP_TYPE_INTEGER).bind fun r1 =>
  (snmp_decode_int32_checked pkt r1.2.1 r1.2.2).bind fun version =>
  (snmp_expect_tlv_checked pkt r1.1 (r0.2.1 + r0.2.2) SNMP_TYPE_OCTET_STRING).bind fun r2 =>
  if r2.1 ≥ r0.2.1 + r0.2.2 then checked_t.refused
  else
  (load pkt r2.1).bind fun tag =>
  if tag ≠ SNMP_TYPE_GET_REQUEST ∧ tag ≠ SNMP_TYPE_GET_NEXT_REQUEST then checked_t.refused
  else
  (snmp_read_len_checked pkt (r2.1 + 1) (r0.2.1 + r0.2.2)).bind fun r3 =>
  (snmp_expect_tlv_checked pkt r3.1 (r3.1 + r3.2) SNMP_TYPE_INTEGER).bind fun r4 =>
  (snmp_decode_int32_checked pkt r4.2.1 r4.2.2).bind fun request_id =>
  (snmp_expect_tlv_checked pkt r4.1 (r3.1 + r3.2) SNMP_TYPE_INTEGER).bind fun r5 =>
  (snmp_expect_tlv_checked pkt r5.1 (r3.1 + r3.2) SNMP_TYPE_INTEGER).bind fun r6 =>
  (snmp_expect_tlv_checked pkt r6.1 (r3.1 + r3.2) SNMP_TYPE_SEQUENCE).bind fun r7 =>
  (snmp_expect_tlv_checked pkt r7.2.1 (r7.2.1 + r7.2.2) SNMP_TYPE_SEQUENCE).bind fun r8 =>
  (snmp_expect_tlv_checked pkt r8.2.1 (r8.2.1 + r8.2.2) SNMP_TYPE_OBJECT_ID).bind fun r9 =>
  checked_t.done
    { version := version, community := r2.2.1, community_len := r2.2.2,
      request_id := request_id, pdu_type := tag, oid := r9.2.1, oid_len := r9.2.2 }

/-- A GET request for `upsEstimatedChargeRemaining` whose first varbind has the value
`05 00` (NULL), followed by a second varbind for `sysDescr`. -/
def twoVarbindRequest : List Nat :=
  [0x30, 0x36, 0x02, 0x01, 0x00, 0x04, 0x06, 0x70, 0x75, 0x62, 0x6C, 0x69, 0x63,
   0xA0, 0x29, 0x02, 0x01, 0x07, 0x02, 0x01, 0x00, 0x02, 0x01, 0x00,
   0x30, 0x1E,
   0x30, 0x0E, 0x06, 0x0A, 0x2B, 0x06, 0x01, 0x02, 0x01, 0x21, 0x01, 0x02, 0x04, 0x00,
   0x05, 0x00,
   0x30, 0x0C, 0x06, 0x08, 0x2B, 0x06, 0x01, 0x02, 0x01, 0x01, 0x01, 0x00, 0x05, 0x00]

/-- The same datagram with the sixteen bytes that follow the OID of the first varbind
overwritten with `0xFF`. -/
def overwrittenRequest : List Nat :=
  [0x30, 0x36, 0x02, 0x01, 0x00, 0x04, 0x06, 0x70, 0x75, 0x62, 0x6C, 0x69, 0x63,
   0xA0, 0x29, 0x02, 0x01, 0x07, 0x02, 0x01, 0x00, 0x02, 0x01, 0x00,
   0x30, 0x1E,
   0x30, 0x0E, 0x06, 0x0A, 0x2B, 0x06, 0x01, 0x02, 0x01, 0x21, 0x01, 0x02, 0x04, 0x00,
   0xFF, 0xFF,
   0xFF, 0xFF, 0xFF, 0xFF, 0xFF, 0xFF, 0xFF, 0xFF, 0xFF, 0xFF, 0xFF, 0xFF, 0xFF, 0xFF]

/-! ## The TLVs of a response, one by one -/

/-- The tag and the length field of a TLV with `len` content bytes in the layout. -/
def tlv_header (type len : Nat) : List Nat :=
  type :: snmp_len_bytes len

/-- The tag of the value TLV of a response in the layout. -/
def value_tag (error_status : Int) (value : Option snmp_value_t) : Nat :=
  match value with
  | some v =>
    if error_status = SNMP_ERR_NOERROR then
      match v.kind with
      | value_kind_t.VALUE_KIND_INT32 => SNMP_TYPE_INTEGER
      | value_kind_t.VALUE_KIND_OCTETS => SNMP_TYPE_OCTET_STRING
    else SNMP_TYPE_NULL
  | none => SNMP_TYPE_NULL

/-- The content of the value TLV of a response in the layout. -/
def value_content (error_status : Int) (value : Option snmp_value_t) : List Nat :=
  match value with
  | some v =>
    if error_status = SNMP_ERR_NOERROR then
      match v.kind with
      | value_kind_t.VALUE_KIND_INT32 => int32_content v.i32
      | value_kind_t.VALUE_KIND_OCTETS => v.octets
    else []
  | none => []

/-- One TLV of a message and its place: the bytes of the message before its tag, the
tag, the content, and the bytes of the message after the content. -/
structure tlv_place where
  pre : List Nat
  tag : Nat
  content : List Nat
  post : List Nat
  deriving DecidableEq, Repr

/-- The content of the varbind of a response: name and value. -/
def varbind_bytes_of (error_status : Int) (resp_oid : List Nat)
    (value : Option snmp_value_t) : List Nat :=
  tlv_bytes SNMP_TYPE_OBJECT_ID resp_oid ++ value_bytes error_status value

/-- The content of the message of a response: version, community and PDU. -/
def msg_bytes_of (req : snmp_request_t) (error_status error_index : Int)
    (resp_oid : List Nat) (value : Option snmp_value_t) : List Nat :=
  tlv_bytes SNMP_TYPE_INTEGER (int32_content req.version) ++
    (tlv_bytes SNMP_TYPE_OCTET_STRING req.community ++
      tlv_bytes SNMP_TYPE_GET_RESPONSE
        (pdu_bytes req error_status error_index resp_oid value))

/-- The bytes of a response before the content of its PDU: the header of the message,
version, community and the header of the PDU. -/
def pdu_start (req : snmp_request_t) (error_status error_index : Int)
    (resp_oid : List Nat) (value : Option snmp_value_t) : List Nat :=
  tlv_header SNMP_TYPE_SEQUENCE
      (msg_bytes_of req error_status error_index resp_oid value).length ++
    tlv_bytes SNMP_TYPE_INTEGER (int32_content req.version) ++
    tlv_bytes SNMP_TYPE_OCTET_STRING req.community ++
    tlv_header SNMP_TYPE_GET_RESPONSE
      (pdu_bytes req error_status error_index resp_oid value).length

/-- The bytes of a response before its varbind list: up to the content of the PDU, then
request-id, error-status and error-index. -/
def varbind_list_start (req : snmp_request_t) (error_status error_index : Int)
    (resp_oid : List Nat) (value : Option snmp_value_t) : List Nat :=
  pdu_start req error_status error_index resp_oid value ++
    tlv_bytes SNMP_TYPE_INTEGER (int32_content req.request_id) ++
    tlv_bytes SNMP_TYPE_INTEGER (int32_content error_status) ++
    tlv_bytes SNMP_TYPE_INTEGER (int32_content error_index)

/-- The eleven TLVs of a response in the layout, each with its place in the message:
message, version, community, PDU, request-id, error-status, error-index, varbind list,
varbind, name and value. -/
def response_tlvs (req : snmp_request_t) (error_status error_index : Int)
    (resp_oid : List Nat) (value : Option snmp_value_t) : List tlv_place :=
  [ { pre := [], tag := SNMP_TYPE_SEQUENCE,
      content := msg_bytes_of req error_status error_index resp_oid value, post := [] },
    { pre := tlv_header SNMP_TYPE_SEQUENCE
        (msg_bytes_of req error_status error_index resp_oid value).length,
      tag := SNMP_TYPE_INTEGER, content := int32_content req.version,
      post := tlv_bytes SNMP_TYPE_OCTET_STRING req.community ++
        tlv_bytes SNMP_TYPE_GET_RESPONSE
          (pdu_bytes req error_status error_index resp_oid value) },
    { pre := tlv_header SNMP_TYPE_SEQUENCE
          (msg_bytes_of req error_status error_index resp_oid value).length ++
        tlv_bytes SNMP_TYPE_INTEGER (int32_content req.version),
      tag := SNMP_TYPE_OCTET_STRING, content := req.community,
      post := tlv_bytes SNMP_TYPE_GET_RESPONSE
        (pdu_bytes req error_status error_index resp_oid value) },
    { pre := tlv_header SNMP_TYPE_SEQUENCE
          (msg_bytes_of req error_status error_index resp_oid value).length ++
        tlv_bytes SNMP_TYPE_INTEGER (int32_content req.version) ++
        tlv_bytes SNMP_TYPE_OCTET_STRING req.community,
      tag := SNMP_TYPE_GET_RESPONSE,
      content := pdu_bytes req error_status error_index resp_oid value, post := [] },
    { pre := pdu_start req error_status error_index resp_oid value,
      tag := SNMP_TYPE_INTEGER, content := int32_content req.request_id,
      post := tlv_bytes SNMP_TYPE_INTEGER (int32_content error_status) ++
        (tlv_bytes SNMP_TYPE_INTEGER (int32_content error_index) ++
          tlv_bytes SNMP_TYPE_SEQUENCE
            (tlv_bytes SNMP_TYPE_SEQUENCE
              (varbind_bytes_of error_status resp_oid value))) },
    { pre := pdu_start req error_status error_index resp_oid value ++
        tlv_bytes SNMP_TYPE_INTEGER (int32_content req.request_id),
      tag := SNMP_TYPE_INTEGER, content := int32_content error_status,
      post := tlv_bytes SNMP_TYPE_INTEGER (int32_content error_index) ++
        tlv_bytes SNMP_TYPE_SEQUENCE
          (tlv_bytes SNMP_TYPE_SEQUENCE (varbind_bytes_of error_status resp_oid value)) },
    { pre := pdu_start req error_status error_index resp_oid value ++
        tlv_bytes SNMP_TYPE_INTEGER (int32_content req.request_id) ++
        tlv_bytes SNMP_TYPE_INTEGER (int32_content error_status),
      tag := SNMP_TYPE_INTEGER, content := int32_content error_index,
      post := tlv_bytes SNMP_TYPE_SEQUENCE
        (tlv_bytes SNMP_TYPE_SEQUENCE (varbind_bytes_of error_status resp_oid value)) },
    { pre := varbind_list_start req error_status error_index resp_oid value,
      tag := SNMP_TYPE_SEQUENCE,
      content := tlv_bytes SNMP_TYPE_SEQUENCE (varbind_bytes_of error_status resp_oid value),
      post := [] },
    { pre := varbind_list_start req error_status error_index resp_oid value ++
        tlv_header SNMP_TYPE_SEQUENCE
          (tlv_bytes SNMP_TYPE_SEQUENCE
            (varbind_bytes_of error_status resp_oid value)).length,
      tag := SNMP_TYPE_SEQUENCE, content := varbind_bytes_of error_status resp_oid value,
      post := [] },
    { pre := varbind_list_start req error_status error_index resp_oid value ++
        tlv_header SNMP_TYPE_SEQUENCE
          (tlv_bytes SNMP_TYPE_SEQUENCE
            (varbind_bytes_of error_status resp_oid value)).length ++
        tlv_header SNMP_TYPE_SEQUENCE (varbind_bytes_of error_status resp_oid value).length,
      tag := SNMP_TYPE_OBJECT_ID, content := resp_oid,
      post := value_bytes error_status value },
    { pre := varbind_list_start req error_status error_index resp_oid value ++
        tlv_header SNMP_TYPE_SEQUENCE
          (tlv_bytes SNMP_TYPE_SEQUENCE
            (varbind_bytes_of error_status resp_oid value)).length ++
        tlv_header SNMP_TYPE_SEQUENCE (varbind_bytes_of error_status resp_oid value).length ++
        tlv_bytes SNMP_TYPE_OBJECT_ID resp_oid,
      tag := value_tag error_status value, content := value_content error_status value,
      post := [] } ]

/-! # Lemmas -/

/-! ## Ring buffer lemmas -/

theorem queue_push_full (r : Option uart_engine_request_t) (hb : Bool) (s : Engine)
    (h : UART_ENGINE_QUEUE_SIZE ≤ s.s_q_count) : queue_push r hb s = (false, s) := by
  cases r with
  | none => rfl
  | some r => simp [queue_push, queue_is_full, h]

theorem queue_push_room (r : uart_engine_request_t) (hb : Bool) (s : Engine)
    (h : s.s_q_count < UART_ENGINE_QUEUE_SIZE) :
    queue_push (some r) hb s =
      (true, { s with
         s_queue := s.s_queue.set s.s_q_tail (job_of r hb),
         s_q_tail := (s.s_q_tail + 1) % UART_ENGINE_QUEUE_SIZE,
         s_q_count := s.s_q_count + 1 }) := by
  have h1 : ¬ (UART_ENGINE_QUEUE_SIZE ≤ s.s_q_count) := Nat.not_le.mpr h
  have h2 : (s.s_q_count + 1) % 256 = s.s_q_count + 1 := by
    apply Nat.mod_eq_of_lt
    simp only [UART_ENGINE_QUEUE_SIZE] at h
    omega
  simp [queue_push, queue_is_full, h1, h2, job_of]

theorem queued_push (r : uart_engine_request_t) (hb : Bool) (s : Engine) (hwf : RingWF s)
    (h : s.s_q_count < UART_ENGINE_QUEUE_SIZE) :
    RingWF (queue_push (some r) hb s).2 ∧
      queued (queue_push (some r) hb s).2 = queued s ++ [job_of r hb] := by
  rw [queue_push_room r hb s h]
  obtain ⟨hlen, hhead, hcnt, htail⟩ := hwf
  simp only [UART_ENGINE_QUEUE_SIZE] at hlen hhead hcnt htail h
  refine ⟨?_, ?_⟩
  · simp only [RingWF, UART_ENGINE_QUEUE_SIZE, List.length_set]
    refine ⟨hlen, hhead, by omega, ?_⟩
    rw [htail]; omega
  · simp only [queued, UART_ENGINE_QUEUE_SIZE, List.range_succ, List.map_append, List.map_cons,
      List.map_nil]
    congr 1
    · apply List.map_congr_left
      intro i hi
      have hi2 : i < s.s_q_count := List.mem_range.mp hi
      have hne : s.s_q_tail ≠ (s.s_q_head + i) % 32 := by rw [htail]; omega
      simp [List.getElem?_set_ne hne]
    · have ht : s.s_q_tail < s.s_queue.length := by rw [htail, hlen]; omega
      simp [← htail, List.getElem?_set_self ht]

theorem queue_pop_nonempty (s : Engine) (h : s.s_q_count ≠ 0) :
    queue_pop s =
      (some (s.s_queue.getD s.s_q_head zeroJob),
       { s with
         s_q_head := (s.s_q_head + 1) % UART_ENGINE_QUEUE_SIZE,
         s_q_count := s.s_q_count - 1 }) := by
  simp [queue_pop, h]

theorem queued_pop (s : Engine) (hwf : RingWF s) (h : s.s_q_count ≠ 0) :
    RingWF (queue_pop s).2 ∧
      queued s = s.s_queue.getD s.s_q_head zeroJob :: queued (queue_pop s).2 := by
  obtain ⟨hlen, hhead, hcnt, htail⟩ := hwf
  simp only [UART_ENGINE_QUEUE_SIZE] at hlen hhead hcnt htail
  rw [queue_pop_nonempty s h]
  refine ⟨?_, ?_⟩
  · simp only [RingWF, UART_ENGINE_QUEUE_SIZE]
    refine ⟨hlen, Nat.mod_lt _ (by decide), by omega, ?_⟩
    rw [htail]; omega
  · obtain ⟨n, hn⟩ : ∃ n, s.s_q_count = n + 1 := ⟨s.s_q_count - 1, by omega⟩
    simp only [queued, UART_ENGINE_QUEUE_SIZE, hn, Nat.add_sub_cancel]
    rw [List.range_succ_eq_map]
    simp only [List.map_cons, List.map_map, Nat.add_zero, Nat.mod_eq_of_lt hhead]
    congr 1
    apply List.map_congr_left
    intro i _
    simp only [Function.comp, Nat.succ_eq_add_one]
    congr 1
    omega

/-! ## Closed forms of the small blocks -/

theorem on_job_final_failure_eq (job : uart_engine_job_t) (s : Engine) :
    on_job_final_failure job s =
      if job.is_heartbeat then
        { s with
          s_hb_consecutive_failures :=
            if s.s_hb_consecutive_failures < 255 then s.s_hb_consecutive_failures + 1
            else s.s_hb_consecutive_failures,
          telemetry :=
            if (if s.s_hb_cfg.failure_threshold = 0 then 5 else s.s_hb_cfg.failure_threshold) ≤
                (if s.s_hb_consecutive_failures < 255 then s.s_hb_consecutive_failures + 1
                 else s.s_hb_consecutive_failures) then
              degraded_writes s.telemetry
            else s.telemetry }
      else s := by
  unfold on_job_final_failure
  cases job.is_heartbeat
  · rfl
  · simp only [Bool.not_true, Bool.false_eq_true, if_false, if_true]
    unfold degrade_if_threshold bump_hb_failures
    by_cases hc : s.s_hb_consecutive_failures < 255
    · simp only [hc, if_true, ge_iff_le]
      (repeat' split) <;> rfl
    · simp only [hc, if_false, ge_iff_le]
      (repeat' split) <;> rfl

theorem apply_interjob_cooldown_eq (cfg : Config) (now_ms : Nat) (s : Engine) :
    apply_interjob_cooldown cfg now_ms s =
      { s with s_retry_not_before_ms := (apply_interjob_cooldown cfg now_ms s).s_retry_not_before_ms } := by
  unfold apply_interjob_cooldown set_not_before_ms
  split
  · split <;> rfl
  · rfl

theorem apply_interjob_cooldown_zero (cfg : Config) (now_ms : Nat) (s : Engine)
    (h : cfg.UART_ENGINE_INTERJOB_COOLDOWN_MS = 0) : apply_interjob_cooldown cfg now_ms s = s := by
  simp [apply_interjob_cooldown, h]

theorem job_finish_failure_final (cfg : Config) (now_ms : Nat) (s : Engine)
    (h : s.s_active.retries_left = 0 ∨ UART_ENGINE_QUEUE_SIZE ≤ s.s_q_count) :
    (job_finish_failure cfg now_ms s).telemetry = (on_job_final_failure s.s_active s).telemetry ∧
    (job_finish_failure cfg now_ms s).s_hb_consecutive_failures =
      (on_job_final_failure s.s_active s).s_hb_consecutive_failures := by
  have key : finish_failure_retry now_ms (UART2_Unlock s) =
      clear_flag_if_heartbeat (on_job_final_failure s.s_active (UART2_Unlock s)) ∨
      finish_failure_retry now_ms (UART2_Unlock s) =
      clear_flag_if_heartbeat (on_job_final_failure (dec_retries (UART2_Unlock s)).s_active
        (dec_retries (UART2_Unlock s))) := by
    unfold finish_failure_retry
    by_cases hr : (UART2_Unlock s).s_active.retries_left > 0
    · right
      have hfull : UART_ENGINE_QUEUE_SIZE ≤ (dec_retries (UART2_Unlock s)).s_q_count := by
        rcases h with h | h
        · exact absurd h (Nat.pos_iff_ne_zero.mp hr)
        · exact h
      rw [if_pos hr, queue_push_full _ _ _ hfull]
    · left
      rw [if_neg hr]
      rfl
  unfold job_finish_failure back_to_idle
  rw [apply_interjob_cooldown_eq]
  rcases key with key | key <;> rw [key] <;> simp only [on_job_final_failure_eq] <;>
    cases hhb : s.s_active.is_heartbeat <;>
    simp [active_clear, clear_flag_if_heartbeat, dec_retries, UART2_Unlock, hhb]

/-! ## The ring fields under the blocks of the engine -/

theorem queued_of_ring {s s1 : Engine} (h : ring s1 = ring s) : queued s1 = queued s := by
  simp only [ring, Prod.mk.injEq] at h
  obtain ⟨h1, h2, -, h4⟩ := h
  simp only [queued, h1, h2, h4]

theorem ringWF_of_ring {s s1 : Engine} (h : ring s1 = ring s) (hwf : RingWF s) : RingWF s1 := by
  simp only [ring, Prod.mk.injEq] at h
  obtain ⟨h1, h2, h3, h4⟩ := h
  simpa only [RingWF, h1, h2, h3, h4] using hwf

theorem length_queued (s : Engine) : (queued s).length = s.s_q_count := by
  simp [queued]

theorem ring_unlock (s : Engine) : ring (UART2_Unlock s) = ring s := rfl

theorem ring_active_clear (s : Engine) : ring (active_clear s) = ring s := rfl

theorem ring_dec_retries (s : Engine) : ring (dec_retries s) = ring s := rfl

theorem ring_clear_flag (s : Engine) : ring (clear_flag_if_heartbeat s) = ring s := by
  unfold clear_flag_if_heartbeat; split <;> rfl

theorem ring_on_job_success (j : uart_engine_job_t) (s : Engine) :
    ring (on_job_success j s) = ring s := by
  unfold on_job_success; split <;> rfl

theorem ring_on_job_final_failure (j : uart_engine_job_t) (s : Engine) :
    ring (on_job_final_failure j s) = ring s := by
  rw [on_job_final_failure_eq]; split <;> rfl

theorem ring_apply_interjob_cooldown (cfg : Config) (now_ms : Nat) (s : Engine) :
    ring (apply_interjob_cooldown cfg now_ms s) = ring s := by
  rw [apply_interjob_cooldown_eq]; rfl

theorem ring_back_to_idle (cfg : Config) (now_ms : Nat) (s : Engine) :
    ring (back_to_idle cfg now_ms s) = ring s := by
  unfold back_to_idle
  rw [ring_active_clear, ring_apply_interjob_cooldown]; rfl

/-- What a failed attempt does to the queue: nothing, or the request of the active Job
is pushed again. -/
theorem finish_failure_retry_ring (now_ms : Nat) (s : Engine) :
    (ring (finish_failure_retry now_ms s) = ring s ∧
      (s.s_active.retries_left = 0 ∨ UART_ENGINE_QUEUE_SIZE ≤ s.s_q_count)) ∨
    (0 < s.s_active.retries_left ∧ s.s_q_count < UART_ENGINE_QUEUE_SIZE ∧
      ring (finish_failure_retry now_ms s) =
        ring (queue_push (some s.s_active.req) s.s_active.is_heartbeat s).2) := by
  unfold finish_failure_retry
  by_cases hr : s.s_active.retries_left > 0
  · rw [if_pos hr]
    by_cases hfull : UART_ENGINE_QUEUE_SIZE ≤ s.s_q_count
    · left
      rw [queue_push_full _ _ _ (show UART_ENGINE_QUEUE_SIZE ≤ (dec_retries s).s_q_count from hfull)]
      exact ⟨by rw [ring_clear_flag, ring_on_job_final_failure]; rfl, Or.inr hfull⟩
    · right
      have hroom : s.s_q_count < UART_ENGINE_QUEUE_SIZE := Nat.not_le.mp hfull
      refine ⟨hr, hroom, ?_⟩
      rw [queue_push_room _ _ _ (show (dec_retries s).s_q_count < UART_ENGINE_QUEUE_SIZE from hroom),
        queue_push_room _ _ _ hroom]
      rfl
  · left
    rw [if_neg hr]
    exact ⟨by rw [ring_clear_flag, ring_on_job_final_failure], Or.inl (by omega)⟩

theorem process_failure_retry_ring (now_ms : Nat) (s : Engine) :
    (ring (process_failure_retry now_ms s) = ring s ∧
      (s.s_active.retries_left = 0 ∨ UART_ENGINE_QUEUE_SIZE ≤ s.s_q_count)) ∨
    (0 < s.s_active.retries_left ∧ s.s_q_count < UART_ENGINE_QUEUE_SIZE ∧
      ring (process_failure_retry now_ms s) =
        ring (queue_push (some s.s_active.req) s.s_active.is_heartbeat s).2) := by
  unfold process_failure_retry
  by_cases hr : s.s_active.retries_left > 0
  · rw [if_pos hr]
    by_cases hfull : UART_ENGINE_QUEUE_SIZE ≤ s.s_q_count
    · left
      rw [queue_push_full _ _ _ (show UART_ENGINE_QUEUE_SIZE ≤ (dec_retries s).s_q_count from hfull)]
      exact ⟨by rw [ring_on_job_final_failure]; rfl, Or.inr hfull⟩
    · right
      have hroom : s.s_q_count < UART_ENGINE_QUEUE_SIZE := Nat.not_le.mp hfull
      refine ⟨hr, hroom, ?_⟩
      rw [queue_push_room _ _ _ (show (dec_retries s).s_q_count < UART_ENGINE_QUEUE_SIZE from hroom),
        queue_push_room _ _ _ hroom]
      rfl
  · left
    rw [if_neg hr]
    exact ⟨by rw [ring_on_job_final_failure], Or.inl (by omega)⟩

/-! ## Heartbeat injection, the cooldown gate and the loop -/

theorem gate_arith (now t : Nat) (hlo : 0 ≤ asInt32 (sub32 now t))
    (hhi : asInt32 (sub32 now t) < 25) :
    asInt32 (sub32 (now % U32) (add32 t UART_ENGINE_RETRY_COOLDOWN_MS)) < 0 := by
  unfold asInt32 sub32 add32 U32 UART_ENGINE_RETRY_COOLDOWN_MS at *
  split at hlo <;> split <;> omega

theorem maybe_enqueue_heartbeat_cases (now_ms : Nat) (s : Engine) :
    (maybe_enqueue_heartbeat now_ms s = s ∧
      ¬ (s.s_hb_enabled = true ∧ s.s_hb_queued_or_active = false ∧
          0 ≤ asInt32 (sub32 now_ms s.s_hb_next_due_ms) ∧
          s.s_q_count < UART_ENGINE_QUEUE_SIZE)) ∨
    (s.s_hb_enabled = true ∧ s.s_hb_queued_or_active = false ∧
      0 ≤ asInt32 (sub32 now_ms s.s_hb_next_due_ms) ∧
      s.s_q_count < UART_ENGINE_QUEUE_SIZE ∧
      maybe_enqueue_heartbeat now_ms s =
        { s with
          s_queue := s.s_queue.set s.s_q_tail (job_of s.s_hb_cfg.req true),
          s_q_tail := (s.s_q_tail + 1) % UART_ENGINE_QUEUE_SIZE,
          s_q_count := s.s_q_count + 1,
          s_hb_queued_or_active := true,
          s_hb_next_due_ms :=
            add32 now_ms (if s.s_hb_cfg.interval_ms = 0 then 1000 else s.s_hb_cfg.interval_ms) }) := by
  unfold maybe_enqueue_heartbeat
  by_cases h1 : (!s.s_hb_enabled || s.s_hb_queued_or_active) = true
  · left
    rw [if_pos h1]
    refine ⟨rfl, ?_⟩
    rintro ⟨ha, hb, -, -⟩
    simp [ha, hb] at h1
  · rw [if_neg h1]
    have ha : s.s_hb_enabled = true := by
      cases h : s.s_hb_enabled <;> simp [h] at h1 ⊢
    have hb : s.s_hb_queued_or_active = false := by
      cases h : s.s_hb_queued_or_active <;> simp [h] at h1 ⊢
    by_cases h2 : asInt32 (sub32 now_ms s.s_hb_next_due_ms) < 0
    · left
      rw [if_pos h2]
      refine ⟨rfl, ?_⟩
      rintro ⟨-, -, hc, -⟩
      omega
    · rw [if_neg h2]
      by_cases h3 : s.s_q_count < UART_ENGINE_QUEUE_SIZE
      · right
        refine ⟨ha, hb, by omega, h3, ?_⟩
        rw [queue_push_room _ _ _ h3]
      · left
        rw [queue_push_full _ _ _ (Nat.not_lt.mp h3)]
        exact ⟨rfl, fun h => h3 h.2.2.2⟩

theorem tick_loop_stop (cfg : Config) (ins : Nat → StepInput) (fuel step : Nat) (s s1 : Engine)
    (h : tick_step cfg (ins step) s = (s1, false)) :
    tick_loop cfg ins (fuel + 1) step s = s1 := by
  simp only [tick_loop, h]

theorem tick_loop_go (cfg : Config) (ins : Nat → StepInput) (fuel step : Nat) (s s1 : Engine)
    (h : tick_step cfg (ins step) s = (s1, true)) :
    tick_loop cfg ins (fuel + 1) step s = tick_loop cfg ins fuel (step + 1) s1 := by
  simp only [tick_loop, h]

/-! ## Steps that pop nothing -/

theorem ring_head {s s1 : Engine} (h : ring s1 = ring s) : s1.s_q_head = s.s_q_head := by
  simp only [ring, Prod.mk.injEq] at h
  exact h.2.1

theorem ring_tail {s s1 : Engine} (h : ring s1 = ring s) : s1.s_q_tail = s.s_q_tail := by
  simp only [ring, Prod.mk.injEq] at h
  exact h.2.2.1

theorem noPop_of_ring {s s1 : Engine} (h : ring s1 = ring s) (hwf : RingWF s) : NoPop s s1 :=
  ⟨ringWF_of_ring h hwf, ring_head h, Or.inl ⟨ring_tail h, queued_of_ring h⟩⟩

theorem ring_push_facts {s s1 : Engine} (r : uart_engine_request_t) (hb : Bool)
    (h : ring s1 = ring (queue_push (some r) hb s).2) (hwf : RingWF s)
    (hroom : s.s_q_count < UART_ENGINE_QUEUE_SIZE) :
    RingWF s1 ∧ s1.s_q_head = s.s_q_head ∧ queued s1 = queued s ++ [job_of r hb] ∧
      s1.s_q_tail = (s.s_q_tail + 1) % UART_ENGINE_QUEUE_SIZE := by
  obtain ⟨h1, h2⟩ := queued_push r hb s hwf hroom
  refine ⟨ringWF_of_ring h h1, ?_, by rw [queued_of_ring h, h2], ?_⟩
  · rw [ring_head h, queue_push_room r hb s hroom]
  · rw [ring_tail h, queue_push_room r hb s hroom]

theorem back_to_idle_state (cfg : Config) (now_ms : Nat) (s : Engine) :
    (back_to_idle cfg now_ms s).s_state = uart_engine_state_t.IDLE := by
  unfold back_to_idle
  rw [apply_interjob_cooldown_eq]
  rfl

theorem job_finish_failure_noPop (cfg : Config) (now_ms : Nat) (s : Engine) (hwf : RingWF s) :
    NoPop s (job_finish_failure cfg now_ms s) := by
  unfold job_finish_failure
  rcases finish_failure_retry_ring now_ms (UART2_Unlock s) with ⟨h, -⟩ | ⟨-, hroom, h⟩
  · exact noPop_of_ring (by rw [ring_back_to_idle, h, ring_unlock]) hwf
  · have h2 : ring (back_to_idle cfg now_ms (finish_failure_retry now_ms (UART2_Unlock s))) =
        ring (queue_push (some s.s_active.req) s.s_active.is_heartbeat s).2 := by
      rw [ring_back_to_idle, h]
      rw [queue_push_room _ _ _ hroom,
        queue_push_room _ _ _ (show s.s_q_count < UART_ENGINE_QUEUE_SIZE from hroom)]
      rfl
    obtain ⟨a, b, c, d⟩ := ring_push_facts _ _ h2 hwf hroom
    exact ⟨a, b, Or.inr ⟨d, back_to_idle_state _ _ _, c⟩⟩

theorem process_outcome_noPop (cfg : Config) (now_ms : Nat) (ok : Bool) (s : Engine)
    (hwf : RingWF s) : NoPop s (process_outcome cfg now_ms ok s) := by
  unfold process_outcome
  cases ok
  · simp only [Bool.false_eq_true, if_false]
    have hcl : ring (clear_flag_if_heartbeat s) = ring s := ring_clear_flag s
    have hact : (clear_flag_if_heartbeat s).s_active = s.s_active := by
      unfold clear_flag_if_heartbeat; split <;> rfl
    have hcnt : (clear_flag_if_heartbeat s).s_q_count = s.s_q_count := by
      unfold clear_flag_if_heartbeat; split <;> rfl
    rcases process_failure_retry_ring now_ms (clear_flag_if_heartbeat s) with ⟨h, -⟩ | ⟨-, hroom, h⟩
    · exact noPop_of_ring (by rw [ring_back_to_idle, h, hcl]) hwf
    · rw [hcnt] at hroom
      have h2 : ring (back_to_idle cfg now_ms
            (process_failure_retry now_ms (clear_flag_if_heartbeat s))) =
          ring (queue_push (some s.s_active.req) s.s_active.is_heartbeat s).2 := by
        rw [ring_back_to_idle, h, hact]
        rw [queue_push_room _ _ _ hroom,
          queue_push_room _ _ _ (show (clear_flag_if_heartbeat s).s_q_count <
            UART_ENGINE_QUEUE_SIZE from hcnt ▸ hroom)]
        simp only [ring]
        simp only [ring, Prod.mk.injEq] at hcl
        simp only [hcl.1, hcl.2.1, hcl.2.2.1, hcl.2.2.2]
      obtain ⟨a, b, c, d⟩ := ring_push_facts _ _ h2 hwf hroom
      exact ⟨a, b, Or.inr ⟨d, back_to_idle_state _ _ _, c⟩⟩
  · simp only [if_true]
    exact noPop_of_ring
      (by rw [ring_back_to_idle, ring_clear_flag, ring_on_job_success]) hwf

theorem noPop_transfer {s s0 s1 : Engine} (hr : ring s0 = ring s) (ha : s0.s_active = s.s_active)
    (h : NoPop s0 s1) : NoPop s s1 := by
  obtain ⟨a, b, c⟩ := h
  refine ⟨a, by rw [b, ring_head hr], ?_⟩
  rw [queued_of_ring hr, ha, ring_tail hr] at c
  exact c

theorem ringWF_of_noPop_src {s s0 : Engine} (hr : ring s0 = ring s) (hwf : RingWF s) :
    RingWF s0 := ringWF_of_ring hr hwf

theorem job_start_tx_noPop (cfg : Config) (inp : StepInput) (now_ms : Nat) (s : Engine)
    (hwf : RingWF s) : NoPop s (job_start_tx cfg inp now_ms s) := by
  unfold job_start_tx
  simp only []
  split
  · exact @noPop_transfer s { s with s_tx_buf := _ } _ rfl rfl
      (job_finish_failure_noPop cfg now_ms _ (@ringWF_of_ring s _ rfl hwf))
  · split
    · exact @noPop_transfer s { s with s_tx_buf := _ } _ rfl rfl
        (job_finish_failure_noPop cfg now_ms _ (@ringWF_of_ring s _ rfl hwf))
    · exact noPop_of_ring rfl hwf

theorem tick_tx_wait_noPop (cfg : Config) (inp : StepInput) (now_ms : Nat) (s : Engine)
    (hwf : RingWF s) : NoPop s (tick_tx_wait cfg inp now_ms s).1 := by
  unfold tick_tx_wait
  split
  · exact noPop_of_ring rfl hwf
  · split
    · exact job_finish_failure_noPop cfg now_ms s hwf
    · exact noPop_of_ring rfl hwf

theorem rx_read_frame (inp : StepInput) (rx_cap : Nat) (s : Engine) :
    ring (rx_read inp rx_cap s).1 = ring s ∧ (rx_read inp rx_cap s).1.s_active = s.s_active := by
  unfold rx_read
  split
  · simp only []
    split <;> exact ⟨rfl, rfl⟩
  · exact ⟨rfl, rfl⟩

theorem rx_decide_noPop (cfg : Config) (now_ms rx_cap : Nat) (p : Bool) (s : Engine)
    (hwf : RingWF s) : NoPop s (rx_decide cfg now_ms rx_cap p s).1 := by
  unfold rx_decide
  repeat' split
  all_goals first
    | exact noPop_of_ring rfl hwf
    | exact job_finish_failure_noPop cfg now_ms s hwf

theorem tick_rx_wait_noPop (cfg : Config) (inp : StepInput) (now_ms : Nat) (s : Engine)
    (hwf : RingWF s) : NoPop s (tick_rx_wait cfg inp now_ms s).1 := by
  unfold tick_rx_wait
  split
  · exact noPop_of_ring rfl hwf
  · obtain ⟨hr, ha⟩ := rx_read_frame inp (request_rx_cap s.s_active.req) s
    exact noPop_transfer hr ha (rx_decide_noPop cfg now_ms _ _ _ (ringWF_of_ring hr hwf))

theorem tick_process_noPop (cfg : Config) (inp : StepInput) (now_ms : Nat) (s : Engine)
    (hwf : RingWF s) : NoPop s (tick_process cfg inp now_ms s) := by
  unfold tick_process
  exact @noPop_transfer s (UART2_Unlock { s with telemetry := (call_process_fn inp s).2 }) _ rfl
    rfl (process_outcome_noPop cfg now_ms _ _ (@ringWF_of_ring s _ rfl hwf))

theorem tick_idle_pop (now_ms : Nat) (s : Engine) (hc : s.s_q_count ≠ 0)
    (hl : s.uart_lock_held = false) :
    tick_idle now_ms s =
      (start_job now_ms (s.s_queue.getD s.s_q_head zeroJob)
        { s with
          uart_lock_held := true,
          s_q_head := (s.s_q_head + 1) % UART_ENGINE_QUEUE_SIZE,
          s_q_count := s.s_q_count - 1 }, true) := by
  unfold tick_idle UART2_TryLock
  rw [if_neg hc, hl]
  have hc2 : ({ s with uart_lock_held := true } : Engine).s_q_count ≠ 0 := hc
  simp only [Bool.false_eq_true, if_false, queue_pop_nonempty _ hc2]

theorem tick_idle_stay (now_ms : Nat) (s : Engine)
    (h : s.s_q_count = 0 ∨ s.uart_lock_held = true) : tick_idle now_ms s = (s, false) := by
  unfold tick_idle UART2_TryLock
  by_cases hc : s.s_q_count = 0
  · rw [if_pos hc]
  · rw [if_neg hc]
    have hl : s.uart_lock_held = true := by
      rcases h with h | h
      · exact absurd h hc
      · exact h
    rw [hl]
    rfl

/-- The `IDLE` case: nothing happens, or the head of the queue becomes the active Job. -/
theorem tick_idle_cases (now_ms : Nat) (s : Engine) (hwf : RingWF s) :
    (tick_idle now_ms s = (s, false) ∧ (s.s_q_count = 0 ∨ s.uart_lock_held = true)) ∨
    (s.s_q_count ≠ 0 ∧ s.uart_lock_held = false ∧
      (tick_idle now_ms s).2 = true ∧
      RingWF (tick_idle now_ms s).1 ∧
      (tick_idle now_ms s).1.s_state = uart_engine_state_t.TX_START ∧
      (tick_idle now_ms s).1.uart_lock_held = true ∧
      queued s = (tick_idle now_ms s).1.s_active :: queued (tick_idle now_ms s).1 ∧
      (tick_idle now_ms s).1.s_q_tail = s.s_q_tail ∧
      (tick_idle now_ms s).1.s_q_head = (s.s_q_head + 1) % UART_ENGINE_QUEUE_SIZE) := by
  by_cases h : s.s_q_count = 0 ∨ s.uart_lock_held = true
  · left
    exact ⟨tick_idle_stay now_ms s h, h⟩
  · right
    have hc : s.s_q_count ≠ 0 := fun hc => h (Or.inl hc)
    have hl : s.uart_lock_held = false := by
      cases hl : s.uart_lock_held
      · rfl
      · exact absurd (Or.inr hl) h
    obtain ⟨hw, hq⟩ := queued_pop s hwf hc
    rw [queue_pop_nonempty s hc] at hw hq
    rw [tick_idle_pop now_ms s hc hl]
    exact ⟨hc, hl, rfl, ringWF_of_ring (by rfl) hw, rfl, rfl, by rw [hq]; rfl, rfl, rfl⟩

theorem process_outcome_final (cfg : Config) (now_ms : Nat) (s : Engine)
    (h : s.s_active.retries_left = 0 ∨ UART_ENGINE_QUEUE_SIZE ≤ s.s_q_count) :
    (process_outcome cfg now_ms false s).telemetry =
      (on_job_final_failure s.s_active s).telemetry ∧
    (process_outcome cfg now_ms false s).s_hb_consecutive_failures =
      (on_job_final_failure s.s_active s).s_hb_consecutive_failures := by
  have key : process_failure_retry now_ms (clear_flag_if_heartbeat s) =
      on_job_final_failure s.s_active (clear_flag_if_heartbeat s) ∨
      process_failure_retry now_ms (clear_flag_if_heartbeat s) =
      on_job_final_failure (dec_retries (clear_flag_if_heartbeat s)).s_active
        (dec_retries (clear_flag_if_heartbeat s)) := by
    have hact : (clear_flag_if_heartbeat s).s_active = s.s_active := by
      unfold clear_flag_if_heartbeat; split <;> rfl
    have hcnt : (clear_flag_if_heartbeat s).s_q_count = s.s_q_count := by
      unfold clear_flag_if_heartbeat; split <;> rfl
    unfold process_failure_retry
    by_cases hr : (clear_flag_if_heartbeat s).s_active.retries_left > 0
    · right
      have hfull : UART_ENGINE_QUEUE_SIZE ≤ (dec_retries (clear_flag_if_heartbeat s)).s_q_count := by
        rcases h with h | h
        · rw [hact] at hr
          exact absurd h (Nat.pos_iff_ne_zero.mp hr)
        · exact hcnt ▸ h
      rw [if_pos hr, queue_push_full _ _ _ hfull]
    · left
      rw [if_neg hr, hact]
  unfold process_outcome back_to_idle
  simp only [Bool.false_eq_true, if_false]
  rw [apply_interjob_cooldown_eq]
  rcases key with key | key <;> rw [key] <;> simp only [on_job_final_failure_eq] <;>
    cases hhb : s.s_active.is_heartbeat <;>
    simp [active_clear, clear_flag_if_heartbeat, dec_retries, hhb]


theorem maybe_enqueue_heartbeat_frame (now_ms : Nat) (s : Engine) :
    (maybe_enqueue_heartbeat now_ms s).s_state = s.s_state ∧
    (maybe_enqueue_heartbeat now_ms s).uart_lock_held = s.uart_lock_held ∧
    (maybe_enqueue_heartbeat now_ms s).s_active = s.s_active ∧
    (maybe_enqueue_heartbeat now_ms s).s_q_head = s.s_q_head ∧
    (maybe_enqueue_heartbeat now_ms s).s_retry_not_before_ms = s.s_retry_not_before_ms ∧
    (maybe_enqueue_heartbeat now_ms s).telemetry = s.telemetry ∧
    (maybe_enqueue_heartbeat now_ms s).s_enabled = s.s_enabled := by
  rcases maybe_enqueue_heartbeat_cases now_ms s with ⟨h, -⟩ | ⟨-, -, -, -, h⟩
  · rw [h]; exact ⟨rfl, rfl, rfl, rfl, rfl, rfl, rfl⟩
  · rw [h]; exact ⟨rfl, rfl, rfl, rfl, rfl, rfl, rfl⟩

theorem maybe_enqueue_heartbeat_queued (now_ms : Nat) (s : Engine) (hwf : RingWF s) :
    RingWF (maybe_enqueue_heartbeat now_ms s) ∧
    (maybe_enqueue_heartbeat now_ms s = s ∨
      queued (maybe_enqueue_heartbeat now_ms s) = queued s ++ [job_of s.s_hb_cfg.req true]) := by
  rcases maybe_enqueue_heartbeat_cases now_ms s with ⟨h, -⟩ | ⟨-, -, -, hroom, h⟩
  · rw [h]; exact ⟨hwf, Or.inl rfl⟩
  · have hr : ring (maybe_enqueue_heartbeat now_ms s) =
        ring (queue_push (some s.s_hb_cfg.req) true s).2 := by
      rw [h, queue_push_room _ _ _ hroom]; rfl
    obtain ⟨a, -, c, -⟩ := ring_push_facts _ _ hr hwf hroom
    exact ⟨a, Or.inr c⟩

theorem retry_schedules_cooldown (cfg : Config) (t : Nat) (s : Engine)
    (hcfg : cfg.UART_ENGINE_INTERJOB_COOLDOWN_MS = 0)
    (hretry : 0 < s.s_active.retries_left) (hroom : s.s_q_count < UART_ENGINE_QUEUE_SIZE) :
    (job_finish_failure cfg t s).s_retry_not_before_ms =
      add32 t UART_ENGINE_RETRY_COOLDOWN_MS ∧
    (process_outcome cfg t false s).s_retry_not_before_ms =
      add32 t UART_ENGINE_RETRY_COOLDOWN_MS := by
  constructor
  · unfold job_finish_failure back_to_idle finish_failure_retry
    rw [apply_interjob_cooldown_zero _ _ _ hcfg,
      if_pos (show (UART2_Unlock s).s_active.retries_left > 0 from hretry),
      queue_push_room _ _ _
        (show (dec_retries (UART2_Unlock s)).s_q_count < UART_ENGINE_QUEUE_SIZE from hroom)]
    rfl
  · have hact : (clear_flag_if_heartbeat s).s_active = s.s_active := by
      unfold clear_flag_if_heartbeat; split <;> rfl
    have hcnt : (clear_flag_if_heartbeat s).s_q_count = s.s_q_count := by
      unfold clear_flag_if_heartbeat; split <;> rfl
    unfold process_outcome back_to_idle process_failure_retry
    simp only [Bool.false_eq_true, if_false]
    rw [apply_interjob_cooldown_zero _ _ _ hcfg,
      if_pos (show (clear_flag_if_heartbeat s).s_active.retries_left > 0 from hact ▸ hretry),
      queue_push_room _ _ _
        (show (dec_retries (clear_flag_if_heartbeat s)).s_q_count < UART_ENGINE_QUEUE_SIZE
          from hcnt ▸ hroom)]
    rfl


/-- The four outcomes of `uart_engine_enqueue`. -/
theorem enqueue_cases (cfg : Config) (req : Option uart_engine_request_t) (s : Engine)
    (hwf : RingWF s) :
    (s.s_enabled = false →
      uart_engine_enqueue cfg req s = (uart_engine_result_t.ERR_DISABLED, s)) ∧
    (s.s_enabled = true → request_is_valid cfg req = false →
      uart_engine_enqueue cfg req s = (uart_engine_result_t.ERR_BAD_PARAM, s)) ∧
    (s.s_enabled = true → request_is_valid cfg req = true →
      UART_ENGINE_QUEUE_SIZE ≤ s.s_q_count →
      uart_engine_enqueue cfg req s = (uart_engine_result_t.ERR_QUEUE_FULL, s)) ∧
    (s.s_enabled = true → request_is_valid cfg req = true →
      s.s_q_count < UART_ENGINE_QUEUE_SIZE →
      ∃ r, req = some r ∧
        (uart_engine_enqueue cfg req s).1 = uart_engine_result_t.OK ∧
        queued (uart_engine_enqueue cfg req s).2 = queued s ++ [job_of r false] ∧
        RingWF (uart_engine_enqueue cfg req s).2 ∧
        (uart_engine_enqueue cfg req s).2 =
          { s with
            s_queue := (uart_engine_enqueue cfg req s).2.s_queue,
            s_q_tail := (uart_engine_enqueue cfg req s).2.s_q_tail,
            s_q_count := (uart_engine_enqueue cfg req s).2.s_q_count }) := by
  refine ⟨?_, ?_, ?_, ?_⟩
  · intro hen
    simp [uart_engine_enqueue, hen]
  · intro hen hv
    simp [uart_engine_enqueue, hen, hv]
  · intro hen hv hfull
    simp [uart_engine_enqueue, hen, hv, queue_push_full req false s hfull]
  · intro hen hv hroom
    cases req with
    | none => simp [request_is_valid] at hv
    | some r =>
      obtain ⟨h1, h2⟩ := queued_push r false s hwf hroom
      refine ⟨r, rfl, ?_, ?_, ?_, ?_⟩
      · simp [uart_engine_enqueue, hen, hv, queue_push_room r false s hroom]
      · simpa [uart_engine_enqueue, hen, hv, queue_push_room r false s hroom] using h2
      · simpa [uart_engine_enqueue, hen, hv, queue_push_room r false s hroom] using h1
      · simp [uart_engine_enqueue, hen, hv, queue_push_room r false s hroom]

/-- The gate and the `switch` on a well-formed ring: a Job is popped, from `IDLE` only and
from the head of the queue, or nothing is popped. -/
theorem tick_dispatch_fifo (cfg : Config) (inp : StepInput) (now_ms : Nat) (s : Engine)
    (hwf : RingWF s) :
    (s.s_state = uart_engine_state_t.IDLE ∧
      RingWF (tick_dispatch cfg inp now_ms s).1 ∧
      (tick_dispatch cfg inp now_ms s).1.s_state = uart_engine_state_t.TX_START ∧
      queued s =
        (tick_dispatch cfg inp now_ms s).1.s_active :: queued (tick_dispatch cfg inp now_ms s).1 ∧
      (tick_dispatch cfg inp now_ms s).1.s_q_tail = s.s_q_tail ∧
      (tick_dispatch cfg inp now_ms s).1.s_q_head = (s.s_q_head + 1) % UART_ENGINE_QUEUE_SIZE) ∨
    (NoPop s (tick_dispatch cfg inp now_ms s).1 ∧
      ((tick_dispatch cfg inp now_ms s).1.s_q_tail = s.s_q_tail ∨
        s.s_state ≠ uart_engine_state_t.IDLE)) := by
  unfold tick_dispatch
  split
  · exact Or.inr ⟨noPop_of_ring rfl hwf, Or.inl rfl⟩
  · split
    next hst =>
      rcases tick_idle_cases now_ms s hwf with ⟨h, -⟩ | ⟨-, -, -, h1, h2, -, h3, h4, h5⟩
      · rw [h]
        exact Or.inr ⟨noPop_of_ring rfl hwf, Or.inl rfl⟩
      · exact Or.inl ⟨hst, h1, h2, h3, h4, h5⟩
    next hst =>
      exact Or.inr ⟨job_start_tx_noPop cfg inp now_ms s hwf, Or.inr (by rw [hst]; decide)⟩
    next hst =>
      exact Or.inr ⟨tick_tx_wait_noPop cfg inp now_ms s hwf, Or.inr (by rw [hst]; decide)⟩
    next hst =>
      exact Or.inr ⟨tick_rx_wait_noPop cfg inp now_ms s hwf, Or.inr (by rw [hst]; decide)⟩
    next hst =>
      exact Or.inr ⟨tick_process_noPop cfg inp now_ms s hwf, Or.inr (by rw [hst]; decide)⟩

theorem succ_mod_ne (a : Nat) : (a + 1) % UART_ENGINE_QUEUE_SIZE ≠ a % UART_ENGINE_QUEUE_SIZE := by
  unfold UART_ENGINE_QUEUE_SIZE
  omega

/-- One pass of the tick loop on a well-formed ring, in terms of the queue read oldest
first.  `s0` is the state after the heartbeat injection. -/
theorem tick_step_fifo (cfg : Config) (inp : StepInput) (s : Engine) (hwf : RingWF s) :
    (RingWF (maybe_enqueue_heartbeat (engine_now_ms inp) s) ∧
      (((maybe_enqueue_heartbeat (engine_now_ms inp) s).s_q_tail = s.s_q_tail ∧
          queued (maybe_enqueue_heartbeat (engine_now_ms inp) s) = queued s) ∨
        ((maybe_enqueue_heartbeat (engine_now_ms inp) s).s_q_tail ≠ s.s_q_tail ∧
          queued (maybe_enqueue_heartbeat (engine_now_ms inp) s) =
            queued s ++ [job_of s.s_hb_cfg.req true]))) ∧
    (RingWF (tick_step cfg inp s).1 ∧
      ((s.s_state = uart_engine_state_t.IDLE ∧
          (tick_step cfg inp s).1.s_state = uart_engine_state_t.TX_START ∧
          (tick_step cfg inp s).1.s_q_head ≠ s.s_q_head ∧
          (tick_step cfg inp s).1.s_q_tail =
            (maybe_enqueue_heartbeat (engine_now_ms inp) s).s_q_tail ∧
          queued (maybe_enqueue_heartbeat (engine_now_ms inp) s) =
            (tick_step cfg inp s).1.s_active :: queued (tick_step cfg inp s).1) ∨
        ((tick_step cfg inp s).1.s_q_head = s.s_q_head ∧
          (((tick_step cfg inp s).1.s_q_tail =
                (maybe_enqueue_heartbeat (engine_now_ms inp) s).s_q_tail ∧
              queued (tick_step cfg inp s).1 =
                queued (maybe_enqueue_heartbeat (engine_now_ms inp) s)) ∨
            ((tick_step cfg inp s).1.s_q_tail ≠
                (maybe_enqueue_heartbeat (engine_now_ms inp) s).s_q_tail ∧
              s.s_state ≠ uart_engine_state_t.IDLE ∧
              (tick_step cfg inp s).1.s_state = uart_engine_state_t.IDLE ∧
              queued (tick_step cfg inp s).1 =
                queued (maybe_enqueue_heartbeat (engine_now_ms inp) s) ++
                  [job_of s.s_active.req s.s_active.is_heartbeat]))))) := by
  obtain ⟨f1, -, f3, f4, -, -, -⟩ := maybe_enqueue_heartbeat_frame (engine_now_ms inp) s
  have hw0 : RingWF (maybe_enqueue_heartbeat (engine_now_ms inp) s) :=
    (maybe_enqueue_heartbeat_queued (engine_now_ms inp) s hwf).1
  have htl : ∀ x : Engine, RingWF x → x.s_q_tail < UART_ENGINE_QUEUE_SIZE := by
    intro x hx
    rw [hx.2.2.2]
    exact Nat.mod_lt _ (by decide)
  refine ⟨⟨hw0, ?_⟩, ?_⟩
  · rcases maybe_enqueue_heartbeat_cases (engine_now_ms inp) s with ⟨h, -⟩ | ⟨-, -, -, hroom, h⟩
    · left
      rw [h]
      exact ⟨rfl, rfl⟩
    · right
      have hr : ring (maybe_enqueue_heartbeat (engine_now_ms inp) s) =
          ring (queue_push (some s.s_hb_cfg.req) true s).2 := by
        rw [h, queue_push_room _ _ _ hroom]; rfl
      obtain ⟨-, -, c, d⟩ := ring_push_facts _ _ hr hwf hroom
      refine ⟨?_, c⟩
      rw [d]
      have := succ_mod_ne s.s_q_tail
      rwa [Nat.mod_eq_of_lt (htl s hwf)] at this
  · unfold tick_step
    rcases tick_dispatch_fifo cfg inp (engine_now_ms inp)
        (maybe_enqueue_heartbeat (engine_now_ms inp) s) hw0 with
      ⟨h1, h2, h3, h4, h5, h6⟩ | ⟨⟨h1, h2, h3⟩, h4⟩
    · refine ⟨h2, Or.inl ⟨f1 ▸ h1, h3, ?_, h5, h4⟩⟩
      rw [h6, f4]
      have := succ_mod_ne s.s_q_head
      rwa [Nat.mod_eq_of_lt hwf.2.1] at this
    · refine ⟨h1, Or.inr ⟨by rw [h2, f4], ?_⟩⟩
      have hne := succ_mod_ne (maybe_enqueue_heartbeat (engine_now_ms inp) s).s_q_tail
      rw [Nat.mod_eq_of_lt (htl _ hw0)] at hne
      rcases h3 with h3 | ⟨h3, h5, h6⟩
      · exact Or.inl h3
      · rcases h4 with h4 | h4
        · exact absurd (h3.symm.trans h4) hne
        · exact Or.inr ⟨by rw [h3]; exact hne, f1 ▸ h4, h5, by rw [h6, f3]⟩

/-! ## The mutex and the state -/

theorem lock_finish_failure_retry (now_ms : Nat) (s : Engine) :
    (finish_failure_retry now_ms s).uart_lock_held = s.uart_lock_held := by
  unfold finish_failure_retry
  split
  · by_cases hfull : UART_ENGINE_QUEUE_SIZE ≤ (dec_retries s).s_q_count
    · rw [queue_push_full _ _ _ hfull]
      simp only [on_job_final_failure_eq, clear_flag_if_heartbeat]
      (repeat' split) <;> rfl
    · rw [queue_push_room _ _ _ (Nat.not_le.mp hfull)]
      rfl
  · simp only [on_job_final_failure_eq, clear_flag_if_heartbeat]
    (repeat' split) <;> rfl

theorem lock_process_failure_retry (now_ms : Nat) (s : Engine) :
    (process_failure_retry now_ms s).uart_lock_held = s.uart_lock_held := by
  unfold process_failure_retry
  split
  · by_cases hfull : UART_ENGINE_QUEUE_SIZE ≤ (dec_retries s).s_q_count
    · rw [queue_push_full _ _ _ hfull]
      simp only [on_job_final_failure_eq]
      (repeat' split) <;> rfl
    · rw [queue_push_room _ _ _ (Nat.not_le.mp hfull)]
      rfl
  · simp only [on_job_final_failure_eq]
    (repeat' split) <;> rfl

theorem lock_back_to_idle (cfg : Config) (now_ms : Nat) (s : Engine) :
    (back_to_idle cfg now_ms s).uart_lock_held = s.uart_lock_held := by
  unfold back_to_idle
  rw [apply_interjob_cooldown_eq]
  rfl

theorem job_finish_failure_idle (cfg : Config) (now_ms : Nat) (s : Engine) :
    (job_finish_failure cfg now_ms s).s_state = uart_engine_state_t.IDLE ∧
    (job_finish_failure cfg now_ms s).uart_lock_held = false := by
  unfold job_finish_failure
  exact ⟨back_to_idle_state _ _ _, by rw [lock_back_to_idle, lock_finish_failure_retry]; rfl⟩

theorem tick_process_idle (cfg : Config) (inp : StepInput) (now_ms : Nat) (s : Engine) :
    (tick_process cfg inp now_ms s).s_state = uart_engine_state_t.IDLE ∧
    (tick_process cfg inp now_ms s).uart_lock_held = false := by
  unfold tick_process process_outcome
  split
  · refine ⟨back_to_idle_state _ _ _, ?_⟩
    rw [lock_back_to_idle]
    unfold clear_flag_if_heartbeat on_job_success
    (repeat' split) <;> rfl
  · refine ⟨back_to_idle_state _ _ _, ?_⟩
    rw [lock_back_to_idle, lock_process_failure_retry]
    unfold clear_flag_if_heartbeat
    split <;> rfl

theorem lockInv_of_idle {s : Engine} (h : s.s_state = uart_engine_state_t.IDLE ∧
    s.uart_lock_held = false) : LockInv s := by
  unfold LockInv
  rw [h.1, h.2]
  simp

theorem lockInv_of_same {s s1 : Engine} (h1 : s1.s_state = s.s_state)
    (h2 : s1.uart_lock_held = s.uart_lock_held) (h : LockInv s) : LockInv s1 := by
  unfold LockInv at *
  rw [h1, h2]
  exact h

theorem lockInv_active {s s1 : Engine} (h : LockInv s) (hs : s.s_state ≠ uart_engine_state_t.IDLE)
    (h1 : s1.s_state ≠ uart_engine_state_t.IDLE)
    (h2 : s1.uart_lock_held = s.uart_lock_held) : LockInv s1 := by
  unfold LockInv at *
  rw [h2]
  exact ⟨fun _ => h1, fun _ => h.mpr hs⟩

theorem rx_read_lockstate (inp : StepInput) (rx_cap : Nat) (s : Engine) :
    (rx_read inp rx_cap s).1.s_state = s.s_state ∧
    (rx_read inp rx_cap s).1.uart_lock_held = s.uart_lock_held := by
  unfold rx_read
  split
  · simp only []
    split <;> exact ⟨rfl, rfl⟩
  · exact ⟨rfl, rfl⟩

theorem tick_dispatch_lockInv (cfg : Config) (inp : StepInput) (now_ms : Nat) (s : Engine)
    (h : LockInv s) : LockInv (tick_dispatch cfg inp now_ms s).1 := by
  unfold tick_dispatch
  split
  · exact h
  · split
    next hst =>
      by_cases hc : s.s_q_count = 0 ∨ s.uart_lock_held = true
      · rw [tick_idle_stay now_ms s hc]
        exact h
      · have hc1 : s.s_q_count ≠ 0 := fun e => hc (Or.inl e)
        have hl : s.uart_lock_held = false := by
          cases hl : s.uart_lock_held
          · rfl
          · exact absurd (Or.inr hl) hc
        rw [tick_idle_pop now_ms s hc1 hl]
        unfold LockInv start_job
        simp
    next hst =>
      have hne : s.s_state ≠ uart_engine_state_t.IDLE := by rw [hst]; decide
      unfold job_start_tx
      simp only []
      split
      · exact lockInv_of_idle (job_finish_failure_idle _ _ _)
      · split
        · exact lockInv_of_idle (job_finish_failure_idle _ _ _)
        · exact lockInv_active h hne (by simp) rfl
    next hst =>
      have hne : s.s_state ≠ uart_engine_state_t.IDLE := by rw [hst]; decide
      unfold tick_tx_wait
      split
      · exact lockInv_active h hne (by simp) rfl
      · split
        · exact lockInv_of_idle (job_finish_failure_idle _ _ _)
        · exact h
    next hst =>
      have hne : s.s_state ≠ uart_engine_state_t.IDLE := by rw [hst]; decide
      unfold tick_rx_wait
      split
      · exact lockInv_active h hne (by simp) rfl
      · obtain ⟨r1, r2⟩ := rx_read_lockstate inp (request_rx_cap s.s_active.req) s
        have h0 : LockInv (rx_read inp (request_rx_cap s.s_active.req) s).1 :=
          lockInv_of_same r1 r2 h
        have hne0 : (rx_read inp (request_rx_cap s.s_active.req) s).1.s_state ≠
            uart_engine_state_t.IDLE := by rw [r1]; exact hne
        unfold rx_decide
        repeat' split
        all_goals first
          | exact lockInv_of_idle (job_finish_failure_idle _ _ _)
          | exact h0
          | exact lockInv_active h0 hne0 (by simp) rfl
    next hst =>
      exact lockInv_of_idle (tick_process_idle _ _ _ _)

theorem tick_step_lockInv (cfg : Config) (inp : StepInput) (s : Engine) (h : LockInv s) :
    LockInv (tick_step cfg inp s).1 := by
  unfold tick_step
  obtain ⟨f1, f2, -⟩ := maybe_enqueue_heartbeat_frame (engine_now_ms inp) s
  exact tick_dispatch_lockInv cfg inp _ _ (lockInv_of_same f1 f2 h)

theorem tick_loop_lockInv (cfg : Config) (ins : Nat → StepInput) (fuel step : Nat) (s : Engine)
    (h : LockInv s) : LockInv (tick_loop cfg ins fuel step s) := by
  induction fuel generalizing step s with
  | zero => exact h
  | succ n ih =>
    have hs := tick_step_lockInv cfg (ins step) s h
    unfold tick_loop
    rcases hr : tick_step cfg (ins step) s with ⟨s1, b⟩
    rw [hr] at hs
    cases b
    · exact hs
    · exact ih (step + 1) s1 hs

/-- Every public operation other than `uart_engine_init` keeps the mutex held exactly
while a Job is active, and so does `uart_engine_init` when no Job is active. -/
theorem lockInv_operations (cfg : Config) (ins : Nat → StepInput) (now_ms : Nat) (b : Bool)
    (req : Option uart_engine_request_t) (hb : Option uart_engine_heartbeat_cfg_t)
    (s : Engine) (h : LockInv s) :
    LockInv (uart_engine_tick cfg ins s) ∧
    LockInv (uart_engine_set_enabled b s) ∧
    LockInv (uart_engine_enqueue cfg req s).2 ∧
    LockInv (uart_engine_set_heartbeat cfg now_ms hb s) ∧
    (s.s_state = uart_engine_state_t.IDLE → LockInv (uart_engine_init s)) ∧
    LockInv (boot s.telemetry) := by
  refine ⟨?_, ?_, ?_, ?_, ?_, ?_⟩
  · unfold uart_engine_tick
    split
    · exact h
    · exact tick_loop_lockInv cfg ins _ _ s h
  · unfold uart_engine_set_enabled
    split
    · exact h
    · simp only []
      split
      · exact lockInv_of_idle ⟨rfl, rfl⟩
      · exact lockInv_of_same rfl rfl h
  · unfold uart_engine_enqueue
    split
    · exact h
    · split
      · exact h
      · cases req with
        | none => exact h
        | some r =>
          by_cases hfull : UART_ENGINE_QUEUE_SIZE ≤ s.s_q_count
          · rw [queue_push_full _ _ _ hfull]; exact h
          · rw [queue_push_room _ _ _ (Nat.not_le.mp hfull)]
            exact lockInv_of_same rfl rfl h
  · unfold uart_engine_set_heartbeat
    split
    · exact h
    · cases hb with
      | none => exact lockInv_of_same rfl rfl h
      | some c =>
        simp only []
        split
        · exact lockInv_of_same rfl rfl h
        · split <;> exact lockInv_of_same rfl rfl h
  · intro hidle
    have hl : s.uart_lock_held = false := by
      cases hl : s.uart_lock_held
      · rfl
      · exact absurd hidle (h.mp hl)
    exact lockInv_of_idle ⟨rfl, hl⟩
  · exact lockInv_of_idle ⟨rfl, rfl⟩

/-! ## A failed attempt with retries left -/

theorem job_finish_failure_retry_eq (cfg : Config) (now_ms : Nat) (s : Engine)
    (hcfg : cfg.UART_ENGINE_INTERJOB_COOLDOWN_MS = 0)
    (hk : 0 < s.s_active.retries_left) (hroom : s.s_q_count < UART_ENGINE_QUEUE_SIZE) :
    job_finish_failure cfg now_ms s =
      { s with
        uart_lock_held := false,
        s_queue := s.s_queue.set s.s_q_tail (job_of s.s_active.req s.s_active.is_heartbeat),
        s_q_tail := (s.s_q_tail + 1) % UART_ENGINE_QUEUE_SIZE,
        s_q_count := s.s_q_count + 1,
        s_retry_not_before_ms := add32 now_ms UART_ENGINE_RETRY_COOLDOWN_MS,
        s_state := uart_engine_state_t.IDLE,
        s_active := zeroJob,
        s_rx_got := 0 } := by
  unfold job_finish_failure back_to_idle finish_failure_retry
  rw [apply_interjob_cooldown_zero _ _ _ hcfg,
    if_pos (show (UART2_Unlock s).s_active.retries_left > 0 from hk),
    queue_push_room _ _ _
      (show (dec_retries (UART2_Unlock s)).s_q_count < UART_ENGINE_QUEUE_SIZE from hroom)]
  rfl

theorem maybe_enqueue_heartbeat_off (now_ms : Nat) (s : Engine) (h : s.s_hb_enabled = false) :
    maybe_enqueue_heartbeat now_ms s = s := by
  unfold maybe_enqueue_heartbeat
  rw [h]
  rfl

theorem asInt32_sub32_self_cooldown (now : Nat) :
    asInt32 (sub32 (now % U32) (add32 (now % U32) UART_ENGINE_RETRY_COOLDOWN_MS)) < 0 := by
  unfold asInt32 sub32 add32 U32 UART_ENGINE_RETRY_COOLDOWN_MS
  split <;> omega

/-- One tick on a dead line: the queued Job is popped, its transmission fails, and the
Job is back in the queue with all its retries. -/
theorem waiting_after_failed_attempt (cfg : Config) (r : uart_engine_request_t) (now : Nat)
    (s : Engine) (hcfg : cfg.UART_ENGINE_INTERJOB_COOLDOWN_MS = 0) (hr : 0 < r.max_retries)
    (hw : Waiting r s) (hgate : 0 ≤ asInt32 (sub32 (now % U32) s.s_retry_not_before_ms)) :
    Waiting r (uart_engine_tick cfg (deadLine now) s) ∧
    (uart_engine_tick cfg (deadLine now) s).s_retry_not_before_ms =
      add32 (now % U32) UART_ENGINE_RETRY_COOLDOWN_MS ∧
    (uart_engine_tick cfg (deadLine now) s).s_q_head =
      (s.s_q_head + 1) % UART_ENGINE_QUEUE_SIZE := by
  obtain ⟨hen, hst, hl, hwf, hhb, hq⟩ := hw
  have hc1 : s.s_q_count = 1 := by
    have := congrArg List.length hq
    rw [length_queued] at this
    simpa using this
  have hc : s.s_q_count ≠ 0 := by omega
  have hJ : s.s_queue.getD s.s_q_head zeroJob =
      { req := r, retries_left := r.max_retries, is_heartbeat := false } := by
    have hhead : s.s_q_head % UART_ENGINE_QUEUE_SIZE = s.s_q_head := Nat.mod_eq_of_lt hwf.2.1
    have := hq
    simp only [queued, hc1, List.range_succ, List.range_zero, List.nil_append, List.map_cons,
      List.map_nil, Nat.add_zero, hhead, List.cons.injEq, and_true] at this
    exact this
  -- pass 0: the Job is popped
  set s1 : Engine := start_job (now % U32) (s.s_queue.getD s.s_q_head zeroJob)
      { s with uart_lock_held := true,
               s_q_head := (s.s_q_head + 1) % UART_ENGINE_QUEUE_SIZE,
               s_q_count := s.s_q_count - 1 } with hs1
  have step0 : tick_step cfg (deadLine now 0) s = (s1, true) := by
    unfold tick_step tick_dispatch
    rw [show engine_now_ms (deadLine now 0) = now % U32 from rfl,
      maybe_enqueue_heartbeat_off _ _ hhb, if_neg (by omega), hst]
    exact tick_idle_pop _ s hc hl
  -- pass 1: the transmission fails
  set s1b : Engine :=
    { s1 with s_tx_buf := (build_cmd_bytes s1.s_tx_buf 8 s1.s_active.req.cmd
        s1.s_active.req.cmd_bits).2 } with hs1b
  have hjst : job_start_tx cfg (deadLine now 1) (now % U32) s1 =
      job_finish_failure cfg (now % U32) s1b := by
    unfold job_start_tx
    simp only []
    split
    · rfl
    · rfl
  have hk1 : 0 < s1b.s_active.retries_left := by
    show 0 < (s.s_queue.getD s.s_q_head zeroJob).retries_left
    rw [hJ]; exact hr
  have hroom1 : s1b.s_q_count < UART_ENGINE_QUEUE_SIZE := by
    show s.s_q_count - 1 < UART_ENGINE_QUEUE_SIZE
    rw [hc1]; decide
  set s2 : Engine := job_finish_failure cfg (now % U32) s1b with hs2
  have step1 : tick_step cfg (deadLine now 1) s1 = (s2, true) := by
    unfold tick_step tick_dispatch
    rw [show engine_now_ms (deadLine now 1) = now % U32 from rfl,
      maybe_enqueue_heartbeat_off _ _ (show s1.s_hb_enabled = false from hhb),
      if_neg (show ¬ asInt32 (sub32 (now % U32) s1.s_retry_not_before_ms) < 0 by
        show ¬ asInt32 (sub32 (now % U32) s.s_retry_not_before_ms) < 0; omega),
      show s1.s_state = uart_engine_state_t.TX_START from rfl]
    simp only []
    rw [hjst]
  have hs2eq := job_finish_failure_retry_eq cfg (now % U32) s1b hcfg hk1 hroom1
  -- pass 2: the cooldown gate closes
  have step2 : tick_step cfg (deadLine now 2) s2 = (s2, false) := by
    unfold tick_step tick_dispatch
    rw [show engine_now_ms (deadLine now 2) = now % U32 from rfl,
      maybe_enqueue_heartbeat_off _ _ (show s2.s_hb_enabled = false by rw [hs2, hs2eq]; exact hhb),
      if_pos (by rw [hs2, hs2eq]; exact asInt32_sub32_self_cooldown now)]
  have htick : uart_engine_tick cfg (deadLine now) s = s2 := by
    unfold uart_engine_tick UART_ENGINE_MAX_STEPS_PER_TICK
    rw [hen]
    simp only [Bool.not_true, Bool.false_eq_true, if_false]
    rw [tick_loop_go cfg _ 7 0 s s1 step0, tick_loop_go cfg _ 6 1 s1 s2 step1,
      tick_loop_stop cfg _ 5 2 s2 s2 step2]
  -- the ring after the attempt
  have hwf1b : RingWF s1b ∧ queued s = s1b.s_active :: queued s1b := by
    obtain ⟨a, b⟩ := queued_pop s hwf hc
    rw [queue_pop_nonempty s hc] at a b
    exact ⟨ringWF_of_ring (by rfl) a, by rw [b]; rfl⟩
  have hq1b : queued s1b = [] := by
    have := hwf1b.2
    rw [hq] at this
    simp only [List.cons.injEq] at this
    exact this.2.symm
  have hact : s1b.s_active = { req := r, retries_left := r.max_retries, is_heartbeat := false } :=
    hJ
  have hpush : ring s2 = ring (queue_push (some s1b.s_active.req) s1b.s_active.is_heartbeat s1b).2 := by
    rw [hs2, hs2eq, queue_push_room _ _ _ hroom1]
    rfl
  obtain ⟨w1, w2, w3, -⟩ := ring_push_facts _ _ hpush hwf1b.1 hroom1
  rw [htick]
  refine ⟨⟨?_, ?_, ?_, w1, ?_, ?_⟩, ?_, ?_⟩
  · rw [hs2, hs2eq]; exact hen
  · rw [hs2, hs2eq]
  · rw [hs2, hs2eq]
  · rw [hs2, hs2eq]; exact hhb
  · rw [w3, hq1b, hact]; rfl
  · rw [hs2, hs2eq]
  · rw [w2]
    rfl

theorem sub32_self (a : Nat) : asInt32 (sub32 (a % U32) (a % U32)) = 0 := by
  unfold asInt32 sub32 U32
  split <;> omega

theorem add32_step (k : Nat) :
    add32 ((25 * k) % U32) UART_ENGINE_RETRY_COOLDOWN_MS = (25 * (k + 1)) % U32 := by
  unfold add32 U32 UART_ENGINE_RETRY_COOLDOWN_MS
  omega

/-- A descriptor with at least one retry whose every attempt fails is never given up: for
every `k`, after `k` failed attempts the Job is in the queue again with
`retries_left = max_retries`, and attempt `k + 1` follows. -/
theorem failedAttempts_waiting (cfg : Config) (r : uart_engine_request_t)
    (hcfg : cfg.UART_ENGINE_INTERJOB_COOLDOWN_MS = 0)
    (hv : request_is_valid cfg (some r) = true) (hr : 0 < r.max_retries) (k : Nat) :
    Waiting r (failedAttempts cfg r k) ∧
    (failedAttempts cfg r k).s_retry_not_before_ms = (25 * k) % U32 ∧
    (failedAttempts cfg r k).s_q_head = k % UART_ENGINE_QUEUE_SIZE := by
  induction k with
  | zero =>
    have hwf0 : RingWF (uart_engine_init (boot zeroTelemetry)) := by decide
    obtain ⟨r1, h1, -, h3, h4, h5⟩ :=
      (enqueue_cases cfg (some r) (uart_engine_init (boot zeroTelemetry)) hwf0).2.2.2 rfl hv
        (by decide)
    cases h1
    unfold failedAttempts
    refine ⟨⟨?_, ?_, ?_, h4, ?_, ?_⟩, ?_, ?_⟩
    · rw [h5]; rfl
    · rw [h5]; rfl
    · rw [h5]; rfl
    · rw [h5]; rfl
    · rw [h3]; rfl
    · rw [h5]; rfl
    · rw [h5]; rfl
  | succ n ih =>
    obtain ⟨hw, hnb, hhead⟩ := ih
    have hgate : 0 ≤ asInt32 (sub32 ((25 * n) % U32)
        (failedAttempts cfg r n).s_retry_not_before_ms) := by
      rw [hnb, sub32_self]
    obtain ⟨a, b, c⟩ := waiting_after_failed_attempt cfg r (25 * n) _ hcfg hr hw hgate
    unfold failedAttempts
    refine ⟨a, ?_, ?_⟩
    · rw [b, add32_step]
    · rw [c, hhead]
      unfold UART_ENGINE_QUEUE_SIZE
      omega

theorem retry_push_queued (cfg : Config) (now_ms : Nat) (s : Engine) (hwf : RingWF s)
    (hk : 0 < s.s_active.retries_left) (hroom : s.s_q_count < UART_ENGINE_QUEUE_SIZE) :
    queued (job_finish_failure cfg now_ms s) =
      queued s ++ [job_of s.s_active.req s.s_active.is_heartbeat] ∧
    queued (process_outcome cfg now_ms false s) =
      queued s ++ [job_of s.s_active.req s.s_active.is_heartbeat] := by
  constructor
  · unfold job_finish_failure
    rcases finish_failure_retry_ring now_ms (UART2_Unlock s) with ⟨-, h⟩ | ⟨-, -, h⟩
    · rcases h with h | h
      · exact absurd h (Nat.pos_iff_ne_zero.mp hk)
      · exact absurd h (Nat.not_le.mpr hroom)
    · have h2 : ring (back_to_idle cfg now_ms (finish_failure_retry now_ms (UART2_Unlock s))) =
          ring (queue_push (some s.s_active.req) s.s_active.is_heartbeat s).2 := by
        rw [ring_back_to_idle, h]
        rw [queue_push_room _ _ _ hroom,
          queue_push_room _ _ _
            (show (UART2_Unlock s).s_q_count < UART_ENGINE_QUEUE_SIZE from hroom)]
        rfl
      exact (ring_push_facts _ _ h2 hwf hroom).2.2.1
  · have hcl : ring (clear_flag_if_heartbeat s) = ring s := ring_clear_flag s
    have hact : (clear_flag_if_heartbeat s).s_active = s.s_active := by
      unfold clear_flag_if_heartbeat; split <;> rfl
    have hcnt : (clear_flag_if_heartbeat s).s_q_count = s.s_q_count := by
      unfold clear_flag_if_heartbeat; split <;> rfl
    unfold process_outcome
    simp only [Bool.false_eq_true, if_false]
    rcases process_failure_retry_ring now_ms (clear_flag_if_heartbeat s) with ⟨-, h⟩ | ⟨-, -, h⟩
    · rcases h with h | h
      · rw [hact] at h
        exact absurd h (Nat.pos_iff_ne_zero.mp hk)
      · rw [hcnt] at h
        exact absurd h (Nat.not_le.mpr hroom)
    · have h2 : ring (back_to_idle cfg now_ms
            (process_failure_retry now_ms (clear_flag_if_heartbeat s))) =
          ring (queue_push (some s.s_active.req) s.s_active.is_heartbeat s).2 := by
        rw [ring_back_to_idle, h, hact]
        rw [queue_push_room _ _ _ hroom,
          queue_push_room _ _ _ (show (clear_flag_if_heartbeat s).s_q_count <
            UART_ENGINE_QUEUE_SIZE from hcnt ▸ hroom)]
        simp only [ring]
        simp only [ring, Prod.mk.injEq] at hcl
        simp only [hcl.1, hcl.2.1, hcl.2.2.1, hcl.2.2.2]
      exact (ring_push_facts _ _ h2 hwf hroom).2.2.1

/-! ## The log of a pass, of a tick and of a history -/

theorem pass_fifo (cfg : Config) (inp : StepInput) (s : Engine) (hwf : RingWF s) :
    RingWF (tick_step cfg inp s).1 ∧
    queued s ++ pass_pushed cfg inp s = pass_popped cfg inp s ++ queued (tick_step cfg inp s).1 ∧
    (pass_popped cfg inp s ≠ [] → s.s_state = uart_engine_state_t.IDLE) := by
  obtain ⟨⟨-, h0⟩, hw1, h1⟩ := tick_step_fifo cfg inp s hwf
  refine ⟨hw1, ?_, ?_⟩
  · unfold pass_pushed pass_popped
    rcases h1 with ⟨-, -, a, b, c⟩ | ⟨a, b⟩
    · rw [if_neg a, if_pos b]
      rcases h0 with ⟨d, e⟩ | ⟨d, e⟩
      · rw [if_pos d]
        rw [e] at c
        simp [c]
      · rw [if_neg d]
        rw [e] at c
        simp [c]
    · rw [if_pos a]
      rcases b with ⟨b, c⟩ | ⟨b, -, -, c⟩
      · rw [if_pos b, c]
        rcases h0 with ⟨d, e⟩ | ⟨d, e⟩
        · rw [if_pos d, e]; simp
        · rw [if_neg d, e]; simp
      · rw [if_neg b, c]
        rcases h0 with ⟨d, e⟩ | ⟨d, e⟩
        · rw [if_pos d, e]; simp
        · rw [if_neg d, e]; simp
  · unfold pass_popped
    intro hne
    rcases h1 with ⟨a, -⟩ | ⟨a, -⟩
    · exact a
    · rw [if_pos a] at hne
      exact absurd rfl hne

theorem tick_loop_fifo (cfg : Config) (ins : Nat → StepInput) (fuel step : Nat) (s : Engine)
    (hwf : RingWF s) :
    RingWF (tick_loop cfg ins fuel step s) ∧
    queued s ++ (tick_log cfg ins fuel step s).1 =
      (tick_log cfg ins fuel step s).2 ++ queued (tick_loop cfg ins fuel step s) := by
  induction fuel generalizing step s with
  | zero => exact ⟨hwf, by simp [tick_log, tick_loop]⟩
  | succ n ih =>
    obtain ⟨hw1, hq1, -⟩ := pass_fifo cfg (ins step) s hwf
    unfold tick_loop tick_log
    rcases hr : tick_step cfg (ins step) s with ⟨s1, b⟩
    rw [hr] at hw1 hq1
    cases b
    · simp only [Bool.false_eq_true, if_false]
      exact ⟨hw1, hq1⟩
    · simp only [if_true]
      obtain ⟨hw2, hq2⟩ := ih (step + 1) s1 hw1
      refine ⟨hw2, ?_⟩
      rw [← List.append_assoc, hq1, List.append_assoc, hq2, List.append_assoc]

theorem ring_set_heartbeat (cfg : Config) (now_ms : Nat)
    (hb : Option uart_engine_heartbeat_cfg_t) (s : Engine) :
    ring (uart_engine_set_heartbeat cfg now_ms hb s) = ring s := by
  unfold uart_engine_set_heartbeat
  split
  · rfl
  · cases hb with
    | none => rfl
    | some c =>
      simp only []
      split
      · rfl
      · split <;> rfl

theorem op_fifo (cfg : Config) (o : Op) (s : Engine) (hwf : RingWF s) :
    RingWF (apply_op cfg o s) ∧
    queued s ++ op_pushed cfg o s = op_popped cfg o s ++ queued (apply_op cfg o s) := by
  cases o with
  | enqueue req =>
    simp only [apply_op, op_pushed, op_popped]
    by_cases hok : s.s_enabled = true ∧ request_is_valid cfg req = true ∧
        s.s_q_count < UART_ENGINE_QUEUE_SIZE
    · obtain ⟨r, h1, h2, h3, h4, -⟩ := (enqueue_cases cfg req s hwf).2.2.2 hok.1 hok.2.1 hok.2.2
      subst h1
      refine ⟨h4, ?_⟩
      rw [h2, h3]
      simp
    · have hres : uart_engine_enqueue cfg req s = (uart_engine_result_t.ERR_DISABLED, s) ∨
          uart_engine_enqueue cfg req s = (uart_engine_result_t.ERR_BAD_PARAM, s) ∨
          uart_engine_enqueue cfg req s = (uart_engine_result_t.ERR_QUEUE_FULL, s) := by
        by_cases hen : s.s_enabled = true
        · by_cases hv : request_is_valid cfg req = true
          · have hfull : UART_ENGINE_QUEUE_SIZE ≤ s.s_q_count :=
              Nat.not_lt.mp (fun h => hok ⟨hen, hv, h⟩)
            exact Or.inr (Or.inr ((enqueue_cases cfg req s hwf).2.2.1 hen hv hfull))
          · exact Or.inr (Or.inl ((enqueue_cases cfg req s hwf).2.1 hen (by simpa using hv)))
        · exact Or.inl ((enqueue_cases cfg req s hwf).1 (by simpa using hen))
      rcases hres with h | h | h <;> rw [h] <;> refine ⟨hwf, ?_⟩ <;> cases req <;> simp
  | set_heartbeat now_ms hb =>
    simp only [apply_op, op_pushed, op_popped]
    have hr := ring_set_heartbeat cfg now_ms hb s
    exact ⟨ringWF_of_ring hr hwf, by rw [queued_of_ring hr]; simp⟩
  | tick ins =>
    simp only [apply_op, op_pushed, op_popped]
    unfold uart_engine_tick
    cases hen : s.s_enabled
    · exact ⟨hwf, by simp⟩
    · simp only [Bool.not_true, Bool.false_eq_true, if_false, if_true]
      exact tick_loop_fifo cfg ins _ 0 s hwf

theorem run_fifo (cfg : Config) (ops : List Op) (s : Engine) (hwf : RingWF s) :
    RingWF (run cfg ops s) ∧
    queued s ++ run_pushed cfg ops s = run_popped cfg ops s ++ queued (run cfg ops s) := by
  induction ops generalizing s with
  | nil => exact ⟨hwf, by simp [run, run_pushed, run_popped]⟩
  | cons o os ih =>
    obtain ⟨hw1, hq1⟩ := op_fifo cfg o s hwf
    obtain ⟨hw2, hq2⟩ := ih (apply_op cfg o s) hw1
    unfold run run_pushed run_popped
    refine ⟨hw2, ?_⟩
    rw [← List.append_assoc, hq1, List.append_assoc, hq2, List.append_assoc]

/-! ## The ring under every public operation, the disabled engine, success -/

theorem ringWF_boot (t : Telemetry) : RingWF (boot t) := by
  simp [RingWF, boot, UART_ENGINE_QUEUE_SIZE]

theorem ringWF_init (s : Engine) (h : s.s_queue.length = UART_ENGINE_QUEUE_SIZE) :
    RingWF (uart_engine_init s) := by
  refine ⟨h, ?_, ?_, ?_⟩ <;> simp [uart_engine_init, active_clear, UART_ENGINE_QUEUE_SIZE]

theorem ringWF_reset_internal (s : Engine) (h : s.s_queue.length = UART_ENGINE_QUEUE_SIZE) :
    RingWF (uart_engine_reset_internal s) := by
  refine ⟨h, ?_, ?_, ?_⟩ <;>
    simp [uart_engine_reset_internal, UART2_Unlock, active_clear, UART_ENGINE_QUEUE_SIZE]

theorem ringWF_set_enabled (enable : Bool) (s : Engine) (hwf : RingWF s) :
    RingWF (uart_engine_set_enabled enable s) := by
  unfold uart_engine_set_enabled
  split
  · exact hwf
  · simp only []
    split
    · exact ringWF_reset_internal _ hwf.1
    · exact hwf

theorem apply_call_ringWF (cfg : Config) (c : Call) (s : Engine) (hwf : RingWF s) :
    RingWF (apply_call cfg c s) := by
  cases c with
  | init => exact ringWF_init s hwf.1
  | set_enabled enable => exact ringWF_set_enabled enable s hwf
  | enqueue req => exact (op_fifo cfg (Op.enqueue req) s hwf).1
  | set_heartbeat now_ms hb => exact (op_fifo cfg (Op.set_heartbeat now_ms hb) s hwf).1
  | tick ins => exact (op_fifo cfg (Op.tick ins) s hwf).1

theorem run_calls_ringWF (cfg : Config) (cs : List Call) (s : Engine) (hwf : RingWF s) :
    RingWF (run_calls cfg cs s) := by
  induction cs generalizing s with
  | nil => exact hwf
  | cons c cs ih => exact ih _ (apply_call_ringWF cfg c s hwf)


theorem set_enabled_false_eq (s : Engine) (h : s.s_enabled = true) :
    uart_engine_set_enabled false s =
      uart_engine_reset_internal { s with s_enabled := false } := by
  unfold uart_engine_set_enabled
  rw [if_neg (by rw [h]; decide)]
  rfl

theorem disabled_call_stays (cfg : Config) (c : Call) (s : Engine)
    (hdis : s.s_enabled = false) (hc : c.enables = false) : apply_call cfg c s = s := by
  cases c with
  | init => simp [Call.enables] at hc
  | set_enabled enable =>
    simp only [Call.enables] at hc
    subst hc
    simp [apply_call, uart_engine_set_enabled, hdis]
  | enqueue req => simp [apply_call, uart_engine_enqueue, hdis]
  | set_heartbeat now_ms hb => simp [apply_call, uart_engine_set_heartbeat, hdis]
  | tick ins => simp [apply_call, uart_engine_tick, hdis]

theorem disabled_history_stays (cfg : Config) (cs : List Call) (s : Engine)
    (hdis : s.s_enabled = false) (hc : ∀ c ∈ cs, Call.enables c = false) :
    run_calls cfg cs s = s := by
  induction cs with
  | nil => rfl
  | cons c cs ih =>
    unfold run_calls
    rw [disabled_call_stays cfg c s hdis (hc c (List.mem_cons_self _ _))]
    exact ih (fun d hd => hc d (List.mem_cons_of_mem _ hd))

theorem maybe_enqueue_heartbeat_process (inp : StepInput) (now_ms : Nat) (s : Engine) :
    call_process_fn inp (maybe_enqueue_heartbeat now_ms s) = call_process_fn inp s ∧
    (maybe_enqueue_heartbeat now_ms s).s_hb_consecutive_failures =
      s.s_hb_consecutive_failures := by
  rcases maybe_enqueue_heartbeat_cases now_ms s with ⟨h, -⟩ | ⟨-, -, -, -, h⟩
  · rw [h]; exact ⟨rfl, rfl⟩
  · rw [h]; exact ⟨rfl, rfl⟩

theorem back_to_idle_counter (cfg : Config) (now_ms : Nat) (s : Engine) :
    (back_to_idle cfg now_ms s).s_hb_consecutive_failures = s.s_hb_consecutive_failures := by
  unfold back_to_idle
  rw [apply_interjob_cooldown_eq]
  rfl

theorem tick_process_success_counter (cfg : Config) (inp : StepInput) (now_ms : Nat)
    (s : Engine) (hok : (call_process_fn inp s).1 = true) :
    (tick_process cfg inp now_ms s).s_hb_consecutive_failures =
      if s.s_active.is_heartbeat then 0 else s.s_hb_consecutive_failures := by
  unfold tick_process process_outcome
  rw [hok, if_pos rfl, back_to_idle_counter]
  unfold clear_flag_if_heartbeat on_job_success UART2_Unlock
  cases hhb : s.s_active.is_heartbeat <;> simp [hhb]

/-! ## The order of `snmp_oid_compare` -/

theorem snmp_oid_compare_loop_cons (a b : Nat) (l r : List Nat) (k i : Nat) :
    snmp_oid_compare_loop (a :: l) (b :: r) k (i + 1) = snmp_oid_compare_loop l r k i := by
  induction k generalizing i with
  | zero => rfl
  | succ k ih =>
    simp only [snmp_oid_compare_loop, List.getD_cons_succ]
    rw [ih]

theorem snmp_oid_compare_nil_nil : snmp_oid_compare [] [] = 0 := rfl

theorem snmp_oid_compare_nil_cons (b : Nat) (r : List Nat) :
    snmp_oid_compare [] (b :: r) = -1 := by
  simp [snmp_oid_compare, snmp_oid_compare_loop]

theorem snmp_oid_compare_cons_nil (a : Nat) (l : List Nat) :
    snmp_oid_compare (a :: l) [] = 1 := by
  simp [snmp_oid_compare, snmp_oid_compare_loop]

theorem snmp_oid_compare_cons_cons (a b : Nat) (l r : List Nat) :
    snmp_oid_compare (a :: l) (b :: r) =
      if a < b then -1 else if a > b then 1 else snmp_oid_compare l r := by
  have hmin : (if (a :: l).length < (b :: r).length then (a :: l).length else (b :: r).length) =
      (if l.length < r.length then l.length else r.length) + 1 := by
    simp only [List.length_cons]
    split <;> split <;> omega
  unfold snmp_oid_compare
  rw [hmin]
  simp only [snmp_oid_compare_loop, List.getD_cons_zero, snmp_oid_compare_loop_cons,
    List.length_cons, Nat.add_lt_add_iff_right, gt_iff_lt]
  by_cases h1 : a < b
  · simp only [if_pos h1]
  · by_cases h2 : b < a
    · simp only [if_neg h1, if_pos h2]
    · simp only [if_neg h1, if_neg h2]

theorem snmp_oid_compare_range (a b : List Nat) :
    snmp_oid_compare a b = -1 ∨ snmp_oid_compare a b = 0 ∨ snmp_oid_compare a b = 1 := by
  induction a generalizing b with
  | nil =>
    cases b with
    | nil => exact Or.inr (Or.inl rfl)
    | cons y b => exact Or.inl (snmp_oid_compare_nil_cons y b)
  | cons x a ih =>
    cases b with
    | nil => exact Or.inr (Or.inr (snmp_oid_compare_cons_nil x a))
    | cons y b =>
      rw [snmp_oid_compare_cons_cons]
      split
      · exact Or.inl rfl
      · split
        · exact Or.inr (Or.inr rfl)
        · exact ih b

theorem snmp_oid_compare_eq_zero (a b : List Nat) : snmp_oid_compare a b = 0 ↔ a = b := by
  induction a generalizing b with
  | nil =>
    cases b with
    | nil => simp [snmp_oid_compare_nil_nil]
    | cons y b => simp [snmp_oid_compare_nil_cons]
  | cons x a ih =>
    cases b with
    | nil => simp [snmp_oid_compare_cons_nil]
    | cons y b =>
      rw [snmp_oid_compare_cons_cons]
      split
      · simp; omega
      · split
        · simp; omega
        · rw [ih b]
          have : x = y := by omega
          simp [this]

theorem snmp_oid_compare_self (a : List Nat) : snmp_oid_compare a a = 0 :=
  (snmp_oid_compare_eq_zero a a).mpr rfl

theorem snmp_oid_compare_antisymm (a b : List Nat) :
    snmp_oid_compare a b = - snmp_oid_compare b a := by
  induction a generalizing b with
  | nil =>
    cases b with
    | nil => rfl
    | cons y b => rw [snmp_oid_compare_nil_cons, snmp_oid_compare_cons_nil]
  | cons x a ih =>
    cases b with
    | nil => rw [snmp_oid_compare_nil_cons, snmp_oid_compare_cons_nil]; rfl
    | cons y b =>
      rw [snmp_oid_compare_cons_cons, snmp_oid_compare_cons_cons]
      by_cases h1 : x < y
      · rw [if_pos h1, if_neg (by omega), if_pos (by omega)]
      · by_cases h2 : x > y
        · rw [if_neg h1, if_pos h2, if_pos (by omega)]; rfl
        · rw [if_neg h1, if_neg h2, if_neg (by omega), if_neg (by omega)]
          exact ih b

theorem snmp_oid_compare_lt_trans (a b c : List Nat)
    (h1 : snmp_oid_compare a b < 0) (h2 : snmp_oid_compare b c < 0) :
    snmp_oid_compare a c < 0 := by
  induction a generalizing b c with
  | nil =>
    cases c with
    | nil =>
      cases b with
      | nil => simp [snmp_oid_compare_nil_nil] at h1
      | cons y b => simp [snmp_oid_compare_cons_nil] at h2
    | cons z c => rw [snmp_oid_compare_nil_cons]; decide
  | cons x a ih =>
    cases b with
    | nil => simp [snmp_oid_compare_cons_nil] at h1
    | cons y b =>
      cases c with
      | nil => simp [snmp_oid_compare_cons_nil] at h2
      | cons z c =>
        rw [snmp_oid_compare_cons_cons] at h1 h2 ⊢
        by_cases hxy : x < y
        · by_cases hyz : y < z
          · rw [if_pos (by omega)]; decide
          · rw [if_neg hyz] at h2
            by_cases hyz2 : y > z
            · rw [if_pos hyz2] at h2; exact absurd h2 (by decide)
            · rw [if_pos (by omega)]; decide
        · rw [if_neg hxy] at h1
          by_cases hxy2 : x > y
          · rw [if_pos hxy2] at h1; exact absurd h1 (by decide)
          · rw [if_neg hxy2] at h1
            have hx : x = y := by omega
            subst hx
            by_cases hyz : x < z
            · rw [if_pos hyz]; decide
            · rw [if_neg hyz] at h2 ⊢
              by_cases hyz2 : x > z
              · rw [if_pos hyz2] at h2; exact absurd h2 (by decide)
              · rw [if_neg hyz2] at h2 ⊢
                exact ih b c h1 h2

theorem snmp_oid_compare_extension (p e : List Nat) (he : e ≠ []) :
    snmp_oid_compare p (p ++ e) = -1 := by
  induction p with
  | nil =>
    cases e with
    | nil => exact absurd rfl he
    | cons y e => exact snmp_oid_compare_nil_cons y e
  | cons x p ih =>
    rw [List.cons_append, snmp_oid_compare_cons_cons, if_neg (lt_irrefl x), if_neg (lt_irrefl x)]
    exact ih

theorem snmp_oid_compare_le_trans (a b c : List Nat)
    (h1 : snmp_oid_compare a b ≤ 0) (h2 : snmp_oid_compare b c ≤ 0) :
    snmp_oid_compare a c ≤ 0 := by
  rcases lt_or_eq_of_le h1 with h1 | h1
  · rcases lt_or_eq_of_le h2 with h2 | h2
    · exact le_of_lt (snmp_oid_compare_lt_trans a b c h1 h2)
    · rw [(snmp_oid_compare_eq_zero b c).mp h2] at h1; exact le_of_lt h1
  · rw [(snmp_oid_compare_eq_zero a b).mp h1]; exact h2

/-! ## The catalog is sorted; the scan of `snmp_lookup_next` -/

set_option maxRecDepth 100000 in
theorem k_oid_table_adjacent :
    ∀ i, i < 31 → snmp_oid_compare (k_oid_table.getD i []) (k_oid_table.getD (i + 1) []) < 0 := by
  decide

theorem k_oid_table_sorted (i j : Nat) (hij : i < j) (hj : j < 32) :
    snmp_oid_compare (k_oid_table.getD i []) (k_oid_table.getD j []) < 0 := by
  induction j with
  | zero => omega
  | succ j ih =>
    rcases Nat.lt_or_ge i j with h | h
    · exact snmp_oid_compare_lt_trans _ _ _ (ih h (by omega)) (k_oid_table_adjacent j (by omega))
    · have : i = j := by omega
      subst this
      exact k_oid_table_adjacent i (by omega)

theorem snmp_lookup_next_loop_some (oid : List Nat) (k i r : Nat) :
    snmp_lookup_next_loop oid k i = some r ↔
      i ≤ r ∧ r < i + k ∧ snmp_oid_compare (k_oid_table.getD r []) oid > 0 ∧
        ∀ j, i ≤ j → j < r → ¬ snmp_oid_compare (k_oid_table.getD j []) oid > 0 := by
  induction k generalizing i with
  | zero =>
    simp only [snmp_lookup_next_loop]
    constructor
    · intro h; cases h
    · rintro ⟨h1, h2, -⟩; omega
  | succ k ih =>
    simp only [snmp_lookup_next_loop]
    by_cases hc : snmp_oid_compare (k_oid_table.getD i []) oid > 0
    · rw [if_pos hc]
      constructor
      · intro h
        cases h
        exact ⟨le_refl _, by omega, hc, fun j h1 h2 => by omega⟩
      · rintro ⟨h1, -, -, h4⟩
        rcases Nat.eq_or_lt_of_le h1 with h | h
        · rw [h]
        · exact absurd hc (h4 i (le_refl _) h)
    · rw [if_neg hc, ih]
      constructor
      · rintro ⟨h1, h2, h3, h4⟩
        refine ⟨by omega, by omega, h3, fun j hj1 hj2 => ?_⟩
        rcases Nat.eq_or_lt_of_le hj1 with h | h
        · rw [← h]; exact hc
        · exact h4 j h hj2
      · rintro ⟨h1, h2, h3, h4⟩
        have hne : i ≠ r := fun h => hc (h ▸ h3)
        exact ⟨by omega, by omega, h3, fun j hj1 hj2 => h4 j (by omega) hj2⟩

theorem snmp_lookup_next_loop_none (oid : List Nat) (k i : Nat) :
    snmp_lookup_next_loop oid k i = none ↔
      ∀ j, i ≤ j → j < i + k → ¬ snmp_oid_compare (k_oid_table.getD j []) oid > 0 := by
  induction k generalizing i with
  | zero =>
    unfold snmp_lookup_next_loop
    exact ⟨fun _ j h1 h2 => by omega, fun _ => rfl⟩
  | succ k ih =>
    simp only [snmp_lookup_next_loop]
    by_cases hc : snmp_oid_compare (k_oid_table.getD i []) oid > 0
    · rw [if_pos hc]
      constructor
      · intro h; cases h
      · intro h; exact absurd hc (h i (le_refl _) (by omega))
    · rw [if_neg hc, ih]
      constructor
      · intro h j hj1 hj2
        rcases Nat.eq_or_lt_of_le hj1 with h1 | h1
        · rw [← h1]; exact hc
        · exact h j h1 (by omega)
      · intro h j hj1 hj2
        exact h j (by omega) (by omega)

/-! ## Bytes, shifts and masks -/

set_option maxRecDepth 100000 in
theorem byte_msb_clear : ∀ b, b < 256 → (b &&& 0x80 = 0 ↔ b < 128) := by
  decide

theorem byte_low7 (b : Nat) : b &&& 0x7F = b % 128 :=
  Nat.and_pow_two_sub_one_eq_mod b 7

theorem byte_low8 (b : Nat) : b &&& 0xFF = b % 256 :=
  Nat.and_pow_two_sub_one_eq_mod b 8

theorem shl8_or (len b : Nat) (hb : b < 256) : (len <<< 8) ||| b = len * 256 + b := by
  rw [Nat.shiftLeft_eq, Nat.mul_comm]
  exact (Nat.mul_add_lt_is_or (show b < 2 ^ 8 from hb) len).symm

theorem shr8 (len : Nat) : len >>> 8 = len / 256 :=
  Nat.shiftRight_eq_div_pow len 8

theorem int32_byte_eq (v : Int) :
    int32_byte v 24 = ((v / 16777216) % 256).toNat ∧
    int32_byte v 16 = ((v / 65536) % 256).toNat ∧
    int32_byte v 8 = ((v / 256) % 256).toNat ∧
    int32_byte v 0 = (v % 256).toNat := by
  simp [int32_byte, Int.shiftRight_eq_div_pow]

theorem int32_byte_lt (v : Int) (s : Nat) : int32_byte v s < 256 := by
  unfold int32_byte
  omega

/-! ## The INTEGER codec -/

/-- The three passes of the `while` loop of `snmp_int32_encoded_len` on four bytes. -/
theorem encoded_len_loop_unfold (b0 b1 b2 b3 : Nat) :
    snmp_int32_encoded_len_loop [b0, b1, b2, b3] 4 =
      (if b0 = 0x00 ∧ b1 &&& 0x80 = 0 then snmp_int32_encoded_len_loop [b0, b1, b2, b3] 3
       else if b0 = 0xFF ∧ b1 &&& 0x80 ≠ 0 then snmp_int32_encoded_len_loop [b0, b1, b2, b3] 3
       else 4) ∧
    snmp_int32_encoded_len_loop [b0, b1, b2, b3] 3 =
      (if b1 = 0x00 ∧ b2 &&& 0x80 = 0 then snmp_int32_encoded_len_loop [b0, b1, b2, b3] 2
       else if b1 = 0xFF ∧ b2 &&& 0x80 ≠ 0 then snmp_int32_encoded_len_loop [b0, b1, b2, b3] 2
       else 3) ∧
    snmp_int32_encoded_len_loop [b0, b1, b2, b3] 2 =
      (if b2 = 0x00 ∧ b3 &&& 0x80 = 0 then 1
       else if b2 = 0xFF ∧ b3 &&& 0x80 ≠ 0 then 1
       else 2) :=
  ⟨rfl, rfl, rfl⟩

/-- The shape of what `snmp_put_int32` emits for a value with bytes `b0 b1 b2 b3`. -/
theorem int32_content_cases (v : Int) :
    (snmp_int32_encoded_len v = 4 ∧
      int32_content v = [int32_byte v 24, int32_byte v 16, int32_byte v 8, int32_byte v 0]) ∨
    (snmp_int32_encoded_len v = 3 ∧
      int32_content v = [int32_byte v 16, int32_byte v 8, int32_byte v 0]) ∨
    (snmp_int32_encoded_len v = 2 ∧ int32_content v = [int32_byte v 8, int32_byte v 0]) ∨
    (snmp_int32_encoded_len v = 1 ∧ int32_content v = [int32_byte v 0]) := by
  have key : snmp_int32_encoded_len v = 4 ∨ snmp_int32_encoded_len v = 3 ∨
      snmp_int32_encoded_len v = 2 ∨ snmp_int32_encoded_len v = 1 := by
    unfold snmp_int32_encoded_len int32_bytes
    obtain ⟨h4, h3, h2⟩ := encoded_len_loop_unfold (int32_byte v 24) (int32_byte v 16)
      (int32_byte v 8) (int32_byte v 0)
    rw [h4, h3, h2]
    (repeat' split) <;> simp
  unfold int32_content
  rcases key with h | h | h | h <;> rw [h] <;> simp [int32_bytes]

theorem decode_init (a : Nat) (ha : a < 256) :
    (if a &&& 0x80 ≠ 0 then U32 - 1 else 0) = if a < 128 then 0 else 4294967295 := by
  have hm := byte_msb_clear a ha
  by_cases h : a < 128
  · rw [if_neg (not_not.mpr (hm.mpr h)), if_pos h]
  · rw [if_pos (fun hc => h (hm.mp hc)), if_neg h]; rfl

theorem decode_int32_one (a : Nat) (ha : a < 256) :
    snmp_decode_int32 [a] = some (if a < 128 then (a : Int) else (a : Int) - 256) := by
  unfold snmp_decode_int32
  rw [if_neg (by simp)]
  simp only [List.getD_cons_zero, List.foldl_cons, List.foldl_nil, decode_init a ha,
    shl8_or _ a ha]
  congr 1
  unfold asInt32 U32
  split <;> split <;> omega

theorem decode_int32_two (a b : Nat) (ha : a < 256) (hb : b < 256) :
    snmp_decode_int32 [a, b] =
      some (if a < 128 then (a : Int) * 256 + b else (a : Int) * 256 + b - 65536) := by
  unfold snmp_decode_int32
  rw [if_neg (by simp)]
  simp only [List.getD_cons_zero, List.foldl_cons, List.foldl_nil, decode_init a ha,
    shl8_or _ a ha, shl8_or _ b hb]
  congr 1
  unfold asInt32 U32
  split <;> split <;> omega

theorem decode_int32_three (a b c : Nat) (ha : a < 256) (hb : b < 256) (hc : c < 256) :
    snmp_decode_int32 [a, b, c] =
      some (if a < 128 then (a : Int) * 65536 + b * 256 + c
        else (a : Int) * 65536 + b * 256 + c - 16777216) := by
  unfold snmp_decode_int32
  rw [if_neg (by simp)]
  simp only [List.getD_cons_zero, List.foldl_cons, List.foldl_nil, decode_init a ha,
    shl8_or _ a ha, shl8_or _ b hb, shl8_or _ c hc]
  congr 1
  unfold asInt32 U32
  split <;> split <;> omega

theorem decode_int32_four (a b c d : Nat) (ha : a < 256) (hb : b < 256) (hc : c < 256)
    (hd : d < 256) :
    snmp_decode_int32 [a, b, c, d] =
      some (if a < 128 then (a : Int) * 16777216 + b * 65536 + c * 256 + d
        else (a : Int) * 16777216 + b * 65536 + c * 256 + d - 4294967296) := by
  unfold snmp_decode_int32
  rw [if_neg (by simp)]
  simp only [List.getD_cons_zero, List.foldl_cons, List.foldl_nil, decode_init a ha,
    shl8_or _ a ha, shl8_or _ b hb, shl8_or _ c hc, shl8_or _ d hd]
  congr 1
  unfold asInt32 U32
  split <;> split <;> omega

theorem int32_len_cases (v : Int) :
    (snmp_int32_encoded_len v = 4 ∧
      int32_content v = [int32_byte v 24, int32_byte v 16, int32_byte v 8, int32_byte v 0] ∧
      ¬ ((int32_byte v 24 = 0 ∧ int32_byte v 16 < 128) ∨
         (int32_byte v 24 = 255 ∧ 128 ≤ int32_byte v 16))) ∨
    (snmp_int32_encoded_len v = 3 ∧
      int32_content v = [int32_byte v 16, int32_byte v 8, int32_byte v 0] ∧
      ((int32_byte v 24 = 0 ∧ int32_byte v 16 < 128) ∨
         (int32_byte v 24 = 255 ∧ 128 ≤ int32_byte v 16)) ∧
      ¬ ((int32_byte v 16 = 0 ∧ int32_byte v 8 < 128) ∨
         (int32_byte v 16 = 255 ∧ 128 ≤ int32_byte v 8))) ∨
    (snmp_int32_encoded_len v = 2 ∧ int32_content v = [int32_byte v 8, int32_byte v 0] ∧
      ((int32_byte v 24 = 0 ∧ int32_byte v 16 < 128) ∨
         (int32_byte v 24 = 255 ∧ 128 ≤ int32_byte v 16)) ∧
      ((int32_byte v 16 = 0 ∧ int32_byte v 8 < 128) ∨
         (int32_byte v 16 = 255 ∧ 128 ≤ int32_byte v 8)) ∧
      ¬ ((int32_byte v 8 = 0 ∧ int32_byte v 0 < 128) ∨
         (int32_byte v 8 = 255 ∧ 128 ≤ int32_byte v 0))) ∨
    (snmp_int32_encoded_len v = 1 ∧ int32_content v = [int32_byte v 0] ∧
      ((int32_byte v 24 = 0 ∧ int32_byte v 16 < 128) ∨
         (int32_byte v 24 = 255 ∧ 128 ≤ int32_byte v 16)) ∧
      ((int32_byte v 16 = 0 ∧ int32_byte v 8 < 128) ∨
         (int32_byte v 16 = 255 ∧ 128 ≤ int32_byte v 8)) ∧
      ((int32_byte v 8 = 0 ∧ int32_byte v 0 < 128) ∨
         (int32_byte v 8 = 255 ∧ 128 ≤ int32_byte v 0))) := by
  have m1 := byte_msb_clear _ (int32_byte_lt v 16)
  have m2 := byte_msb_clear _ (int32_byte_lt v 8)
  have m3 := byte_msb_clear _ (int32_byte_lt v 0)
  have key : ∀ n, snmp_int32_encoded_len v = n →
      int32_content v = ((int32_bytes v).drop (4 - n)).take n := by
    intro n hn; unfold int32_content; rw [hn]
  obtain ⟨h4, h3, h2⟩ := encoded_len_loop_unfold (int32_byte v 24) (int32_byte v 16)
    (int32_byte v 8) (int32_byte v 0)
  have hlen : snmp_int32_encoded_len v =
      snmp_int32_encoded_len_loop
        [int32_byte v 24, int32_byte v 16, int32_byte v 8, int32_byte v 0] 4 := rfl
  rw [h4, h3, h2] at hlen
  simp only [ne_eq, m1, m2, m3, not_lt] at hlen
  by_cases r0 : (int32_byte v 24 = 0 ∧ int32_byte v 16 < 128) ∨
      (int32_byte v 24 = 255 ∧ 128 ≤ int32_byte v 16)
  · by_cases r1 : (int32_byte v 16 = 0 ∧ int32_byte v 8 < 128) ∨
        (int32_byte v 16 = 255 ∧ 128 ≤ int32_byte v 8)
    · by_cases r2 : (int32_byte v 8 = 0 ∧ int32_byte v 0 < 128) ∨
          (int32_byte v 8 = 255 ∧ 128 ≤ int32_byte v 0)
      · have h : snmp_int32_encoded_len v = 1 := by
          rw [hlen]; (repeat' split) <;> first | rfl | omega
        exact Or.inr (Or.inr (Or.inr ⟨h, by rw [key 1 h]; rfl, r0, r1, r2⟩))
      · have h : snmp_int32_encoded_len v = 2 := by
          rw [hlen]; (repeat' split) <;> first | rfl | omega
        exact Or.inr (Or.inr (Or.inl ⟨h, by rw [key 2 h]; rfl, r0, r1, r2⟩))
    · have h : snmp_int32_encoded_len v = 3 := by
        rw [hlen]; (repeat' split) <;> first | rfl | omega
      exact Or.inr (Or.inl ⟨h, by rw [key 3 h]; rfl, r0, r1⟩)
  · have h : snmp_int32_encoded_len v = 4 := by
      rw [hlen]; (repeat' split) <;> first | rfl | omega
    exact Or.inl ⟨h, by rw [key 4 h]; rfl, r0⟩

theorem int32_roundtrip (v : Int) (h1 : -2147483648 ≤ v) (h2 : v ≤ 2147483647) :
    snmp_decode_int32 (int32_content v) = some v := by
  obtain ⟨e0, e1, e2, e3⟩ := int32_byte_eq v
  have l0 := int32_byte_lt v 24
  have l1 := int32_byte_lt v 16
  have l2 := int32_byte_lt v 8
  have l3 := int32_byte_lt v 0
  rcases int32_len_cases v with ⟨-, hc, r0⟩ | ⟨-, hc, r0, r1⟩ | ⟨-, hc, r0, r1, r2⟩ |
      ⟨-, hc, r0, r1, r2⟩
  · rw [hc, decode_int32_four _ _ _ _ l0 l1 l2 l3]
    congr 1
    split <;> omega
  · rw [hc, decode_int32_three _ _ _ l1 l2 l3]
    congr 1
    split <;> omega
  · rw [hc, decode_int32_two _ _ l2 l3]
    congr 1
    split <;> omega
  · rw [hc, decode_int32_one _ l3]
    congr 1
    split <;> omega

/-! ## The writers when the cursor has room -/

theorem snmp_len_bytes_length (n : Nat) : (snmp_len_bytes n).length = snmp_len_field_size n := by
  unfold snmp_len_bytes snmp_len_field_size
  split
  · rfl
  · split <;> rfl

theorem tlv_bytes_length (t : Nat) (c : List Nat) : (tlv_bytes t c).length = tlv_len c.length := by
  simp only [tlv_bytes, tlv_len, List.length_cons, List.length_append, snmp_len_bytes_length]
  omega

theorem and_then_ok (r : Bool × snmp_buf_t) (f : snmp_buf_t → Bool × snmp_buf_t)
    (w : snmp_buf_t) (h : r = (true, w)) : and_then r f = f w := by
  subst h; rfl

theorem put_u8_ok (buf : List Nat) (cap v : Nat) (h : buf.length < cap) :
    snmp_buf_put_u8 { buf := buf, cap := cap } v = (true, { buf := buf ++ [v], cap := cap }) := by
  unfold snmp_buf_put_u8
  rw [if_neg (by simpa using h)]

theorem put_mem_ok (buf : List Nat) (cap : Nat) (src : List Nat)
    (h : buf.length + src.length ≤ cap) :
    snmp_buf_put_mem { buf := buf, cap := cap } src =
      (true, { buf := buf ++ src, cap := cap }) := by
  unfold snmp_buf_put_mem
  rw [if_neg (by simpa using h)]
  cases src with
  | nil => simp
  | cons a l => simp

theorem put_len_ok (buf : List Nat) (cap n : Nat)
    (h : buf.length + snmp_len_field_size n ≤ cap) :
    snmp_buf_put_len { buf := buf, cap := cap } n =
      (true, { buf := buf ++ snmp_len_bytes n, cap := cap }) := by
  unfold snmp_len_field_size at h
  unfold snmp_buf_put_len snmp_len_bytes
  by_cases h1 : n < 128
  · rw [if_pos h1] at h
    rw [if_pos h1, if_pos h1, put_u8_ok _ _ _ (by omega), Nat.mod_eq_of_lt (by omega)]
  · rw [if_neg h1] at h
    rw [if_neg h1, if_neg h1]
    by_cases h2 : n ≤ 0xFF
    · rw [if_pos h2] at h
      rw [if_pos h2, if_pos h2, put_u8_ok _ _ _ (by omega), and_then_ok _ _ _ rfl,
        put_u8_ok _ _ _ (by simp; omega), Nat.mod_eq_of_lt (by omega)]
      simp
    · rw [if_neg h2] at h
      rw [if_neg h2, if_neg h2, put_u8_ok _ _ _ (by omega), and_then_ok _ _ _ rfl,
        put_u8_ok _ _ _ (by simp; omega), and_then_ok _ _ _ rfl,
        put_u8_ok _ _ _ (by simp; omega), shr8, byte_low8, byte_low8, Nat.mod_mod, Nat.mod_mod]
      simp

theorem put_tlv_header_ok (buf : List Nat) (cap t n : Nat)
    (h : buf.length + 1 + snmp_len_field_size n ≤ cap) :
    snmp_put_tlv_header { buf := buf, cap := cap } t n =
      (true, { buf := buf ++ t :: snmp_len_bytes n, cap := cap }) := by
  unfold snmp_put_tlv_header
  rw [put_u8_ok _ _ _ (by omega), and_then_ok _ _ _ rfl, put_len_ok _ _ _ (by simp; omega)]
  simp

theorem put_tlv_ok (buf : List Nat) (cap t : Nat) (c : List Nat)
    (h : buf.length + tlv_len c.length ≤ cap) :
    and_then (snmp_put_tlv_header { buf := buf, cap := cap } t c.length)
        (fun w1 => snmp_buf_put_mem w1 c) =
      (true, { buf := buf ++ tlv_bytes t c, cap := cap }) := by
  unfold tlv_len at h
  rw [put_tlv_header_ok _ _ _ _ (by omega), and_then_ok _ _ _ rfl,
    put_mem_ok _ _ _ (by simp [snmp_len_bytes_length]; omega)]
  simp [tlv_bytes]

theorem int32_encoded_len_range (v : Int) :
    1 ≤ snmp_int32_encoded_len v ∧ snmp_int32_encoded_len v ≤ 4 ∧
    (int32_content v).length = snmp_int32_encoded_len v := by
  rcases int32_content_cases v with ⟨h, c⟩ | ⟨h, c⟩ | ⟨h, c⟩ | ⟨h, c⟩ <;>
    rw [h, c] <;> simp

theorem put_int32_ok (buf : List Nat) (cap : Nat) (v : Int)
    (h : buf.length + tlv_len (snmp_int32_encoded_len v) ≤ cap) :
    snmp_put_int32 { buf := buf, cap := cap } v =
      (true, { buf := buf ++ tlv_bytes SNMP_TYPE_INTEGER (int32_content v), cap := cap }) := by
  obtain ⟨h1, h2, h3⟩ := int32_encoded_len_range v
  unfold snmp_put_int32
  rw [← h3] at h ⊢
  exact put_tlv_ok buf cap _ _ h

theorem put_octets_ok (buf : List Nat) (cap : Nat) (c : List Nat)
    (h : buf.length + tlv_len c.length ≤ cap) :
    snmp_put_octets { buf := buf, cap := cap } c =
      (true, { buf := buf ++ tlv_bytes SNMP_TYPE_OCTET_STRING c, cap := cap }) :=
  put_tlv_ok buf cap _ c h

theorem put_oid_ok (buf : List Nat) (cap : Nat) (c : List Nat)
    (h : buf.length + tlv_len c.length ≤ cap) :
    snmp_put_oid { buf := buf, cap := cap } c =
      (true, { buf := buf ++ tlv_bytes SNMP_TYPE_OBJECT_ID c, cap := cap }) :=
  put_tlv_ok buf cap _ c h

theorem put_null_ok (buf : List Nat) (cap : Nat) (h : buf.length + 2 ≤ cap) :
    snmp_put_null { buf := buf, cap := cap } =
      (true, { buf := buf ++ tlv_bytes SNMP_TYPE_NULL [], cap := cap }) := by
  unfold snmp_put_null
  rw [put_tlv_header_ok _ _ _ _ (by simp [snmp_len_field_size]; omega)]
  rfl

/-! ## The readers on what the writers emit -/

theorem getD_of_drop (pkt : List Nat) (p i : Nat) (l : List Nat) (h : pkt.drop p = l) :
    pkt.getD (p + i) 0 = l.getD i 0 := by
  subst h
  simp [List.getD_eq_getElem?_getD, List.getElem?_drop]

theorem getD_of_drop_zero (pkt : List Nat) (p : Nat) (l : List Nat) (h : pkt.drop p = l) :
    pkt.getD p 0 = l.getD 0 0 :=
  getD_of_drop pkt p 0 l h

theorem drop_append_step (pkt : List Nat) (p : Nat) (a b : List Nat)
    (h : pkt.drop p = a ++ b) : pkt.drop (p + a.length) = b := by
  rw [← List.drop_drop, h, List.drop_left]

theorem bytes_at_of_drop (pkt : List Nat) (p : Nat) (a b : List Nat)
    (h : pkt.drop p = a ++ b) : bytes_at pkt p a.length = a := by
  unfold bytes_at
  rw [h, List.take_left]

theorem read_len_ok (pkt : List Nat) (pp end_ n : Nat) (rest : List Nat)
    (hd : pkt.drop pp = snmp_len_bytes n ++ rest) (hn : n < 65536)
    (hend : pp + snmp_len_field_size n + n ≤ end_) :
    snmp_read_len pkt pp end_ = some (pp + snmp_len_field_size n, n) := by
  unfold snmp_len_bytes at hd
  unfold snmp_len_field_size at hend ⊢
  unfold snmp_read_len
  by_cases h1 : n < 128
  · rw [if_pos h1] at hd hend ⊢
    have g0 : pkt.getD pp 0 = n := by rw [getD_of_drop_zero pkt pp _ hd]; rfl
    rw [if_neg (by omega), g0, if_pos ((byte_msb_clear n (by omega)).mpr h1), if_pos (by omega)]
  · rw [if_neg h1] at hd hend ⊢
    by_cases h2 : n ≤ 255
    · rw [if_pos h2] at hd hend ⊢
      have g0 : pkt.getD pp 0 = 0x81 := by rw [getD_of_drop_zero pkt pp _ hd]; rfl
      have g1 : pkt.getD (pp + 1 + 0) 0 = n := by
        rw [Nat.add_zero, getD_of_drop pkt pp 1 _ hd]; rfl
      rw [if_neg (by omega), g0, if_neg (by decide)]
      have hc : (0x81 : Nat) &&& 0x7F = 1 := by decide
      rw [hc, if_neg (by omega)]
      have hl : snmp_read_len_loop pkt (pp + 1) 1 0 0 = n := by
        simp only [snmp_read_len_loop, g1, Nat.zero_shiftLeft, Nat.zero_or]
      rw [hl, if_pos (by omega)]
    · rw [if_neg h2] at hd hend ⊢
      have g0 : pkt.getD pp 0 = 0x82 := by rw [getD_of_drop_zero pkt pp _ hd]; rfl
      have g1 : pkt.getD (pp + 1 + 0) 0 = n / 256 % 256 := by
        rw [Nat.add_zero, getD_of_drop pkt pp 1 _ hd]; rfl
      have g2 : pkt.getD (pp + 1 + (0 + 1)) 0 = n % 256 := by
        rw [Nat.zero_add, Nat.add_assoc, getD_of_drop pkt pp (1 + 1) _ hd]; rfl
      rw [if_neg (by omega), g0, if_neg (by decide)]
      have hc : (0x82 : Nat) &&& 0x7F = 2 := by decide
      rw [hc, if_neg (by omega)]
      have hl : snmp_read_len_loop pkt (pp + 1) 2 0 0 = n := by
        simp only [snmp_read_len_loop, g1, g2, Nat.zero_shiftLeft, Nat.zero_or]
        rw [shl8_or _ _ (Nat.mod_lt _ (by decide))]
        omega
      rw [hl, if_pos (by omega)]

theorem expect_tlv_ok (pkt : List Nat) (pp end_ t n : Nat) (rest : List Nat)
    (hd : pkt.drop pp = t :: (snmp_len_bytes n ++ rest)) (hn : n < 65536)
    (hend : pp + tlv_len n ≤ end_) :
    snmp_expect_tlv pkt pp end_ t =
      some (pp + tlv_len n, pp + 1 + snmp_len_field_size n, n) := by
  unfold tlv_len at hend ⊢
  have g0 : pkt.getD pp 0 = t := by rw [getD_of_drop_zero pkt pp _ hd]; rfl
  have hd1 : pkt.drop (pp + 1) = snmp_len_bytes n ++ rest :=
    drop_append_step pkt pp [t] _ hd
  unfold snmp_expect_tlv
  rw [if_neg (by rw [g0]; omega), read_len_ok pkt (pp + 1) end_ n rest hd1 hn (by omega)]
  simp only [Option.some.injEq, Prod.mk.injEq, and_true]
  omega

/-! ## The response as `snmp_build_response` emits it -/

theorem int32_content_length (v : Int) :
    (int32_content v).length = snmp_int32_encoded_len v :=
  (int32_encoded_len_range v).2.2

theorem value_bytes_length (e : Int) (value : Option snmp_value_t) :
    (value_bytes e value).length = value_tlv_len e value := by
  unfold value_bytes value_tlv_len
  cases value with
  | none => rfl
  | some v =>
    simp only []
    split
    · cases v.kind
      · simp only [tlv_bytes_length, (int32_encoded_len_range v.i32).2.2]
      · simp only [tlv_bytes_length]
    · rfl

theorem int32_tlv_length (v : Int) :
    (tlv_bytes SNMP_TYPE_INTEGER (int32_content v)).length =
      tlv_len (snmp_int32_encoded_len v) := by
  rw [tlv_bytes_length, (int32_encoded_len_range v).2.2]

theorem varbind_bytes_length (e : Int) (oid : List Nat) (value : Option snmp_value_t) :
    (tlv_bytes SNMP_TYPE_OBJECT_ID oid ++ value_bytes e value).length =
      varbind_content_len e oid value := by
  rw [List.length_append, tlv_bytes_length, value_bytes_length]
  rfl

theorem pdu_bytes_length (req : snmp_request_t) (e i : Int) (oid : List Nat)
    (value : Option snmp_value_t) :
    (pdu_bytes req e i oid value).length = pdu_content_len req e i oid value := by
  unfold pdu_bytes pdu_content_len
  simp only [List.length_append, tlv_bytes_length, int32_content_length, value_bytes_length]
  unfold varbind_content_len
  omega

theorem msg_bytes_length (req : snmp_request_t) (e i : Int) (oid : List Nat)
    (value : Option snmp_value_t) :
    (tlv_bytes SNMP_TYPE_INTEGER (int32_content req.version) ++
      (tlv_bytes SNMP_TYPE_OCTET_STRING req.community ++
        tlv_bytes SNMP_TYPE_GET_RESPONSE (pdu_bytes req e i oid value))).length =
      msg_content_len req e i oid value := by
  unfold msg_content_len
  simp only [List.length_append, tlv_bytes_length, int32_content_length, pdu_bytes_length]
  omega

theorem response_bytes_length (req : snmp_request_t) (e i : Int) (oid : List Nat)
    (value : Option snmp_value_t) :
    (response_bytes req e i oid value).length = tlv_len (msg_content_len req e i oid value) := by
  unfold response_bytes
  rw [tlv_bytes_length, msg_bytes_length]

theorem put_value_ok (buf : List Nat) (cap : Nat) (e : Int) (value : Option snmp_value_t)
    (h : buf.length + value_tlv_len e value ≤ cap) :
    put_value { buf := buf, cap := cap } e value =
      (true, { buf := buf ++ value_bytes e value, cap := cap }) := by
  unfold value_tlv_len at h
  unfold put_value value_bytes
  cases value with
  | none => exact put_null_ok buf cap h
  | some v =>
    simp only [] at h ⊢
    by_cases he : e = SNMP_ERR_NOERROR
    · simp only [if_pos he] at h ⊢
      cases hk : v.kind
      · simp only [hk] at h ⊢; exact put_int32_ok buf cap _ h
      · simp only [hk] at h ⊢; exact put_octets_ok buf cap _ h
    · simp only [if_neg he] at h ⊢
      exact put_null_ok buf cap h

theorem tlv_bytes_eq (t : Nat) (c : List Nat) (n : Nat) (h : c.length = n) :
    tlv_bytes t c = t :: (snmp_len_bytes n ++ c) := by
  subst h; rfl

theorem build_response_ok (req : snmp_request_t) (e i : Int) (oid : List Nat)
    (value : Option snmp_value_t) (cap : Nat) (hoid : oid ≠ [])
    (hcap : tlv_len (msg_content_len req e i oid value) ≤ cap) :
    snmp_build_response req e i (some oid) value cap =
      (true, { buf := response_bytes req e i oid value, cap := cap }) := by
  have hlen0 : ¬ oid.length = 0 := fun h => hoid (List.length_eq_zero.mp h)
  have hM : msg_content_len req e i oid value =
      tlv_len (snmp_int32_encoded_len req.version) + tlv_len req.community.length +
        tlv_len (pdu_content_len req e i oid value) := by rw [msg_content_len]
  have hP : pdu_content_len req e i oid value =
      tlv_len (snmp_int32_encoded_len req.request_id) + tlv_len (snmp_int32_encoded_len e) +
        tlv_len (snmp_int32_encoded_len i) +
        tlv_len (tlv_len (varbind_content_len e oid value)) := by rw [pdu_content_len]
  have hV : varbind_content_len e oid value =
      tlv_len oid.length + value_tlv_len e value := by rw [varbind_content_len]
  have t1 : tlv_len (msg_content_len req e i oid value) =
      1 + snmp_len_field_size (msg_content_len req e i oid value) +
        msg_content_len req e i oid value := by rw [tlv_len]
  have t2 : tlv_len (pdu_content_len req e i oid value) =
      1 + snmp_len_field_size (pdu_content_len req e i oid value) +
        pdu_content_len req e i oid value := by rw [tlv_len]
  have t3 : tlv_len (tlv_len (varbind_content_len e oid value)) =
      1 + snmp_len_field_size (tlv_len (varbind_content_len e oid value)) +
        tlv_len (varbind_content_len e oid value) := by rw [tlv_len]
  have t4 : tlv_len (varbind_content_len e oid value) =
      1 + snmp_len_field_size (varbind_content_len e oid value) +
        varbind_content_len e oid value := by rw [tlv_len]
  have s1 := put_tlv_header_ok [] cap SNMP_TYPE_SEQUENCE (msg_content_len req e i oid value)
    (by simp only [List.length_nil]; omega)
  have s2 := put_int32_ok ([] ++ SNMP_TYPE_SEQUENCE ::
      snmp_len_bytes (msg_content_len req e i oid value)) cap req.version (by
      simp only [List.length_append, List.length_cons, List.length_nil, snmp_len_bytes_length,
        tlv_bytes_length, int32_content_length, value_bytes_length]
      omega)
  have s3 := put_octets_ok (([] ++ SNMP_TYPE_SEQUENCE ::
      snmp_len_bytes (msg_content_len req e i oid value)) ++
      tlv_bytes SNMP_TYPE_INTEGER (int32_content req.version)) cap req.community (by
      simp only [List.length_append, List.length_cons, List.length_nil, snmp_len_bytes_length,
        tlv_bytes_length, int32_content_length, value_bytes_length]
      omega)
  have s4 := put_tlv_header_ok ((([] ++ SNMP_TYPE_SEQUENCE ::
      snmp_len_bytes (msg_content_len req e i oid value)) ++
      tlv_bytes SNMP_TYPE_INTEGER (int32_content req.version)) ++
      tlv_bytes SNMP_TYPE_OCTET_STRING req.community) cap SNMP_TYPE_GET_RESPONSE
      (pdu_content_len req e i oid value) (by
      simp only [List.length_append, List.length_cons, List.length_nil, snmp_len_bytes_length,
        tlv_bytes_length, int32_content_length, value_bytes_length]
      omega)
  have s5 := put_int32_ok (((([] ++ SNMP_TYPE_SEQUENCE ::
      snmp_len_bytes (msg_content_len req e i oid value)) ++
      tlv_bytes SNMP_TYPE_INTEGER (int32_content req.version)) ++
      tlv_bytes SNMP_TYPE_OCTET_STRING req.community) ++
      SNMP_TYPE_GET_RESPONSE :: snmp_len_bytes (pdu_content_len req e i oid value))
      cap req.request_id (by
      simp only [List.length_append, List.length_cons, List.length_nil, snmp_len_bytes_length,
        tlv_bytes_length, int32_content_length, value_bytes_length]
      omega)
  have s6 := put_int32_ok ((((([] ++ SNMP_TYPE_SEQUENCE ::
      snmp_len_bytes (msg_content_len req e i oid value)) ++
      tlv_bytes SNMP_TYPE_INTEGER (int32_content req.version)) ++
      tlv_bytes SNMP_TYPE_OCTET_STRING req.community) ++
      SNMP_TYPE_GET_RESPONSE :: snmp_len_bytes (pdu_content_len req e i oid value)) ++
      tlv_bytes SNMP_TYPE_INTEGER (int32_content req.request_id))
      cap e (by
      simp only [List.length_append, List.length_cons, List.length_nil, snmp_len_bytes_length,
        tlv_bytes_length, int32_content_length, value_bytes_length]
      omega)
  have s7 := put_int32_ok (((((([] ++ SNMP_TYPE_SEQUENCE ::
      snmp_len_bytes (msg_content_len req e i oid value)) ++
      tlv_bytes SNMP_TYPE_INTEGER (int32_content req.version)) ++
      tlv_bytes SNMP_TYPE_OCTET_STRING req.community) ++
      SNMP_TYPE_GET_RESPONSE :: snmp_len_bytes (pdu_content_len req e i oid value)) ++
      tlv_bytes SNMP_TYPE_INTEGER (int32_content req.request_id)) ++
      tlv_bytes SNMP_TYPE_INTEGER (int32_content e))
      cap i (by
      simp only [List.length_append, List.length_cons, List.length_nil, snmp_len_bytes_length,
        tlv_bytes_length, int32_content_length, value_bytes_length]
      omega)
  have s8 := put_tlv_header_ok ((((((([] ++ SNMP_TYPE_SEQUENCE ::
      snmp_len_bytes (msg_content_len req e i oid value)) ++
      tlv_bytes SNMP_TYPE_INTEGER (int32_content req.version)) ++
      tlv_bytes SNMP_TYPE_OCTET_STRING req.community) ++
      SNMP_TYPE_GET_RESPONSE :: snmp_len_bytes (pdu_content_len req e i oid value)) ++
      tlv_bytes SNMP_TYPE_INTEGER (int32_content req.request_id)) ++
      tlv_bytes SNMP_TYPE_INTEGER (int32_content e)) ++
      tlv_bytes SNMP_TYPE_INTEGER (int32_content i))
      cap SNMP_TYPE_SEQUENCE (tlv_len (varbind_content_len e oid value)) (by
      simp only [List.length_append, List.length_cons, List.length_nil, snmp_len_bytes_length,
        tlv_bytes_length, int32_content_length, value_bytes_length]
      omega)
  have s9 := put_tlv_header_ok (((((((([] ++ SNMP_TYPE_SEQUENCE ::
      snmp_len_bytes (msg_content_len req e i oid value)) ++
      tlv_bytes SNMP_TYPE_INTEGER (int32_content req.version)) ++
      tlv_bytes SNMP_TYPE_OCTET_STRING req.community) ++
      SNMP_TYPE_GET_RESPONSE :: snmp_len_bytes (pdu_content_len req e i oid value)) ++
      tlv_bytes SNMP_TYPE_INTEGER (int32_content req.request_id)) ++
      tlv_bytes SNMP_TYPE_INTEGER (int32_content e)) ++
      tlv_bytes SNMP_TYPE_INTEGER (int32_content i)) ++
      SNMP_TYPE_SEQUENCE :: snmp_len_bytes (tlv_len (varbind_content_len e oid value)))
      cap SNMP_TYPE_SEQUENCE (varbind_content_len e oid value) (by
      simp only [List.length_append, List.length_cons, List.length_nil, snmp_len_bytes_length,
        tlv_bytes_length, int32_content_length, value_bytes_length]
      omega)
  have s10 := put_oid_ok ((((((((([] ++ SNMP_TYPE_SEQUENCE ::
      snmp_len_bytes (msg_content_len req e i oid value)) ++
      tlv_bytes SNMP_TYPE_INTEGER (int32_content req.version)) ++
      tlv_bytes SNMP_TYPE_OCTET_STRING req.community) ++
      SNMP_TYPE_GET_RESPONSE :: snmp_len_bytes (pdu_content_len req e i oid value)) ++
      tlv_bytes SNMP_TYPE_INTEGER (int32_content req.request_id)) ++
      tlv_bytes SNMP_TYPE_INTEGER (int32_content e)) ++
      tlv_bytes SNMP_TYPE_INTEGER (int32_content i)) ++
      SNMP_TYPE_SEQUENCE :: snmp_len_bytes (tlv_len (varbind_content_len e oid value))) ++
      SNMP_TYPE_SEQUENCE :: snmp_len_bytes (varbind_content_len e oid value))
      cap oid (by
      simp only [List.length_append, List.length_cons, List.length_nil, snmp_len_bytes_length,
        tlv_bytes_length, int32_content_length, value_bytes_length]
      omega)
  have s11 := put_value_ok (((((((((([] ++ SNMP_TYPE_SEQUENCE ::
      snmp_len_bytes (msg_content_len req e i oid value)) ++
      tlv_bytes SNMP_TYPE_INTEGER (int32_content req.version)) ++
      tlv_bytes SNMP_TYPE_OCTET_STRING req.community) ++
      SNMP_TYPE_GET_RESPONSE :: snmp_len_bytes (pdu_content_len req e i oid value)) ++
      tlv_bytes SNMP_TYPE_INTEGER (int32_content req.request_id)) ++
      tlv_bytes SNMP_TYPE_INTEGER (int32_content e)) ++
      tlv_bytes SNMP_TYPE_INTEGER (int32_content i)) ++
      SNMP_TYPE_SEQUENCE :: snmp_len_bytes (tlv_len (varbind_content_len e oid value))) ++
      SNMP_TYPE_SEQUENCE :: snmp_len_bytes (varbind_content_len e oid value)) ++
      tlv_bytes SNMP_TYPE_OBJECT_ID oid)
      cap e value (by
      simp only [List.length_append, List.length_cons, List.length_nil, snmp_len_bytes_length,
        tlv_bytes_length, int32_content_length, value_bytes_length]
      omega)
  unfold snmp_build_response
  simp only []
  rw [if_neg hlen0, if_neg (Nat.not_lt.mpr hcap), s1, and_then_ok _ _ _ rfl, s2,
    and_then_ok _ _ _ rfl, s3, and_then_ok _ _ _ rfl, s4, and_then_ok _ _ _ rfl, s5,
    and_then_ok _ _ _ rfl, s6, and_then_ok _ _ _ rfl, s7, and_then_ok _ _ _ rfl, s8,
    and_then_ok _ _ _ rfl, s9, and_then_ok _ _ _ rfl, s10, and_then_ok _ _ _ rfl, s11]
  refine congrArg (fun b => (true, ({ buf := b, cap := cap } : snmp_buf_t))) ?_
  unfold response_bytes
  rw [tlv_bytes_eq SNMP_TYPE_SEQUENCE _ _ (msg_bytes_length req e i oid value),
    tlv_bytes_eq SNMP_TYPE_GET_RESPONSE _ _ (pdu_bytes_length req e i oid value)]
  unfold pdu_bytes
  rw [tlv_bytes_eq SNMP_TYPE_SEQUENCE _ _
      ((tlv_bytes_length _ _).trans (congrArg tlv_len (varbind_bytes_length e oid value))),
    tlv_bytes_eq SNMP_TYPE_SEQUENCE _ _ (varbind_bytes_length e oid value)]
  simp only [List.nil_append, List.append_assoc, List.cons_append]

/-! ## Reading the response back -/

theorem expect_tlv_at (pkt : List Nat) (p end_ t : Nat) (c rest : List Nat)
    (h : pkt.drop p = tlv_bytes t c ++ rest) (hc : c.length < 65536)
    (hend : p + tlv_len c.length ≤ end_) :
    snmp_expect_tlv pkt p end_ t =
      some (p + tlv_len c.length, p + 1 + snmp_len_field_size c.length, c.length) ∧
    pkt.drop (p + 1 + snmp_len_field_size c.length) = c ++ rest ∧
    pkt.drop (p + tlv_len c.length) = rest ∧
    bytes_at pkt (p + 1 + snmp_len_field_size c.length) c.length = c := by
  have h1 : pkt.drop p = t :: (snmp_len_bytes c.length ++ (c ++ rest)) := by
    rw [h]; simp [tlv_bytes]
  have h2 : pkt.drop (p + 1) = snmp_len_bytes c.length ++ (c ++ rest) :=
    drop_append_step pkt p [t] _ h1
  have h3 : pkt.drop (p + 1 + snmp_len_field_size c.length) = c ++ rest := by
    rw [← snmp_len_bytes_length]
    exact drop_append_step pkt (p + 1) _ _ h2
  have h4 : pkt.drop (p + tlv_len c.length) = rest := by
    have := drop_append_step pkt p _ _ h
    rw [tlv_bytes_length] at this
    exact this
  exact ⟨expect_tlv_ok pkt p end_ t c.length (c ++ rest) h1 hc hend, h3, h4,
    bytes_at_of_drop pkt _ c rest h3⟩

theorem expect_tlv_tag_mismatch (pkt : List Nat) (p end_ t t0 : Nat) (l : List Nat)
    (h : pkt.drop p = t0 :: l) (hne : t0 ≠ t) : snmp_expect_tlv pkt p end_ t = none := by
  have g0 : pkt.getD p 0 = t0 := by rw [getD_of_drop_zero pkt p _ h]; rfl
  unfold snmp_expect_tlv
  rw [if_pos (Or.inr (by rw [g0]; exact hne))]

theorem read_int32_at (pkt : List Nat) (p end_ : Nat) (v : Int) (rest : List Nat)
    (h : pkt.drop p = tlv_bytes SNMP_TYPE_INTEGER (int32_content v) ++ rest)
    (h1 : -2147483648 ≤ v) (h2 : v ≤ 2147483647)
    (hend : p + tlv_len (snmp_int32_encoded_len v) ≤ end_) :
    read_int32 pkt p end_ = some (p + tlv_len (snmp_int32_encoded_len v), v) ∧
    pkt.drop (p + tlv_len (snmp_int32_encoded_len v)) = rest := by
  obtain ⟨l1, l2, l3⟩ := int32_encoded_len_range v
  rw [← l3] at hend ⊢
  obtain ⟨e1, -, e3, e4⟩ := expect_tlv_at pkt p end_ _ _ rest h (by omega) hend
  refine ⟨?_, e3⟩
  unfold read_int32
  rw [e1]
  simp only [e4, int32_roundtrip v h1 h2]

theorem expect_tlv_other_tag (pkt : List Nat) (p end_ t t0 : Nat) (c rest : List Nat)
    (h : pkt.drop p = tlv_bytes t0 c ++ rest) (hne : t0 ≠ t) :
    snmp_expect_tlv pkt p end_ t = none :=
  expect_tlv_tag_mismatch pkt p end_ t t0 (snmp_len_bytes c.length ++ c ++ rest)
    (by rw [h]; simp [tlv_bytes]) hne

theorem read_value_at (pkt : List Nat) (p end_ : Nat) (e : Int) (value : Option snmp_value_t)
    (rest : List Nat) (h : pkt.drop p = value_bytes e value ++ rest)
    (hv : ∀ v, value = some v → -2147483648 ≤ v.i32 ∧ v.i32 ≤ 2147483647)
    (hsz : value_tlv_len e value < 65536) (hend : p + value_tlv_len e value ≤ end_) :
    read_value pkt p end_ = some (expected_value e value) := by
  have hnull : pkt.drop p = tlv_bytes SNMP_TYPE_NULL [] ++ rest → p + 2 ≤ end_ →
      read_value pkt p end_ = some decoded_value_t.null := by
    intro h0 he
    obtain ⟨e1, -⟩ := expect_tlv_at pkt p end_ _ [] rest h0 (by decide) he
    unfold read_value
    rw [expect_tlv_other_tag pkt p end_ SNMP_TYPE_INTEGER _ _ _ h0 (by decide),
      expect_tlv_other_tag pkt p end_ SNMP_TYPE_OCTET_STRING _ _ _ h0 (by decide), e1]
    rfl
  unfold value_bytes at h
  unfold value_tlv_len at hend hsz
  unfold expected_value
  cases value with
  | none => exact hnull h hend
  | some v =>
    obtain ⟨h1, h2⟩ := hv v rfl
    simp only [] at h hend hsz ⊢
    by_cases he : e = SNMP_ERR_NOERROR
    · simp only [if_pos he] at h hend hsz ⊢
      cases hk : v.kind
      · simp only [hk] at h hend ⊢
        obtain ⟨l1, l2, l3⟩ := int32_encoded_len_range v.i32
        rw [← l3] at hend
        obtain ⟨e1, -, -, e4⟩ := expect_tlv_at pkt p end_ _ _ rest h (by omega) hend
        unfold read_value
        rw [e1]
        simp only [e4, int32_roundtrip v.i32 h1 h2]
      · simp only [hk] at h hend hsz ⊢
        have h3 : v.octets.length < 65536 := by
          rw [tlv_len] at hsz; omega
        obtain ⟨e1, -, -, e4⟩ := expect_tlv_at pkt p end_ _ _ rest h h3 hend
        unfold read_value
        rw [expect_tlv_other_tag pkt p end_ SNMP_TYPE_INTEGER _ _ _ h (by decide), e1]
        simp only [e4]
    · simp only [if_neg he] at h hend ⊢
      exact hnull h hend

theorem read_varbind_list_at (pkt : List Nat) (p end_ : Nat) (e : Int) (oid : List Nat)
    (value : Option snmp_value_t) (rest : List Nat)
    (h : pkt.drop p =
      tlv_bytes SNMP_TYPE_SEQUENCE
        (tlv_bytes SNMP_TYPE_SEQUENCE
          (tlv_bytes SNMP_TYPE_OBJECT_ID oid ++ value_bytes e value)) ++ rest)
    (hv : ∀ v, value = some v → -2147483648 ≤ v.i32 ∧ v.i32 ≤ 2147483647)
    (hsz : tlv_len (tlv_len (varbind_content_len e oid value)) < 65536)
    (hend : p + tlv_len (tlv_len (varbind_content_len e oid value)) ≤ end_) :
    read_varbind_list pkt p end_ = some (oid, expected_value e value) := by
  have t3 : tlv_len (tlv_len (varbind_content_len e oid value)) =
      1 + snmp_len_field_size (tlv_len (varbind_content_len e oid value)) +
        tlv_len (varbind_content_len e oid value) := by rw [tlv_len]
  have t4 : tlv_len (varbind_content_len e oid value) =
      1 + snmp_len_field_size (varbind_content_len e oid value) +
        varbind_content_len e oid value := by rw [tlv_len]
  have hV : varbind_content_len e oid value =
      tlv_len oid.length + value_tlv_len e value := by rw [varbind_content_len]
  have t5 : tlv_len oid.length = 1 + snmp_len_field_size oid.length + oid.length := by
    rw [tlv_len]
  have L1 : (tlv_bytes SNMP_TYPE_SEQUENCE
      (tlv_bytes SNMP_TYPE_OBJECT_ID oid ++ value_bytes e value)).length =
      tlv_len (varbind_content_len e oid value) := by
    rw [tlv_bytes_length, varbind_bytes_length]
  have L2 := varbind_bytes_length e oid value
  obtain ⟨a1, a2, -, -⟩ := expect_tlv_at pkt p end_ _ _ rest h (by rw [L1]; omega)
    (by rw [L1]; omega)
  rw [L1] at a1 a2
  obtain ⟨b1, b2, -, -⟩ := expect_tlv_at pkt _
    (p + 1 + snmp_len_field_size (tlv_len (varbind_content_len e oid value)) +
      tlv_len (varbind_content_len e oid value)) _ _ rest a2 (by rw [L2]; omega)
    (by rw [L2])
  rw [L2] at b1 b2
  rw [List.append_assoc] at b2
  obtain ⟨c1, -, c3, c4⟩ := expect_tlv_at pkt _
    (p + 1 + snmp_len_field_size (tlv_len (varbind_content_len e oid value)) + 1 +
      snmp_len_field_size (varbind_content_len e oid value) +
      varbind_content_len e oid value) _ _ _ b2 (by omega) (by omega)
  have d1 := read_value_at pkt _
    (p + 1 + snmp_len_field_size (tlv_len (varbind_content_len e oid value)) + 1 +
      snmp_len_field_size (varbind_content_len e oid value) +
      varbind_content_len e oid value) e value rest c3 hv (by omega) (by omega)
  unfold read_varbind_list
  rw [a1]
  simp only []
  rw [b1]
  simp only []
  rw [c1]
  simp only [d1, c4]

theorem read_response_pdu_at (pkt : List Nat) (p end_ : Nat) (req : snmp_request_t)
    (e i : Int) (oid : List Nat) (value : Option snmp_value_t) (rest : List Nat)
    (h : pkt.drop p =
      tlv_bytes SNMP_TYPE_GET_RESPONSE (pdu_bytes req e i oid value) ++ rest)
    (hr : -2147483648 ≤ req.request_id ∧ req.request_id ≤ 2147483647)
    (he : -2147483648 ≤ e ∧ e ≤ 2147483647) (hi : -2147483648 ≤ i ∧ i ≤ 2147483647)
    (hv : ∀ v, value = some v → -2147483648 ≤ v.i32 ∧ v.i32 ≤ 2147483647)
    (hsz : tlv_len (pdu_content_len req e i oid value) < 65536)
    (hend : p + tlv_len (pdu_content_len req e i oid value) ≤ end_) :
    read_response_pdu pkt p end_ =
      some (req.request_id, e, i, oid, expected_value e value) := by
  have t2 : tlv_len (pdu_content_len req e i oid value) =
      1 + snmp_len_field_size (pdu_content_len req e i oid value) +
        pdu_content_len req e i oid value := by rw [tlv_len]
  have hP : pdu_content_len req e i oid value =
      tlv_len (snmp_int32_encoded_len req.request_id) + tlv_len (snmp_int32_encoded_len e) +
        tlv_len (snmp_int32_encoded_len i) +
        tlv_len (tlv_len (varbind_content_len e oid value)) := by rw [pdu_content_len]
  have h0 : pkt.drop p = SNMP_TYPE_GET_RESPONSE ::
      (snmp_len_bytes (pdu_content_len req e i oid value) ++
        (pdu_bytes req e i oid value ++ rest)) := by
    rw [h, tlv_bytes_eq _ _ _ (pdu_bytes_length req e i oid value)]
    simp
  have g0 : pkt.getD p 0 = SNMP_TYPE_GET_RESPONSE := by
    rw [getD_of_drop_zero pkt p _ h0]; rfl
  have h1 : pkt.drop (p + 1) = snmp_len_bytes (pdu_content_len req e i oid value) ++
      (pdu_bytes req e i oid value ++ rest) :=
    drop_append_step pkt p [SNMP_TYPE_GET_RESPONSE] _ h0
  have r1 := read_len_ok pkt (p + 1) end_ _ _ h1 (by omega) (by omega)
  have h2 : pkt.drop (p + 1 + snmp_len_field_size (pdu_content_len req e i oid value)) =
      pdu_bytes req e i oid value ++ rest := by
    rw [← snmp_len_bytes_length]
    exact drop_append_step pkt (p + 1) _ _ h1
  unfold pdu_bytes at h2
  simp only [List.append_assoc] at h2
  obtain ⟨a1, a2⟩ := read_int32_at pkt _
    (p + 1 + snmp_len_field_size (pdu_content_len req e i oid value) +
      pdu_content_len req e i oid value) _ _ h2 hr.1 hr.2 (by omega)
  obtain ⟨b1, b2⟩ := read_int32_at pkt _
    (p + 1 + snmp_len_field_size (pdu_content_len req e i oid value) +
      pdu_content_len req e i oid value) _ _ a2 he.1 he.2 (by omega)
  obtain ⟨c1, c2⟩ := read_int32_at pkt _
    (p + 1 + snmp_len_field_size (pdu_content_len req e i oid value) +
      pdu_content_len req e i oid value) _ _ b2 hi.1 hi.2 (by omega)
  have d1 := read_varbind_list_at pkt _
    (p + 1 + snmp_len_field_size (pdu_content_len req e i oid value) +
      pdu_content_len req e i oid value) e oid value rest c2 hv (by omega) (by omega)
  unfold read_response_pdu
  rw [if_neg (by rw [g0]; simp; omega), r1]
  simp only []
  rw [a1]
  simp only []
  rw [b1]
  simp only []
  rw [c1]
  simp only [d1]

theorem decode_response_ok (req : snmp_request_t) (e i : Int) (oid : List Nat)
    (value : Option snmp_value_t)
    (hver : -2147483648 ≤ req.version ∧ req.version ≤ 2147483647)
    (hr : -2147483648 ≤ req.request_id ∧ req.request_id ≤ 2147483647)
    (he : -2147483648 ≤ e ∧ e ≤ 2147483647) (hi : -2147483648 ≤ i ∧ i ≤ 2147483647)
    (hv : ∀ v, value = some v → -2147483648 ≤ v.i32 ∧ v.i32 ≤ 2147483647)
    (hsz : tlv_len (msg_content_len req e i oid value) < 65536) :
    decode_response (response_bytes req e i oid value) =
      some { version := req.version, community := req.community,
             request_id := req.request_id, error_status := e, error_index := i,
             oid := oid, value := expected_value e value } := by
  have t1 : tlv_len (msg_content_len req e i oid value) =
      1 + snmp_len_field_size (msg_content_len req e i oid value) +
        msg_content_len req e i oid value := by rw [tlv_len]
  have hM : msg_content_len req e i oid value =
      tlv_len (snmp_int32_encoded_len req.version) + tlv_len req.community.length +
        tlv_len (pdu_content_len req e i oid value) := by rw [msg_content_len]
  have t6 : tlv_len req.community.length =
      1 + snmp_len_field_size req.community.length + req.community.length := by rw [tlv_len]
  have t2 : tlv_len (pdu_content_len req e i oid value) =
      1 + snmp_len_field_size (pdu_content_len req e i oid value) +
        pdu_content_len req e i oid value := by rw [tlv_len]
  have hP : pdu_content_len req e i oid value =
      tlv_len (snmp_int32_encoded_len req.request_id) + tlv_len (snmp_int32_encoded_len e) +
        tlv_len (snmp_int32_encoded_len i) +
        tlv_len (tlv_len (varbind_content_len e oid value)) := by rw [pdu_content_len]
  have t3 : tlv_len (tlv_len (varbind_content_len e oid value)) =
      1 + snmp_len_field_size (tlv_len (varbind_content_len e oid value)) +
        tlv_len (varbind_content_len e oid value) := by rw [tlv_len]
  have t4 : tlv_len (varbind_content_len e oid value) =
      1 + snmp_len_field_size (varbind_content_len e oid value) +
        varbind_content_len e oid value := by rw [tlv_len]
  have hV : varbind_content_len e oid value =
      tlv_len oid.length + value_tlv_len e value := by rw [varbind_content_len]
  have L0 := msg_bytes_length req e i oid value
  have h0 : (response_bytes req e i oid value).drop 0 =
      tlv_bytes SNMP_TYPE_SEQUENCE
        (tlv_bytes SNMP_TYPE_INTEGER (int32_content req.version) ++
          (tlv_bytes SNMP_TYPE_OCTET_STRING req.community ++
            tlv_bytes SNMP_TYPE_GET_RESPONSE (pdu_bytes req e i oid value))) ++ [] := by
    rw [List.drop_zero, List.append_nil, response_bytes]
  have hl : (response_bytes req e i oid value).length =
      tlv_len (msg_content_len req e i oid value) := response_bytes_length req e i oid value
  obtain ⟨a1, a2, -, -⟩ := expect_tlv_at (response_bytes req e i oid value) 0
    (response_bytes req e i oid value).length _ _ [] h0 (by rw [L0]; omega)
    (by rw [L0, hl]; omega)
  rw [L0] at a1 a2
  simp only [List.append_assoc] at a2
  obtain ⟨b1, b2⟩ := read_int32_at (response_bytes req e i oid value) _
    (0 + 1 + snmp_len_field_size (msg_content_len req e i oid value) +
      msg_content_len req e i oid value) _ _ a2 hver.1 hver.2 (by omega)
  obtain ⟨c1, -, c3, c4⟩ := expect_tlv_at (response_bytes req e i oid value) _
    (0 + 1 + snmp_len_field_size (msg_content_len req e i oid value) +
      msg_content_len req e i oid value) _ _ _ b2 (by omega) (by omega)
  have d1 := read_response_pdu_at (response_bytes req e i oid value) _
    (0 + 1 + snmp_len_field_size (msg_content_len req e i oid value) +
      msg_content_len req e i oid value) req e i oid value [] c3 hr he hi hv (by omega)
    (by omega)
  unfold decode_response
  rw [a1]
  simp only []
  rw [b1]
  simp only []
  rw [c1]
  simp only [d1, c4]

/-! ## Minimality of the INTEGER encoding; rejected length fields -/

theorem encoded_len_lower (v : Int) :
    (2 ≤ snmp_int32_encoded_len v → ¬ (-128 ≤ v ∧ v ≤ 127)) ∧
    (3 ≤ snmp_int32_encoded_len v → ¬ (-32768 ≤ v ∧ v ≤ 32767)) ∧
    (4 ≤ snmp_int32_encoded_len v → ¬ (-8388608 ≤ v ∧ v ≤ 8388607)) := by
  obtain ⟨e0, e1, e2, e3⟩ := int32_byte_eq v
  rcases int32_len_cases v with ⟨hl, -, r0⟩ | ⟨hl, -, r0, r1⟩ | ⟨hl, -, r0, r1, r2⟩ |
      ⟨hl, -, r0, r1, r2⟩
  · rw [hl]
    refine ⟨fun _ => ?_, fun _ => ?_, fun _ => ?_⟩ <;> omega
  · rw [hl]
    refine ⟨fun _ => ?_, fun _ => ?_, fun h => ?_⟩ <;> omega
  · rw [hl]
    refine ⟨fun _ => ?_, fun h => ?_, fun h => ?_⟩ <;> omega
  · rw [hl]
    refine ⟨fun h => ?_, fun h => ?_, fun h => ?_⟩ <;> omega

theorem decode_int32_short (bs : List Nat) (hb : ∀ b ∈ bs, b < 256) (w : Int)
    (h : snmp_decode_int32 bs = some w) :
    (bs.length = 1 → -128 ≤ w ∧ w ≤ 127) ∧
    (bs.length = 2 → -32768 ≤ w ∧ w ≤ 32767) ∧
    (bs.length = 3 → -8388608 ≤ w ∧ w ≤ 8388607) ∧
    1 ≤ bs.length := by
  match bs, hb, h with
  | [], _, h => simp [snmp_decode_int32] at h
  | [a], hb, h =>
    have ha : a < 256 := hb a (by simp)
    rw [decode_int32_one a ha] at h
    simp only [Option.some.injEq] at h
    simp only [List.length_singleton]
    refine ⟨fun _ => ?_, fun h0 => ?_, fun h0 => ?_, le_refl _⟩
    · split at h <;> omega
    · omega
    · omega
  | [a, b], hb, h =>
    have ha : a < 256 := hb a (by simp)
    have hb2 : b < 256 := hb b (by simp)
    rw [decode_int32_two a b ha hb2] at h
    simp only [Option.some.injEq] at h
    simp only [List.length_cons, List.length_nil]
    refine ⟨fun h0 => ?_, fun _ => ?_, fun h0 => ?_, by omega⟩
    · omega
    · split at h <;> omega
    · omega
  | [a, b, c], hb, h =>
    have ha : a < 256 := hb a (by simp)
    have hb2 : b < 256 := hb b (by simp)
    have hc : c < 256 := hb c (by simp)
    rw [decode_int32_three a b c ha hb2 hc] at h
    simp only [Option.some.injEq] at h
    simp only [List.length_cons, List.length_nil]
    refine ⟨fun h0 => ?_, fun h0 => ?_, fun _ => ?_, by omega⟩
    · omega
    · omega
    · split at h <;> omega
  | _ :: _ :: _ :: _ :: _, _, _ =>
    simp only [List.length_cons]
    refine ⟨fun h0 => ?_, fun h0 => ?_, fun h0 => ?_, by omega⟩ <;> omega

theorem read_len_sound (pkt : List Nat) (pp end_ p len : Nat)
    (h : snmp_read_len pkt pp end_ = some (p, len)) :
    pp < p ∧ p + len ≤ end_ := by
  unfold snmp_read_len at h
  split at h
  · cases h
  · split at h
    · split at h
      · simp only [Option.some.injEq, Prod.mk.injEq] at h
        omega
      · cases h
    · split at h
      · cases h
      · split at h
        · simp only [Option.some.injEq, Prod.mk.injEq] at h
          omega
        · cases h

theorem read_len_reject (pkt : List Nat) (pp end_ b : Nat) (hb : pkt.getD pp 0 = b)
    (hbad : b = 0x80 ∨ (0x83 ≤ b ∧ b ≤ 0xFF)) : snmp_read_len pkt pp end_ = none := by
  have hlt : b < 256 := by omega
  have hm := byte_msb_clear b hlt
  have h7 := byte_low7 b
  unfold snmp_read_len
  rw [hb]
  by_cases h0 : pp ≥ end_
  · rw [if_pos h0]
  · rw [if_neg h0, if_neg (fun hc => by have := hm.mp hc; omega), h7,
      if_pos (by omega)]

/-! ## Lookup by equality, the community test, the projected values -/

theorem memcmp_eq_take (a c : List Nat) (h : a.length ≤ c.length) :
    memcmp_eq a 0 c a.length = true ↔ a = c.take a.length := by
  unfold memcmp_eq
  rw [List.all_eq_true]
  constructor
  · intro hall
    apply List.ext_getElem
    · simp [Nat.min_eq_left h]
    · intro n h1 h2
      have := hall n (List.mem_range.mpr h1)
      simp only [Nat.zero_add, beq_iff_eq] at this
      rw [List.getD_eq_getElem _ _ h1, List.getD_eq_getElem _ _ (by omega)] at this
      rw [this, List.getElem_take]
  · intro heq n hn
    have hn' : n < a.length := List.mem_range.mp hn
    simp only [Nat.zero_add, beq_iff_eq]
    rw [List.getD_eq_getElem _ _ hn', List.getD_eq_getElem _ _ (by omega)]
    conv => lhs; rw [List.getElem_of_eq heq hn']
    rw [List.getElem_take]

theorem memcmp_eq_iff (a b : List Nat) (h : a.length = b.length) :
    memcmp_eq a 0 b a.length = true ↔ a = b := by
  rw [memcmp_eq_take a b (le_of_eq h), h, List.take_length]

theorem strlen_le (c : List Nat) : strlen c ≤ c.length := by
  unfold strlen
  exact (List.takeWhile_sublist _).length_le

/-- The community test of `snmp_agent_task` passes exactly when the community of the
request is the C string of the macro. -/
theorem community_test_iff (a c : List Nat) :
    ¬ (a.length ≠ strlen c ∨ memcmp_eq a 0 c a.length = false) ↔ a = c.take (strlen c) := by
  constructor
  · intro h
    have h1 : a.length = strlen c := by
      by_contra hc; exact h (Or.inl hc)
    have h2 : memcmp_eq a 0 c a.length = true := by
      cases hm : memcmp_eq a 0 c a.length
      · exact absurd (Or.inr hm) h
      · rfl
    rw [← h1]
    exact (memcmp_eq_take a c (by rw [h1]; exact strlen_le c)).mp h2
  · intro h
    have h1 : a.length = strlen c := by
      rw [h, List.length_take, Nat.min_eq_left (strlen_le c)]
    rintro (hc | hc)
    · exact hc h1
    · have : memcmp_eq a 0 c a.length = true :=
        (memcmp_eq_take a c (by rw [h1]; exact strlen_le c)).mpr (by rw [h1]; exact h)
      rw [this] at hc
      cases hc

theorem snmp_lookup_exact_loop_some (oid : List Nat) (k i r : Nat) :
    snmp_lookup_exact_loop oid k i = some r ↔
      i ≤ r ∧ r < i + k ∧ oid = k_oid_table.getD r [] ∧
        ∀ j, i ≤ j → j < r → oid ≠ k_oid_table.getD j [] := by
  have hP : ∀ j, (oid.length = (k_oid_table.getD j []).length ∧
      memcmp_eq oid 0 (k_oid_table.getD j []) oid.length = true) ↔
      oid = k_oid_table.getD j [] := by
    intro j
    constructor
    · rintro ⟨h1, h2⟩; exact (memcmp_eq_iff _ _ h1).mp h2
    · intro h
      have h1 : oid.length = (k_oid_table.getD j []).length := by rw [← h]
      exact ⟨h1, (memcmp_eq_iff _ _ h1).mpr h⟩
  induction k generalizing i with
  | zero =>
    unfold snmp_lookup_exact_loop
    constructor
    · intro h; cases h
    · rintro ⟨h1, h2, -⟩; omega
  | succ k ih =>
    unfold snmp_lookup_exact_loop
    by_cases hc : oid = k_oid_table.getD i []
    · rw [if_pos ((hP i).mpr hc)]
      constructor
      · intro h
        cases h
        exact ⟨le_refl _, by omega, hc, fun j h1 h2 => by omega⟩
      · rintro ⟨h1, -, -, h4⟩
        rcases Nat.eq_or_lt_of_le h1 with h | h
        · rw [h]
        · exact absurd hc (h4 i (le_refl _) h)
    · rw [if_neg (fun h => hc ((hP i).mp h))]
      refine (ih (i + 1)).trans ?_
      constructor
      · rintro ⟨h1, h2, h3, h4⟩
        refine ⟨by omega, by omega, h3, fun j hj1 hj2 => ?_⟩
        rcases Nat.eq_or_lt_of_le hj1 with h | h
        · rw [← h]; exact hc
        · exact h4 j h hj2
      · rintro ⟨h1, h2, h3, h4⟩
        have hne : i ≠ r := fun h => hc (h ▸ h3)
        exact ⟨by omega, by omega, h3, fun j hj1 hj2 => h4 j (by omega) hj2⟩

theorem snmp_lookup_exact_loop_none (oid : List Nat) (k i : Nat) :
    snmp_lookup_exact_loop oid k i = none ↔
      ∀ j, i ≤ j → j < i + k → oid ≠ k_oid_table.getD j [] := by
  constructor
  · intro h j h1 h2 hj
    have : snmp_lookup_exact_loop oid k i ≠ none := by
      -- the least index with the entry exists
      induction k generalizing i with
      | zero => omega
      | succ k ih =>
        unfold snmp_lookup_exact_loop
        split
        · simp
        · rcases Nat.eq_or_lt_of_le h1 with he | hl
          · subst he
            rename_i hn
            exfalso; apply hn
            have hl : oid.length = (k_oid_table.getD i []).length := by rw [← hj]
            exact ⟨hl, (memcmp_eq_iff _ _ hl).mpr hj⟩
          · rename_i hn
            apply ih (i + 1)
            · unfold snmp_lookup_exact_loop at h
              rw [if_neg hn] at h
              exact h
            · omega
            · omega
    exact this h
  · intro h
    cases hr : snmp_lookup_exact_loop oid k i with
    | none => rfl
    | some r =>
      obtain ⟨h1, h2, h3, -⟩ := (snmp_lookup_exact_loop_some oid k i r).mp hr
      exact absurd h3 (h r h1 h2)

theorem k_oid_table_injective (i j : Nat) (hi : i < 32) (hj : j < 32)
    (he : k_oid_table.getD i [] = k_oid_table.getD j []) : i = j := by
  rcases Nat.lt_trichotomy i j with h | h | h
  · have := k_oid_table_sorted i j h hj
    rw [he, snmp_oid_compare_self] at this
    omega
  · exact h
  · have := k_oid_table_sorted j i h hi
    rw [he, snmp_oid_compare_self] at this
    omega

theorem snmp_lookup_exact_entry (i : Nat) (hi : i < 32) :
    snmp_lookup_exact (some (k_oid_table.getD i [])) = some i := by
  have hlen : k_oid_table.length = 32 := rfl
  unfold snmp_lookup_exact
  simp only [hlen]
  apply (snmp_lookup_exact_loop_some _ _ _ _).mpr
  refine ⟨Nat.zero_le _, by omega, rfl, fun j _ hj he => ?_⟩
  have := k_oid_table_injective i j hi (by omega) he
  omega

theorem asInt32_range (x : Nat) : -2147483648 ≤ asInt32 x ∧ asInt32 x ≤ 2147483647 := by
  unfold asInt32 U32
  split <;> omega

theorem decode_int32_range (bs : List Nat) (v : Int) (h : snmp_decode_int32 bs = some v) :
    -2147483648 ≤ v ∧ v ≤ 2147483647 := by
  unfold snmp_decode_int32 at h
  split at h
  · cases h
  · simp only [Option.some.injEq] at h
    rw [← h]
    exact asInt32_range _

set_option maxRecDepth 100000 in
theorem k_oid_table_entry_length : ∀ i, i < 32 →
    1 ≤ (k_oid_table.getD i []).length ∧ (k_oid_table.getD i []).length ≤ 12 := by
  decide

theorem battery_status_range (t : Telemetry) :
    -2147483648 ≤ battery_status t ∧ battery_status t ≤ 2147483647 := by
  unfold battery_status
  (repeat' split) <;> decide

theorem output_source_range (t : Telemetry) :
    -2147483648 ≤ output_source t ∧ output_source t ≤ 2147483647 := by
  unfold output_source
  (repeat' split) <;> decide

theorem get_value_by_index_ok (i : Nat) (hi : i < 32) (t : Telemetry) :
    ∃ v, snmp_get_value_by_index i t = some v ∧
      -2147483648 ≤ v.i32 ∧ v.i32 ≤ 2147483647 ∧ v.octets.length ≤ 16 := by
  have ha := asInt32_range
  have hb := battery_status_range t
  have ho := output_source_range t
  interval_cases i
  all_goals
    refine ⟨_, rfl, ?_⟩
    simp only [octets_value, int32_value, zeroValue, List.length_nil]
    first
      | exact ⟨by decide, by decide, by decide⟩
      | exact ⟨(ha _).1, (ha _).2, by decide⟩
      | exact ⟨hb.1, hb.2, by decide⟩
      | exact ⟨ho.1, ho.2, by decide⟩
      | (refine ⟨?_, ?_, by decide⟩ <;> split <;> first | decide | exact (ha _).1 | exact (ha _).2)

/-! ## What a decoded request is; the reply in closed form -/

theorem expect_tlv_some_lt (pkt : List Nat) (pp end_ t : Nat) (r : Nat × Nat × Nat)
    (h : snmp_expect_tlv pkt pp end_ t = some r) : pp < end_ := by
  unfold snmp_expect_tlv at h
  split at h
  · cases h
  · rename_i hc
    by_contra hn
    exact hc (Or.inl (Nat.not_lt.mp hn))

theorem decode_request_pdu_facts (pkt : List Nat) (p e : Nat) (r : Int × Nat × Nat)
    (h : decode_request_pdu pkt p e = some r) :
    -2147483648 ≤ r.1 ∧ r.1 ≤ 2147483647 := by
  unfold decode_request_pdu at h
  split at h
  · cases h
  · split at h
    · cases h
    · rename_i rid hrid
      split at h
      · cases h
      · split at h
        · cases h
        · split at h
          · cases h
          · simp only [Option.some.injEq] at h
            rw [← h]
            exact decode_int32_range _ _ hrid

theorem decode_request_tagged_facts (pkt : List Nat) (p e : Nat) (r : Nat × Int × Nat × Nat)
    (h : decode_request_tagged pkt p e = some r) :
    (r.1 = SNMP_TYPE_GET_REQUEST ∨ r.1 = SNMP_TYPE_GET_NEXT_REQUEST) ∧
    -2147483648 ≤ r.2.1 ∧ r.2.1 ≤ 2147483647 := by
  unfold decode_request_tagged at h
  split at h
  · cases h
  · rename_i hc
    split at h
    · cases h
    · split at h
      · cases h
      · rename_i x rid oid oid_len hpdu
        simp only [Option.some.injEq] at h
        rw [← h]
        refine ⟨?_, decode_request_pdu_facts _ _ _ _ hpdu⟩
        by_contra hn
        exact hc (Or.inr ⟨fun h1 => hn (Or.inl h1), fun h2 => hn (Or.inr h2)⟩)

theorem decode_request_facts (rx : List Nat) (req : snmp_request_t)
    (h : snmp_decode_request rx = some req) :
    0 < rx.length ∧
    (-2147483648 ≤ req.version ∧ req.version ≤ 2147483647) ∧
    (-2147483648 ≤ req.request_id ∧ req.request_id ≤ 2147483647) ∧
    (req.pdu_type = SNMP_TYPE_GET_REQUEST ∨ req.pdu_type = SNMP_TYPE_GET_NEXT_REQUEST) ∧
    ∃ oid, req.request_oid = some oid := by
  unfold snmp_decode_request at h
  split at h
  · cases h
  · rename_i x0 msg_p msg_len h0
    have hpos := expect_tlv_some_lt _ _ _ _ _ h0
    split at h
    · cases h
    · split at h
      · cases h
      · rename_i version hver
        split at h
        · cases h
        · split at h
          · cases h
          · rename_i x1 pdu_type request_id oid oid_len htag
            have ht := decode_request_tagged_facts _ _ _ _ htag
            simp only [Option.some.injEq] at h
            rw [← h]
            exact ⟨hpos, decode_int32_range _ _ hver, ht.2, ht.1, _, rfl⟩

theorem build_response_true (req : snmp_request_t) (e i : Int) (resp_oid : Option (List Nat))
    (value : Option snmp_value_t) (cap : Nat)
    (h : (snmp_build_response req e i resp_oid value cap).1 = true) :
    ∃ oid, resp_oid = some oid ∧ oid ≠ [] ∧
      tlv_len (msg_content_len req e i oid value) ≤ cap := by
  unfold snmp_build_response at h
  cases resp_oid with
  | none => simp at h
  | some oid =>
    simp only [] at h
    by_cases h0 : oid.length = 0
    · rw [if_pos h0] at h; simp at h
    · rw [if_neg h0] at h
      by_cases h1 : tlv_len (msg_content_len req e i oid value) > cap
      · rw [if_pos h1] at h; simp at h
      · exact ⟨oid, rfl, fun hn => h0 (by rw [hn]; rfl), Nat.not_lt.mp h1⟩

theorem build_response_false (req : snmp_request_t) (e i : Int)
    (resp_oid : Option (List Nat)) (value : Option snmp_value_t) (cap : Nat)
    (h : resp_oid = none ∨ resp_oid = some [] ∨
      ∃ oid, resp_oid = some oid ∧ cap < tlv_len (msg_content_len req e i oid value)) :
    snmp_build_response req e i resp_oid value cap = (false, { buf := [], cap := cap }) := by
  unfold snmp_build_response
  rcases h with h | h | ⟨oid, h, hbig⟩
  · rw [h]
  · rw [h]; rfl
  · rw [h]
    simp only []
    by_cases h0 : oid.length = 0
    · rw [if_pos h0]
    · rw [if_neg h0, if_pos hbig]

/-- The reply to a request that passes the version and community tests. -/
theorem snmp_agent_reply_accepted (community : List Nat) (t : Telemetry) (rx : List Nat)
    (req : snmp_request_t) (hdec : snmp_decode_request rx = some req)
    (hver : req.version = 0 ∨ req.version = 1)
    (hcomm : req.community = community.take (strlen community)) :
    snmp_agent_reply community t rx =
      match snmp_build_response req (response_args req t).1 (response_args req t).2.1
          (response_args req t).2.2.1 (some (response_args req t).2.2.2)
          SNMP_TX_BUF_SIZE with
      | (false, _) => none
      | (true, w) => some w.buf := by
  have hpos := (decode_request_facts rx req hdec).1
  unfold snmp_agent_reply
  rw [if_neg (by omega), hdec]
  simp only []
  rw [if_neg (not_not.mpr hver), if_neg ((community_test_iff _ _).mpr hcomm)]

/-- The reply is nothing when the version or the community test fails. -/
theorem snmp_agent_reply_rejected (community : List Nat) (t : Telemetry) (rx : List Nat)
    (req : snmp_request_t) (hdec : snmp_decode_request rx = some req)
    (h : ¬ (req.version = 0 ∨ req.version = 1) ∨
      req.community ≠ community.take (strlen community)) :
    snmp_agent_reply community t rx = none := by
  unfold snmp_agent_reply
  split
  · rfl
  · rw [hdec]
    simp only []
    by_cases hv : req.version = 0 ∨ req.version = 1
    · rw [if_neg (not_not.mpr hv)]
      rcases h with h | h
      · exact absurd hv h
      · rw [if_pos (by
          by_contra hc
          exact h ((community_test_iff _ _).mp hc))]
    · rw [if_pos hv]

theorem snmp_agent_reply_some (community : List Nat) (t : Telemetry) (rx out : List Nat)
    (h : snmp_agent_reply community t rx = some out) :
    ∃ req, snmp_decode_request rx = some req ∧ (req.version = 0 ∨ req.version = 1) ∧
      req.community = community.take (strlen community) ∧
      snmp_build_response req (response_args req t).1 (response_args req t).2.1
          (response_args req t).2.2.1 (some (response_args req t).2.2.2)
          SNMP_TX_BUF_SIZE = (true, { buf := out, cap := SNMP_TX_BUF_SIZE }) := by
  cases hdec : snmp_decode_request rx with
  | none =>
    unfold snmp_agent_reply at h
    rw [hdec] at h
    split at h <;> cases h
  | some req =>
    by_cases hv : req.version = 0 ∨ req.version = 1
    · by_cases hc : req.community = community.take (strlen community)
      · refine ⟨req, rfl, hv, hc, ?_⟩
        rw [snmp_agent_reply_accepted community t rx req hdec hv hc] at h
        cases hb : snmp_build_response req (response_args req t).1 (response_args req t).2.1
            (response_args req t).2.2.1 (some (response_args req t).2.2.2)
            SNMP_TX_BUF_SIZE with
        | mk ok w =>
          rw [hb] at h
          cases ok with
          | false => cases h
          | true =>
            simp only [Option.some.injEq] at h
            obtain ⟨oid, ho, hne, hfit⟩ := build_response_true _ _ _ _ _ _
              (by rw [hb])
            rw [ho, build_response_ok _ _ _ _ _ _ hne hfit] at hb
            simp only [Prod.mk.injEq, true_and] at hb
            rw [← h, ← hb]
      · rw [snmp_agent_reply_rejected community t rx req hdec (Or.inr hc)] at h
        cases h
    · rw [snmp_agent_reply_rejected community t rx req hdec (Or.inl hv)] at h
      cases h

theorem read_len_two_bytes (pkt : List Nat) (pp end_ hi lo : Nat) (rest : List Nat)
    (hd : pkt.drop pp = 0x82 :: hi :: lo :: rest) (hlo : lo < 256)
    (hend : pp + 3 + (hi * 256 + lo) ≤ end_) :
    snmp_read_len pkt pp end_ = some (pp + 3, hi * 256 + lo) := by
  have g0 : pkt.getD pp 0 = 0x82 := by rw [getD_of_drop_zero pkt pp _ hd]; rfl
  have g1 : pkt.getD (pp + 1 + 0) 0 = hi := by
    rw [Nat.add_zero, getD_of_drop pkt pp 1 _ hd]; rfl
  have g2 : pkt.getD (pp + 1 + (0 + 1)) 0 = lo := by
    rw [Nat.zero_add, Nat.add_assoc, getD_of_drop pkt pp (1 + 1) _ hd]; rfl
  have hc : (0x82 : Nat) &&& 0x7F = 2 := by decide
  have hl : snmp_read_len_loop pkt (pp + 1) 2 0 0 = hi * 256 + lo := by
    simp only [snmp_read_len_loop, g1, g2, Nat.zero_shiftLeft, Nat.zero_or]
    rw [shl8_or _ _ hlo]
  unfold snmp_read_len
  rw [if_neg (by omega), g0, if_neg (by decide), hc, if_neg (by omega), hl, if_pos (by omega)]

/-! ## Sizes and replies of the responder -/

theorem tlv_len_le (n : Nat) : n + 2 ≤ tlv_len n ∧ tlv_len n ≤ n + 4 := by
  unfold tlv_len snmp_len_field_size
  split
  · omega
  · split <;> omega

theorem tlv_len_small (n : Nat) (h : n < 128) : tlv_len n = n + 2 := by
  unfold tlv_len snmp_len_field_size
  rw [if_pos h]
  omega

theorem get_value_by_index_none (i : Nat) (hi : 32 ≤ i) (t : Telemetry) :
    snmp_get_value_by_index i t = none := by
  unfold snmp_get_value_by_index
  split <;> first | omega | rfl

theorem get_value_by_index_range (i : Nat) (t : Telemetry) (v : snmp_value_t)
    (h : snmp_get_value_by_index i t = some v) :
    i < 32 ∧ -2147483648 ≤ v.i32 ∧ v.i32 ≤ 2147483647 ∧ v.octets.length ≤ 16 := by
  by_cases hi : i < 32
  · obtain ⟨w, hw, hr⟩ := get_value_by_index_ok i hi t
    rw [hw] at h
    cases h
    exact ⟨hi, hr⟩
  · rw [get_value_by_index_none i (by omega) t] at h
    cases h

theorem value_tlv_len_le (e : Int) (v : snmp_value_t) (h : v.octets.length ≤ 16) :
    value_tlv_len e (some v) ≤ 18 := by
  unfold value_tlv_len
  simp only []
  split
  · have h1 := int32_encoded_len_range v.i32
    have h2 := tlv_len_small (snmp_int32_encoded_len v.i32) (by omega)
    have h3 := tlv_len_small v.octets.length (by omega)
    cases v.kind <;> simp only [] <;> omega
  · omega

/-- The response to a request with a community of at most 400 bytes, a response OID of at
most 12 bytes and a value of at most 16 octets fits the 512 bytes of `tx_buf`. -/
theorem response_size_bound (req : snmp_request_t) (e i : Int) (oid : List Nat)
    (v : snmp_value_t) (hc : req.community.length ≤ 400) (ho : oid.length ≤ 12)
    (hv : v.octets.length ≤ 16) :
    tlv_len (msg_content_len req e i oid (some v)) ≤ SNMP_TX_BUF_SIZE := by
  have hM : msg_content_len req e i oid (some v) =
      tlv_len (snmp_int32_encoded_len req.version) + tlv_len req.community.length +
        tlv_len (pdu_content_len req e i oid (some v)) := by rw [msg_content_len]
  have hP : pdu_content_len req e i oid (some v) =
      tlv_len (snmp_int32_encoded_len req.request_id) + tlv_len (snmp_int32_encoded_len e) +
        tlv_len (snmp_int32_encoded_len i) +
        tlv_len (tlv_len (varbind_content_len e oid (some v))) := by rw [pdu_content_len]
  have hV : varbind_content_len e oid (some v) =
      tlv_len oid.length + value_tlv_len e (some v) := by rw [varbind_content_len]
  have a1 := int32_encoded_len_range req.version
  have a2 := int32_encoded_len_range req.request_id
  have a3 := int32_encoded_len_range e
  have a4 := int32_encoded_len_range i
  have b1 := tlv_len_le (snmp_int32_encoded_len req.version)
  have b2 := tlv_len_le (snmp_int32_encoded_len req.request_id)
  have b3 := tlv_len_le (snmp_int32_encoded_len e)
  have b4 := tlv_len_le (snmp_int32_encoded_len i)
  have b5 := tlv_len_le req.community.length
  have b6 := tlv_len_le oid.length
  have b7 := value_tlv_len_le e v hv
  have b8 := tlv_len_le (varbind_content_len e oid (some v))
  have b9 := tlv_len_le (tlv_len (varbind_content_len e oid (some v)))
  have b10 := tlv_len_le (pdu_content_len req e i oid (some v))
  have b11 := tlv_len_le (msg_content_len req e i oid (some v))
  unfold SNMP_TX_BUF_SIZE
  omega

theorem response_args_unknown (req : snmp_request_t) (t : Telemetry)
    (h : snmp_lookup req = none) :
    response_args req t = (SNMP_ERR_NOSUCHNAME, 1, req.request_oid, zeroValue) := by
  unfold response_args
  rw [h]

theorem response_args_found (req : snmp_request_t) (t : Telemetry) (i : Nat)
    (v : snmp_value_t) (h : snmp_lookup req = some i)
    (hv : snmp_get_value_by_index i t = some v) :
    response_args req t = (SNMP_ERR_NOERROR, 0, some (k_oid_table.getD i []), v) := by
  unfold response_args
  rw [h]
  simp only []
  rw [hv]

/-- The arguments handed to `snmp_build_response` are 32-bit integers. -/
theorem response_args_range (req : snmp_request_t) (t : Telemetry) :
    (-2147483648 ≤ (response_args req t).1 ∧ (response_args req t).1 ≤ 2147483647) ∧
    (-2147483648 ≤ (response_args req t).2.1 ∧ (response_args req t).2.1 ≤ 2147483647) ∧
    (-2147483648 ≤ (response_args req t).2.2.2.i32 ∧
      (response_args req t).2.2.2.i32 ≤ 2147483647) := by
  unfold response_args
  cases snmp_lookup req with
  | none => simp only []; decide
  | some i =>
    simp only []
    cases hv : snmp_get_value_by_index i t with
    | none => simp only []; decide
    | some v =>
      simp only []
      have := get_value_by_index_range i t v hv
      exact ⟨by decide, by decide, this.2.1, this.2.2.1⟩

/-- A byte of the community that differs from the configured one fails `memcmp`. -/
theorem memcmp_eq_false_of_byte (a c : List Nat) (k : Nat) (hk : k < a.length)
    (h : a.getD k 0 ≠ c.getD k 0) : memcmp_eq a 0 c a.length = false := by
  cases hm : memcmp_eq a 0 c a.length with
  | false => rfl
  | true =>
    unfold memcmp_eq at hm
    rw [List.all_eq_true] at hm
    have := hm k (List.mem_range.mpr hk)
    simp only [Nat.zero_add, beq_iff_eq] at this
    exact absurd this h

/-- Every datagram the responder sends decodes as a GETRESPONSE with the version, the
community and the request-id of the request it answers. -/
theorem snmp_agent_reply_decodes (community : List Nat) (t : Telemetry) (rx out : List Nat)
    (h : snmp_agent_reply community t rx = some out) :
    ∃ req oid, snmp_decode_request rx = some req ∧
      (response_args req t).2.2.1 = some oid ∧
      out = response_bytes req (response_args req t).1 (response_args req t).2.1 oid
        (some (response_args req t).2.2.2) ∧
      decode_response out =
        some { version := req.version, community := req.community,
               request_id := req.request_id, error_status := (response_args req t).1,
               error_index := (response_args req t).2.1, oid := oid,
               value := expected_value (response_args req t).1
                 (some (response_args req t).2.2.2) } := by
  obtain ⟨req, hdec, -, -, hb⟩ := snmp_agent_reply_some community t rx out h
  obtain ⟨oid, ho, hne, hfit⟩ := build_response_true req _ _ _ _ _ (by rw [hb])
  have hf := decode_request_facts rx req hdec
  have hr := response_args_range req t
  rw [ho, build_response_ok req _ _ oid _ _ hne hfit] at hb
  simp only [Prod.mk.injEq, true_and] at hb
  have hout : out = response_bytes req (response_args req t).1 (response_args req t).2.1 oid
      (some (response_args req t).2.2.2) := by
    have := congrArg snmp_buf_t.buf hb
    exact this.symm
  refine ⟨req, oid, hdec, ho, hout, ?_⟩
  rw [hout]
  refine decode_response_ok req _ _ oid _ hf.2.1 hf.2.2.1 hr.1 hr.2.1 ?_ ?_
  · intro v hv
    cases hv
    exact hr.2.2
  · unfold SNMP_TX_BUF_SIZE at hfit
    omega

theorem snmp_lookup_unknown (req : snmp_request_t) (oid : List Nat)
    (hoid : req.request_oid = some oid)
    (h : (req.pdu_type = SNMP_TYPE_GET_REQUEST ∧
          ∀ j, j < 32 → oid ≠ k_oid_table.getD j []) ∨
        (req.pdu_type = SNMP_TYPE_GET_NEXT_REQUEST ∧
          ∀ j, j < 32 → ¬ snmp_oid_compare (k_oid_table.getD j []) oid > 0)) :
    snmp_lookup req = none := by
  have hlen : k_oid_table.length = 32 := rfl
  unfold snmp_lookup
  rcases h with ⟨hp, h⟩ | ⟨hp, h⟩
  · rw [if_pos hp, hoid]
    unfold snmp_lookup_exact
    simp only [hlen]
    exact (snmp_lookup_exact_loop_none _ _ _).mpr (fun j _ hj => h j (by omega))
  · rw [if_neg (by rw [hp]; decide), hoid]
    unfold snmp_lookup_next
    simp only [hlen]
    exact (snmp_lookup_next_loop_none _ _ _).mpr (fun j _ hj => h j (by omega))

theorem snmp_lookup_get_entry (req : snmp_request_t) (i : Nat) (hi : i < 32)
    (hp : req.pdu_type = SNMP_TYPE_GET_REQUEST)
    (hoid : req.request_oid = some (k_oid_table.getD i [])) :
    snmp_lookup req = some i := by
  unfold snmp_lookup
  rw [if_pos hp, hoid]
  exact snmp_lookup_exact_entry i hi

theorem battery_status_degraded (t : Telemetry) : battery_status (degraded_writes t) = 4 := by
  unfold battery_status degraded_writes
  simp

/-! ## The scheduler: heartbeat verification and the retry wait -/

theorem matches_expected_iff (a : Adapter) (b : Scheduler) (expect : List Nat)
    (he : a.g_sub_adapter_constant_heartbeat_expect_return = some expect)
    (hlen : a.g_sub_adapter_constant_heartbeat_expect_return_len = expect.length)
    (hne : expect ≠ []) :
    ups_bootstrap_heartbeat_matches_expected a b = true ↔
      b.s_bootstrap_heartbeat_done = true ∧
      b.s_bootstrap_heartbeat_rx_len = expect.length ∧
      ∀ k, k < expect.length → b.s_bootstrap_heartbeat_rx.getD k 0 = expect.getD k 0 := by
  have hpos : expect.length ≠ 0 := fun h => hne (List.length_eq_zero.mp h)
  have hmem : ∀ n, memcmp_eq b.s_bootstrap_heartbeat_rx 0 expect n = true ↔
      ∀ k, k < n → b.s_bootstrap_heartbeat_rx.getD k 0 = expect.getD k 0 := by
    intro n
    unfold memcmp_eq
    rw [List.all_eq_true]
    constructor
    · intro h k hk
      have := h k (List.mem_range.mpr hk)
      simpa using this
    · intro h k hk
      have := h k (List.mem_range.mp hk)
      simpa using this
  unfold ups_bootstrap_heartbeat_matches_expected
  rw [he, hlen]
  simp only []
  cases hd : b.s_bootstrap_heartbeat_done with
  | false => simp
  | true =>
    rw [if_neg (by simp [hpos])]
    by_cases hl : b.s_bootstrap_heartbeat_rx_len = expect.length
    · rw [if_neg (not_not.mpr hl), hl, hmem]
      simp
    · rw [if_pos hl]
      simp [hl]

theorem wait_retry_arith (now_ms t : Nat) :
    (0 ≤ asInt32 (sub32 now_ms (add32 t UPS_INIT_RETRY_PERIOD_MS)) ↔
      5000 ≤ sub32 now_ms t ∧ sub32 now_ms t < 2147483648 + 5000) ∧
    sub32 now_ms t < 4294967296 := by
  unfold asInt32 sub32 add32 UPS_INIT_RETRY_PERIOD_MS U32
  constructor
  · split <;> omega
  · omega

/-! ## The table pump -/

theorem enqueue_not_ok_state (cfg : Config) (req : Option uart_engine_request_t) (s : Engine)
    (h : (uart_engine_enqueue cfg req s).1 ≠ uart_engine_result_t.OK) :
    (uart_engine_enqueue cfg req s).2 = s := by
  unfold uart_engine_enqueue at h ⊢
  split
  · rfl
  · split
    · rfl
    · cases req with
      | none => rfl
      | some r =>
        by_cases hfull : UART_ENGINE_QUEUE_SIZE ≤ s.s_q_count
        · rw [queue_push_full _ _ _ hfull]
        · rw [if_neg (by assumption), if_neg (by assumption),
            queue_push_room _ _ _ (Nat.not_le.mp hfull)] at h
          exact absurd rfl h

theorem enqueue_ok_queued (cfg : Config) (r : uart_engine_request_t) (s : Engine)
    (hwf : RingWF s)
    (h : (uart_engine_enqueue cfg (some r) s).1 = uart_engine_result_t.OK) :
    RingWF (uart_engine_enqueue cfg (some r) s).2 ∧
    queued (uart_engine_enqueue cfg (some r) s).2 = queued s ++ [job_of r false] := by
  obtain ⟨c1, c2, c3, c4⟩ := enqueue_cases cfg (some r) s hwf
  cases hen : s.s_enabled with
  | false => rw [c1 hen] at h; cases h
  | true =>
    cases hv : request_is_valid cfg (some r) with
    | false => rw [c2 hen hv] at h; cases h
    | true =>
      by_cases hfull : UART_ENGINE_QUEUE_SIZE ≤ s.s_q_count
      · rw [c3 hen hv hfull] at h; cases h
      · obtain ⟨r', hr, -, hq, hw, -⟩ := c4 hen hv (Nat.not_le.mp hfull)
        cases hr
        exact ⟨hw, hq⟩

theorem lut_slice_zero (lut : List uart_engine_request_t) (idx : Nat) :
    lut_slice lut idx 0 = [] := rfl

theorem lut_slice_succ (lut : List uart_engine_request_t) (idx k : Nat) :
    lut_slice lut idx (k + 1) = lut.getD idx zeroRequest :: lut_slice lut (idx + 1) k := by
  unfold lut_slice
  rw [List.range_succ_eq_map, List.map_cons, List.map_map]
  refine congrArg₂ _ rfl (List.map_congr_left (fun j _ => ?_))
  show lut.getD (idx + (j + 1)) zeroRequest = lut.getD (idx + 1 + j) zeroRequest
  rw [Nat.add_right_comm, Nat.add_assoc]

theorem lut_slice_append (lut : List uart_engine_request_t) (idx k k2 : Nat) :
    lut_slice lut idx k ++ lut_slice lut (idx + k) k2 = lut_slice lut idx (k + k2) := by
  induction k generalizing idx with
  | zero => rw [lut_slice_zero, List.nil_append, Nat.add_zero, Nat.zero_add]
  | succ k ih =>
    rw [lut_slice_succ, List.cons_append, Nat.add_right_comm k 1 k2, lut_slice_succ,
      ← ih (idx + 1)]
    rw [Nat.add_assoc idx 1 k, Nat.add_comm 1 k]

theorem lut_slice_eq_take_drop (lut : List uart_engine_request_t) (idx k : Nat)
    (h : idx + k ≤ lut.length) : lut_slice lut idx k = (lut.drop idx).take k := by
  induction k generalizing idx with
  | zero => rw [lut_slice_zero, List.take_zero]
  | succ k ih =>
    rw [lut_slice_succ, ih (idx + 1) (by omega)]
    have hlt : idx < lut.length := by omega
    rw [List.getD_eq_getElem _ _ hlt, List.drop_eq_getElem_cons hlt, List.take_succ_cons]

theorem enqueue_all_queued (cfg : Config) (rs : List uart_engine_request_t) (s : Engine)
    (hwf : RingWF s) (h : all_accepted cfg rs s = true) :
    RingWF (enqueue_all cfg rs s) ∧
    queued (enqueue_all cfg rs s) = queued s ++ rs.map (fun r => job_of r false) := by
  induction rs generalizing s with
  | nil => exact ⟨hwf, by simp [enqueue_all]⟩
  | cons r rs ih =>
    simp only [all_accepted, Bool.and_eq_true, decide_eq_true_eq] at h
    obtain ⟨h1, h2⟩ := enqueue_ok_queued cfg r s hwf h.1
    obtain ⟨i1, i2⟩ := ih _ h1 h.2
    refine ⟨i1, ?_⟩
    show queued (enqueue_all cfg rs (uart_engine_enqueue cfg (some r) s).2) = _
    rw [i2, h2, List.map_cons, List.append_assoc]
    rfl

/-- The `while` loop of the pump in closed form: with enough fuel it accepts `k`
descriptors in table order and stops at the burst limit, at the end of the table or at
a refused descriptor. -/
theorem lut_loop_spec (cfg : Config) (lut : List uart_engine_request_t) (count : Nat)
    (fuel burst idx : Nat) (s : Engine) (hfuel : UPS_ENQUEUE_BURST_PER_TICK ≤ fuel + burst)
    (hburst : burst ≤ UPS_ENQUEUE_BURST_PER_TICK) (hidx : idx ≤ count) :
    ∃ k, burst + k ≤ UPS_ENQUEUE_BURST_PER_TICK ∧ idx + k ≤ count ∧
      ups_enqueue_full_lut_loop cfg lut count fuel burst idx s =
        (idx + k, enqueue_all cfg (lut_slice lut idx k) s) ∧
      all_accepted cfg (lut_slice lut idx k) s = true ∧
      (burst + k = UPS_ENQUEUE_BURST_PER_TICK ∨ idx + k = count ∨
        (uart_engine_enqueue cfg (some (lut.getD (idx + k) zeroRequest))
          (enqueue_all cfg (lut_slice lut idx k) s)).1 ≠ uart_engine_result_t.OK) := by
  induction fuel generalizing burst idx s with
  | zero =>
    refine ⟨0, by omega, by omega, rfl, rfl, Or.inl (by omega)⟩
  | succ fuel ih =>
    unfold ups_enqueue_full_lut_loop
    by_cases hc : idx < count ∧ burst < UPS_ENQUEUE_BURST_PER_TICK
    · rw [if_pos hc]
      rcases hq : uart_engine_enqueue cfg (some (lut.getD idx zeroRequest)) s with ⟨r, s1⟩
      have hfail : r ≠ uart_engine_result_t.OK →
          ∃ k, burst + k ≤ UPS_ENQUEUE_BURST_PER_TICK ∧ idx + k ≤ count ∧
            (idx, s1) = (idx + k, enqueue_all cfg (lut_slice lut idx k) s) ∧
            all_accepted cfg (lut_slice lut idx k) s = true ∧
            (burst + k = UPS_ENQUEUE_BURST_PER_TICK ∨ idx + k = count ∨
              (uart_engine_enqueue cfg (some (lut.getD (idx + k) zeroRequest))
                (enqueue_all cfg (lut_slice lut idx k) s)).1 ≠ uart_engine_result_t.OK) := by
        intro hr
        have hs1 : s1 = s := by
          have := enqueue_not_ok_state cfg (some (lut.getD idx zeroRequest)) s
            (by rw [hq]; exact hr)
          rw [hq] at this
          exact this
        refine ⟨0, by omega, by omega, by rw [hs1]; rfl, rfl, Or.inr (Or.inr ?_)⟩
        show (uart_engine_enqueue cfg (some (lut.getD (idx + 0) zeroRequest)) s).1 ≠ _
        rw [Nat.add_zero, hq]
        exact hr
      cases r with
      | OK =>
        simp only []
        obtain ⟨k, k1, k2, k3, k4, k5⟩ := ih (burst + 1) (idx + 1) s1 (by omega) (by omega)
          (by omega)
        have hs1 : (uart_engine_enqueue cfg (some (lut.getD idx zeroRequest)) s).2 = s1 := by
          rw [hq]
        have hr1 : (uart_engine_enqueue cfg (some (lut.getD idx zeroRequest)) s).1 =
            uart_engine_result_t.OK := by rw [hq]
        refine ⟨k + 1, by omega, by omega, ?_, ?_, ?_⟩
        · rw [k3, lut_slice_succ]
          show _ = (idx + (k + 1), enqueue_all cfg (lut_slice lut (idx + 1) k)
            (uart_engine_enqueue cfg (some (lut.getD idx zeroRequest)) s).2)
          rw [hs1, Nat.add_assoc, Nat.add_comm 1 k]
        · rw [lut_slice_succ]
          show (decide ((uart_engine_enqueue cfg (some (lut.getD idx zeroRequest)) s).1 =
            uart_engine_result_t.OK) && all_accepted cfg (lut_slice lut (idx + 1) k)
              (uart_engine_enqueue cfg (some (lut.getD idx zeroRequest)) s).2) = true
          rw [hs1, k4, hr1]
          rfl
        · rw [lut_slice_succ]
          show burst + (k + 1) = UPS_ENQUEUE_BURST_PER_TICK ∨ idx + (k + 1) = count ∨
            (uart_engine_enqueue cfg (some (lut.getD (idx + (k + 1)) zeroRequest))
              (enqueue_all cfg (lut_slice lut (idx + 1) k)
                (uart_engine_enqueue cfg (some (lut.getD idx zeroRequest)) s).2)).1 ≠
              uart_engine_result_t.OK
          rw [hs1]
          rcases k5 with k5 | k5 | k5
          · exact Or.inl (by omega)
          · exact Or.inr (Or.inl (by omega))
          · refine Or.inr (Or.inr ?_)
            rw [Nat.add_assoc, Nat.add_comm 1 k] at k5
            exact k5
      | ERR_DISABLED => exact hfail (by decide)
      | ERR_BAD_PARAM => exact hfail (by decide)
      | ERR_QUEUE_FULL => exact hfail (by decide)
    · rw [if_neg hc]
      refine ⟨0, by omega, by omega, rfl, rfl, ?_⟩
      by_cases h1 : idx < count
      · exact Or.inl (by omega)
      · exact Or.inr (Or.inl (by omega))

/-- Fuel beyond the burst limit does not change the result of the loop. -/
theorem lut_loop_fuel (cfg : Config) (lut : List uart_engine_request_t) (count : Nat)
    (fuel fuel2 burst idx : Nat) (s : Engine)
    (h1 : UPS_ENQUEUE_BURST_PER_TICK ≤ fuel + burst)
    (h2 : UPS_ENQUEUE_BURST_PER_TICK ≤ fuel2 + burst) :
    ups_enqueue_full_lut_loop cfg lut count fuel burst idx s =
      ups_enqueue_full_lut_loop cfg lut count fuel2 burst idx s := by
  induction fuel generalizing fuel2 burst idx s with
  | zero =>
    cases fuel2 with
    | zero => rfl
    | succ n =>
      unfold ups_enqueue_full_lut_loop
      rw [if_neg (by omega)]
  | succ fuel ih =>
    cases fuel2 with
    | zero =>
      unfold ups_enqueue_full_lut_loop
      rw [if_neg (by omega)]
    | succ n =>
      unfold ups_enqueue_full_lut_loop
      by_cases hc : idx < count ∧ burst < UPS_ENQUEUE_BURST_PER_TICK
      · rw [if_pos hc, if_pos hc]
        rcases uart_engine_enqueue cfg (some (lut.getD idx zeroRequest)) s with ⟨r, s1⟩
        cases r
        · exact ih n (burst + 1) (idx + 1) s1 (by omega) (by omega)
        · rfl
        · rfl
        · rfl
      · rw [if_neg hc, if_neg hc]

theorem lut_step_index (cfg : Config) (lut : Option (List uart_engine_request_t))
    (count idx : Nat) (s : Engine) (hidx : idx ≤ count) :
    idx ≤ (ups_enqueue_full_lut_step cfg lut count idx s).1 ∧
    (ups_enqueue_full_lut_step cfg lut count idx s).1 ≤ count := by
  unfold ups_enqueue_full_lut_step
  cases lut with
  | none => exact ⟨Nat.le_refl _, hidx⟩
  | some l =>
    simp only []
    split
    · exact ⟨Nat.le_refl _, hidx⟩
    · obtain ⟨k, -, k2, k3, -⟩ := lut_loop_spec cfg l count UPS_ENQUEUE_BURST_PER_TICK 0 idx s
        (by omega) (Nat.zero_le _) hidx
      rw [k3]
      exact ⟨Nat.le_add_right _ _, k2⟩

theorem mark_bootstrap_started_state (now_ms : Nat) (b : Scheduler) :
    (mark_bootstrap_started now_ms b).s_ups_bootstrap_state = b.s_ups_bootstrap_state := by
  unfold mark_bootstrap_started
  split <;> rfl

/-- The step of the scheduler in `UPS_BOOTSTRAP_ENQUEUE_CONSTANT` in closed form. -/
theorem bootstrap_task_enqueue_constant (cfg : Config) (a : Adapter) (now_ms tick2_ms : Nat)
    (b : Scheduler) (s : Engine)
    (hst : b.s_ups_bootstrap_state = ups_bootstrap_state_t.UPS_BOOTSTRAP_ENQUEUE_CONSTANT) :
    ups_bootstrap_task cfg a now_ms tick2_ms b s =
      if (ups_enqueue_full_lut_step cfg a.g_sub_adapter_constant_lut
          a.g_sub_adapter_constant_lut_count
          (mark_bootstrap_started now_ms b).s_bootstrap_constant_idx s).1 ≥
          a.g_sub_adapter_constant_lut_count then
        ({ mark_bootstrap_started now_ms b with
           s_bootstrap_constant_idx :=
             (ups_enqueue_full_lut_step cfg a.g_sub_adapter_constant_lut
               a.g_sub_adapter_constant_lut_count
               (mark_bootstrap_started now_ms b).s_bootstrap_constant_idx s).1,
           s_ups_bootstrap_state := ups_bootstrap_state_t.UPS_BOOTSTRAP_ENQUEUE_DYNAMIC },
         (ups_enqueue_full_lut_step cfg a.g_sub_adapter_constant_lut
           a.g_sub_adapter_constant_lut_count
           (mark_bootstrap_started now_ms b).s_bootstrap_constant_idx s).2)
      else
        ({ mark_bootstrap_started now_ms b with
           s_bootstrap_constant_idx :=
             (ups_enqueue_full_lut_step cfg a.g_sub_adapter_constant_lut
               a.g_sub_adapter_constant_lut_count
               (mark_bootstrap_started now_ms b).s_bootstrap_constant_idx s).1,
           s_ups_bootstrap_state := ups_bootstrap_state_t.UPS_BOOTSTRAP_ENQUEUE_CONSTANT },
         (ups_enqueue_full_lut_step cfg a.g_sub_adapter_constant_lut
           a.g_sub_adapter_constant_lut_count
           (mark_bootstrap_started now_ms b).s_bootstrap_constant_idx s).2) := by
  unfold ups_bootstrap_task bootstrap_switch
  rw [mark_bootstrap_started_state, hst]

/-- The step of the scheduler in `UPS_BOOTSTRAP_ENQUEUE_DYNAMIC` in closed form. -/
theorem bootstrap_task_enqueue_dynamic (cfg : Config) (a : Adapter) (now_ms tick2_ms : Nat)
    (b : Scheduler) (s : Engine)
    (hst : b.s_ups_bootstrap_state = ups_bootstrap_state_t.UPS_BOOTSTRAP_ENQUEUE_DYNAMIC) :
    ups_bootstrap_task cfg a now_ms tick2_ms b s =
      if (ups_enqueue_full_lut_step cfg a.g_sub_adapter_dynamic_lut
          a.g_sub_adapter_dynamic_lut_count
          (mark_bootstrap_started now_ms b).s_bootstrap_dynamic_idx s).1 ≥
          a.g_sub_adapter_dynamic_lut_count then
        ({ mark_bootstrap_started now_ms b with
           s_bootstrap_dynamic_idx :=
             (ups_enqueue_full_lut_step cfg a.g_sub_adapter_dynamic_lut
               a.g_sub_adapter_dynamic_lut_count
               (mark_bootstrap_started now_ms b).s_bootstrap_dynamic_idx s).1,
           s_ups_bootstrap_state := ups_bootstrap_state_t.UPS_BOOTSTRAP_WAIT_DRAIN },
         (ups_enqueue_full_lut_step cfg a.g_sub_adapter_dynamic_lut
           a.g_sub_adapter_dynamic_lut_count
           (mark_bootstrap_started now_ms b).s_bootstrap_dynamic_idx s).2)
      else
        ({ mark_bootstrap_started now_ms b with
           s_bootstrap_dynamic_idx :=
             (ups_enqueue_full_lut_step cfg a.g_sub_adapter_dynamic_lut
               a.g_sub_adapter_dynamic_lut_count
               (mark_bootstrap_started now_ms b).s_bootstrap_dynamic_idx s).1,
           s_ups_bootstrap_state := ups_bootstrap_state_t.UPS_BOOTSTRAP_ENQUEUE_DYNAMIC },
         (ups_enqueue_full_lut_step cfg a.g_sub_adapter_dynamic_lut
           a.g_sub_adapter_dynamic_lut_count
           (mark_bootstrap_started now_ms b).s_bootstrap_dynamic_idx s).2) := by
  unfold ups_bootstrap_task bootstrap_switch
  rw [mark_bootstrap_started_state, hst]

/-! ## The main flow never installs a heartbeat -/

theorem hbOff_of_fields {P : Telemetry → Prop} {s s1 : Engine} (h : HbOff P s)
    (e1 : s1.s_hb_enabled = s.s_hb_enabled)
    (e2 : s1.s_hb_queued_or_active = s.s_hb_queued_or_active)
    (e3 : s1.s_hb_consecutive_failures = s.s_hb_consecutive_failures)
    (e4 : s1.s_active.is_heartbeat = false)
    (e5 : ∀ j ∈ s1.s_queue, j.is_heartbeat = false)
    (e6 : s1.telemetry = s.telemetry) : HbOff P s1 := by
  obtain ⟨h1, h2, h3, -, -, h6⟩ := h
  exact ⟨e1.trans h1, e2.trans h2, e3.trans h3, e4, e5, by rw [e6]; exact h6⟩

theorem hbOff_boot (P : Telemetry → Prop) (t : Telemetry) (h : P t) : HbOff P (boot t) := by
  refine ⟨rfl, rfl, rfl, rfl, ?_, h⟩
  intro j hj
  rw [List.eq_of_mem_replicate hj]
  rfl

theorem hbOff_init (P : Telemetry → Prop) (s : Engine) (h : HbOff P s) :
    HbOff P (uart_engine_init s) :=
  ⟨rfl, rfl, rfl, rfl, h.2.2.2.2.1, h.2.2.2.2.2⟩

theorem hbOff_reset_internal (P : Telemetry → Prop) (s : Engine) (h : HbOff P s) :
    HbOff P (uart_engine_reset_internal s) :=
  ⟨rfl, rfl, rfl, rfl, h.2.2.2.2.1, h.2.2.2.2.2⟩

theorem hbOff_set_enabled (P : Telemetry → Prop) (enable : Bool) (s : Engine)
    (h : HbOff P s) : HbOff P (uart_engine_set_enabled enable s) := by
  unfold uart_engine_set_enabled
  split
  · exact h
  · simp only []
    split
    · exact hbOff_reset_internal P _ (hbOff_of_fields h rfl rfl rfl h.2.2.2.1 h.2.2.2.2.1 rfl)
    · exact hbOff_of_fields h rfl rfl rfl h.2.2.2.1 h.2.2.2.2.1 rfl

theorem hbOff_queue_push (P : Telemetry → Prop) (req : Option uart_engine_request_t)
    (hb : Bool) (s : Engine) (h : HbOff P s) (hhb : hb = false) :
    HbOff P (queue_push req hb s).2 := by
  by_cases hfull : UART_ENGINE_QUEUE_SIZE ≤ s.s_q_count
  · rw [queue_push_full _ _ _ hfull]
    exact h
  · cases req with
    | none => exact h
    | some r =>
      rw [queue_push_room _ _ _ (Nat.not_le.mp hfull)]
      refine hbOff_of_fields h rfl rfl rfl h.2.2.2.1 ?_ rfl
      intro j hj
      rcases List.mem_or_eq_of_mem_set hj with hj | hj
      · exact h.2.2.2.2.1 j hj
      · rw [hj, hhb]
        rfl

theorem hbOff_enqueue (P : Telemetry → Prop) (cfg : Config)
    (req : Option uart_engine_request_t) (s : Engine) (h : HbOff P s) :
    HbOff P (uart_engine_enqueue cfg req s).2 := by
  have hp := hbOff_queue_push P req false s h rfl
  unfold uart_engine_enqueue
  split
  · exact h
  · split
    · exact h
    · rcases hq : queue_push req false s with ⟨ok, s1⟩
      rw [hq] at hp
      cases ok <;> exact hp

theorem hbOff_final_failure (P : Telemetry → Prop) (s : Engine) (h : HbOff P s) :
    on_job_final_failure s.s_active s = s := by
  unfold on_job_final_failure
  rw [h.2.2.2.1]
  rfl

theorem hbOff_clear_flag (P : Telemetry → Prop) (s : Engine) (h : HbOff P s) :
    clear_flag_if_heartbeat s = s := by
  unfold clear_flag_if_heartbeat
  rw [h.2.2.2.1]
  rfl

theorem hbOff_on_job_success (P : Telemetry → Prop) (s : Engine) (h : HbOff P s) :
    on_job_success s.s_active s = s := by
  unfold on_job_success
  rw [h.2.2.2.1]
  rfl

theorem hbOff_unlock (P : Telemetry → Prop) (s : Engine) (h : HbOff P s) :
    HbOff P (UART2_Unlock s) :=
  hbOff_of_fields h rfl rfl rfl h.2.2.2.1 h.2.2.2.2.1 rfl

theorem hbOff_back_to_idle (P : Telemetry → Prop) (cfg : Config) (now_ms : Nat) (s : Engine)
    (h : HbOff P s) : HbOff P (back_to_idle cfg now_ms s) := by
  unfold back_to_idle
  rw [apply_interjob_cooldown_eq]
  exact hbOff_of_fields h rfl rfl rfl rfl h.2.2.2.2.1 rfl

theorem hbOff_retry_push (P : Telemetry → Prop) (s : Engine) (h : HbOff P s) :
    HbOff P (queue_push (some (dec_retries s).s_active.req) (dec_retries s).s_active.is_heartbeat
      (dec_retries s)).2 :=
  hbOff_queue_push P _ _ _ (hbOff_of_fields h rfl rfl rfl h.2.2.2.1 h.2.2.2.2.1 rfl)
    h.2.2.2.1

theorem hbOff_finish_failure_retry (P : Telemetry → Prop) (now_ms : Nat) (s : Engine)
    (h : HbOff P s) : HbOff P (finish_failure_retry now_ms s) := by
  have hp := hbOff_retry_push P s h
  unfold finish_failure_retry
  split
  · rcases hq : queue_push (some (dec_retries s).s_active.req)
        (dec_retries s).s_active.is_heartbeat (dec_retries s) with ⟨ok, s2⟩
    rw [hq] at hp
    cases ok
    · simp only []
      rw [hbOff_final_failure P s2 hp, hbOff_clear_flag P s2 hp]
      exact hp
    · exact hbOff_of_fields hp rfl rfl rfl hp.2.2.2.1 hp.2.2.2.2.1 rfl
  · rw [hbOff_final_failure P s h, hbOff_clear_flag P s h]
    exact h

theorem hbOff_process_failure_retry (P : Telemetry → Prop) (now_ms : Nat) (s : Engine)
    (h : HbOff P s) : HbOff P (process_failure_retry now_ms s) := by
  have hp := hbOff_retry_push P s h
  unfold process_failure_retry
  split
  · rcases hq : queue_push (some (dec_retries s).s_active.req)
        (dec_retries s).s_active.is_heartbeat (dec_retries s) with ⟨ok, s2⟩
    rw [hq] at hp
    cases ok
    · simp only []
      rw [hbOff_final_failure P s2 hp]
      exact hp
    · exact hbOff_of_fields hp rfl rfl rfl hp.2.2.2.1 hp.2.2.2.2.1 rfl
  · rw [hbOff_final_failure P s h]
    exact h

theorem hbOff_job_finish_failure (P : Telemetry → Prop) (cfg : Config) (now_ms : Nat)
    (s : Engine) (h : HbOff P s) : HbOff P (job_finish_failure cfg now_ms s) := by
  unfold job_finish_failure
  exact hbOff_back_to_idle P cfg now_ms _
    (hbOff_finish_failure_retry P now_ms _ (hbOff_unlock P s h))

theorem hbOff_job_start_tx (P : Telemetry → Prop) (cfg : Config) (inp : StepInput)
    (now_ms : Nat) (s : Engine) (h : HbOff P s) : HbOff P (job_start_tx cfg inp now_ms s) := by
  have h1 : HbOff P { s with s_tx_buf :=
      (build_cmd_bytes s.s_tx_buf 8 s.s_active.req.cmd s.s_active.req.cmd_bits).2 } :=
    hbOff_of_fields h rfl rfl rfl h.2.2.2.1 h.2.2.2.2.1 rfl
  unfold job_start_tx
  simp only []
  split
  · exact hbOff_job_finish_failure P cfg now_ms _ h1
  · split
    · exact hbOff_job_finish_failure P cfg now_ms _ h1
    · exact hbOff_of_fields h rfl rfl rfl h.2.2.2.1 h.2.2.2.2.1 rfl

theorem hbOff_tick_tx_wait (P : Telemetry → Prop) (cfg : Config) (inp : StepInput)
    (now_ms : Nat) (s : Engine) (h : HbOff P s) :
    HbOff P (tick_tx_wait cfg inp now_ms s).1 := by
  unfold tick_tx_wait
  split
  · exact hbOff_of_fields h rfl rfl rfl h.2.2.2.1 h.2.2.2.2.1 rfl
  · split
    · exact hbOff_job_finish_failure P cfg now_ms _ h
    · exact h

theorem hbOff_rx_read (P : Telemetry → Prop) (inp : StepInput) (rx_cap : Nat) (s : Engine)
    (h : HbOff P s) : HbOff P (rx_read inp rx_cap s).1 := by
  unfold rx_read
  split
  · simp only []
    split
    · exact hbOff_of_fields h rfl rfl rfl h.2.2.2.1 h.2.2.2.2.1 rfl
    · exact h
  · exact h

theorem hbOff_rx_decide (P : Telemetry → Prop) (cfg : Config) (now_ms rx_cap : Nat)
    (progressed : Bool) (s : Engine) (h : HbOff P s) :
    HbOff P (rx_decide cfg now_ms rx_cap progressed s).1 := by
  have hp : HbOff P { s with s_state := uart_engine_state_t.PROCESS } :=
    hbOff_of_fields h rfl rfl rfl h.2.2.2.1 h.2.2.2.2.1 rfl
  have hf := hbOff_job_finish_failure P cfg now_ms s h
  unfold rx_decide
  repeat' split
  all_goals first
    | exact hp
    | exact hf

theorem hbOff_tick_rx_wait (P : Telemetry → Prop) (cfg : Config) (inp : StepInput)
    (now_ms : Nat) (s : Engine) (h : HbOff P s) :
    HbOff P (tick_rx_wait cfg inp now_ms s).1 := by
  unfold tick_rx_wait
  split
  · exact hbOff_of_fields h rfl rfl rfl h.2.2.2.1 h.2.2.2.2.1 rfl
  · exact hbOff_rx_decide P cfg now_ms _ _ _ (hbOff_rx_read P inp _ s h)

theorem hbOff_tick_process (P : Telemetry → Prop) (cfg : Config) (inp : StepInput)
    (now_ms : Nat) (s : Engine) (h : HbOff P s)
    (hk : ∀ (fn cmd : Nat) (rx : List Nat) (out_value : Nat) (t : Telemetry),
      P t → P (inp.parser fn cmd rx out_value t).2) :
    HbOff P (tick_process cfg inp now_ms s) := by
  have hP : P (call_process_fn inp s).2 := by
    unfold call_process_fn
    split
    · exact h.2.2.2.2.2
    · exact hk _ _ _ _ _ h.2.2.2.2.2
  have h1 : HbOff P (UART2_Unlock { s with telemetry := (call_process_fn inp s).2 }) :=
    ⟨h.1, h.2.1, h.2.2.1, h.2.2.2.1, h.2.2.2.2.1, hP⟩
  unfold tick_process process_outcome
  split
  · rw [hbOff_on_job_success P _ h1, hbOff_clear_flag P _ h1]
    exact hbOff_back_to_idle P cfg now_ms _ h1
  · rw [hbOff_clear_flag P _ h1]
    exact hbOff_back_to_idle P cfg now_ms _ (hbOff_process_failure_retry P now_ms _ h1)

theorem getD_not_heartbeat (q : List uart_engine_job_t) (i : Nat)
    (h : ∀ j ∈ q, j.is_heartbeat = false) : (q.getD i zeroJob).is_heartbeat = false := by
  by_cases hi : i < q.length
  · rw [List.getD_eq_getElem _ _ hi]
    exact h _ (List.getElem_mem hi)
  · rw [List.getD_eq_default _ _ (Nat.not_lt.mp hi)]
    rfl

theorem hbOff_tick_idle (P : Telemetry → Prop) (now_ms : Nat) (s : Engine) (h : HbOff P s) :
    HbOff P (tick_idle now_ms s).1 := by
  by_cases hc : s.s_q_count = 0 ∨ s.uart_lock_held = true
  · rw [tick_idle_stay now_ms s hc]
    exact h
  · have hc1 : s.s_q_count ≠ 0 := fun e => hc (Or.inl e)
    have hl : s.uart_lock_held = false := by
      cases hl : s.uart_lock_held
      · rfl
      · exact absurd (Or.inr hl) hc
    rw [tick_idle_pop now_ms s hc1 hl]
    have hj := getD_not_heartbeat s.s_queue s.s_q_head h.2.2.2.2.1
    refine hbOff_of_fields h rfl ?_ rfl hj h.2.2.2.2.1 rfl
    show (if (s.s_queue.getD s.s_q_head zeroJob).is_heartbeat = true then true
      else s.s_hb_queued_or_active) = s.s_hb_queued_or_active
    rw [hj]
    rfl

theorem hbOff_tick_dispatch (P : Telemetry → Prop) (cfg : Config) (inp : StepInput)
    (now_ms : Nat) (s : Engine) (h : HbOff P s)
    (hk : ∀ (fn cmd : Nat) (rx : List Nat) (out_value : Nat) (t : Telemetry),
      P t → P (inp.parser fn cmd rx out_value t).2) :
    HbOff P (tick_dispatch cfg inp now_ms s).1 := by
  unfold tick_dispatch
  split
  · exact h
  · split
    · exact hbOff_tick_idle P now_ms s h
    · exact hbOff_job_start_tx P cfg inp now_ms s h
    · exact hbOff_tick_tx_wait P cfg inp now_ms s h
    · exact hbOff_tick_rx_wait P cfg inp now_ms s h
    · exact hbOff_tick_process P cfg inp now_ms s h hk

theorem hbOff_tick_step (P : Telemetry → Prop) (cfg : Config) (inp : StepInput) (s : Engine)
    (h : HbOff P s)
    (hk : ∀ (fn cmd : Nat) (rx : List Nat) (out_value : Nat) (t : Telemetry),
      P t → P (inp.parser fn cmd rx out_value t).2) :
    HbOff P (tick_step cfg inp s).1 := by
  unfold tick_step
  rw [maybe_enqueue_heartbeat_off _ s h.1]
  exact hbOff_tick_dispatch P cfg inp _ s h hk

theorem hbOff_tick_loop (P : Telemetry → Prop) (cfg : Config) (ins : Nat → StepInput)
    (hk : ParsersKeep P ins) (fuel step : Nat) (s : Engine) (h : HbOff P s) :
    HbOff P (tick_loop cfg ins fuel step s) := by
  induction fuel generalizing step s with
  | zero => exact h
  | succ n ih =>
    have hs := hbOff_tick_step P cfg (ins step) s h (hk step)
    unfold tick_loop
    rcases hr : tick_step cfg (ins step) s with ⟨s1, b⟩
    rw [hr] at hs
    cases b
    · exact hs
    · exact ih (step + 1) s1 hs

theorem hbOff_tick (P : Telemetry → Prop) (cfg : Config) (ins : Nat → StepInput)
    (hk : ParsersKeep P ins) (s : Engine) (h : HbOff P s) :
    HbOff P (uart_engine_tick cfg ins s) := by
  unfold uart_engine_tick
  split
  · exact h
  · exact hbOff_tick_loop P cfg ins hk _ _ s h

theorem hbOff_lut_loop (P : Telemetry → Prop) (cfg : Config)
    (lut : List uart_engine_request_t) (count fuel burst idx : Nat) (s : Engine)
    (h : HbOff P s) : HbOff P (ups_enqueue_full_lut_loop cfg lut count fuel burst idx s).2 := by
  induction fuel generalizing burst idx s with
  | zero => exact h
  | succ n ih =>
    have he := hbOff_enqueue P cfg (some (lut.getD idx zeroRequest)) s h
    unfold ups_enqueue_full_lut_loop
    split
    · rcases hq : uart_engine_enqueue cfg (some (lut.getD idx zeroRequest)) s with ⟨r, s1⟩
      rw [hq] at he
      cases r
      · exact ih (burst + 1) (idx + 1) s1 he
      · exact he
      · exact he
      · exact he
    · exact h

theorem hbOff_lut_step (P : Telemetry → Prop) (cfg : Config)
    (lut : Option (List uart_engine_request_t)) (count idx : Nat) (s : Engine)
    (h : HbOff P s) : HbOff P (ups_enqueue_full_lut_step cfg lut count idx s).2 := by
  unfold ups_enqueue_full_lut_step
  cases lut with
  | none => exact h
  | some l =>
    simp only []
    split
    · exact h
    · exact hbOff_lut_loop P cfg l count _ _ _ s h

theorem hbOff_bootstrap_task (P : Telemetry → Prop) (cfg : Config) (a : Adapter)
    (now_ms tick2_ms : Nat) (b : Scheduler) (s : Engine) (h : HbOff P s) :
    HbOff P (ups_bootstrap_task cfg a now_ms tick2_ms b s).2 := by
  unfold ups_bootstrap_task bootstrap_switch
  split
  · cases a.g_sub_adapter_constant_heartbeat with
    | none => exact h
    | some hb =>
      have he := hbOff_enqueue P cfg (some (bootstrap_heartbeat_request hb)) s h
      simp only []
      rcases hq : uart_engine_enqueue cfg (some (bootstrap_heartbeat_request hb)) s with
        ⟨r, s1⟩
      rw [hq] at he
      cases r <;> exact he
  · split <;> exact h
  · split <;> exact h
  · split <;> exact h
  · simp only []
    split <;> exact hbOff_lut_step P cfg _ _ _ s h
  · simp only []
    split <;> exact hbOff_lut_step P cfg _ _ _ s h
  · split <;> exact h
  · split <;> exact h
  · exact h

theorem hbOff_dynamic_update_task (P : Telemetry → Prop) (cfg : Config) (a : Adapter)
    (now_ms : Nat) (b : Scheduler) (s : Engine) (h : HbOff P s) :
    HbOff P (ups_dynamic_update_task cfg a now_ms b s).2 := by
  unfold ups_dynamic_update_task
  repeat' split
  all_goals first
    | exact h
    | exact hbOff_lut_step P cfg _ _ _ s h

theorem hbOff_run_main (P : Telemetry → Prop) (cfg : Config) (a : Adapter)
    (calls : List MainCall) (m : Scheduler × Engine) (hk : MainKeeps P calls)
    (h : HbOff P m.2) : HbOff P (run_main cfg a calls m).2 := by
  induction calls generalizing m with
  | nil => exact h
  | cons c cs ih =>
    unfold run_main
    cases c with
    | init => exact ih _ hk (hbOff_init P _ h)
    | set_enabled enable => exact ih _ hk (hbOff_set_enabled P enable _ h)
    | bootstrap_task now_ms tick2_ms =>
      exact ih _ hk (hbOff_bootstrap_task P cfg a now_ms tick2_ms _ _ h)
    | dynamic_update_task now_ms =>
      exact ih _ hk (hbOff_dynamic_update_task P cfg a now_ms _ _ h)
    | tick ins captures => exact ih _ hk.2 (hbOff_tick P cfg ins hk.1 _ h)

theorem mainKeeps_true (calls : List MainCall) : MainKeeps (fun _ => True) calls := by
  induction calls with
  | nil => exact True.intro
  | cons c cs ih =>
    cases c with
    | init => exact ih
    | set_enabled enable => exact ih
    | bootstrap_task now_ms tick2_ms => exact ih
    | dynamic_update_task now_ms => exact ih
    | tick ins captures => exact ⟨fun _ _ _ _ _ _ _ => True.intro, ih⟩

/-! ## The tick at a stale cooldown, a successful `PROCESS` step -/

theorem stale_gate_arith (now_ms : Nat) :
    asInt32 (sub32 (now_ms % U32) 0) < 0 ↔ 2147483648 ≤ now_ms % U32 := by
  unfold asInt32 sub32 U32
  split <;> omega

theorem call_process_fn_after_heartbeat (inp : StepInput) (now_ms : Nat) (s : Engine) :
    call_process_fn inp (maybe_enqueue_heartbeat now_ms s) = call_process_fn inp s := by
  rcases maybe_enqueue_heartbeat_cases now_ms s with ⟨h, -⟩ | ⟨-, -, -, -, h⟩
  · rw [h]
  · rw [h]
    rfl

theorem back_to_idle_telemetry (cfg : Config) (now_ms : Nat) (s : Engine) :
    (back_to_idle cfg now_ms s).telemetry = s.telemetry := by
  unfold back_to_idle
  rw [apply_interjob_cooldown_eq]
  rfl

theorem tick_process_success_telemetry (cfg : Config) (inp : StepInput) (now_ms : Nat)
    (s : Engine) (hok : (call_process_fn inp s).1 = true) :
    (tick_process cfg inp now_ms s).telemetry = (call_process_fn inp s).2 := by
  unfold tick_process process_outcome
  rw [if_pos hok, back_to_idle_telemetry]
  unfold clear_flag_if_heartbeat on_job_success
  (repeat' split) <;> rfl

theorem snmp_lookup_exact_lt (oid : Option (List Nat)) (i : Nat)
    (h : snmp_lookup_exact oid = some i) : i < 32 := by
  unfold snmp_lookup_exact at h
  cases oid with
  | none => cases h
  | some o =>
    simp only [] at h
    have := ((snmp_lookup_exact_loop_some o _ 0 i).mp h).2.1
    have hlen : k_oid_table.length = 32 := rfl
    omega

theorem snmp_lookup_next_lt (oid : Option (List Nat)) (i : Nat)
    (h : snmp_lookup_next oid = some i) : i < 32 := by
  unfold snmp_lookup_next at h
  cases oid with
  | none => cases h
  | some o =>
    simp only [] at h
    have := ((snmp_lookup_next_loop_some o _ 0 i).mp h).2.1
    have hlen : k_oid_table.length = 32 := rfl
    omega

theorem snmp_lookup_lt (req : snmp_request_t) (i : Nat) (h : snmp_lookup req = some i) :
    i < 32 := by
  unfold snmp_lookup at h
  split at h
  · exact snmp_lookup_exact_lt _ i h
  · exact snmp_lookup_next_lt _ i h

/-! ## The bounds of the receive phase -/

theorem request_rx_cap_le (r : uart_engine_request_t)
    (h : r.expected_len ≤ UART_ENGINE_MAX_EXPECTED_LEN) :
    request_rx_cap r ≤ UART_ENGINE_MAX_EXPECTED_LEN := by
  unfold request_rx_cap
  split
  · exact h
  · split
    · exact Nat.le_refl _
    · exact h

theorem request_rx_cap_zero (r : uart_engine_request_t) (h : request_rx_cap r = 0) :
    r.expected_ending = false ∧ r.expected_len = 0 := by
  unfold request_rx_cap UART_ENGINE_MAX_EXPECTED_LEN at h
  cases he : r.expected_ending with
  | false =>
    rw [he] at h
    exact ⟨rfl, h⟩
  | true =>
    rw [he] at h
    simp only [Bool.not_true, Bool.false_eq_true, if_false] at h
    split at h
    · cases h
    · rename_i hne
      exact absurd h hne

theorem request_rx_cap_fixed (r : uart_engine_request_t) (h : r.expected_ending = false) :
    request_rx_cap r = r.expected_len := by
  unfold request_rx_cap
  rw [h]
  rfl

theorem request_valid_len (cfg : Config) (r : uart_engine_request_t)
    (h : request_is_valid cfg (some r) = true) :
    r.expected_len ≤ UART_ENGINE_MAX_EXPECTED_LEN := by
  unfold request_is_valid at h
  simp only [] at h
  split at h
  · cases h
  · split at h
    · cases h
    · omega

theorem rx_store_length (buf got : List Nat) (off : Nat)
    (h : off + got.length ≤ buf.length) : (rx_store buf off got).length = buf.length := by
  unfold rx_store
  simp only [List.length_append, List.length_take, List.length_drop]
  omega

theorem rx_store_take (buf got : List Nat) (off : Nat) (h : off ≤ buf.length) :
    (rx_store buf off got).take (off + got.length) = buf.take off ++ got := by
  unfold rx_store
  apply List.take_left'
  simp only [List.length_append, List.length_take]
  omega

theorem rxBase_of_fields {s s1 : Engine} (h : RxBase s) (e1 : s1.s_rx_buf = s.s_rx_buf)
    (e2 : s1.s_queue = s.s_queue) (e3 : s1.s_hb_enabled = s.s_hb_enabled)
    (e4 : s1.s_hb_cfg = s.s_hb_cfg) : RxBase s1 := by
  unfold RxBase at *
  rw [e1, e2, e3, e4]
  exact h

theorem rxBase_queue_push (req : uart_engine_request_t) (hb : Bool) (s : Engine)
    (h : RxBase s) (hlen : req.expected_len ≤ UART_ENGINE_MAX_EXPECTED_LEN) :
    RxBase (queue_push (some req) hb s).2 := by
  by_cases hfull : UART_ENGINE_QUEUE_SIZE ≤ s.s_q_count
  · rw [queue_push_full _ _ _ hfull]
    exact h
  · rw [queue_push_room _ _ _ (Nat.not_le.mp hfull)]
    refine ⟨h.1, ?_, h.2.2⟩
    intro j hj
    rcases List.mem_or_eq_of_mem_set hj with hj | hj
    · exact h.2.1 j hj
    · rw [hj]
      exact hlen

theorem rxBase_final_failure (job : uart_engine_job_t) (s : Engine) (h : RxBase s) :
    RxBase (on_job_final_failure job s) := by
  rw [on_job_final_failure_eq]
  split
  · exact rxBase_of_fields h rfl rfl rfl rfl
  · exact h

theorem rxBase_clear_flag (s : Engine) (h : RxBase s) : RxBase (clear_flag_if_heartbeat s) := by
  unfold clear_flag_if_heartbeat
  split
  · exact rxBase_of_fields h rfl rfl rfl rfl
  · exact h

theorem rxBase_on_job_success (job : uart_engine_job_t) (s : Engine) (h : RxBase s) :
    RxBase (on_job_success job s) := by
  unfold on_job_success
  split
  · exact rxBase_of_fields h rfl rfl rfl rfl
  · exact h

theorem clear_flag_active (s : Engine) :
    (clear_flag_if_heartbeat s).s_active = s.s_active := by
  unfold clear_flag_if_heartbeat
  split <;> rfl

/-- The engine back in `IDLE` with no active Job and no byte counted. -/
theorem rxInv_back_to_idle (cfg : Config) (now_ms : Nat) (s : Engine) (h : RxBase s) :
    RxInv cfg (back_to_idle cfg now_ms s) := by
  unfold back_to_idle
  rw [apply_interjob_cooldown_eq]
  refine ⟨rxBase_of_fields h rfl rfl rfl rfl, Nat.zero_le _, Nat.zero_le _, fun _ => rfl, ?_⟩
  intro hst
  cases hst

theorem rxBase_retry_push (s : Engine) (h : RxBase s)
    (hlen : s.s_active.req.expected_len ≤ UART_ENGINE_MAX_EXPECTED_LEN) :
    RxBase (queue_push (some (dec_retries s).s_active.req)
      (dec_retries s).s_active.is_heartbeat (dec_retries s)).2 :=
  rxBase_queue_push _ _ _ (rxBase_of_fields h rfl rfl rfl rfl) hlen

theorem rxBase_finish_failure_retry (now_ms : Nat) (s : Engine) (h : RxBase s)
    (hlen : s.s_active.req.expected_len ≤ UART_ENGINE_MAX_EXPECTED_LEN) :
    RxBase (finish_failure_retry now_ms s) := by
  have hp := rxBase_retry_push s h hlen
  unfold finish_failure_retry
  split
  · rcases hq : queue_push (some (dec_retries s).s_active.req)
        (dec_retries s).s_active.is_heartbeat (dec_retries s) with ⟨ok, s2⟩
    rw [hq] at hp
    cases ok
    · exact rxBase_clear_flag _ (rxBase_final_failure _ _ hp)
    · exact rxBase_of_fields hp rfl rfl rfl rfl
  · exact rxBase_clear_flag _ (rxBase_final_failure _ _ h)

theorem rxBase_process_failure_retry (now_ms : Nat) (s : Engine) (h : RxBase s)
    (hlen : s.s_active.req.expected_len ≤ UART_ENGINE_MAX_EXPECTED_LEN) :
    RxBase (process_failure_retry now_ms s) := by
  have hp := rxBase_retry_push s h hlen
  unfold process_failure_retry
  split
  · rcases hq : queue_push (some (dec_retries s).s_active.req)
        (dec_retries s).s_active.is_heartbeat (dec_retries s) with ⟨ok, s2⟩
    rw [hq] at hp
    cases ok
    · exact rxBase_final_failure _ _ hp
    · exact rxBase_of_fields hp rfl rfl rfl rfl
  · exact rxBase_final_failure _ _ h

theorem rxInv_job_finish_failure (cfg : Config) (now_ms : Nat) (s : Engine) (h : RxBase s)
    (hlen : s.s_active.req.expected_len ≤ UART_ENGINE_MAX_EXPECTED_LEN) :
    RxInv cfg (job_finish_failure cfg now_ms s) := by
  unfold job_finish_failure
  exact rxInv_back_to_idle cfg now_ms _
    (rxBase_finish_failure_retry now_ms _ (rxBase_of_fields h rfl rfl rfl rfl) hlen)

theorem rxInv_job_start_tx (cfg : Config) (inp : StepInput) (now_ms : Nat) (s : Engine)
    (h : RxInv cfg s) : RxInv cfg (job_start_tx cfg inp now_ms s) := by
  have hb : RxBase { s with s_tx_buf :=
      (build_cmd_bytes s.s_tx_buf 8 s.s_active.req.cmd s.s_active.req.cmd_bits).2 } :=
    rxBase_of_fields h.1 rfl rfl rfl rfl
  unfold job_start_tx
  simp only []
  split
  · exact rxInv_job_finish_failure cfg now_ms _ hb h.2.1
  · split
    · exact rxInv_job_finish_failure cfg now_ms _ hb h.2.1
    · refine ⟨rxBase_of_fields h.1 rfl rfl rfl rfl, h.2.1, h.2.2.1, ?_, ?_⟩
      · intro e; cases e
      · intro e; cases e

theorem rxInv_tick_tx_wait (cfg : Config) (inp : StepInput) (now_ms : Nat) (s : Engine)
    (h : RxInv cfg s) : RxInv cfg (tick_tx_wait cfg inp now_ms s).1 := by
  unfold tick_tx_wait
  split
  · refine ⟨rxBase_of_fields h.1 rfl rfl rfl rfl, h.2.1, Nat.zero_le _, ?_, ?_⟩
    · intro e; cases e
    · intro e; cases e
  · split
    · exact rxInv_job_finish_failure cfg now_ms _ h.1 h.2.1
    · exact h

/-- The read of a pass in `RX_WAIT`: the count stays within the cap, the buffer keeps its
size, and the bytes counted are those counted before followed by the bytes read. -/
theorem rx_read_facts (inp : StepInput) (s : Engine)
    (hlen : s.s_rx_buf.length = UART_ENGINE_MAX_EXPECTED_LEN)
    (hcap : request_rx_cap s.s_active.req ≤ UART_ENGINE_MAX_EXPECTED_LEN)
    (hgot : s.s_rx_got ≤ request_rx_cap s.s_active.req) :
    (rx_read inp (request_rx_cap s.s_active.req) s).1.s_rx_buf.length =
      UART_ENGINE_MAX_EXPECTED_LEN ∧
    (rx_read inp (request_rx_cap s.s_active.req) s).1.s_rx_got ≤
      request_rx_cap s.s_active.req ∧
    (rx_read inp (request_rx_cap s.s_active.req) s).1.s_rx_got =
      s.s_rx_got + (rx_step_bytes inp s).length ∧
    (rx_read inp (request_rx_cap s.s_active.req) s).1.s_rx_buf.take
        (rx_read inp (request_rx_cap s.s_active.req) s).1.s_rx_got =
      s.s_rx_buf.take s.s_rx_got ++ rx_step_bytes inp s ∧
    (rx_read inp (request_rx_cap s.s_active.req) s).1 =
      { s with
        s_rx_buf := (rx_read inp (request_rx_cap s.s_active.req) s).1.s_rx_buf,
        s_rx_got := (rx_read inp (request_rx_cap s.s_active.req) s).1.s_rx_got } := by
  unfold UART_ENGINE_MAX_EXPECTED_LEN at hlen hcap ⊢
  have hwant : (request_rx_cap s.s_active.req - s.s_rx_got) % 65536 =
      request_rx_cap s.s_active.req - s.s_rx_got := Nat.mod_eq_of_lt (by omega)
  have hbytes : (rx_step_bytes inp s).length ≤ request_rx_cap s.s_active.req - s.s_rx_got := by
    unfold rx_step_bytes
    rw [List.length_take]
    exact Nat.min_le_left _ _
  unfold rx_read
  by_cases hlt : s.s_rx_got < request_rx_cap s.s_active.req
  · rw [if_pos hlt]
    simp only [hwant]
    by_cases hpos : (List.take (request_rx_cap s.s_active.req - s.s_rx_got) inp.rx_avail).length > 0
    · rw [if_pos hpos]
      have hsum : (s.s_rx_got + (rx_step_bytes inp s).length) % 65536 =
          s.s_rx_got + (rx_step_bytes inp s).length := Nat.mod_eq_of_lt (by omega)
      refine ⟨?_, ?_, ?_, ?_, rfl⟩
      · show (rx_store s.s_rx_buf s.s_rx_got (rx_step_bytes inp s)).length = 256
        rw [rx_store_length _ _ _ (by omega), hlen]
      · show (s.s_rx_got + (rx_step_bytes inp s).length) % 65536 ≤ _
        rw [hsum]
        omega
      · show (s.s_rx_got + (rx_step_bytes inp s).length) % 65536 = _
        exact hsum
      · show (rx_store s.s_rx_buf s.s_rx_got (rx_step_bytes inp s)).take
          ((s.s_rx_got + (rx_step_bytes inp s).length) % 65536) = _
        rw [hsum, rx_store_take _ _ _ (by omega)]
    · rw [if_neg hpos]
      have hnil : rx_step_bytes inp s = [] := by
        unfold rx_step_bytes
        exact List.length_eq_zero.mp (by omega)
      rw [hnil]
      exact ⟨hlen, hgot, rfl, (List.append_nil _).symm, rfl⟩
  · rw [if_neg hlt]
    have hnil : rx_step_bytes inp s = [] := by
      unfold rx_step_bytes
      rw [show request_rx_cap s.s_active.req - s.s_rx_got = 0 by omega]
      rfl
    rw [hnil]
    exact ⟨hlen, hgot, rfl, (List.append_nil _).symm, rfl⟩

/-- The tests of a pass in `RX_WAIT` after the read. -/
theorem rxInv_rx_decide (cfg : Config) (now_ms : Nat) (progressed : Bool) (s : Engine)
    (hb : RxBase s) (hlen : s.s_active.req.expected_len ≤ UART_ENGINE_MAX_EXPECTED_LEN)
    (hgot : s.s_rx_got ≤ request_rx_cap s.s_active.req)
    (hst : s.s_state = uart_engine_state_t.RX_WAIT) :
    RxInv cfg (rx_decide cfg now_ms (request_rx_cap s.s_active.req) progressed s).1 := by
  have hsame : RxInv cfg s := by
    refine ⟨hb, hlen, hgot, ?_, ?_⟩
    · intro e; rw [hst] at e; cases e
    · intro e; rw [hst] at e; cases e
  have hfail := rxInv_job_finish_failure cfg now_ms s hb hlen
  unfold rx_decide
  cases he : s.s_active.req.expected_ending with
  | true =>
    simp only [if_true]
    by_cases hend : rx_has_expected_ending cfg s.s_active.req s.s_rx_buf s.s_rx_got = true
    · rw [if_pos hend]
      refine ⟨rxBase_of_fields hb rfl rfl rfl rfl, hlen, hgot, ?_, ?_⟩
      · intro e; cases e
      · intro _
        refine ⟨fun e => ?_, fun _ => hend⟩
        have e2 : s.s_active.req.expected_ending = false := e
        rw [he] at e2
        cases e2
    · rw [if_neg hend]
      split
      · exact hfail
      · split
        · exact hfail
        · exact hsame
  | false =>
    simp only [Bool.false_eq_true, if_false]
    split
    · rename_i hge
      refine ⟨rxBase_of_fields hb rfl rfl rfl rfl, hlen, hgot, ?_, ?_⟩
      · intro e; cases e
      · intro _
        refine ⟨fun _ => ?_, fun e => ?_⟩
        · have hc := request_rx_cap_fixed s.s_active.req he
          show s.s_rx_got = s.s_active.req.expected_len
          omega
        · have e2 : s.s_active.req.expected_ending = true := e
          rw [he] at e2
          cases e2
    · split
      · exact hfail
      · exact hsame

theorem rxInv_tick_rx_wait (cfg : Config) (inp : StepInput) (now_ms : Nat) (s : Engine)
    (h : RxInv cfg s) (hst : s.s_state = uart_engine_state_t.RX_WAIT) :
    RxInv cfg (tick_rx_wait cfg inp now_ms s).1 := by
  have hcap := request_rx_cap_le s.s_active.req h.2.1
  unfold tick_rx_wait
  split
  · rename_i hz
    obtain ⟨z1, z2⟩ := request_rx_cap_zero _ hz
    refine ⟨rxBase_of_fields h.1 rfl rfl rfl rfl, h.2.1, h.2.2.1, ?_, ?_⟩
    · intro e; cases e
    · intro _
      refine ⟨fun _ => ?_, fun e => ?_⟩
      · have := h.2.2.1
        show s.s_rx_got = s.s_active.req.expected_len
        omega
      · have e2 : s.s_active.req.expected_ending = true := e
        rw [z1] at e2
        cases e2
  · obtain ⟨r1, r2, -, -, r5⟩ := rx_read_facts inp s h.1.1 hcap h.2.2.1
    have hact : (rx_read inp (request_rx_cap s.s_active.req) s).1.s_active = s.s_active := by
      rw [r5]
    have hstate : (rx_read inp (request_rx_cap s.s_active.req) s).1.s_state = s.s_state := by
      rw [r5]
    have hbase : RxBase (rx_read inp (request_rx_cap s.s_active.req) s).1 := by
      refine ⟨r1, ?_, ?_⟩
      · rw [r5]; exact h.1.2.1
      · rw [r5]; exact h.1.2.2
    have := rxInv_rx_decide cfg now_ms (rx_read inp (request_rx_cap s.s_active.req) s).2
      (rx_read inp (request_rx_cap s.s_active.req) s).1 hbase (by rw [hact]; exact h.2.1)
      (by rw [hact]; exact r2) (by rw [hstate]; exact hst)
    rw [hact] at this
    exact this

theorem rxInv_tick_process (cfg : Config) (inp : StepInput) (now_ms : Nat) (s : Engine)
    (h : RxInv cfg s) : RxInv cfg (tick_process cfg inp now_ms s) := by
  have h1 : RxBase (UART2_Unlock { s with telemetry := (call_process_fn inp s).2 }) :=
    rxBase_of_fields h.1 rfl rfl rfl rfl
  unfold tick_process process_outcome
  split
  · exact rxInv_back_to_idle cfg now_ms _ (rxBase_clear_flag _ (rxBase_on_job_success _ _ h1))
  · refine rxInv_back_to_idle cfg now_ms _
      (rxBase_process_failure_retry now_ms _ (rxBase_clear_flag _ h1) ?_)
    rw [clear_flag_active]
    exact h.2.1

theorem getD_expected_len (q : List uart_engine_job_t) (i : Nat)
    (h : ∀ j ∈ q, j.req.expected_len ≤ UART_ENGINE_MAX_EXPECTED_LEN) :
    (q.getD i zeroJob).req.expected_len ≤ UART_ENGINE_MAX_EXPECTED_LEN := by
  by_cases hi : i < q.length
  · rw [List.getD_eq_getElem _ _ hi]
    exact h _ (List.getElem_mem hi)
  · rw [List.getD_eq_default _ _ (Nat.not_lt.mp hi)]
    exact Nat.zero_le _

theorem rxInv_tick_idle (cfg : Config) (now_ms : Nat) (s : Engine) (h : RxInv cfg s)
    (hst : s.s_state = uart_engine_state_t.IDLE) : RxInv cfg (tick_idle now_ms s).1 := by
  by_cases hc : s.s_q_count = 0 ∨ s.uart_lock_held = true
  · rw [tick_idle_stay now_ms s hc]
    exact h
  · have hc1 : s.s_q_count ≠ 0 := fun e => hc (Or.inl e)
    have hl : s.uart_lock_held = false := by
      cases hl : s.uart_lock_held
      · rfl
      · exact absurd (Or.inr hl) hc
    rw [tick_idle_pop now_ms s hc1 hl]
    refine ⟨rxBase_of_fields h.1 rfl rfl rfl rfl, getD_expected_len _ _ h.1.2.1, ?_, ?_, ?_⟩
    · show s.s_rx_got ≤ _
      rw [h.2.2.2.1 hst]
      exact Nat.zero_le _
    · intro e; cases e
    · intro e; cases e

theorem rxInv_tick_dispatch (cfg : Config) (inp : StepInput) (now_ms : Nat) (s : Engine)
    (h : RxInv cfg s) : RxInv cfg (tick_dispatch cfg inp now_ms s).1 := by
  unfold tick_dispatch
  split
  · exact h
  · split
    next hst => exact rxInv_tick_idle cfg now_ms s h hst
    next hst => exact rxInv_job_start_tx cfg inp now_ms s h
    next hst => exact rxInv_tick_tx_wait cfg inp now_ms s h
    next hst => exact rxInv_tick_rx_wait cfg inp now_ms s h hst
    next hst => exact rxInv_tick_process cfg inp now_ms s h

theorem rxInv_maybe_enqueue_heartbeat (cfg : Config) (now_ms : Nat) (s : Engine)
    (h : RxInv cfg s) : RxInv cfg (maybe_enqueue_heartbeat now_ms s) := by
  rcases maybe_enqueue_heartbeat_cases now_ms s with ⟨e, -⟩ | ⟨hen, -, -, -, e⟩
  · rw [e]
    exact h
  · rw [e]
    refine ⟨⟨h.1.1, ?_, h.1.2.2⟩, h.2.1, h.2.2.1, h.2.2.2.1, h.2.2.2.2⟩
    intro j hj
    rcases List.mem_or_eq_of_mem_set hj with hj | hj
    · exact h.1.2.1 j hj
    · rw [hj]
      exact h.1.2.2 hen

theorem rxInv_tick_step (cfg : Config) (inp : StepInput) (s : Engine) (h : RxInv cfg s) :
    RxInv cfg (tick_step cfg inp s).1 := by
  unfold tick_step
  exact rxInv_tick_dispatch cfg inp _ _ (rxInv_maybe_enqueue_heartbeat cfg _ s h)

theorem rxInv_tick_loop (cfg : Config) (ins : Nat → StepInput) (fuel step : Nat) (s : Engine)
    (h : RxInv cfg s) : RxInv cfg (tick_loop cfg ins fuel step s) := by
  induction fuel generalizing step s with
  | zero => exact h
  | succ n ih =>
    have hs := rxInv_tick_step cfg (ins step) s h
    unfold tick_loop
    rcases hr : tick_step cfg (ins step) s with ⟨s1, b⟩
    rw [hr] at hs
    cases b
    · exact hs
    · exact ih (step + 1) s1 hs

theorem rxInv_tick (cfg : Config) (ins : Nat → StepInput) (s : Engine) (h : RxInv cfg s) :
    RxInv cfg (uart_engine_tick cfg ins s) := by
  unfold uart_engine_tick
  split
  · exact h
  · exact rxInv_tick_loop cfg ins _ _ s h

theorem rxInv_boot (cfg : Config) (t : Telemetry) : RxInv cfg (boot t) := by
  refine ⟨⟨List.length_replicate _ _, ?_, ?_⟩, Nat.zero_le _, Nat.zero_le _, fun _ => rfl, ?_⟩
  · intro j hj
    rw [List.eq_of_mem_replicate hj]
    exact Nat.zero_le _
  · intro e; cases e
  · intro e; cases e

theorem rxInv_init (cfg : Config) (s : Engine) (h : RxInv cfg s) :
    RxInv cfg (uart_engine_init s) := by
  refine ⟨⟨h.1.1, h.1.2.1, ?_⟩, Nat.zero_le _, Nat.zero_le _, fun _ => rfl, ?_⟩
  · intro e; cases e
  · intro e; cases e

theorem rxInv_reset_internal (cfg : Config) (s : Engine) (h : RxInv cfg s) :
    RxInv cfg (uart_engine_reset_internal s) := by
  refine ⟨⟨h.1.1, h.1.2.1, ?_⟩, Nat.zero_le _, Nat.zero_le _, fun _ => rfl, ?_⟩
  · intro e; cases e
  · intro e; cases e

theorem rxInv_set_enabled (cfg : Config) (enable : Bool) (s : Engine) (h : RxInv cfg s) :
    RxInv cfg (uart_engine_set_enabled enable s) := by
  have h1 : RxInv cfg { s with s_enabled := enable } := h
  unfold uart_engine_set_enabled
  split
  · exact h
  · simp only []
    split
    · exact rxInv_reset_internal cfg _ h1
    · exact h1

theorem rxInv_enqueue (cfg : Config) (req : Option uart_engine_request_t) (s : Engine)
    (h : RxInv cfg s) : RxInv cfg (uart_engine_enqueue cfg req s).2 := by
  unfold uart_engine_enqueue
  split
  · exact h
  · split
    · exact h
    · rename_i hv
      cases req with
      | none => simp [request_is_valid] at hv
      | some r =>
        have hlen := request_valid_len cfg r (by simpa using hv)
        have hp := rxBase_queue_push r false s h.1 hlen
        have hf : (queue_push (some r) false s).2 =
            { s with
              s_queue := (queue_push (some r) false s).2.s_queue,
              s_q_tail := (queue_push (some r) false s).2.s_q_tail,
              s_q_count := (queue_push (some r) false s).2.s_q_count } := by
          by_cases hfull : UART_ENGINE_QUEUE_SIZE ≤ s.s_q_count
          · rw [queue_push_full _ _ _ hfull]
          · rw [queue_push_room _ _ _ (Nat.not_le.mp hfull)]
        have hi : RxInv cfg (queue_push (some r) false s).2 := by
          refine ⟨hp, ?_, ?_, ?_, ?_⟩
          · rw [hf]; exact h.2.1
          · rw [hf]; exact h.2.2.1
          · rw [hf]; exact h.2.2.2.1
          · rw [hf]; exact h.2.2.2.2
        rcases hq : queue_push (some r) false s with ⟨ok, s1⟩
        rw [hq] at hi
        cases ok <;> exact hi

theorem rxInv_set_heartbeat (cfg : Config) (now_ms : Nat)
    (hb : Option uart_engine_heartbeat_cfg_t) (s : Engine) (h : RxInv cfg s) :
    RxInv cfg (uart_engine_set_heartbeat cfg now_ms hb s) := by
  unfold uart_engine_set_heartbeat
  split
  · exact h
  · cases hb with
    | none =>
      refine ⟨⟨h.1.1, h.1.2.1, ?_⟩, h.2.1, h.2.2.1, h.2.2.2.1, h.2.2.2.2⟩
      intro e; cases e
    | some c =>
      simp only []
      split
      · refine ⟨⟨h.1.1, h.1.2.1, ?_⟩, h.2.1, h.2.2.1, h.2.2.2.1, h.2.2.2.2⟩
        intro e; cases e
      · rename_i hv
        have hlen : c.req.expected_len ≤ UART_ENGINE_MAX_EXPECTED_LEN :=
          request_valid_len cfg c.req (by simpa using hv)
        split
        · exact ⟨⟨h.1.1, h.1.2.1, fun _ => hlen⟩, h.2.1, h.2.2.1, h.2.2.2.1, h.2.2.2.2⟩
        · exact ⟨⟨h.1.1, h.1.2.1, fun _ => hlen⟩, h.2.1, h.2.2.1, h.2.2.2.1, h.2.2.2.2⟩

theorem rxInv_apply_call (cfg : Config) (c : Call) (s : Engine) (h : RxInv cfg s) :
    RxInv cfg (apply_call cfg c s) := by
  cases c with
  | init => exact rxInv_init cfg s h
  | set_enabled enable => exact rxInv_set_enabled cfg enable s h
  | enqueue req => exact rxInv_enqueue cfg req s h
  | set_heartbeat now_ms hb => exact rxInv_set_heartbeat cfg now_ms hb s h
  | tick ins => exact rxInv_tick cfg ins s h

theorem rxInv_run_calls (cfg : Config) (calls : List Call) (s : Engine) (h : RxInv cfg s) :
    RxInv cfg (run_calls cfg calls s) := by
  induction calls generalizing s with
  | nil => exact h
  | cons c cs ih => exact ih _ (rxInv_apply_call cfg c s h)

theorem rx_read_active (inp : StepInput) (rx_cap : Nat) (s : Engine) :
    (rx_read inp rx_cap s).1.s_active = s.s_active ∧
    (rx_read inp rx_cap s).1.s_state = s.s_state ∧
    (rx_read inp rx_cap s).1.s_state_start_ms = s.s_state_start_ms := by
  unfold rx_read
  split
  · simp only []
    split <;> exact ⟨rfl, rfl, rfl⟩
  · exact ⟨rfl, rfl, rfl⟩

/-- The tests of a pass in `RX_WAIT` in closed form. -/
theorem rx_decide_eq (cfg : Config) (now_ms rx_cap : Nat) (progressed : Bool) (s : Engine)
    (hcap : rx_cap = request_rx_cap s.s_active.req) :
    (rx_decide cfg now_ms rx_cap progressed s).1 =
      if rx_phase_done cfg s then { s with s_state := uart_engine_state_t.PROCESS }
      else if (s.s_active.req.expected_ending = true ∧ s.s_rx_got ≥ rx_cap) ∨
          sub32 now_ms s.s_state_start_ms ≥ s.s_active.req.timeout_ms then
        job_finish_failure cfg now_ms s
      else s := by
  subst hcap
  unfold rx_decide rx_phase_done
  by_cases he : s.s_active.req.expected_ending = true
  · simp only [he, if_true, true_and]
    split
    · rfl
    · split
      · rename_i hge
        rw [if_pos (Or.inl hge)]
      · rename_i hge
        split
        · rename_i hto
          rw [if_pos (Or.inr hto)]
        · rename_i hto
          rw [if_neg (by
            rintro (h | h)
            · exact hge h
            · exact hto h)]
  · have he2 : s.s_active.req.expected_ending = false := by simpa using he
    simp only [he2, Bool.false_eq_true, if_false, false_and, false_or]
    split
    · rfl
    · split <;> rfl

/-- A pass of the tick loop in `RX_WAIT` in closed form: the state after the read goes to
`PROCESS` when the receive phase is done, fails when a framed reply has reached the cap or
the time is up, and stays otherwise. -/
theorem tick_rx_wait_eq (cfg : Config) (inp : StepInput) (now_ms : Nat) (s : Engine) :
    (tick_rx_wait cfg inp now_ms s).1 =
      if rx_phase_done cfg (rx_read inp (request_rx_cap s.s_active.req) s).1 then
        { (rx_read inp (request_rx_cap s.s_active.req) s).1 with
          s_state := uart_engine_state_t.PROCESS }
      else if ((rx_read inp (request_rx_cap s.s_active.req) s).1.s_active.req.expected_ending =
            true ∧
          (rx_read inp (request_rx_cap s.s_active.req) s).1.s_rx_got ≥
            request_rx_cap s.s_active.req) ∨
          sub32 now_ms (rx_read inp (request_rx_cap s.s_active.req) s).1.s_state_start_ms ≥
            (rx_read inp (request_rx_cap s.s_active.req) s).1.s_active.req.timeout_ms then
        job_finish_failure cfg now_ms (rx_read inp (request_rx_cap s.s_active.req) s).1
      else (rx_read inp (request_rx_cap s.s_active.req) s).1 := by
  obtain ⟨ha, -, -⟩ := rx_read_active inp (request_rx_cap s.s_active.req) s
  unfold tick_rx_wait
  by_cases hz : request_rx_cap s.s_active.req = 0
  · rw [if_pos hz]
    obtain ⟨z1, -⟩ := request_rx_cap_zero _ hz
    have hs1 : (rx_read inp (request_rx_cap s.s_active.req) s).1 = s := by
      unfold rx_read
      rw [if_neg (by omega)]
    rw [hs1]
    have hd : rx_phase_done cfg s := by
      unfold rx_phase_done
      rw [z1]
      simp only [Bool.false_eq_true, if_false]
      omega
    rw [if_pos hd]
  · rw [if_neg hz]
    exact rx_decide_eq cfg now_ms _ _ _ (by rw [ha])

/-- The states a pass in `RX_WAIT` can leave, with what they keep. -/
theorem tick_rx_wait_view (cfg : Config) (inp : StepInput) (now_ms : Nat) (s : Engine)
    (hlen : s.s_rx_buf.length = UART_ENGINE_MAX_EXPECTED_LEN)
    (hcap : request_rx_cap s.s_active.req ≤ UART_ENGINE_MAX_EXPECTED_LEN)
    (hgot : s.s_rx_got ≤ request_rx_cap s.s_active.req)
    (hr : (tick_rx_wait cfg inp now_ms s).1.s_state = uart_engine_state_t.RX_WAIT ∨
      (tick_rx_wait cfg inp now_ms s).1.s_state = uart_engine_state_t.PROCESS) :
    (tick_rx_wait cfg inp now_ms s).1.s_active = s.s_active ∧
    (tick_rx_wait cfg inp now_ms s).1.s_rx_buf.length = UART_ENGINE_MAX_EXPECTED_LEN ∧
    (tick_rx_wait cfg inp now_ms s).1.s_rx_got ≤ request_rx_cap s.s_active.req ∧
    (tick_rx_wait cfg inp now_ms s).1.s_rx_buf.take (tick_rx_wait cfg inp now_ms s).1.s_rx_got =
      s.s_rx_buf.take s.s_rx_got ++ rx_step_bytes inp s ∧
    (tick_rx_wait cfg inp now_ms s).1.s_rx_buf =
      (rx_read inp (request_rx_cap s.s_active.req) s).1.s_rx_buf ∧
    (tick_rx_wait cfg inp now_ms s).1.s_rx_got =
      (rx_read inp (request_rx_cap s.s_active.req) s).1.s_rx_got := by
  obtain ⟨r1, r2, -, r4, -⟩ := rx_read_facts inp s hlen hcap hgot
  obtain ⟨ha, -, -⟩ := rx_read_active inp (request_rx_cap s.s_active.req) s
  rw [tick_rx_wait_eq] at hr ⊢
  split at hr
  · rw [if_pos (by assumption)]
    exact ⟨ha, r1, r2, r4, rfl, rfl⟩
  · rename_i hnd
    rw [if_neg hnd]
    split at hr
    · exfalso
      have := (job_finish_failure_idle cfg now_ms
        (rx_read inp (request_rx_cap s.s_active.req) s).1).1
      rw [this] at hr
      rcases hr with hr | hr <;> cases hr
    · rename_i hnf
      rw [if_neg hnf]
      exact ⟨ha, r1, r2, r4, rfl, rfl⟩

theorem tick_rx_wait_states (cfg : Config) (inp : StepInput) (now_ms : Nat) (s : Engine)
    (hst : s.s_state = uart_engine_state_t.RX_WAIT) :
    (tick_rx_wait cfg inp now_ms s).1.s_state = uart_engine_state_t.RX_WAIT ∨
    (tick_rx_wait cfg inp now_ms s).1.s_state = uart_engine_state_t.PROCESS ∨
    (tick_rx_wait cfg inp now_ms s).1.s_state = uart_engine_state_t.IDLE := by
  obtain ⟨-, hs, -⟩ := rx_read_active inp (request_rx_cap s.s_active.req) s
  rw [tick_rx_wait_eq]
  split
  · exact Or.inr (Or.inl rfl)
  · split
    · exact Or.inr (Or.inr (job_finish_failure_idle cfg now_ms _).1)
    · exact Or.inl (by rw [hs, hst])

/-- The bytes counted after a run of passes in `RX_WAIT` are those counted at its start
followed by the log of the bytes read. -/
theorem rx_wait_run_view (cfg : Config) (inps : List StepInput) (s : Engine)
    (hlen : s.s_rx_buf.length = UART_ENGINE_MAX_EXPECTED_LEN)
    (hcap : request_rx_cap s.s_active.req ≤ UART_ENGINE_MAX_EXPECTED_LEN)
    (hgot : s.s_rx_got ≤ request_rx_cap s.s_active.req)
    (hr : (rx_wait_run cfg inps s).1.s_state = uart_engine_state_t.RX_WAIT ∨
      (rx_wait_run cfg inps s).1.s_state = uart_engine_state_t.PROCESS) :
    (rx_wait_run cfg inps s).1.s_rx_buf.take (rx_wait_run cfg inps s).1.s_rx_got =
      s.s_rx_buf.take s.s_rx_got ++ (rx_wait_run cfg inps s).2 := by
  induction inps generalizing s with
  | nil => exact (List.append_nil _).symm
  | cons inp rest ih =>
    unfold rx_wait_run at hr ⊢
    by_cases hst : s.s_state = uart_engine_state_t.RX_WAIT
    · rw [if_pos hst] at hr ⊢
      simp only [] at hr ⊢
      have hnext : (tick_rx_wait cfg inp (engine_now_ms inp) s).1.s_state =
            uart_engine_state_t.RX_WAIT ∨
          (tick_rx_wait cfg inp (engine_now_ms inp) s).1.s_state =
            uart_engine_state_t.PROCESS := by
        rcases tick_rx_wait_states cfg inp (engine_now_ms inp) s hst with h | h | h
        · exact Or.inl h
        · exact Or.inr h
        · exfalso
          have hstop : rx_wait_run cfg rest (tick_rx_wait cfg inp (engine_now_ms inp) s).1 =
              ((tick_rx_wait cfg inp (engine_now_ms inp) s).1, []) := by
            cases rest with
            | nil => rfl
            | cons i2 r2 =>
              unfold rx_wait_run
              rw [if_neg (by rw [h]; decide)]
          rw [hstop, h] at hr
          rcases hr with hr | hr <;> cases hr
      obtain ⟨v1, v2, v3, v4, -, -⟩ := tick_rx_wait_view cfg inp (engine_now_ms inp) s hlen
        hcap hgot hnext
      have := ih (tick_rx_wait cfg inp (engine_now_ms inp) s).1 v2 (by rw [v1]; exact hcap)
        (by rw [v1]; exact v3) hr
      rw [this, v4, List.append_assoc]
    · rw [if_neg hst]
      exact (List.append_nil _).symm

theorem getD_take_lt (l : List Nat) (n k : Nat) (h : k < n) :
    (l.take n).getD k 0 = l.getD k 0 := by
  rw [List.getD_eq_getElem?_getD, List.getD_eq_getElem?_getD, List.getElem?_take_of_lt h]

/-- What `rx_has_expected_ending` tests: the last `expected_ending_len` of the `rx_len`
bytes received are the ending bytes. -/
theorem rx_ending_spec (cfg : Config) (r : uart_engine_request_t) (rx : List Nat)
    (rx_len : Nat) (h : rx_has_expected_ending cfg r rx rx_len = true) :
    r.expected_ending = true ∧ 0 < r.expected_ending_len ∧ r.expected_ending_len ≤ rx_len ∧
    ∀ i, i < r.expected_ending_len →
      (rx.take rx_len).getD (rx_len - r.expected_ending_len + i) 0 =
        r.expected_ending_bytes.getD i 0 := by
  unfold rx_has_expected_ending at h
  cases he : r.expected_ending with
  | false =>
    rw [he] at h
    cases h
  | true =>
    rw [he] at h
    simp only [Bool.not_true, Bool.false_eq_true, if_false] at h
    split at h
    · cases h
    · rename_i hc
      refine ⟨rfl, by omega, by omega, fun i hi => ?_⟩
      unfold memcmp_eq at h
      rw [List.all_eq_true] at h
      have := h i (List.mem_range.mpr hi)
      rw [getD_take_lt _ _ _ (by omega)]
      simpa using this

set_option maxRecDepth 100000 in
theorem framedInRxWait_buf_length : framedInRxWait.s_rx_buf.length = 256 := by
  decide

/-! ## The checked decoder: its loads stay inside the packet -/

theorem load_lt (pkt : List Nat) (i : Nat) (h : i < pkt.length) :
    load pkt i = checked_t.done (pkt.getD i 0) := by
  unfold load
  rw [List.getD_eq_getElem?_getD, List.getElem?_eq_getElem h]
  rfl

theorem load_done (pkt : List Nat) (i b : Nat) (h : load pkt i = checked_t.done b) :
    i < pkt.length ∧ b = pkt.getD i 0 := by
  by_cases hi : i < pkt.length
  · rw [load_lt pkt i hi] at h
    cases h
    exact ⟨hi, rfl⟩
  · unfold load at h
    rw [List.getElem?_eq_none (Nat.not_lt.mp hi)] at h
    cases h

theorem load_agree (p1 p2 : List Nat) (i : Nat) (h : p1[i]? = p2[i]?) :
    load p2 i = load p1 i := by
  unfold load
  rw [h]

theorem bind_done {α β : Type} {x : checked_t α} {f : α → checked_t β} {v : β}
    (h : x.bind f = checked_t.done v) : ∃ a, x = checked_t.done a ∧ f a = checked_t.done v := by
  cases x with
  | out_of_bounds => cases h
  | refused => cases h
  | done a => exact ⟨a, rfl, h⟩

theorem bind_of_done {α β : Type} (a : α) (f : α → checked_t β) :
    (checked_t.done a).bind f = f a := rfl

theorem read_len_loop_checked_eq (pkt : List Nat) (pp : Nat) :
    ∀ (k i len : Nat), pp + i + k ≤ pkt.length →
      snmp_read_len_loop_checked pkt pp k i len =
        checked_t.done (snmp_read_len_loop pkt pp k i len) := by
  intro k
  induction k with
  | zero => intro i len _; rfl
  | succ k ih =>
    intro i len h
    unfold snmp_read_len_loop_checked snmp_read_len_loop
    rw [load_lt pkt (pp + i) (by omega), bind_of_done]
    exact ih (i + 1) _ (by omega)

theorem read_len_checked_eq (pkt : List Nat) (pp end_ : Nat) (h : end_ ≤ pkt.length) :
    snmp_read_len_checked pkt pp end_ = checked_t.of_option (snmp_read_len pkt pp end_) := by
  unfold snmp_read_len_checked snmp_read_len
  by_cases hpe : pp ≥ end_
  · rw [if_pos hpe, if_pos hpe]
    rfl
  · rw [if_neg hpe, if_neg hpe, load_lt pkt pp (by omega), bind_of_done]
    by_cases c1 : pkt.getD pp 0 &&& 0x80 = 0
    · rw [if_pos c1, if_pos c1]
      split <;> rfl
    · rw [if_neg c1, if_neg c1]
      by_cases c2 : pkt.getD pp 0 &&& 0x7F = 0 ∨ pkt.getD pp 0 &&& 0x7F > 2 ∨
          end_ - (pp + 1) < pkt.getD pp 0 &&& 0x7F
      · rw [if_pos c2, if_pos c2]
        rfl
      · rw [if_neg c2, if_neg c2,
          read_len_loop_checked_eq pkt (pp + 1) _ 0 0 (by omega), bind_of_done]
        split <;> rfl

theorem expect_tlv_checked_eq (pkt : List Nat) (pp end_ t : Nat) (h : end_ ≤ pkt.length) :
    snmp_expect_tlv_checked pkt pp end_ t =
      checked_t.of_option (snmp_expect_tlv pkt pp end_ t) := by
  unfold snmp_expect_tlv_checked snmp_expect_tlv
  by_cases hpe : pp ≥ end_
  · rw [if_pos hpe, if_pos (Or.inl hpe)]
    rfl
  · rw [if_neg hpe, load_lt pkt pp (by omega), bind_of_done]
    by_cases c1 : pkt.getD pp 0 ≠ t
    · rw [if_pos c1, if_pos (Or.inr c1)]
      rfl
    · rw [if_neg c1, if_neg (by intro hc; cases hc with | inl a => exact hpe a | inr b => exact c1 b),
        read_len_checked_eq pkt (pp + 1) end_ h]
      cases snmp_read_len pkt (pp + 1) end_ with
      | none => rfl
      | some r => rfl

theorem expect_tlv_sound (pkt : List Nat) (pp end_ t : Nat) (r : Nat × Nat × Nat)
    (h : snmp_expect_tlv pkt pp end_ t = some r) :
    pp < r.2.1 ∧ r.1 = r.2.1 + r.2.2 ∧ r.1 ≤ end_ ∧ pp < end_ ∧ pkt.getD pp 0 = t := by
  unfold snmp_expect_tlv at h
  split at h
  · cases h
  · rename_i hc
    cases hr : snmp_read_len pkt (pp + 1) end_ with
    | none =>
      rw [hr] at h
      cases h
    | some q =>
      obtain ⟨p1, len⟩ := q
      rw [hr] at h
      simp only [Option.some.injEq] at h
      have hs := read_len_sound pkt (pp + 1) end_ p1 len hr
      rw [← h]
      refine ⟨by simp only; omega, rfl, by simp only; omega, ?_, ?_⟩
      · by_contra hn
        exact hc (Or.inl (Nat.not_lt.mp hn))
      · by_contra hn
        exact hc (Or.inr hn)

theorem decode_int32_loop_checked_eq (pkt : List Nat) (buf : Nat) :
    ∀ (k i v : Nat), buf + i + k ≤ pkt.length →
      snmp_decode_int32_loop_checked pkt buf k i v =
        checked_t.done
          ((bytes_at pkt (buf + i) k).foldl (fun v b => ((v <<< 8) ||| b) % U32) v) := by
  intro k
  induction k with
  | zero =>
    intro i v _
    unfold bytes_at
    rfl
  | succ k ih =>
    intro i v h
    unfold snmp_decode_int32_loop_checked
    rw [load_lt pkt (buf + i) (by omega), bind_of_done, ih (i + 1) _ (by omega)]
    have hd : bytes_at pkt (buf + i) (k + 1) =
        pkt.getD (buf + i) 0 :: bytes_at pkt (buf + (i + 1)) k := by
      unfold bytes_at
      have hlt : buf + i < pkt.length := by omega
      rw [List.drop_eq_getElem_cons hlt, List.take_succ_cons,
        List.getD_eq_getElem?_getD, List.getElem?_eq_getElem hlt]
      rfl
    rw [hd, List.foldl_cons]

theorem bytes_at_length (pkt : List Nat) (off len : Nat) (h : off + len ≤ pkt.length) :
    (bytes_at pkt off len).length = len := by
  unfold bytes_at
  rw [List.length_take, List.length_drop]
  omega

theorem bytes_at_getD_zero (pkt : List Nat) (off len : Nat) (h : 0 < len) :
    (bytes_at pkt off len).getD 0 0 = pkt.getD off 0 := by
  unfold bytes_at
  rw [getD_take_lt _ _ _ h, List.getD_eq_getElem?_getD, List.getD_eq_getElem?_getD,
    List.getElem?_drop]
  rfl

theorem decode_int32_checked_eq (pkt : List Nat) (buf len : Nat)
    (h : buf + len ≤ pkt.length) :
    snmp_decode_int32_checked pkt buf len =
      checked_t.of_option (snmp_decode_int32 (bytes_at pkt buf len)) := by
  unfold snmp_decode_int32_checked snmp_decode_int32
  rw [bytes_at_length pkt buf len h]
  by_cases c : len = 0 ∨ len > 4
  · rw [if_pos c, if_pos c]
    rfl
  · rw [if_neg c, if_neg c, load_lt pkt buf (by omega), bind_of_done,
      decode_int32_loop_checked_eq pkt buf len 0 _ (by omega), bind_of_done,
      bytes_at_getD_zero pkt buf len (by omega)]
    rfl

theorem read_len_checked_sound (pkt : List Nat) (pp end_ : Nat) (r : Nat × Nat)
    (h : snmp_read_len_checked pkt pp end_ = checked_t.done r) :
    pp < r.1 ∧ r.1 + r.2 ≤ end_ := by
  unfold snmp_read_len_checked at h
  by_cases hpe : pp ≥ end_
  · rw [if_pos hpe] at h
    cases h
  · rw [if_neg hpe] at h
    obtain ⟨first, -, h⟩ := bind_done h
    by_cases c1 : first &&& 0x80 = 0
    · rw [if_pos c1] at h
      split at h
      · cases h
        simp only
        omega
      · cases h
    · rw [if_neg c1] at h
      by_cases c2 : first &&& 0x7F = 0 ∨ first &&& 0x7F > 2 ∨ end_ - (pp + 1) < first &&& 0x7F
      · rw [if_pos c2] at h
        cases h
      · rw [if_neg c2] at h
        obtain ⟨len, -, h⟩ := bind_done h
        split at h
        · cases h
          simp only
          omega
        · cases h

theorem expect_tlv_checked_sound (pkt : List Nat) (pp end_ t : Nat) (r : Nat × Nat × Nat)
    (h : snmp_expect_tlv_checked pkt pp end_ t = checked_t.done r) :
    pp < r.2.1 ∧ r.1 = r.2.1 + r.2.2 ∧ r.1 ≤ end_ ∧ load pkt pp = checked_t.done t := by
  unfold snmp_expect_tlv_checked at h
  by_cases hpe : pp ≥ end_
  · rw [if_pos hpe] at h
    cases h
  · rw [if_neg hpe] at h
    obtain ⟨b, hl, h⟩ := bind_done h
    by_cases c1 : b ≠ t
    · rw [if_pos c1] at h
      cases h
    · rw [if_neg c1] at h
      obtain ⟨q, hq, h⟩ := bind_done h
      have hs := read_len_checked_sound pkt (pp + 1) end_ q hq
      cases h
      refine ⟨by simp only; omega, rfl, by simp only; omega, ?_⟩
      rw [hl, not_not.mp c1]

theorem read_len_loop_checked_agree (p1 p2 : List Nat) (pp B : Nat)
    (hag : ∀ i, i < B → p1[i]? = p2[i]?) :
    ∀ (k i len : Nat), pp + i + k ≤ B →
      snmp_read_len_loop_checked p2 pp k i len = snmp_read_len_loop_checked p1 pp k i len := by
  intro k
  induction k with
  | zero => intro i len _; rfl
  | succ k ih =>
    intro i len h
    unfold snmp_read_len_loop_checked
    rw [load_agree p1 p2 (pp + i) (hag _ (by omega))]
    congr 1
    funext b
    exact ih (i + 1) _ (by omega)

theorem read_len_checked_agree (p1 p2 : List Nat) (pp end_ : Nat) (r : Nat × Nat)
    (h : snmp_read_len_checked p1 pp end_ = checked_t.done r)
    (hag : ∀ i, i < r.1 → p1[i]? = p2[i]?) :
    snmp_read_len_checked p2 pp end_ = checked_t.done r := by
  have hs := read_len_checked_sound p1 pp end_ r h
  unfold snmp_read_len_checked at h ⊢
  by_cases hpe : pp ≥ end_
  · rw [if_pos hpe] at h
    cases h
  · rw [if_neg hpe] at h ⊢
    rw [load_agree p1 p2 pp (hag pp hs.1)]
    obtain ⟨first, hl, h⟩ := bind_done h
    rw [hl, bind_of_done]
    by_cases c1 : first &&& 0x80 = 0
    · rw [if_pos c1] at h ⊢
      exact h
    · rw [if_neg c1] at h ⊢
      by_cases c2 : first &&& 0x7F = 0 ∨ first &&& 0x7F > 2 ∨ end_ - (pp + 1) < first &&& 0x7F
      · rw [if_pos c2] at h
        cases h
      · rw [if_neg c2] at h ⊢
        obtain ⟨len, hloop, h2⟩ := bind_done h
        have hr : r.1 = pp + 1 + (first &&& 0x7F) := by
          split at h2
          · cases h2
            rfl
          · cases h2
        rw [read_len_loop_checked_agree p1 p2 (pp + 1) r.1 hag _ 0 0 (by omega)]
        exact h

theorem expect_tlv_checked_agree (p1 p2 : List Nat) (pp end_ t : Nat) (r : Nat × Nat × Nat)
    (h : snmp_expect_tlv_checked p1 pp end_ t = checked_t.done r)
    (hag : ∀ i, i < r.2.1 → p1[i]? = p2[i]?) :
    snmp_expect_tlv_checked p2 pp end_ t = checked_t.done r := by
  have hs := expect_tlv_checked_sound p1 pp end_ t r h
  unfold snmp_expect_tlv_checked at h ⊢
  by_cases hpe : pp ≥ end_
  · rw [if_pos hpe] at h
    cases h
  · rw [if_neg hpe] at h ⊢
    rw [load_agree p1 p2 pp (hag pp hs.1)]
    obtain ⟨b, hl, h⟩ := bind_done h
    rw [hl, bind_of_done]
    by_cases c1 : b ≠ t
    · rw [if_pos c1] at h
      cases h
    · rw [if_neg c1] at h ⊢
      obtain ⟨q, hq, h2⟩ := bind_done h
      have hr : r.2.1 = q.1 := by
        cases h2
        rfl
      rw [read_len_checked_agree p1 p2 (pp + 1) end_ q hq (fun i hi => hag i (by omega)),
        bind_of_done]
      exact h2

theorem decode_int32_loop_checked_agree (p1 p2 : List Nat) (buf B : Nat)
    (hag : ∀ i, i < B → p1[i]? = p2[i]?) :
    ∀ (k i v : Nat), buf + i + k ≤ B →
      snmp_decode_int32_loop_checked p2 buf k i v =
        snmp_decode_int32_loop_checked p1 buf k i v := by
  intro k
  induction k with
  | zero => intro i v _; rfl
  | succ k ih =>
    intro i v h
    unfold snmp_decode_int32_loop_checked
    rw [load_agree p1 p2 (buf + i) (hag _ (by omega))]
    congr 1
    funext b
    exact ih (i + 1) _ (by omega)

theorem decode_int32_checked_agree (p1 p2 : List Nat) (buf len : Nat)
    (hag : ∀ i, i < buf + len → p1[i]? = p2[i]?) :
    snmp_decode_int32_checked p2 buf len = snmp_decode_int32_checked p1 buf len := by
  unfold snmp_decode_int32_checked
  by_cases c : len = 0 ∨ len > 4
  · rw [if_pos c, if_pos c]
  · rw [if_neg c, if_neg c, load_agree p1 p2 buf (hag buf (by omega))]
    congr 1
    funext b0
    rw [decode_int32_loop_checked_agree p1 p2 buf (buf + len) hag len 0 _ (by omega)]

theorem bytes_at_agree (p1 p2 : List Nat) (off len : Nat)
    (hag : ∀ i, i < off + len → p1[i]? = p2[i]?) :
    bytes_at p2 off len = bytes_at p1 off len := by
  unfold bytes_at
  apply List.ext_getElem?
  intro n
  by_cases hn : n < len
  · rw [List.getElem?_take_of_lt hn, List.getElem?_take_of_lt hn, List.getElem?_drop,
      List.getElem?_drop]
    exact (hag _ (by omega)).symm
  · rw [List.getElem?_take_eq_none (Nat.not_lt.mp hn),
      List.getElem?_take_eq_none (Nat.not_lt.mp hn)]

/-- The calls that `snmp_decode_request` makes when it returns `true`, in order, each
with its outputs. -/
theorem decode_request_checked_iff (pkt : List Nat) (v : snmp_request_view_t) :
    snmp_decode_request_checked pkt = checked_t.done v ↔
    ∃ r0 r1 r2 r3 r4 r5 r6 r7 r8 r9,
      snmp_expect_tlv_checked pkt 0 pkt.length SNMP_TYPE_SEQUENCE = checked_t.done r0 ∧
      snmp_expect_tlv_checked pkt r0.2.1 (r0.2.1 + r0.2.2) SNMP_TYPE_INTEGER =
        checked_t.done r1 ∧
      snmp_decode_int32_checked pkt r1.2.1 r1.2.2 = checked_t.done v.version ∧
      snmp_expect_tlv_checked pkt r1.1 (r0.2.1 + r0.2.2) SNMP_TYPE_OCTET_STRING =
        checked_t.done r2 ∧
      r2.1 < r0.2.1 + r0.2.2 ∧
      load pkt r2.1 = checked_t.done v.pdu_type ∧
      (v.pdu_type = SNMP_TYPE_GET_REQUEST ∨ v.pdu_type = SNMP_TYPE_GET_NEXT_REQUEST) ∧
      snmp_read_len_checked pkt (r2.1 + 1) (r0.2.1 + r0.2.2) = checked_t.done r3 ∧
      snmp_expect_tlv_checked pkt r3.1 (r3.1 + r3.2) SNMP_TYPE_INTEGER = checked_t.done r4 ∧
      snmp_decode_int32_checked pkt r4.2.1 r4.2.2 = checked_t.done v.request_id ∧
      snmp_expect_tlv_checked pkt r4.1 (r3.1 + r3.2) SNMP_TYPE_INTEGER = checked_t.done r5 ∧
      snmp_expect_tlv_checked pkt r5.1 (r3.1 + r3.2) SNMP_TYPE_INTEGER = checked_t.done r6 ∧
      snmp_expect_tlv_checked pkt r6.1 (r3.1 + r3.2) SNMP_TYPE_SEQUENCE = checked_t.done r7 ∧
      snmp_expect_tlv_checked pkt r7.2.1 (r7.2.1 + r7.2.2) SNMP_TYPE_SEQUENCE =
        checked_t.done r8 ∧
      snmp_expect_tlv_checked pkt r8.2.1 (r8.2.1 + r8.2.2) SNMP_TYPE_OBJECT_ID =
        checked_t.done r9 ∧
      v.community = r2.2.1 ∧ v.community_len = r2.2.2 ∧
      v.oid = r9.2.1 ∧ v.oid_len = r9.2.2 := by
  constructor
  · intro h
    unfold snmp_decode_request_checked at h
    obtain ⟨r0, h0, h⟩ := bind_done h
    obtain ⟨r1, h1, h⟩ := bind_done h
    obtain ⟨version, hver, h⟩ := bind_done h
    obtain ⟨r2, h2, h⟩ := bind_done h
    by_cases c1 : r2.1 ≥ r0.2.1 + r0.2.2
    · rw [if_pos c1] at h
      cases h
    · rw [if_neg c1] at h
      obtain ⟨tag, htag, h⟩ := bind_done h
      by_cases c2 : tag ≠ SNMP_TYPE_GET_REQUEST ∧ tag ≠ SNMP_TYPE_GET_NEXT_REQUEST
      · rw [if_pos c2] at h
        cases h
      · rw [if_neg c2] at h
        obtain ⟨r3, h3, h⟩ := bind_done h
        obtain ⟨r4, h4, h⟩ := bind_done h
        obtain ⟨request_id, hid, h⟩ := bind_done h
        obtain ⟨r5, h5, h⟩ := bind_done h
        obtain ⟨r6, h6, h⟩ := bind_done h
        obtain ⟨r7, h7, h⟩ := bind_done h
        obtain ⟨r8, h8, h⟩ := bind_done h
        obtain ⟨r9, h9, h⟩ := bind_done h
        cases h
        refine ⟨r0, r1, r2, r3, r4, r5, r6, r7, r8, r9, h0, h1, hver, h2, by omega, htag, ?_,
          h3, h4, hid, h5, h6, h7, h8, h9, rfl, rfl, rfl, rfl⟩
        by_contra hn
        exact c2 ⟨fun e => hn (Or.inl e), fun e => hn (Or.inr e)⟩
  · rintro ⟨r0, r1, r2, r3, r4, r5, r6, r7, r8, r9, h0, h1, hver, h2, hlt, htag, hpdu,
      h3, h4, hid, h5, h6, h7, h8, h9, e1, e2, e3, e4⟩
    unfold snmp_decode_request_checked
    rw [h0, bind_of_done, h1, bind_of_done, hver, bind_of_done, h2, bind_of_done,
      if_neg (by omega), htag, bind_of_done,
      if_neg (by intro hc; cases hpdu with | inl a => exact hc.1 a | inr b => exact hc.2 b),
      h3, bind_of_done, h4, bind_of_done, hid, bind_of_done, h5, bind_of_done,
      h6, bind_of_done, h7, bind_of_done, h8, bind_of_done, h9, bind_of_done,
      ← e1, ← e2, ← e3, ← e4]

/-- The offsets that `snmp_decode_request` walks through grow, and the views it returns
end inside the packet. -/
theorem decode_request_checked_order (pkt : List Nat) (r0 r1 r2 r4 r5 r6 r7 r8 r9 :
    Nat × Nat × Nat) (r3 : Nat × Nat)
    (h0 : snmp_expect_tlv_checked pkt 0 pkt.length SNMP_TYPE_SEQUENCE = checked_t.done r0)
    (h1 : snmp_expect_tlv_checked pkt r0.2.1 (r0.2.1 + r0.2.2) SNMP_TYPE_INTEGER =
      checked_t.done r1)
    (h2 : snmp_expect_tlv_checked pkt r1.1 (r0.2.1 + r0.2.2) SNMP_TYPE_OCTET_STRING =
      checked_t.done r2)
    (h3 : snmp_read_len_checked pkt (r2.1 + 1) (r0.2.1 + r0.2.2) = checked_t.done r3)
    (h4 : snmp_expect_tlv_checked pkt r3.1 (r3.1 + r3.2) SNMP_TYPE_INTEGER = checked_t.done r4)
    (h5 : snmp_expect_tlv_checked pkt r4.1 (r3.1 + r3.2) SNMP_TYPE_INTEGER = checked_t.done r5)
    (h6 : snmp_expect_tlv_checked pkt r5.1 (r3.1 + r3.2) SNMP_TYPE_INTEGER = checked_t.done r6)
    (h7 : snmp_expect_tlv_checked pkt r6.1 (r3.1 + r3.2) SNMP_TYPE_SEQUENCE = checked_t.done r7)
    (h8 : snmp_expect_tlv_checked pkt r7.2.1 (r7.2.1 + r7.2.2) SNMP_TYPE_SEQUENCE =
      checked_t.done r8)
    (h9 : snmp_expect_tlv_checked pkt r8.2.1 (r8.2.1 + r8.2.2) SNMP_TYPE_OBJECT_ID =
      checked_t.done r9) :
    r0.2.1 + r0.2.2 ≤ pkt.length ∧ r0.2.1 < r1.2.1 ∧ r1.2.1 + r1.2.2 = r1.1 ∧
    r1.1 < r2.2.1 ∧ r2.2.1 + r2.2.2 = r2.1 ∧ r2.1 < r3.1 ∧
    r3.1 + r3.2 ≤ r0.2.1 + r0.2.2 ∧ r3.1 < r4.2.1 ∧ r4.2.1 + r4.2.2 = r4.1 ∧
    r4.1 < r5.2.1 ∧ r5.2.1 + r5.2.2 = r5.1 ∧ r5.1 < r6.2.1 ∧ r6.2.1 + r6.2.2 = r6.1 ∧
    r6.1 < r7.2.1 ∧ r7.2.1 + r7.2.2 ≤ r3.1 + r3.2 ∧ r7.2.1 < r8.2.1 ∧
    r8.2.1 + r8.2.2 ≤ r7.2.1 + r7.2.2 ∧ r8.2.1 < r9.2.1 ∧
    r9.2.1 + r9.2.2 ≤ r8.2.1 + r8.2.2 := by
  have s0 := expect_tlv_checked_sound _ _ _ _ _ h0
  have s1 := expect_tlv_checked_sound _ _ _ _ _ h1
  have s2 := expect_tlv_checked_sound _ _ _ _ _ h2
  have s3 := read_len_checked_sound _ _ _ _ h3
  have s4 := expect_tlv_checked_sound _ _ _ _ _ h4
  have s5 := expect_tlv_checked_sound _ _ _ _ _ h5
  have s6 := expect_tlv_checked_sound _ _ _ _ _ h6
  have s7 := expect_tlv_checked_sound _ _ _ _ _ h7
  have s8 := expect_tlv_checked_sound _ _ _ _ _ h8
  have s9 := expect_tlv_checked_sound _ _ _ _ _ h9
  omega

theorem map_of_refused {α β : Type} (f : α → β) :
    (checked_t.refused : checked_t α).map f = checked_t.of_option none := rfl

/-- The checked decoder never loads outside the packet, and it returns what
`snmp_decode_request` returns, the views given by their offsets. -/
theorem decode_request_checked_eq (pkt : List Nat) :
    (snmp_decode_request_checked pkt).map (view_request pkt) =
      checked_t.of_option (snmp_decode_request pkt) := by
  unfold snmp_decode_request_checked snmp_decode_request
  rw [expect_tlv_checked_eq pkt 0 pkt.length _ (le_refl _)]
  cases h0 : snmp_expect_tlv pkt 0 pkt.length SNMP_TYPE_SEQUENCE with
  | none => rfl
  | some r0 =>
    obtain ⟨x0, msg_p, msg_len⟩ := r0
    have s0 := expect_tlv_sound _ _ _ _ _ h0
    simp only at s0
    simp only [checked_t.of_option, checked_t.bind]
    rw [expect_tlv_checked_eq pkt msg_p (msg_p + msg_len) _ (by omega)]
    cases h1 : snmp_expect_tlv pkt msg_p (msg_p + msg_len) SNMP_TYPE_INTEGER with
    | none => rfl
    | some r1 =>
      obtain ⟨p1, value1, len1⟩ := r1
      have s1 := expect_tlv_sound _ _ _ _ _ h1
      simp only at s1
      simp only [checked_t.of_option, checked_t.bind]
      rw [decode_int32_checked_eq pkt value1 len1 (by omega)]
      cases hv : snmp_decode_int32 (bytes_at pkt value1 len1) with
      | none => rfl
      | some version =>
        simp only [checked_t.of_option, checked_t.bind]
        rw [expect_tlv_checked_eq pkt p1 (msg_p + msg_len) _ (by omega)]
        cases h2 : snmp_expect_tlv pkt p1 (msg_p + msg_len) SNMP_TYPE_OCTET_STRING with
        | none => rfl
        | some r2 =>
          obtain ⟨p2, community, community_len⟩ := r2
          have s2 := expect_tlv_sound _ _ _ _ _ h2
          simp only at s2
          simp only [checked_t.of_option, checked_t.bind]
          unfold decode_request_tagged
          by_cases c1 : p2 ≥ msg_p + msg_len
          · rw [if_pos c1, if_pos (Or.inl c1)]
            rfl
          · rw [if_neg c1, load_lt pkt p2 (by omega)]
            simp only [checked_t.bind]
            by_cases c2 : pkt.getD p2 0 ≠ SNMP_TYPE_GET_REQUEST ∧
                pkt.getD p2 0 ≠ SNMP_TYPE_GET_NEXT_REQUEST
            · rw [if_pos c2, if_pos (Or.inr c2)]
              rfl
            · rw [if_neg c2,
                if_neg (by intro hc; cases hc with | inl a => exact c1 a | inr b => exact c2 b),
                read_len_checked_eq pkt (p2 + 1) (msg_p + msg_len) (by omega)]
              cases h3 : snmp_read_len pkt (p2 + 1) (msg_p + msg_len) with
              | none => rfl
              | some r3 =>
                obtain ⟨p3, pdu_len⟩ := r3
                have s3 := read_len_sound _ _ _ _ _ h3
                simp only [checked_t.of_option, checked_t.bind]
                unfold decode_request_pdu
                rw [expect_tlv_checked_eq pkt p3 (p3 + pdu_len) _ (by omega)]
                cases h4 : snmp_expect_tlv pkt p3 (p3 + pdu_len) SNMP_TYPE_INTEGER with
                | none => rfl
                | some r4 =>
                  obtain ⟨p4, value4, len4⟩ := r4
                  have s4 := expect_tlv_sound _ _ _ _ _ h4
                  simp only at s4
                  simp only [checked_t.of_option, checked_t.bind]
                  rw [decode_int32_checked_eq pkt value4 len4 (by omega)]
                  cases hid : snmp_decode_int32 (bytes_at pkt value4 len4) with
                  | none => rfl
                  | some request_id =>
                    simp only [checked_t.of_option, checked_t.bind]
                    rw [expect_tlv_checked_eq pkt p4 (p3 + pdu_len) _ (by omega)]
                    cases h5 : snmp_expect_tlv pkt p4 (p3 + pdu_len) SNMP_TYPE_INTEGER with
                    | none => rfl
                    | some r5 =>
                      obtain ⟨p5, value5, len5⟩ := r5
                      simp only [checked_t.of_option, checked_t.bind]
                      rw [expect_tlv_checked_eq pkt p5 (p3 + pdu_len) _ (by omega)]
                      cases h6 : snmp_expect_tlv pkt p5 (p3 + pdu_len) SNMP_TYPE_INTEGER with
                      | none => rfl
                      | some r6 =>
                        obtain ⟨p6, value6, len6⟩ := r6
                        simp only [checked_t.of_option, checked_t.bind]
                        unfold decode_request_oid
                        rw [expect_tlv_checked_eq pkt p6 (p3 + pdu_len) _ (by omega)]
                        cases h7 : snmp_expect_tlv pkt p6 (p3 + pdu_len) SNMP_TYPE_SEQUENCE with
                        | none => rfl
                        | some r7 =>
                          obtain ⟨p7, vb_list_p, vb_list_len⟩ := r7
                          have s7 := expect_tlv_sound _ _ _ _ _ h7
                          simp only at s7
                          simp only [checked_t.of_option, checked_t.bind]
                          rw [expect_tlv_checked_eq pkt vb_list_p (vb_list_p + vb_list_len) _
                            (by omega)]
                          cases h8 : snmp_expect_tlv pkt vb_list_p (vb_list_p + vb_list_len)
                              SNMP_TYPE_SEQUENCE with
                          | none => rfl
                          | some r8 =>
                            obtain ⟨p8, vb_p, vb_len⟩ := r8
                            have s8 := expect_tlv_sound _ _ _ _ _ h8
                            simp only at s8
                            simp only [checked_t.of_option, checked_t.bind]
                            rw [expect_tlv_checked_eq pkt vb_p (vb_p + vb_len) _ (by omega)]
                            cases h9 : snmp_expect_tlv pkt vb_p (vb_p + vb_len)
                                SNMP_TYPE_OBJECT_ID with
                            | none => rfl
                            | some r9 =>
                              obtain ⟨p9, oid, oid_len⟩ := r9
                              rfl

theorem getElem_of_getD_agree (p1 p2 : List Nat) (B : Nat) (hlen : p2.length = p1.length)
    (hag : ∀ i, i < B → p2.getD i 0 = p1.getD i 0) :
    ∀ i, i < B → p1[i]? = p2[i]? := by
  intro i hi
  by_cases h1 : i < p1.length
  · have h2 : i < p2.length := by omega
    have := hag i hi
    rw [List.getD_eq_getElem?_getD, List.getD_eq_getElem?_getD,
      List.getElem?_eq_getElem h1, List.getElem?_eq_getElem h2] at this
    rw [List.getElem?_eq_getElem h1, List.getElem?_eq_getElem h2]
    exact congrArg some this.symm
  · rw [List.getElem?_eq_none (Nat.not_lt.mp h1), List.getElem?_eq_none (by omega)]

/-- The decoder loads no byte at or after the start of the OID it returns: a packet of
the same length with the same bytes before that offset is decoded to the same views. -/
theorem decode_request_checked_agree (p1 p2 : List Nat) (v : snmp_request_view_t)
    (hlen : p2.length = p1.length)
    (h : snmp_decode_request_checked p1 = checked_t.done v)
    (hag : ∀ i, i < v.oid → p1[i]? = p2[i]?) :
    snmp_decode_request_checked p2 = checked_t.done v := by
  obtain ⟨r0, r1, r2, r3, r4, r5, r6, r7, r8, r9, h0, h1, hver, h2, hlt, htag, hpdu,
    h3, h4, hid, h5, h6, h7, h8, h9, e1, e2, e3, e4⟩ :=
    (decode_request_checked_iff p1 v).mp h
  have ho := decode_request_checked_order p1 r0 r1 r2 r4 r5 r6 r7 r8 r9 r3
    h0 h1 h2 h3 h4 h5 h6 h7 h8 h9
  have s0 := expect_tlv_checked_sound _ _ _ _ _ h0
  rw [e3] at hag
  refine (decode_request_checked_iff p2 v).mpr
    ⟨r0, r1, r2, r3, r4, r5, r6, r7, r8, r9, ?_, ?_, ?_, ?_, hlt, ?_, hpdu,
      ?_, ?_, ?_, ?_, ?_, ?_, ?_, ?_, e1, e2, e3, e4⟩
  · rw [hlen]
    exact expect_tlv_checked_agree p1 p2 _ _ _ _ h0 (fun i hi => hag i (by omega))
  · exact expect_tlv_checked_agree p1 p2 _ _ _ _ h1 (fun i hi => hag i (by omega))
  · rw [decode_int32_checked_agree p1 p2 _ _ (fun i hi => hag i (by omega))]
    exact hver
  · exact expect_tlv_checked_agree p1 p2 _ _ _ _ h2 (fun i hi => hag i (by omega))
  · rw [load_agree p1 p2 _ (hag _ (by omega))]
    exact htag
  · exact read_len_checked_agree p1 p2 _ _ _ h3 (fun i hi => hag i (by omega))
  · exact expect_tlv_checked_agree p1 p2 _ _ _ _ h4 (fun i hi => hag i (by omega))
  · rw [decode_int32_checked_agree p1 p2 _ _ (fun i hi => hag i (by omega))]
    exact hid
  · exact expect_tlv_checked_agree p1 p2 _ _ _ _ h5 (fun i hi => hag i (by omega))
  · exact expect_tlv_checked_agree p1 p2 _ _ _ _ h6 (fun i hi => hag i (by omega))
  · exact expect_tlv_checked_agree p1 p2 _ _ _ _ h7 (fun i hi => hag i (by omega))
  · exact expect_tlv_checked_agree p1 p2 _ _ _ _ h8 (fun i hi => hag i (by omega))
  · exact expect_tlv_checked_agree p1 p2 _ _ _ _ h9 (fun i hi => hag i (by omega))

theorem decode_request_of_checked (pkt : List Nat) (v : snmp_request_view_t)
    (h : snmp_decode_request_checked pkt = checked_t.done v) :
    snmp_decode_request pkt = some (view_request pkt v) := by
  have he := decode_request_checked_eq pkt
  rw [h] at he
  cases hd : snmp_decode_request pkt with
  | none =>
    rw [hd] at he
    cases he
  | some req =>
    rw [hd] at he
    cases he
    rfl

theorem decode_request_checked_views (pkt : List Nat) (v : snmp_request_view_t)
    (h : snmp_decode_request_checked pkt = checked_t.done v) :
    v.community + v.community_len ≤ v.oid ∧ v.oid + v.oid_len ≤ pkt.length := by
  obtain ⟨r0, r1, r2, r3, r4, r5, r6, r7, r8, r9, h0, h1, hver, h2, hlt, htag, hpdu,
    h3, h4, hid, h5, h6, h7, h8, h9, e1, e2, e3, e4⟩ :=
    (decode_request_checked_iff pkt v).mp h
  have ho := decode_request_checked_order pkt r0 r1 r2 r4 r5 r6 r7 r8 r9 r3
    h0 h1 h2 h3 h4 h5 h6 h7 h8 h9
  omega

theorem expect_tlv_of_checked (pkt : List Nat) (pp end_ t : Nat) (r : Nat × Nat × Nat)
    (hend : end_ ≤ pkt.length)
    (h : snmp_expect_tlv_checked pkt pp end_ t = checked_t.done r) :
    snmp_expect_tlv pkt pp end_ t = some r := by
  rw [expect_tlv_checked_eq pkt pp end_ t hend] at h
  cases hd : snmp_expect_tlv pkt pp end_ t with
  | none =>
    rw [hd] at h
    cases h
  | some q =>
    rw [hd] at h
    cases h
    rfl

/-! ## Every length field of a response is read back as the length of its content -/

theorem value_bytes_eq (e : Int) (value : Option snmp_value_t) :
    value_bytes e value = tlv_bytes (value_tag e value) (value_content e value) := by
  unfold value_bytes value_tag value_content
  cases value with
  | none => rfl
  | some v =>
    simp only []
    split
    · cases v.kind <;> rfl
    · rfl

theorem response_tlvs_place (req : snmp_request_t) (e i : Int) (oid : List Nat)
    (value : Option snmp_value_t) (x : tlv_place)
    (hx : x ∈ response_tlvs req e i oid value) :
    response_bytes req e i oid value = x.pre ++ (tlv_bytes x.tag x.content ++ x.post) := by
  unfold response_tlvs at hx
  simp only [List.mem_cons, List.mem_singleton, List.not_mem_nil, or_false] at hx
  rcases hx with h | h | h | h | h | h | h | h | h | h | h <;> subst h <;>
    simp only [response_bytes, pdu_bytes, msg_bytes_of, pdu_start, varbind_list_start,
      varbind_bytes_of, tlv_bytes, tlv_header, value_bytes_eq, List.append_assoc,
      List.cons_append, List.nil_append, List.append_nil, List.length_cons,
      List.length_append]

/-- A TLV of the layout anywhere in an output of at most 65535 bytes: `snmp_expect_tlv`
finds its length field equal to the number of its content bytes, and its content in the
bytes that follow the field. -/
theorem tlv_in_output (out pre post c : List Nat) (t : Nat)
    (h : out = pre ++ (tlv_bytes t c ++ post)) (hsz : out.length ≤ 65535) :
    c.length ≤ 65535 ∧
    snmp_expect_tlv out pre.length out.length t =
      some (pre.length + tlv_len c.length, pre.length + 1 + snmp_len_field_size c.length,
        c.length) ∧
    bytes_at out (pre.length + 1 + snmp_len_field_size c.length) c.length = c ∧
    pre.length + 1 + snmp_len_field_size c.length + c.length + post.length = out.length := by
  have hl : out.length = pre.length + (tlv_len c.length + post.length) := by
    rw [h, List.length_append, List.length_append, tlv_bytes_length]
  have ht : tlv_len c.length = 1 + snmp_len_field_size c.length + c.length := by
    rw [tlv_len]
  have hd : out.drop pre.length = tlv_bytes t c ++ post := by
    rw [h, List.drop_left]
  have hc : c.length < 65536 := by omega
  obtain ⟨e1, -, -, e4⟩ := expect_tlv_at out pre.length out.length t c post hd hc (by omega)
  exact ⟨by omega, e1, e4, by omega⟩

/-! # The claims -/

/-- Claim C1, what the code does instead.  Take any valid descriptor `r` with
`max_retries ≥ 1`, enqueue it on a freshly initialised engine and let every attempt fail
(`failedAttempts`: the transmission fails, the next tick comes 25 ms later; no inter-job
cooldown).  For every `k`, after `k` failed attempts the engine is in `IDLE` with the mutex
free, as claimed, but the Job has not failed for good: it is the one queued Job again and it
carries `retries_left = max_retries`.  Attempt `k` has been made: the head of the ring has
advanced `k` times. -/
theorem retries_never_run_out (cfg : Config) (r : uart_engine_request_t) (k : Nat)
    (hcfg : cfg.UART_ENGINE_INTERJOB_COOLDOWN_MS = 0)
    (hvalid : request_is_valid cfg (some r) = true) (hretries : 1 ≤ r.max_retries) :
    (failedAttempts cfg r k).s_state = uart_engine_state_t.IDLE ∧
    (failedAttempts cfg r k).uart_lock_held = false ∧
    queued (failedAttempts cfg r k) =
      [{ req := r, retries_left := r.max_retries, is_heartbeat := false }] ∧
    (failedAttempts cfg r k).s_q_head = k % UART_ENGINE_QUEUE_SIZE := by
  obtain ⟨⟨-, h2, h3, -, -, h6⟩, -, h8⟩ := failedAttempts_waiting cfg r hcfg hvalid hretries k
  exact ⟨h2, h3, h6, h8⟩

/-- Witness of C1, on the scenario of the spec.  `pollReq` has `max_retries = 2`; after
three attempts with a failing transmission (`failedAttempts`) it is queued with
`retries_left = 2`.  The same happens when every attempt times out in `RX_WAIT`
(`pollTimeouts`): after the third timeout the engine is idle with the mutex free and the
Job queued with `retries_left = 2`, the tick 25 ms later starts a fourth attempt, and the
Job is still queued after six. -/
theorem retries_never_run_out_witness :
    queued (failedAttempts defaultConfig pollReq 3) =
      [{ req := pollReq, retries_left := 2, is_heartbeat := false }] ∧
    (pollTimeouts 3).s_state = uart_engine_state_t.IDLE ∧
    (pollTimeouts 3).uart_lock_held = false ∧
    queued (pollTimeouts 3) = [{ req := pollReq, retries_left := 2, is_heartbeat := false }] ∧
    (uart_engine_tick defaultConfig (quietLine 105) (pollTimeouts 3)).s_state =
      uart_engine_state_t.RX_WAIT ∧
    (uart_engine_tick defaultConfig (quietLine 105) (pollTimeouts 3)).s_active =
      { req := pollReq, retries_left := 2, is_heartbeat := false } ∧
    queued (pollTimeouts 6) = [{ req := pollReq, retries_left := 2, is_heartbeat := false }] :=
  ⟨(retries_never_run_out defaultConfig pollReq 3 rfl (by decide) (by decide)).2.2.1,
   by decide, by decide, by decide, by decide, by decide, by decide⟩

/-- Claim C2, evaluated on the code.  A heartbeat with one retry is rejected by its parser
in the tick at time 0: afterwards the heartbeat Job is back in the queue while
`s_hb_queued_or_active` is false, and the tick at time 10 injects a second heartbeat, so
two heartbeat Jobs are queued.  On the other failure path the flag is kept: a heartbeat
with one retry that times out in `RX_WAIT` is back in the queue with the flag true. -/
theorem heartbeat_flag_lost_on_parser_retry :
    hbRejected.s_hb_queued_or_active = false ∧
    queued hbRejected = [{ req := hbRetryReq, retries_left := 1, is_heartbeat := true }] ∧
    hbRejected.s_state = uart_engine_state_t.IDLE ∧
    queued (uart_engine_tick defaultConfig (rejectLine 10) hbRejected) =
      [{ req := hbRetryReq, retries_left := 1, is_heartbeat := true },
       { req := hbRetryReq, retries_left := 1, is_heartbeat := true }] ∧
    hbTimedOut.s_hb_queued_or_active = true ∧
    queued hbTimedOut = [{ req := hbSlowReq, retries_left := 1, is_heartbeat := true }] := by
  decide

/-- Claim C3, evaluated on the code.  With `pollReq` in flight the engine holds the mutex;
`uart_engine_init` then puts the engine in `IDLE` and leaves the mutex held, and the
engine can no longer start a Job: a request enqueued afterwards is still queued after a
tick, and the engine still idle. -/
theorem init_keeps_mutex_of_job_in_flight :
    pollInFlight.s_state = uart_engine_state_t.TX_WAIT ∧
    pollInFlight.uart_lock_held = true ∧
    (uart_engine_init pollInFlight).s_state = uart_engine_state_t.IDLE ∧
    (uart_engine_init pollInFlight).uart_lock_held = true ∧
    (uart_engine_tick defaultConfig (quietLine 1000)
      (uart_engine_enqueue defaultConfig (some pollReq)
        (uart_engine_init pollInFlight)).2).s_state = uart_engine_state_t.IDLE ∧
    queued (uart_engine_tick defaultConfig (quietLine 1000)
      (uart_engine_enqueue defaultConfig (some pollReq) (uart_engine_init pollInFlight)).2) =
      [{ req := pollReq, retries_left := 2, is_heartbeat := false }] := by
  decide

/-- Claim C4.  A final failure is a failed attempt (the failure path `job_finish_failure`,
or the `PROCESS` case after the parser returned false) with no retry left or a full queue.
For a heartbeat Job the failure counter becomes `count`, the saturating successor of its
old value; if `count` has reached `threshold` (the configured value, 5 when it is 0) the
eight degraded-state fields are written and no other, below the threshold the telemetry is
unchanged.  For a Job that is not a heartbeat, telemetry and counter are unchanged.  With
threshold 3 and `max_retries = 0` (`hbTimeouts`), the telemetry is untouched after the first
and second timeout and holds the degraded values after the third. -/
theorem heartbeat_final_failure_degrades (cfg : Config) (now_ms : Nat) (s s1 : Engine)
    (count threshold : Nat)
    (hpath : s1 = job_finish_failure cfg now_ms s ∨ s1 = process_outcome cfg now_ms false s)
    (hfinal : s.s_active.retries_left = 0 ∨ UART_ENGINE_QUEUE_SIZE ≤ s.s_q_count)
    (hcount : count =
      if s.s_hb_consecutive_failures < 255 then s.s_hb_consecutive_failures + 1
      else s.s_hb_consecutive_failures)
    (hthreshold : threshold =
      if s.s_hb_cfg.failure_threshold = 0 then 5 else s.s_hb_cfg.failure_threshold) :
    (s.s_active.is_heartbeat = true →
      s1.s_hb_consecutive_failures = count ∧
      (threshold ≤ count →
        s1.telemetry =
          { s.telemetry with
            g_battery :=
              { s.telemetry.g_battery with remaining_capacity := 1, remaining_time_limit_s := 1 },
            g_power_summary_present_status :=
              { s.telemetry.g_power_summary_present_status with
                fully_charged := false, below_remaining_capacity_limit := true,
                shutdown_imminent := true, charging := false, discharging := true,
                ac_present := false } }) ∧
      (count < threshold → s1.telemetry = s.telemetry)) ∧
    (s.s_active.is_heartbeat = false →
      s1.telemetry = s.telemetry ∧
      s1.s_hb_consecutive_failures = s.s_hb_consecutive_failures) ∧
    ((hbTimeouts 1).s_hb_consecutive_failures = 1 ∧ (hbTimeouts 1).telemetry = healthyTelemetry) ∧
    ((hbTimeouts 2).s_hb_consecutive_failures = 2 ∧ (hbTimeouts 2).telemetry = healthyTelemetry) ∧
    ((hbTimeouts 3).s_hb_consecutive_failures = 3 ∧
      (hbTimeouts 3).telemetry.g_battery.remaining_capacity = 1 ∧
      (hbTimeouts 3).telemetry.g_battery.remaining_time_limit_s = 1 ∧
      (hbTimeouts 3).telemetry.g_power_summary_present_status.fully_charged = false ∧
      (hbTimeouts 3).telemetry.g_power_summary_present_status.below_remaining_capacity_limit
        = true ∧
      (hbTimeouts 3).telemetry.g_power_summary_present_status.shutdown_imminent = true ∧
      (hbTimeouts 3).telemetry.g_power_summary_present_status.charging = false ∧
      (hbTimeouts 3).telemetry.g_power_summary_present_status.discharging = true ∧
      (hbTimeouts 3).telemetry.g_power_summary_present_status.ac_present = false) := by
  have hboth : s1.telemetry = (on_job_final_failure s.s_active s).telemetry ∧
      s1.s_hb_consecutive_failures =
        (on_job_final_failure s.s_active s).s_hb_consecutive_failures := by
    rcases hpath with h | h
    · rw [h]; exact job_finish_failure_final cfg now_ms s hfinal
    · rw [h]; exact process_outcome_final cfg now_ms s hfinal
  obtain ⟨ht, hc⟩ := hboth
  rw [ht, hc, on_job_final_failure_eq]
  refine ⟨?_, ?_, by decide, by decide, by decide⟩
  · intro hhb
    rw [if_pos hhb, ← hcount, ← hthreshold]
    refine ⟨rfl, ?_, ?_⟩
    · intro hle
      simp only [hle, if_true]
      rfl
    · intro hlt
      simp only [Nat.not_le.mpr hlt, if_false]
  · intro hhb
    simp [hhb]

/-- Witness of C4: the third heartbeat of `hbTimeouts` is in flight at time 2000 with two
failures counted and threshold 3; its timeout at 2010 is a final failure that brings the
counter to 3 and writes the degraded state. -/
theorem heartbeat_final_failure_degrades_witness :
    (uart_engine_tick defaultConfig (quietLine 2000) (hbTimeouts 2)).s_active.is_heartbeat
      = true ∧
    (job_finish_failure defaultConfig 2010
      (uart_engine_tick defaultConfig (quietLine 2000) (hbTimeouts 2))).s_hb_consecutive_failures
      = 3 ∧
    (job_finish_failure defaultConfig 2010
      (uart_engine_tick defaultConfig (quietLine 2000) (hbTimeouts 2))).telemetry =
      degraded_writes healthyTelemetry :=
  ⟨by decide,
   ((heartbeat_final_failure_degrades defaultConfig 2010
      (uart_engine_tick defaultConfig (quietLine 2000) (hbTimeouts 2)) _ 3 3
      (Or.inl rfl) (Or.inl (by decide)) (by decide) (by decide)).1 (by decide)).1,
   ((heartbeat_final_failure_degrades defaultConfig 2010
      (uart_engine_tick defaultConfig (quietLine 2000) (hbTimeouts 2)) _ 3 3
      (Or.inl rfl) (Or.inl (by decide)) (by decide) (by decide)).1 (by decide)).2.1
      (by decide)⟩

/-- Counterexample to C5.  After three heartbeat timeouts the counter stands at the
threshold 3 and the degraded state has been written; a poll of the battery capacity then
succeeds and stores 80.  The fourth heartbeat timeout finds the counter already at the
threshold and writes the telemetry again: the capacity is forced back to 1. -/
theorem degraded_state_rewritten_above_threshold :
    recoveredCapacity.s_hb_consecutive_failures = 3 ∧
    recoveredCapacity.s_hb_cfg.failure_threshold = 3 ∧
    recoveredCapacity.telemetry.g_battery.remaining_capacity = 80 ∧
    fourthTimeout.s_hb_consecutive_failures = 4 ∧
    fourthTimeout.telemetry.g_battery.remaining_capacity = 1 ∧
    fourthTimeout.telemetry ≠ recoveredCapacity.telemetry := by
  decide

/-- Claim C5 as amended.  At a final failure of a heartbeat Job (no retry left, or a full
queue) the degraded-state writes are performed whenever the incremented counter `count`
is at or above the threshold, hence also when the counter was already at or above the
threshold before the increment; they are not performed while the incremented counter is
below the threshold.  The writes are idempotent, and a heartbeat success resets the counter
to 0. -/
theorem degraded_state_written_at_every_failure_from_threshold (cfg : Config) (now_ms : Nat)
    (s s1 : Engine) (count threshold : Nat)
    (hpath : s1 = job_finish_failure cfg now_ms s ∨ s1 = process_outcome cfg now_ms false s)
    (hfinal : s.s_active.retries_left = 0 ∨ UART_ENGINE_QUEUE_SIZE ≤ s.s_q_count)
    (hhb : s.s_active.is_heartbeat = true)
    (hcount : count =
      if s.s_hb_consecutive_failures < 255 then s.s_hb_consecutive_failures + 1
      else s.s_hb_consecutive_failures)
    (hthreshold : threshold =
      if s.s_hb_cfg.failure_threshold = 0 then 5 else s.s_hb_cfg.failure_threshold) :
    (threshold ≤ count → s1.telemetry = degraded_writes s.telemetry) ∧
    (threshold ≤ s.s_hb_consecutive_failures → s1.telemetry = degraded_writes s.telemetry) ∧
    (count < threshold → s1.telemetry = s.telemetry) ∧
    degraded_writes (degraded_writes s.telemetry) = degraded_writes s.telemetry ∧
    (on_job_success s.s_active s).s_hb_consecutive_failures = 0 := by
  have ht : s1.telemetry = (on_job_final_failure s.s_active s).telemetry := by
    rcases hpath with h | h
    · rw [h]; exact (job_finish_failure_final cfg now_ms s hfinal).1
    · rw [h]; exact (process_outcome_final cfg now_ms s hfinal).1
  rw [ht, on_job_final_failure_eq, if_pos hhb, ← hthreshold, ← hcount]
  have hge : s.s_hb_consecutive_failures ≤ count := by
    rw [hcount]; split <;> omega
  refine ⟨?_, ?_, ?_, rfl, ?_⟩
  · intro hle
    simp only [hle, if_true]
  · intro hle
    simp only [Nat.le_trans hle hge, if_true]
  · intro hlt
    simp only [Nat.not_le.mpr hlt, if_false]
  · simp [on_job_success, hhb]

/-- Witness of the amended C5: the fourth heartbeat of the run `recoveredCapacity`, in
flight at time 3000 with the counter at the threshold 3, fails for good at 3010 and the
capacity 80 is overwritten with 1. -/
theorem degraded_state_written_at_every_failure_from_threshold_witness :
    (uart_engine_tick defaultConfig (quietLine 3000) recoveredCapacity).s_active.is_heartbeat
      = true ∧
    (uart_engine_tick defaultConfig (quietLine 3000) recoveredCapacity).s_hb_consecutive_failures
      = 3 ∧
    (job_finish_failure defaultConfig 3010
      (uart_engine_tick defaultConfig (quietLine 3000) recoveredCapacity)).telemetry =
      degraded_writes
        (uart_engine_tick defaultConfig (quietLine 3000) recoveredCapacity).telemetry :=
  ⟨by decide, by decide,
   (degraded_state_written_at_every_failure_from_threshold defaultConfig 3010
      (uart_engine_tick defaultConfig (quietLine 3000) recoveredCapacity) _ 4 3
      (Or.inl rfl) (Or.inl (by decide)) (by decide) (by decide) (by decide)).2.1 (by decide)⟩

/-- Claim C6.  On a well-formed ring, `uart_engine_enqueue` returns `ERR_DISABLED` when
the engine is disabled, otherwise `ERR_BAD_PARAM` when the descriptor is not valid,
otherwise `ERR_QUEUE_FULL` when 32 Jobs are queued, and in these three cases the state is
unchanged; otherwise it returns `OK`, the queue is the old queue followed by one Job made
of the descriptor with `retries_left = max_retries` and `is_heartbeat = false`, and no
static outside the ring changes. -/
theorem enqueue_contract (cfg : Config) (req : Option uart_engine_request_t) (s : Engine)
    (hwf : RingWF s) :
    (s.s_enabled = false →
      uart_engine_enqueue cfg req s = (uart_engine_result_t.ERR_DISABLED, s)) ∧
    (s.s_enabled = true → request_is_valid cfg req = false →
      uart_engine_enqueue cfg req s = (uart_engine_result_t.ERR_BAD_PARAM, s)) ∧
    (s.s_enabled = true → request_is_valid cfg req = true →
      UART_ENGINE_QUEUE_SIZE ≤ (queued s).length →
      uart_engine_enqueue cfg req s = (uart_engine_result_t.ERR_QUEUE_FULL, s)) ∧
    (s.s_enabled = true → request_is_valid cfg req = true →
      (queued s).length < UART_ENGINE_QUEUE_SIZE →
      ∃ r, req = some r ∧
        (uart_engine_enqueue cfg req s).1 = uart_engine_result_t.OK ∧
        queued (uart_engine_enqueue cfg req s).2 =
          queued s ++ [{ req := r, retries_left := r.max_retries, is_heartbeat := false }] ∧
        RingWF (uart_engine_enqueue cfg req s).2 ∧
        (uart_engine_enqueue cfg req s).2 =
          { s with
            s_queue := (uart_engine_enqueue cfg req s).2.s_queue,
            s_q_tail := (uart_engine_enqueue cfg req s).2.s_q_tail,
            s_q_count := (uart_engine_enqueue cfg req s).2.s_q_count }) := by
  rw [length_queued]
  exact enqueue_cases cfg req s hwf

/-- Witness of C6: enqueueing `pollReq` on a freshly initialised engine returns `OK` and
queues one Job with `retries_left = 2`. -/
theorem enqueue_contract_witness :
    RingWF (uart_engine_init (boot healthyTelemetry)) ∧
    ∃ r, some pollReq = some r ∧
      (uart_engine_enqueue defaultConfig (some pollReq)
        (uart_engine_init (boot healthyTelemetry))).1 = uart_engine_result_t.OK ∧
      queued (uart_engine_enqueue defaultConfig (some pollReq)
          (uart_engine_init (boot healthyTelemetry))).2 =
        queued (uart_engine_init (boot healthyTelemetry)) ++
          [{ req := r, retries_left := r.max_retries, is_heartbeat := false }] :=
  ⟨by decide,
   match (enqueue_contract defaultConfig (some pollReq)
      (uart_engine_init (boot healthyTelemetry)) (by decide)).2.2.2
      (by decide) (by decide) (by decide) with
   | ⟨r, h1, h2, h3, _⟩ => ⟨r, h1, h2, h3⟩⟩

/-- Claim C7.  `request_is_valid` accepts a descriptor exactly when its command width is
8 or 16, `expected_len` is at most 256 and, if it is framed, the ending length is between
1 and `UART_ENGINE_MAX_ENDING_LEN`; the verdict is the verdict on the descriptor that has
these four fields and is zero elsewhere, so no other field influences it. -/
theorem request_is_valid_iff (cfg : Config) (r : uart_engine_request_t) :
    (request_is_valid cfg (some r) = true ↔
      ((r.cmd_bits = 8 ∨ r.cmd_bits = 16) ∧ r.expected_len ≤ 256 ∧
        (r.expected_ending = false ∨
          (1 ≤ r.expected_ending_len ∧
            r.expected_ending_len ≤ cfg.UART_ENGINE_MAX_ENDING_LEN)))) ∧
    request_is_valid cfg (some r) =
      request_is_valid cfg
        (some { zeroRequest with
                cmd_bits := r.cmd_bits, expected_len := r.expected_len,
                expected_ending := r.expected_ending,
                expected_ending_len := r.expected_ending_len }) := by
  refine ⟨?_, rfl⟩
  simp only [request_is_valid, UART_ENGINE_MAX_EXPECTED_LEN]
  by_cases h8 : r.cmd_bits = 8 <;> by_cases h16 : r.cmd_bits = 16 <;>
    by_cases hl : r.expected_len > 256 <;> cases he : r.expected_ending <;>
    by_cases h0 : r.expected_ending_len = 0 <;>
    by_cases hm : r.expected_ending_len > cfg.UART_ENGINE_MAX_ENDING_LEN <;>
    simp [h8, h16, hl, h0, hm] <;> omega

/-- Claim C8, what the code does instead.  When an attempt of a Job with
`retries_left = k > 0` fails while the queue has room, on the failure path
`job_finish_failure` as in the `PROCESS` case after the parser returned false, the Job pushed
at the tail of the queue carries `retries_left = max_retries`, whatever `k` is; with no
inter-job cooldown `retry_not_before` becomes `now + 25`, as claimed. -/
theorem retry_push_restores_retries (cfg : Config) (now_ms : Nat) (s : Engine)
    (hwf : RingWF s) (hk : 0 < s.s_active.retries_left)
    (hroom : s.s_q_count < UART_ENGINE_QUEUE_SIZE) :
    queued (job_finish_failure cfg now_ms s) =
      queued s ++ [{ req := s.s_active.req, retries_left := s.s_active.req.max_retries,
                     is_heartbeat := s.s_active.is_heartbeat }] ∧
    queued (process_outcome cfg now_ms false s) =
      queued s ++ [{ req := s.s_active.req, retries_left := s.s_active.req.max_retries,
                     is_heartbeat := s.s_active.is_heartbeat }] ∧
    (cfg.UART_ENGINE_INTERJOB_COOLDOWN_MS = 0 →
      (job_finish_failure cfg now_ms s).s_retry_not_before_ms =
        add32 now_ms UART_ENGINE_RETRY_COOLDOWN_MS ∧
      (process_outcome cfg now_ms false s).s_retry_not_before_ms =
        add32 now_ms UART_ENGINE_RETRY_COOLDOWN_MS) := by
  obtain ⟨h1, h2⟩ := retry_push_queued cfg now_ms s hwf hk hroom
  exact ⟨h1, h2, fun hcfg => retry_schedules_cooldown cfg now_ms s hcfg hk hroom⟩

/-- Witness of C8.  `pollReq` (`max_retries = 2`) is in flight with `retries_left = 2` and
an empty queue when its attempt times out at time 10: the Job pushed again carries
`retries_left = 2`, not 1, and the cooldown ends at 35.  Through whole ticks: the same after
the RX timeout (`pollTimeouts 1`) and after a parser rejected the reply of `parsedReq`. -/
theorem retry_push_restores_retries_witness :
    (uart_engine_tick defaultConfig (quietLine 0) pollQueued).s_active.retries_left = 2 ∧
    queued (job_finish_failure defaultConfig 10
        (uart_engine_tick defaultConfig (quietLine 0) pollQueued)) =
      [{ req := pollReq, retries_left := 2, is_heartbeat := false }] ∧
    queued (pollTimeouts 1) = [{ req := pollReq, retries_left := 2, is_heartbeat := false }] ∧
    (pollTimeouts 1).s_retry_not_before_ms = 35 ∧
    queued (uart_engine_tick defaultConfig (rejectLine 0)
      (uart_engine_enqueue defaultConfig (some parsedReq)
        (uart_engine_init (boot healthyTelemetry))).2) =
      [{ req := parsedReq, retries_left := 2, is_heartbeat := false }] :=
  ⟨by decide,
   (retry_push_restores_retries defaultConfig 10
      (uart_engine_tick defaultConfig (quietLine 0) pollQueued)
      (by decide) (by decide) (by decide)).1,
   by decide, by decide, by decide⟩

/-- Claim C9.  Let the retry cooldown stand at `t + 25`, as a retry scheduled at time `t`
leaves it (last part: both retry paths set it so when the inter-job cooldown is 0).  A
pass of the tick loop that reads a clock value `now` with `0 ≤ now - t < 25`, the
difference taken modulo `2^32` and read as signed, injects the heartbeat if it is due and
returns.  So a tick of the enabled engine whose first clock reading is such a `now` does
nothing but that heartbeat injection: state, mutex, active Job, head index of the ring,
cooldown and telemetry are unchanged, no Job is popped and no attempt starts; the queue is
unchanged or extended by one heartbeat Job. -/
theorem retry_cooldown_gate (cfg : Config) (ins : Nat → StepInput) (s : Engine) (t : Nat)
    (hwf : RingWF s) (hen : s.s_enabled = true)
    (hnb : s.s_retry_not_before_ms = add32 t UART_ENGINE_RETRY_COOLDOWN_MS)
    (hlo : 0 ≤ asInt32 (sub32 (ins 0).now_ms t))
    (hhi : asInt32 (sub32 (ins 0).now_ms t) < 25) :
    tick_step cfg (ins 0) s = (maybe_enqueue_heartbeat (engine_now_ms (ins 0)) s, false) ∧
    uart_engine_tick cfg ins s = maybe_enqueue_heartbeat (engine_now_ms (ins 0)) s ∧
    (uart_engine_tick cfg ins s).s_state = s.s_state ∧
    (uart_engine_tick cfg ins s).uart_lock_held = s.uart_lock_held ∧
    (uart_engine_tick cfg ins s).s_active = s.s_active ∧
    (uart_engine_tick cfg ins s).s_q_head = s.s_q_head ∧
    (uart_engine_tick cfg ins s).s_retry_not_before_ms = s.s_retry_not_before_ms ∧
    (uart_engine_tick cfg ins s).telemetry = s.telemetry ∧
    (uart_engine_tick cfg ins s = s ∨
      queued (uart_engine_tick cfg ins s) =
        queued s ++ [{ req := s.s_hb_cfg.req, retries_left := s.s_hb_cfg.req.max_retries,
                       is_heartbeat := true }]) ∧
    (∀ s0 : Engine, cfg.UART_ENGINE_INTERJOB_COOLDOWN_MS = 0 → 0 < s0.s_active.retries_left →
      s0.s_q_count < UART_ENGINE_QUEUE_SIZE →
      (job_finish_failure cfg t s0).s_retry_not_before_ms =
        add32 t UART_ENGINE_RETRY_COOLDOWN_MS ∧
      (process_outcome cfg t false s0).s_retry_not_before_ms =
        add32 t UART_ENGINE_RETRY_COOLDOWN_MS) := by
  obtain ⟨f1, f2, f3, f4, f5, f6, -⟩ := maybe_enqueue_heartbeat_frame (engine_now_ms (ins 0)) s
  have hgate : asInt32 (sub32 (engine_now_ms (ins 0))
      (maybe_enqueue_heartbeat (engine_now_ms (ins 0)) s).s_retry_not_before_ms) < 0 := by
    rw [f5, hnb]
    exact gate_arith _ _ hlo hhi
  have hstep : tick_step cfg (ins 0) s =
      (maybe_enqueue_heartbeat (engine_now_ms (ins 0)) s, false) := by
    unfold tick_step tick_dispatch
    rw [if_pos hgate]
  have htick : uart_engine_tick cfg ins s = maybe_enqueue_heartbeat (engine_now_ms (ins 0)) s := by
    unfold uart_engine_tick
    rw [hen]
    exact tick_loop_stop cfg ins _ 0 s _ hstep
  rw [htick]
  refine ⟨hstep, rfl, f1, f2, f3, f4, f5, f6, ?_, ?_⟩
  · exact (maybe_enqueue_heartbeat_queued _ s hwf).2
  · intro s0 hcfg hretry hroom
    exact retry_schedules_cooldown cfg t s0 hcfg hretry hroom

/-- Witness of C9: `pollTimeouts 1` is the engine after the first attempt of `pollReq`
failed at time 10, with the cooldown at 35; the tick at time 20 changes nothing. -/
theorem retry_cooldown_gate_witness :
    (pollTimeouts 1).s_retry_not_before_ms = add32 10 UART_ENGINE_RETRY_COOLDOWN_MS ∧
    uart_engine_tick defaultConfig (quietLine 20) (pollTimeouts 1) =
      maybe_enqueue_heartbeat (engine_now_ms (quietLine 20 0)) (pollTimeouts 1) ∧
    (uart_engine_tick defaultConfig (quietLine 20) (pollTimeouts 1)).s_state =
      (pollTimeouts 1).s_state :=
  ⟨by decide,
   (retry_cooldown_gate defaultConfig (quietLine 20) (pollTimeouts 1) 10
      (by decide) (by decide) (by decide) (by decide) (by decide)).2.1,
   (retry_cooldown_gate defaultConfig (quietLine 20) (pollTimeouts 1) 10
      (by decide) (by decide) (by decide) (by decide) (by decide)).2.2.1⟩

/-- Claim C10.  Take a well-formed ring and any history `ops` of enqueues, heartbeat
installations and ticks (`uart_engine_init` and disabling drop the queue and start a new
history).  With `queued` the waiting Jobs, oldest first, `run_pushed` the Jobs pushed during
the history (by `uart_engine_enqueue`, by heartbeat injection and by retry re-push) in push
order and `run_popped` the Jobs popped by the ticks in pop order: the Jobs queued at the
start followed by the Jobs pushed are the Jobs popped followed by the Jobs still queued.  So
the Jobs are popped in the order in which they were pushed, and a heartbeat, pushed at the
tail, is popped after every Job pushed before it; from an empty queue the popped sequence is
the pushed sequence up to the Jobs still waiting.  A pass of the tick loop pops at most one
Job, and only in `IDLE`, when no Job is active. -/
theorem jobs_start_in_queue_order (cfg : Config) (ops : List Op) (inp : StepInput) (s : Engine)
    (hwf : RingWF s) :
    queued s ++ run_pushed cfg ops s = run_popped cfg ops s ++ queued (run cfg ops s) ∧
    (queued s = [] →
      run_pushed cfg ops s = run_popped cfg ops s ++ queued (run cfg ops s)) ∧
    queued s ++ pass_pushed cfg inp s =
      pass_popped cfg inp s ++ queued (tick_step cfg inp s).1 ∧
    (pass_popped cfg inp s).length ≤ 1 ∧
    (pass_popped cfg inp s ≠ [] → s.s_state = uart_engine_state_t.IDLE) := by
  obtain ⟨-, h1⟩ := run_fifo cfg ops s hwf
  obtain ⟨-, h2, h3⟩ := pass_fifo cfg inp s hwf
  refine ⟨h1, ?_, h2, ?_, h3⟩
  · intro he
    rw [he] at h1
    simpa using h1
  · unfold pass_popped
    split <;> simp

/-- Witness of C10.  In `mixedHistory`, on a freshly initialised engine, the pushes are
`pollReq`, the heartbeat, `parsedReq` and the retry of `pollReq`; the pops are the same four
Jobs in the same order, the heartbeat after `pollReq`, which was queued before it, and
before `parsedReq`, which was queued after it. -/
theorem jobs_start_in_queue_order_witness :
    RingWF (uart_engine_init (boot healthyTelemetry)) ∧
    run_pushed defaultConfig mixedHistory (uart_engine_init (boot healthyTelemetry)) =
      [{ req := pollReq, retries_left := 2, is_heartbeat := false },
       { req := hb3Req, retries_left := 0, is_heartbeat := true },
       { req := parsedReq, retries_left := 2, is_heartbeat := false },
       { req := pollReq, retries_left := 2, is_heartbeat := false }] ∧
    run_popped defaultConfig mixedHistory (uart_engine_init (boot healthyTelemetry)) =
      [{ req := pollReq, retries_left := 2, is_heartbeat := false },
       { req := hb3Req, retries_left := 0, is_heartbeat := true },
       { req := parsedReq, retries_left := 2, is_heartbeat := false },
       { req := pollReq, retries_left := 2, is_heartbeat := false }] ∧
    run_pushed defaultConfig mixedHistory (uart_engine_init (boot healthyTelemetry)) =
      run_popped defaultConfig mixedHistory (uart_engine_init (boot healthyTelemetry)) ++
        queued (run defaultConfig mixedHistory (uart_engine_init (boot healthyTelemetry))) :=
  ⟨by decide, by decide, by decide,
   (jobs_start_in_queue_order defaultConfig mixedHistory (quietLine 0 0)
      (uart_engine_init (boot healthyTelemetry)) (by decide)).2.1 (by decide)⟩

/-- Claim C11.  After every history of calls of the public operations
(`uart_engine_init`, `uart_engine_set_enabled`, `uart_engine_enqueue`,
`uart_engine_set_heartbeat`, `uart_engine_tick`, with any arguments and any serial line)
on the engine as it is at power-on, the queue depth is at most 32, as many Jobs wait as
the depth says, the buffer has its 32 slots, head and tail index are below 32 and the tail
is `(head + count) mod 32`.  In such a state a push into a full queue is refused and
leaves the engine as it is, and a push into a queue with room returns true and leaves
every waiting Job in place, the new Job behind them: no Job that has not been popped is
overwritten. -/
theorem queue_depth_bounded_and_ring_well_formed (cfg : Config) (t : Telemetry)
    (cs : List Call) :
    (run_calls cfg cs (boot t)).s_q_count ≤ UART_ENGINE_QUEUE_SIZE ∧
    (queued (run_calls cfg cs (boot t))).length = (run_calls cfg cs (boot t)).s_q_count ∧
    (run_calls cfg cs (boot t)).s_queue.length = UART_ENGINE_QUEUE_SIZE ∧
    (run_calls cfg cs (boot t)).s_q_head < 32 ∧
    (run_calls cfg cs (boot t)).s_q_tail < 32 ∧
    (run_calls cfg cs (boot t)).s_q_tail =
      ((run_calls cfg cs (boot t)).s_q_head + (run_calls cfg cs (boot t)).s_q_count) % 32 ∧
    (∀ (r : Option uart_engine_request_t) (hb : Bool),
      UART_ENGINE_QUEUE_SIZE ≤ (run_calls cfg cs (boot t)).s_q_count →
      queue_push r hb (run_calls cfg cs (boot t)) = (false, run_calls cfg cs (boot t))) ∧
    (∀ (r : uart_engine_request_t) (hb : Bool),
      (run_calls cfg cs (boot t)).s_q_count < UART_ENGINE_QUEUE_SIZE →
      (queue_push (some r) hb (run_calls cfg cs (boot t))).1 = true ∧
      RingWF (queue_push (some r) hb (run_calls cfg cs (boot t))).2 ∧
      queued (queue_push (some r) hb (run_calls cfg cs (boot t))).2 =
        queued (run_calls cfg cs (boot t)) ++ [job_of r hb]) := by
  have hwf := run_calls_ringWF cfg cs (boot t) (ringWF_boot t)
  obtain ⟨h1, h2, h3, h4⟩ := hwf
  refine ⟨h3, length_queued _, h1, h2, ?_, h4, ?_, ?_⟩
  · rw [h4]; exact Nat.mod_lt _ (by decide)
  · intro r hb hfull
    exact queue_push_full r hb _ hfull
  · intro r hb hroom
    obtain ⟨ha, hb2⟩ := queued_push r hb _ ⟨h1, h2, h3, h4⟩ hroom
    refine ⟨?_, ha, hb2⟩
    rw [queue_push_room r hb _ hroom]

/-- Claim C12.  Let the engine be enabled, in any state.  After
`uart_engine_set_enabled(false)` no Job waits in the queue, no Job is active (`s_active`
is all zero), the state is `IDLE`, the serial mutex is free, the heartbeat is disabled, its
failure counter is 0, `uart_engine_is_busy()` is false and the engine is disabled.  In
that state `uart_engine_enqueue` returns `ERR_DISABLED` for every request, a tick on any
serial line changes nothing, and the engine stays exactly as it is through every history
of calls that holds neither `uart_engine_init` nor `uart_engine_set_enabled(true)`. -/
theorem set_enabled_false_drops_everything (cfg : Config) (s : Engine)
    (h : s.s_enabled = true) :
    (uart_engine_set_enabled false s).s_q_count = 0 ∧
    queued (uart_engine_set_enabled false s) = [] ∧
    (uart_engine_set_enabled false s).s_active = zeroJob ∧
    (uart_engine_set_enabled false s).s_state = uart_engine_state_t.IDLE ∧
    (uart_engine_set_enabled false s).uart_lock_held = false ∧
    (uart_engine_set_enabled false s).s_hb_enabled = false ∧
    (uart_engine_set_enabled false s).s_hb_queued_or_active = false ∧
    (uart_engine_set_enabled false s).s_hb_consecutive_failures = 0 ∧
    uart_engine_is_busy (uart_engine_set_enabled false s) = false ∧
    uart_engine_is_enabled (uart_engine_set_enabled false s) = false ∧
    (∀ req : Option uart_engine_request_t,
      uart_engine_enqueue cfg req (uart_engine_set_enabled false s) =
        (uart_engine_result_t.ERR_DISABLED, uart_engine_set_enabled false s)) ∧
    (∀ ins : Nat → StepInput,
      uart_engine_tick cfg ins (uart_engine_set_enabled false s) =
        uart_engine_set_enabled false s) ∧
    (∀ cs : List Call, (∀ c ∈ cs, Call.enables c = false) →
      run_calls cfg cs (uart_engine_set_enabled false s) =
        uart_engine_set_enabled false s) := by
  have hdis : (uart_engine_set_enabled false s).s_enabled = false := by
    rw [set_enabled_false_eq s h]; rfl
  refine ⟨?_, ?_, ?_, ?_, ?_, ?_, ?_, ?_, ?_, hdis, ?_, ?_, ?_⟩
  · rw [set_enabled_false_eq s h]; rfl
  · rw [set_enabled_false_eq s h]; rfl
  · rw [set_enabled_false_eq s h]; rfl
  · rw [set_enabled_false_eq s h]; rfl
  · rw [set_enabled_false_eq s h]; rfl
  · rw [set_enabled_false_eq s h]; rfl
  · rw [set_enabled_false_eq s h]; rfl
  · rw [set_enabled_false_eq s h]; rfl
  · rw [set_enabled_false_eq s h]; rfl
  · intro req
    simp [uart_engine_enqueue, hdis]
  · intro ins
    exact disabled_call_stays cfg (Call.tick ins) _ hdis rfl
  · intro cs hcs
    exact disabled_history_stays cfg cs _ hdis hcs

/-- Witness of C12.  `hbInProcess` is an enabled engine with the serial mutex held, a
heartbeat Job in the `PROCESS` state and two heartbeat failures counted; disabling it
leaves it idle, not busy, with the mutex free and the counter at 0, and a later enqueue of
`pollReq` followed by a tick leaves it as it is. -/
theorem set_enabled_false_drops_everything_witness :
    hbInProcess.s_enabled = true ∧ hbInProcess.uart_lock_held = true ∧
    hbInProcess.s_state = uart_engine_state_t.PROCESS ∧
    hbInProcess.s_hb_consecutive_failures = 2 ∧
    (uart_engine_set_enabled false hbInProcess).s_state = uart_engine_state_t.IDLE ∧
    (uart_engine_set_enabled false hbInProcess).uart_lock_held = false ∧
    (uart_engine_set_enabled false hbInProcess).s_hb_consecutive_failures = 0 ∧
    uart_engine_is_busy (uart_engine_set_enabled false hbInProcess) = false ∧
    uart_engine_enqueue defaultConfig (some pollReq) (uart_engine_set_enabled false hbInProcess) =
      (uart_engine_result_t.ERR_DISABLED, uart_engine_set_enabled false hbInProcess) ∧
    run_calls defaultConfig [Call.enqueue (some pollReq), Call.tick (quietLine 3000)]
        (uart_engine_set_enabled false hbInProcess) =
      uart_engine_set_enabled false hbInProcess :=
  have w := set_enabled_false_drops_everything defaultConfig hbInProcess (by decide)
  ⟨by decide, by decide, by decide, by decide, w.2.2.2.1, w.2.2.2.2.1,
   w.2.2.2.2.2.2.2.1, w.2.2.2.2.2.2.2.2.1, w.2.2.2.2.2.2.2.2.2.2.1 (some pollReq),
   w.2.2.2.2.2.2.2.2.2.2.2.2 _ (by decide)⟩

/-- Claim C13.  Let the engine be in the `PROCESS` state with a Job whose reply is
accepted: the parser callback returns true, or the Job has no parser.  After a pass of
the tick loop that gets by the cooldown gate, and so runs the `PROCESS` case, the engine is
`IDLE`; if the Job is a heartbeat,
`s_hb_consecutive_failures` is 0 whatever it was before, and if it is not, the counter has
the value it had before.  A Job without a parser is always accepted. -/
theorem success_resets_heartbeat_failures (cfg : Config) (inp : StepInput) (s : Engine)
    (hst : s.s_state = uart_engine_state_t.PROCESS)
    (hgate : 0 ≤ asInt32 (sub32 (engine_now_ms inp) s.s_retry_not_before_ms))
    (hok : (call_process_fn inp s).1 = true) :
    (tick_step cfg inp s).1.s_state = uart_engine_state_t.IDLE ∧
    (s.s_active.is_heartbeat = true →
      (tick_step cfg inp s).1.s_hb_consecutive_failures = 0) ∧
    (s.s_active.is_heartbeat = false →
      (tick_step cfg inp s).1.s_hb_consecutive_failures = s.s_hb_consecutive_failures) ∧
    (∀ s0 : Engine, s0.s_active.req.process_fn = none → (call_process_fn inp s0).1 = true) := by
  obtain ⟨hp, hc⟩ := maybe_enqueue_heartbeat_process inp (engine_now_ms inp) s
  obtain ⟨hs, -, ha, -, hr, -⟩ := maybe_enqueue_heartbeat_frame (engine_now_ms inp) s
  have hstep : (tick_step cfg inp s).1 =
      tick_process cfg inp (engine_now_ms inp) (maybe_enqueue_heartbeat (engine_now_ms inp) s) := by
    unfold tick_step tick_dispatch
    rw [hs, hst, hr, if_neg (not_lt.mpr hgate)]
  have hcnt := tick_process_success_counter cfg inp (engine_now_ms inp)
    (maybe_enqueue_heartbeat (engine_now_ms inp) s) (by rw [hp]; exact hok)
  rw [ha, hc] at hcnt
  refine ⟨?_, ?_, ?_, ?_⟩
  · rw [hstep]; exact (tick_process_idle _ _ _ _).1
  · intro hhb
    rw [hstep, hcnt, if_pos hhb]
  · intro hhb
    rw [hstep, hcnt, hhb]; rfl
  · intro s0 h0
    unfold call_process_fn
    rw [h0]

/-- Witness of C13.  In `hbInProcess` a heartbeat without parser is in `PROCESS` with two
failures counted: the pass leaves the counter at 0.  In `pollInProcess` the Job accepted
by `capacityParser` is no heartbeat: the counter stays at 2. -/
theorem success_resets_heartbeat_failures_witness :
    hbInProcess.s_hb_consecutive_failures = 2 ∧
    (tick_step defaultConfig (answerLine 2000 [0x55] 4) hbInProcess).1.s_hb_consecutive_failures
      = 0 ∧
    (tick_step defaultConfig (answerLine 1020 [80] 4) pollInProcess).1.s_hb_consecutive_failures
      = 2 :=
  ⟨by decide,
   (success_resets_heartbeat_failures defaultConfig (answerLine 2000 [0x55] 4) hbInProcess
      (by decide) (by decide) (by decide)).2.1 (by decide),
   (success_resets_heartbeat_failures defaultConfig (answerLine 1020 [80] 4) pollInProcess
      (by decide) (by decide) (by decide)).2.2.1 (by decide)⟩

/-- Claim C14.  For every request OID `x` (any byte string behind a non-null pointer),
`snmp_lookup_next` returns index `i` exactly when `i` is an index of the catalog, entry `i`
is greater than `x` under `snmp_oid_compare`, and entry `i` is less than or equal to every
catalog entry that is greater than `x`; it reports no match exactly when no catalog entry
is greater than `x`.  GETNEXT of `1.3.6.1.2.1.33.1.2.6.0` yields index 14, which is
`upsBatteryTemperature` `1.3.6.1.2.1.33.1.2.7.0`; GETNEXT of catalog entry `i` yields
`i + 1` for `i < 31` and no match for `i = 31`. -/
theorem lookup_next_returns_smallest_greater_entry (x : List Nat) :
    (∀ i, snmp_lookup_next (some x) = some i ↔
      (i < 32 ∧ snmp_oid_compare (k_oid_table.getD i []) x > 0 ∧
        ∀ j, j < 32 → snmp_oid_compare (k_oid_table.getD j []) x > 0 →
          snmp_oid_compare (k_oid_table.getD i []) (k_oid_table.getD j []) ≤ 0)) ∧
    (snmp_lookup_next (some x) = none ↔
      ∀ j, j < 32 → ¬ snmp_oid_compare (k_oid_table.getD j []) x > 0) ∧
    snmp_lookup_next (some [0x2B, 0x06, 0x01, 0x02, 0x01, 0x21, 0x01, 0x02, 0x06, 0x00]) =
      some 14 ∧
    k_oid_table.getD 14 [] = [0x2B, 0x06, 0x01, 0x02, 0x01, 0x21, 0x01, 0x02, 0x07, 0x00] ∧
    (∀ i, i < 31 → snmp_lookup_next (some (k_oid_table.getD i [])) = some (i + 1)) ∧
    snmp_lookup_next (some (k_oid_table.getD 31 [])) = none := by
  have hlen : k_oid_table.length = 32 := rfl
  have hsome : ∀ (y : List Nat) (i : Nat), snmp_lookup_next (some y) = some i ↔
      (i < 32 ∧ snmp_oid_compare (k_oid_table.getD i []) y > 0 ∧
        ∀ j, j < i → ¬ snmp_oid_compare (k_oid_table.getD j []) y > 0) := by
    intro y i
    simp only [snmp_lookup_next, hlen, snmp_lookup_next_loop_some]
    constructor
    · rintro ⟨-, h2, h3, h4⟩
      exact ⟨by omega, h3, fun j hj => h4 j (Nat.zero_le _) hj⟩
    · rintro ⟨h2, h3, h4⟩
      exact ⟨Nat.zero_le _, by omega, h3, fun j _ hj => h4 j hj⟩
  have hnone : ∀ y : List Nat, snmp_lookup_next (some y) = none ↔
      ∀ j, j < 32 → ¬ snmp_oid_compare (k_oid_table.getD j []) y > 0 := by
    intro y
    simp only [snmp_lookup_next, hlen, snmp_lookup_next_loop_none]
    constructor
    · intro h j hj; exact h j (Nat.zero_le _) (by omega)
    · intro h j _ hj; exact h j (by omega)
  refine ⟨?_, hnone x, ?_, rfl, ?_, ?_⟩
  · intro i
    rw [hsome]
    constructor
    · rintro ⟨h1, h2, h3⟩
      refine ⟨h1, h2, fun j hj hgt => ?_⟩
      rcases Nat.lt_trichotomy i j with h | h | h
      · exact le_of_lt (k_oid_table_sorted i j h hj)
      · rw [h, snmp_oid_compare_self]
      · exact absurd hgt (h3 j h)
    · rintro ⟨h1, h2, h3⟩
      refine ⟨h1, h2, fun j hj hgt => ?_⟩
      have hle := h3 j (by omega) hgt
      have hlt := k_oid_table_sorted j i hj h1
      rw [snmp_oid_compare_antisymm] at hlt
      omega
  · rw [hsome]
    refine ⟨by decide, by decide, ?_⟩
    intro j hj
    have hlt : snmp_oid_compare (k_oid_table.getD j []) (k_oid_table.getD 14 []) < 0 :=
      k_oid_table_sorted j 14 hj (by decide)
    have h13 : snmp_oid_compare (k_oid_table.getD 13 [])
        [0x2B, 0x06, 0x01, 0x02, 0x01, 0x21, 0x01, 0x02, 0x06, 0x00] ≤ 0 := by decide
    intro hgt
    rcases Nat.lt_or_ge j 13 with h | h
    · have := snmp_oid_compare_le_trans _ _ _ (le_of_lt (k_oid_table_sorted j 13 h (by decide))) h13
      omega
    · have : j = 13 := by omega
      subst this
      omega
  · intro i hi
    rw [hsome]
    refine ⟨by omega, ?_, ?_⟩
    · have := k_oid_table_sorted i (i + 1) (by omega) (by omega)
      rw [snmp_oid_compare_antisymm] at this
      omega
    · intro j hj hgt
      rcases Nat.lt_or_ge j i with h | h
      · have := k_oid_table_sorted j i h (by omega)
        omega
      · have : j = i := by omega
        subst this
        rw [snmp_oid_compare_self] at hgt
        omega
  · rw [hnone]
    intro j hj hgt
    rcases Nat.lt_or_ge j 31 with h | h
    · have := k_oid_table_sorted j 31 h (by decide)
      omega
    · have : j = 31 := by omega
      subst this
      rw [snmp_oid_compare_self] at hgt
      omega

/-- Claim C15.  The catalog `k_oid_table` has exactly 32 entries and is sorted strictly
ascending under `snmp_oid_compare`: for all indices `i < j < 32` the comparison of entry
`i` with entry `j` is negative.  So no OID appears twice: two indices with the same entry
are the same index. -/
theorem catalog_strictly_ascending :
    k_oid_table.length = 32 ∧
    (∀ i j, i < j → j < 32 →
      snmp_oid_compare (k_oid_table.getD i []) (k_oid_table.getD j []) < 0) ∧
    (∀ i j, i < 32 → j < 32 → k_oid_table.getD i [] = k_oid_table.getD j [] → i = j) ∧
    k_oid_table.Nodup := by
  have hinj : ∀ i j, i < 32 → j < 32 → k_oid_table.getD i [] = k_oid_table.getD j [] →
      i = j := by
    intro i j hi hj he
    rcases Nat.lt_trichotomy i j with h | h | h
    · have := k_oid_table_sorted i j h hj
      rw [he, snmp_oid_compare_self] at this
      omega
    · exact h
    · have := k_oid_table_sorted j i h hi
      rw [he, snmp_oid_compare_self] at this
      omega
  refine ⟨rfl, fun i j hij hj => k_oid_table_sorted i j hij hj, hinj, ?_⟩
  rw [List.nodup_iff_injective_get]
  intro a b hab
  have ha : a.val < 32 := a.isLt
  have hb : b.val < 32 := b.isLt
  apply Fin.ext
  apply hinj a.val b.val ha hb
  rw [List.getD_eq_getElem _ _ a.isLt, List.getD_eq_getElem _ _ b.isLt]
  exact hab

/-- Claim C16.  `snmp_oid_compare` is a total order on byte strings.  Its value is -1, 0
or 1; it is 0 if and only if the two strings are equal; swapping the arguments negates
it; less and less-or-equal are transitive; of any two strings one is less than or equal to
the other; and a string compares less than every proper extension of it. -/
theorem oid_compare_total_order :
    (∀ a b, snmp_oid_compare a b = -1 ∨ snmp_oid_compare a b = 0 ∨ snmp_oid_compare a b = 1) ∧
    (∀ a b, snmp_oid_compare a b = 0 ↔ a = b) ∧
    (∀ a b, snmp_oid_compare a b = - snmp_oid_compare b a) ∧
    (∀ a b c, snmp_oid_compare a b < 0 → snmp_oid_compare b c < 0 → snmp_oid_compare a c < 0) ∧
    (∀ a b c, snmp_oid_compare a b ≤ 0 → snmp_oid_compare b c ≤ 0 → snmp_oid_compare a c ≤ 0) ∧
    (∀ a b, snmp_oid_compare a b ≤ 0 ∨ snmp_oid_compare b a ≤ 0) ∧
    (∀ p e, e ≠ [] → snmp_oid_compare p (p ++ e) = -1) := by
  refine ⟨snmp_oid_compare_range, snmp_oid_compare_eq_zero, snmp_oid_compare_antisymm,
    snmp_oid_compare_lt_trans, snmp_oid_compare_le_trans, ?_, snmp_oid_compare_extension⟩
  intro a b
  have h := snmp_oid_compare_antisymm a b
  omega

/-- Claim C17.  Let `v` be a 32-bit signed integer.  `snmp_decode_int32` on the content
bytes that `snmp_put_int32` copies returns `v`.  Written into a cursor with room,
`snmp_put_int32` appends the tag `0x02`, the length and those content bytes; reading the
result at the place of the write with `snmp_expect_tlv` finds the content, and
`snmp_decode_int32` on it returns `v`. -/
theorem int32_decode_after_put (v : Int) (h1 : -2147483648 ≤ v) (h2 : v ≤ 2147483647) :
    snmp_decode_int32 (int32_content v) = some v ∧
    (∀ (buf : List Nat) (cap : Nat), buf.length + 2 + snmp_int32_encoded_len v ≤ cap →
      snmp_put_int32 { buf := buf, cap := cap } v =
        (true, { buf := buf ++ SNMP_TYPE_INTEGER :: snmp_int32_encoded_len v :: int32_content v,
                 cap := cap }) ∧
      snmp_expect_tlv (snmp_put_int32 { buf := buf, cap := cap } v).2.buf buf.length
          (snmp_put_int32 { buf := buf, cap := cap } v).2.buf.length SNMP_TYPE_INTEGER =
        some ((snmp_put_int32 { buf := buf, cap := cap } v).2.buf.length, buf.length + 2,
          snmp_int32_encoded_len v) ∧
      snmp_decode_int32
          (bytes_at (snmp_put_int32 { buf := buf, cap := cap } v).2.buf (buf.length + 2)
            (snmp_int32_encoded_len v)) = some v) := by
  refine ⟨int32_roundtrip v h1 h2, ?_⟩
  intro buf cap hcap
  obtain ⟨l1, l2, l3⟩ := int32_encoded_len_range v
  have hf : snmp_len_field_size (snmp_int32_encoded_len v) = 1 := by
    unfold snmp_len_field_size; rw [if_pos (by omega)]
  have hb : snmp_len_bytes (snmp_int32_encoded_len v) = [snmp_int32_encoded_len v] := by
    unfold snmp_len_bytes; rw [if_pos (by omega)]
  have ht : tlv_len (snmp_int32_encoded_len v) = 2 + snmp_int32_encoded_len v := by
    rw [tlv_len, hf]
  have hput := put_int32_ok buf cap v (by omega)
  have hd : (buf ++ tlv_bytes SNMP_TYPE_INTEGER (int32_content v)).drop buf.length =
      tlv_bytes SNMP_TYPE_INTEGER (int32_content v) ++ [] := by
    rw [List.drop_left, List.append_nil]
  obtain ⟨e1, -, -, e4⟩ := expect_tlv_at _ buf.length
    (buf ++ tlv_bytes SNMP_TYPE_INTEGER (int32_content v)).length _ _ [] hd (by omega)
    (by rw [List.length_append, tlv_bytes_length])
  rw [l3, hf] at e1 e4
  rw [hput]
  refine ⟨?_, ?_, ?_⟩
  · rw [tlv_bytes, l3, hb]; rfl
  · rw [e1]
    simp only [List.length_append, tlv_bytes_length, l3, Option.some.injEq, Prod.mk.injEq,
      and_true]
  · show snmp_decode_int32 (bytes_at _ (buf.length + 2) _) = some v
    rw [show buf.length + 2 = buf.length + 1 + 1 from rfl, e4]
    exact int32_roundtrip v h1 h2

/-- Witness of C17.  The value -129 is written as `02 02 FF 7F` and decoded again; the
extreme values of `int32_t` come back as well. -/
theorem int32_decode_after_put_witness :
    snmp_put_int32 { buf := [], cap := 8 } (-129) =
      (true, { buf := [0x02, 0x02, 0xFF, 0x7F], cap := 8 }) ∧
    int32_content (-129) = [0xFF, 0x7F] ∧
    snmp_decode_int32 (int32_content (-129)) = some (-129) ∧
    snmp_decode_int32 (int32_content (-2147483648)) = some (-2147483648) ∧
    snmp_decode_int32 (int32_content 2147483647) = some 2147483647 :=
  ⟨((int32_decode_after_put (-129) (by decide) (by decide)).2 [] 8 (by decide)).1,
   by decide,
   (int32_decode_after_put (-129) (by decide) (by decide)).1,
   (int32_decode_after_put (-2147483648) (by decide) (by decide)).1,
   (int32_decode_after_put 2147483647 (by decide) (by decide)).1⟩

/-- Claim C18.  For every integer `v`, so for every 32-bit signed one, the INTEGER content
that `snmp_put_int32` emits has `snmp_int32_encoded_len v` bytes, between 1 and 4.  When it has
more than one byte, its first byte is not `0x00` followed by a byte with the top bit clear
and not `0xFF` followed by a byte with the top bit set.  No shorter byte string decodes
to `v`: `snmp_decode_int32` returns something else than `v` on every string of fewer
bytes.  The value 128 needs the two bytes `00 80`, and the single byte `80` decodes to
-128. -/
theorem int32_encoding_minimal (v : Int) :
    1 ≤ snmp_int32_encoded_len v ∧ snmp_int32_encoded_len v ≤ 4 ∧
    (int32_content v).length = snmp_int32_encoded_len v ∧
    (1 < snmp_int32_encoded_len v →
      ¬ ((int32_content v).getD 0 0 = 0x00 ∧ (int32_content v).getD 1 0 &&& 0x80 = 0) ∧
      ¬ ((int32_content v).getD 0 0 = 0xFF ∧ (int32_content v).getD 1 0 &&& 0x80 ≠ 0)) ∧
    (∀ bs : List Nat, (∀ b ∈ bs, b < 256) → bs.length < snmp_int32_encoded_len v →
      snmp_decode_int32 bs ≠ some v) ∧
    int32_content 128 = [0x00, 0x80] ∧ snmp_decode_int32 [0x80] = some (-128) := by
  obtain ⟨l1, l2, l3⟩ := int32_encoded_len_range v
  have m1 := byte_msb_clear _ (int32_byte_lt v 16)
  have m2 := byte_msb_clear _ (int32_byte_lt v 8)
  have m3 := byte_msb_clear _ (int32_byte_lt v 0)
  refine ⟨l1, l2, l3, ?_, ?_, by decide, by decide⟩
  · intro hlen
    rcases int32_len_cases v with ⟨hl, hc, r0⟩ | ⟨hl, hc, r0, r1⟩ | ⟨hl, hc, r0, r1, r2⟩ |
        ⟨hl, hc, r0, r1, r2⟩
    · rw [hc]
      simp only [List.getD_cons_zero, List.getD_cons_succ, ne_eq, m1]
      constructor <;> intro hx <;> omega
    · rw [hc]
      simp only [List.getD_cons_zero, List.getD_cons_succ, ne_eq, m2]
      constructor <;> intro hx <;> omega
    · rw [hc]
      simp only [List.getD_cons_zero, List.getD_cons_succ, ne_eq, m3]
      constructor <;> intro hx <;> omega
    · omega
  · intro bs hb hlt hdec
    obtain ⟨s1, s2, s3, s0⟩ := decode_int32_short bs hb v hdec
    obtain ⟨k2, k3, k4⟩ := encoded_len_lower v
    have hcases : bs.length = 1 ∨ bs.length = 2 ∨ bs.length = 3 := by omega
    rcases hcases with h | h | h
    · exact k2 (by omega) (s1 h)
    · exact k3 (by omega) (s2 h)
    · exact k4 (by omega) (s3 h)

/-- Claim C19, counterexample.  The response to `chargeRequest` built with error-status
`NOSUCHNAME` (2), error-index 1 and the value INTEGER 77 decodes to a message whose value
is NULL, not INTEGER 77. -/
theorem error_response_carries_null :
    (snmp_build_response chargeRequest SNMP_ERR_NOSUCHNAME 1
        (some OID_UPS_EST_CHARGE_REMAINING_STD) (some charge77) 512).1 = true ∧
    decode_response (snmp_build_response chargeRequest SNMP_ERR_NOSUCHNAME 1
        (some OID_UPS_EST_CHARGE_REMAINING_STD) (some charge77) 512).2.buf =
      some { version := 0, community := [0x70, 0x75, 0x62, 0x6C, 0x69, 0x63],
             request_id := 1234567, error_status := 2, error_index := 1,
             oid := OID_UPS_EST_CHARGE_REMAINING_STD, value := decoded_value_t.null } ∧
    decoded_value_t.null ≠ decoded_value_t.int32 charge77.i32 := by
  decide

/-- Claim C19, amended.  Let version, request-id, error-status, error-index and an
INTEGER value be 32-bit signed integers, the response OID non-empty, and let the
pre-sized message fit the output buffer, whose capacity is at most 65535 bytes (512 in
the responder).  Then `snmp_build_response` succeeds, emits the message in the layout
`response_bytes`, and reading it back with `snmp_expect_tlv`, `snmp_read_len` and
`snmp_decode_int32` yields the same version, community bytes, request-id, error-status,
error-index and OID bytes.  The value read back is the value handed in when the
error-status is 0 and a value is given; otherwise it is NULL. -/
theorem response_round_trip (req : snmp_request_t) (e i : Int) (oid : List Nat)
    (value : Option snmp_value_t) (out_cap : Nat)
    (hver : -2147483648 ≤ req.version ∧ req.version ≤ 2147483647)
    (hr : -2147483648 ≤ req.request_id ∧ req.request_id ≤ 2147483647)
    (he : -2147483648 ≤ e ∧ e ≤ 2147483647) (hi : -2147483648 ≤ i ∧ i ≤ 2147483647)
    (hv : ∀ v, value = some v → -2147483648 ≤ v.i32 ∧ v.i32 ≤ 2147483647)
    (hoid : oid ≠ [])
    (hfit : tlv_len (msg_content_len req e i oid value) ≤ out_cap)
    (hcap : out_cap ≤ 65535) :
    snmp_build_response req e i (some oid) value out_cap =
      (true, { buf := response_bytes req e i oid value, cap := out_cap }) ∧
    decode_response (snmp_build_response req e i (some oid) value out_cap).2.buf =
      some { version := req.version, community := req.community,
             request_id := req.request_id, error_status := e, error_index := i,
             oid := oid, value := expected_value e value } ∧
    (∀ v, value = some v → e = SNMP_ERR_NOERROR →
      v.kind = value_kind_t.VALUE_KIND_INT32 →
      expected_value e value = decoded_value_t.int32 v.i32) ∧
    (∀ v, value = some v → e = SNMP_ERR_NOERROR →
      v.kind = value_kind_t.VALUE_KIND_OCTETS →
      expected_value e value = decoded_value_t.octets v.octets) ∧
    (e ≠ SNMP_ERR_NOERROR ∨ value = none → expected_value e value = decoded_value_t.null) := by
  have hb := build_response_ok req e i oid value out_cap hoid hfit
  refine ⟨hb, ?_, ?_, ?_, ?_⟩
  · rw [hb]
    exact decode_response_ok req e i oid value hver hr he hi hv (by omega)
  · intro v hval he0 hk
    subst hval
    simp [expected_value, he0, hk]
  · intro v hval he0 hk
    subst hval
    simp [expected_value, he0, hk]
  · intro h
    unfold expected_value
    cases value with
    | none => rfl
    | some v =>
      rcases h with h | h
      · simp [h]
      · cases h

/-- Witness of C19.  The response to `chargeRequest` with the value INTEGER 77 and no
error reads back with the value INTEGER 77; with the value `"APC"` it reads back with
those three octets. -/
theorem response_round_trip_witness :
    decode_response (snmp_build_response chargeRequest 0 0
        (some OID_UPS_EST_CHARGE_REMAINING_STD) (some charge77) 512).2.buf =
      some { version := 0, community := [0x70, 0x75, 0x62, 0x6C, 0x69, 0x63],
             request_id := 1234567, error_status := 0, error_index := 0,
             oid := OID_UPS_EST_CHARGE_REMAINING_STD, value := decoded_value_t.int32 77 } ∧
    decode_response (snmp_build_response chargeRequest 0 0
        (some OID_UPS_EST_CHARGE_REMAINING_STD) (some octetsAPC) 512).2.buf =
      some { version := 0, community := [0x70, 0x75, 0x62, 0x6C, 0x69, 0x63],
             request_id := 1234567, error_status := 0, error_index := 0,
             oid := OID_UPS_EST_CHARGE_REMAINING_STD,
             value := decoded_value_t.octets [0x41, 0x50, 0x43] } :=
  ⟨(response_round_trip chargeRequest 0 0 OID_UPS_EST_CHARGE_REMAINING_STD (some charge77) 512
      (by decide) (by decide) (by decide) (by decide)
      (by intro v hv; cases hv; decide) (by decide) (by decide) (by decide)).2.1,
   (response_round_trip chargeRequest 0 0 OID_UPS_EST_CHARGE_REMAINING_STD (some octetsAPC) 512
      (by decide) (by decide) (by decide) (by decide)
      (by intro v hv; cases hv; decide) (by decide) (by decide) (by decide)).2.1⟩

/-- Claim C20.  Into a cursor with room `snmp_buf_put_len` writes the single byte `n` for
`n ≤ 127`, the bytes `0x81 n` for `128 ≤ n ≤ 255` and `0x82 hi lo` (big-endian) for
`256 ≤ n ≤ 65535`; that is `snmp_len_field_size n` bytes.  `snmp_read_len` on those bytes,
when at least `n` bytes lie between them and `end`, returns `n` and leaves the pointer
behind them.  `snmp_read_len` fails when the first byte is `0x80` or announces more than
two length bytes (`0x83` to `0xFF`), and whenever it succeeds the length it returns is at
most the number of bytes between the pointer it leaves and `end`. -/
theorem length_field_written_and_read :
    (∀ (buf : List Nat) (cap n : Nat), n ≤ 65535 →
      buf.length + snmp_len_field_size n ≤ cap →
      snmp_buf_put_len { buf := buf, cap := cap } n =
        (true, { buf := buf ++ (if n ≤ 127 then [n] else if n ≤ 255 then [0x81, n]
                                else [0x82, n / 256, n % 256]),
                 cap := cap }) ∧
      (snmp_buf_put_len { buf := buf, cap := cap } n).2.buf.length =
        buf.length + snmp_len_field_size n) ∧
    (∀ (buf content : List Nat) (cap n : Nat), n ≤ 65535 →
      buf.length + snmp_len_field_size n ≤ cap → n ≤ content.length →
      snmp_read_len ((snmp_buf_put_len { buf := buf, cap := cap } n).2.buf ++ content)
          buf.length
          ((snmp_buf_put_len { buf := buf, cap := cap } n).2.buf ++ content).length =
        some (buf.length + snmp_len_field_size n, n)) ∧
    (∀ (pkt : List Nat) (pp end_ : Nat), pkt.getD pp 0 = 0x80 →
      snmp_read_len pkt pp end_ = none) ∧
    (∀ (pkt : List Nat) (pp end_ : Nat), 0x83 ≤ pkt.getD pp 0 → pkt.getD pp 0 ≤ 0xFF →
      snmp_read_len pkt pp end_ = none) ∧
    (∀ (pkt : List Nat) (pp end_ p len : Nat), snmp_read_len pkt pp end_ = some (p, len) →
      pp < p ∧ p ≤ end_ ∧ len ≤ end_ - p) ∧
    snmp_buf_put_len { buf := [], cap := 3 } 300 = (true, { buf := [0x82, 0x01, 0x2C], cap := 3 }) ∧
    snmp_read_len [0x82, 0x01, 0x2C] 0 302 = none ∧
    snmp_read_len [0x82, 0x01, 0x2C] 0 303 = some (3, 300) := by
  have hbytes : ∀ n, n ≤ 65535 → snmp_len_bytes n =
      (if n ≤ 127 then [n] else if n ≤ 255 then [0x81, n] else [0x82, n / 256, n % 256]) := by
    intro n hn
    unfold snmp_len_bytes
    by_cases h1 : n < 128
    · rw [if_pos h1, if_pos (show n ≤ 127 by omega)]
    · rw [if_neg h1, if_neg (show ¬ n ≤ 127 by omega)]
      by_cases h2 : n ≤ 255
      · rw [if_pos h2, if_pos h2]
      · rw [if_neg h2, if_neg h2, Nat.mod_eq_of_lt (show n / 256 < 256 by omega)]
  refine ⟨?_, ?_, ?_, ?_, ?_, by decide, by decide, by decide⟩
  · intro buf cap n hn hcap
    rw [put_len_ok buf cap n hcap, ← hbytes n hn]
    exact ⟨rfl, by simp [snmp_len_bytes_length]⟩
  · intro buf content cap n hn hcap hcontent
    rw [put_len_ok buf cap n hcap]
    have hd : (buf ++ snmp_len_bytes n ++ content).drop buf.length =
        snmp_len_bytes n ++ content := by
      rw [List.append_assoc, List.drop_left]
    exact read_len_ok _ buf.length _ n content hd (by omega)
      (by simp only [List.length_append, snmp_len_bytes_length]; omega)
  · intro pkt pp end_ h
    exact read_len_reject pkt pp end_ _ h (Or.inl rfl)
  · intro pkt pp end_ h1 h2
    exact read_len_reject pkt pp end_ _ rfl (Or.inr ⟨h1, h2⟩)
  · intro pkt pp end_ p len h
    have := read_len_sound pkt pp end_ p len h
    omega

/-- Claim C21.  Let the response OID be non-empty.  `snmp_build_response` fails exactly
when the pre-sized message `tlv_len (msg_content_len ..)` exceeds `out_cap`, and then
nothing is written.  Otherwise it succeeds: every write after the capacity check
succeeds, the output is the nested layout `response_bytes`, and `*out_len` is the
pre-sized length.  The layout has eleven TLVs: message, version, community, PDU,
request-id, error-status, error-index, varbind list, varbind, name and value.  In an
output buffer of at most 65535 bytes, such as the 512 bytes of `tx_buf` that the
responder passes, each of them sits in the output as its tag, its length field and its
content, and `snmp_expect_tlv` at its tag reads from the length field exactly the number
of content bytes that follow and finds exactly the content in them. -/
theorem build_response_contract (req : snmp_request_t) (e i : Int) (oid : List Nat)
    (value : Option snmp_value_t) (out_cap : Nat) (hoid : oid ≠ []) :
    ((snmp_build_response req e i (some oid) value out_cap).1 = false ↔
      out_cap < tlv_len (msg_content_len req e i oid value)) ∧
    (out_cap < tlv_len (msg_content_len req e i oid value) →
      snmp_build_response req e i (some oid) value out_cap =
        (false, { buf := [], cap := out_cap })) ∧
    (tlv_len (msg_content_len req e i oid value) ≤ out_cap →
      snmp_build_response req e i (some oid) value out_cap =
        (true, { buf := response_bytes req e i oid value, cap := out_cap }) ∧
      (snmp_build_response req e i (some oid) value out_cap).2.buf.length =
        tlv_len (msg_content_len req e i oid value)) ∧
    (response_tlvs req e i oid value).length = 11 ∧
    (tlv_len (msg_content_len req e i oid value) ≤ out_cap → out_cap ≤ 65535 →
      ∀ x, x ∈ response_tlvs req e i oid value →
        (snmp_build_response req e i (some oid) value out_cap).2.buf =
          x.pre ++ (tlv_header x.tag x.content.length ++ x.content ++ x.post) ∧
        snmp_expect_tlv (snmp_build_response req e i (some oid) value out_cap).2.buf
            x.pre.length
            (snmp_build_response req e i (some oid) value out_cap).2.buf.length x.tag =
          some (x.pre.length + tlv_len x.content.length,
            x.pre.length + 1 + snmp_len_field_size x.content.length, x.content.length) ∧
        bytes_at (snmp_build_response req e i (some oid) value out_cap).2.buf
            (x.pre.length + 1 + snmp_len_field_size x.content.length) x.content.length =
          x.content ∧
        x.pre.length + 1 + snmp_len_field_size x.content.length + x.content.length +
            x.post.length =
          (snmp_build_response req e i (some oid) value out_cap).2.buf.length) ∧
    SNMP_TX_BUF_SIZE ≤ 65535 := by
  have hfail := fun h =>
    build_response_false req e i (some oid) value out_cap (Or.inr (Or.inr ⟨oid, rfl, h⟩))
  refine ⟨?_, hfail, ?_, rfl, ?_, by decide⟩
  · constructor
    · intro h
      by_contra hn
      rw [build_response_ok req e i oid value out_cap hoid (Nat.not_lt.mp hn)] at h
      cases h
    · intro h
      rw [hfail h]
  · intro h
    have hb := build_response_ok req e i oid value out_cap hoid h
    refine ⟨hb, ?_⟩
    rw [hb]
    exact response_bytes_length req e i oid value
  · intro h hcap x hx
    rw [build_response_ok req e i oid value out_cap hoid h]
    have hp := response_tlvs_place req e i oid value x hx
    have hsz : (response_bytes req e i oid value).length ≤ 65535 := by
      rw [response_bytes_length]
      omega
    obtain ⟨-, e1, e2, e3⟩ := tlv_in_output _ x.pre x.post x.content x.tag hp hsz
    refine ⟨?_, e1, e2, e3⟩
    show response_bytes req e i oid value = _
    rw [hp]
    simp only [tlv_bytes, tlv_header, List.append_assoc, List.cons_append]

/-- Witness of C21.  The response to `chargeRequest` with the value INTEGER 77 has 45
bytes: it is built in a buffer of 45 bytes and refused, with nothing written, in a buffer
of 44 bytes. -/
theorem build_response_contract_witness :
    snmp_build_response chargeRequest 0 0 (some OID_UPS_EST_CHARGE_REMAINING_STD)
        (some charge77) 44 = (false, { buf := [], cap := 44 }) ∧
    (snmp_build_response chargeRequest 0 0 (some OID_UPS_EST_CHARGE_REMAINING_STD)
        (some charge77) 45).1 = true ∧
    (snmp_build_response chargeRequest 0 0 (some OID_UPS_EST_CHARGE_REMAINING_STD)
        (some charge77) 45).2.buf.length = 45 :=
  ⟨(build_response_contract chargeRequest 0 0 OID_UPS_EST_CHARGE_REMAINING_STD (some charge77)
      44 (by decide)).2.1 (by decide),
   by decide,
   ((build_response_contract chargeRequest 0 0 OID_UPS_EST_CHARGE_REMAINING_STD (some charge77)
      45 (by decide)).2.2.1 (by decide)).2⟩

/-- Claim C22, counterexample.  A GET request with version 0, community `public` and an
empty OID (`06 00`) decodes successfully, and the empty OID is byte-equal to no catalog
entry; the responder sends nothing, because `snmp_build_response` refuses a response OID
of length 0. -/
theorem empty_oid_request_gets_no_reply :
    snmp_decode_request (request_bytes 0 publicBytes SNMP_TYPE_GET_REQUEST 1234567 []) =
      some { version := 0, community := publicBytes, request_id := 1234567,
             pdu_type := SNMP_TYPE_GET_REQUEST, request_oid := some [] } ∧
    publicBytes = UPS_SNMP_COMMUNITY.take (strlen UPS_SNMP_COMMUNITY) ∧
    (∀ j, j < 32 → [] ≠ k_oid_table.getD j []) ∧
    snmp_agent_reply UPS_SNMP_COMMUNITY healthyTelemetry
      (request_bytes 0 publicBytes SNMP_TYPE_GET_REQUEST 1234567 []) = none := by
  decide

/-- Claim C22, amended.  Let a request decode successfully with version 0 or 1 and the
configured community, and let its OID be unknown: a GET whose OID is byte-equal to no
catalog entry, or a GETNEXT whose OID has no greater catalog entry.  When the OID is not
empty and the response fits the 512 bytes of `tx_buf`, the responder replies with a
GETRESPONSE that carries the version, community and request-id of the request,
error-status 2 (NOSUCHNAME), error-index 1, the request OID and NULL.  When the OID is
empty or the response does not fit, the responder sends nothing. -/
theorem unknown_oid_reply (community : List Nat) (t : Telemetry) (rx : List Nat)
    (req : snmp_request_t) (oid : List Nat)
    (hdec : snmp_decode_request rx = some req)
    (hver : req.version = 0 ∨ req.version = 1)
    (hcomm : req.community = community.take (strlen community))
    (hoid : req.request_oid = some oid)
    (hunknown : (req.pdu_type = SNMP_TYPE_GET_REQUEST ∧
          ∀ j, j < 32 → oid ≠ k_oid_table.getD j []) ∨
        (req.pdu_type = SNMP_TYPE_GET_NEXT_REQUEST ∧
          ∀ j, j < 32 → ¬ snmp_oid_compare (k_oid_table.getD j []) oid > 0)) :
    (oid ≠ [] →
      tlv_len (msg_content_len req SNMP_ERR_NOSUCHNAME 1 oid (some zeroValue)) ≤
        SNMP_TX_BUF_SIZE →
      snmp_agent_reply community t rx =
        some (response_bytes req SNMP_ERR_NOSUCHNAME 1 oid (some zeroValue)) ∧
      decode_response (response_bytes req SNMP_ERR_NOSUCHNAME 1 oid (some zeroValue)) =
        some { version := req.version, community := req.community,
               request_id := req.request_id, error_status := 2, error_index := 1,
               oid := oid, value := decoded_value_t.null }) ∧
    (oid = [] ∨
        SNMP_TX_BUF_SIZE <
          tlv_len (msg_content_len req SNMP_ERR_NOSUCHNAME 1 oid (some zeroValue)) →
      snmp_agent_reply community t rx = none) := by
  have hl := snmp_lookup_unknown req oid hoid hunknown
  have ha := response_args_unknown req t hl
  have hr := snmp_agent_reply_accepted community t rx req hdec hver hcomm
  rw [ha] at hr
  simp only [hoid] at hr
  have hf := decode_request_facts rx req hdec
  constructor
  · intro hne hfit
    rw [build_response_ok req _ _ oid _ _ hne hfit] at hr
    refine ⟨hr, ?_⟩
    exact decode_response_ok req SNMP_ERR_NOSUCHNAME 1 oid (some zeroValue) hf.2.1 hf.2.2.1
      (by decide) (by decide) (fun v hv => by cases hv; decide)
      (by unfold SNMP_TX_BUF_SIZE at hfit; omega)
  · intro h
    rw [build_response_false req _ _ (some oid) _ _ (by
      rcases h with h | h
      · exact Or.inr (Or.inl (by rw [h]))
      · exact Or.inr (Or.inr ⟨oid, rfl, h⟩))] at hr
    exact hr

/-- Witness of C22.  A GET for the OID `2B 06`, which is no catalog entry, with version 0
and community `public` is answered with NOSUCHNAME, error-index 1, the OID `2B 06` and
NULL. -/
theorem unknown_oid_reply_witness :
    snmp_agent_reply UPS_SNMP_COMMUNITY healthyTelemetry
        (request_bytes 0 publicBytes SNMP_TYPE_GET_REQUEST 1234567 [0x2B, 0x06]) =
      some (response_bytes
        { version := 0, community := publicBytes, request_id := 1234567,
          pdu_type := SNMP_TYPE_GET_REQUEST, request_oid := some [0x2B, 0x06] }
        SNMP_ERR_NOSUCHNAME 1 [0x2B, 0x06] (some zeroValue)) ∧
    decode_response (response_bytes
        { version := 0, community := publicBytes, request_id := 1234567,
          pdu_type := SNMP_TYPE_GET_REQUEST, request_oid := some [0x2B, 0x06] }
        SNMP_ERR_NOSUCHNAME 1 [0x2B, 0x06] (some zeroValue)) =
      some { version := 0, community := publicBytes, request_id := 1234567,
             error_status := 2, error_index := 1, oid := [0x2B, 0x06],
             value := decoded_value_t.null } :=
  (unknown_oid_reply UPS_SNMP_COMMUNITY healthyTelemetry
    (request_bytes 0 publicBytes SNMP_TYPE_GET_REQUEST 1234567 [0x2B, 0x06])
    { version := 0, community := publicBytes, request_id := 1234567,
      pdu_type := SNMP_TYPE_GET_REQUEST, request_oid := some [0x2B, 0x06] }
    [0x2B, 0x06] (by decide) (by decide) (by decide) rfl
    (Or.inl ⟨rfl, by decide⟩)).1 (by decide) (by decide)

/-- Claim C23.  Let a GET request decode successfully with version 0 or 1 and the
configured community (of at most 400 characters; `public` by default), and let its OID be
byte-equal to catalog entry `i`.  Then the projection of entry `i` yields a value, and the
responder replies with a GETRESPONSE that carries the version, community and request-id
of the request, error-status 0, error-index 0, the OID of entry `i` and that value.  For
upsEstimatedChargeRemaining (entry 11) the value is INTEGER `remaining_capacity`, and
`remaining_capacity = 77` gives the value bytes `02 01 4D`. -/
theorem get_reply_of_catalog_entry (community : List Nat) (t : Telemetry) (rx : List Nat)
    (req : snmp_request_t) (i : Nat)
    (hdec : snmp_decode_request rx = some req)
    (hver : req.version = 0 ∨ req.version = 1)
    (hcomm : req.community = community.take (strlen community))
    (hlen : strlen community ≤ 400)
    (hget : req.pdu_type = SNMP_TYPE_GET_REQUEST)
    (hi : i < 32)
    (hoid : req.request_oid = some (k_oid_table.getD i [])) :
    (∃ v, snmp_get_value_by_index i t = some v ∧
      snmp_agent_reply community t rx =
        some (response_bytes req 0 0 (k_oid_table.getD i []) (some v)) ∧
      decode_response (response_bytes req 0 0 (k_oid_table.getD i []) (some v)) =
        some { version := req.version, community := req.community,
               request_id := req.request_id, error_status := 0, error_index := 0,
               oid := k_oid_table.getD i [], value := expected_value 0 (some v) }) ∧
    k_oid_table.getD 11 [] = OID_UPS_EST_CHARGE_REMAINING_STD ∧
    snmp_get_value_by_index 11 t =
      some { kind := value_kind_t.VALUE_KIND_INT32,
             i32 := asInt32 t.g_battery.remaining_capacity, octets := [] } ∧
    (t.g_battery.remaining_capacity = 77 →
      ∃ v, snmp_get_value_by_index 11 t = some v ∧
        expected_value 0 (some v) = decoded_value_t.int32 77 ∧
        value_bytes 0 (some v) = [0x02, 0x01, 0x4D]) := by
  refine ⟨?_, rfl, rfl, ?_⟩
  · obtain ⟨v, hv, hr1, hr2, hr3⟩ := get_value_by_index_ok i hi t
    have hl := snmp_lookup_get_entry req i hi hget hoid
    have ha := response_args_found req t i v hl hv
    have hr := snmp_agent_reply_accepted community t rx req hdec hver hcomm
    rw [ha] at hr
    simp only [] at hr
    have hf := decode_request_facts rx req hdec
    have hc : req.community.length ≤ 400 := by
      rw [hcomm, List.length_take]
      omega
    have hfit := response_size_bound req SNMP_ERR_NOERROR 0 (k_oid_table.getD i []) v hc
      (k_oid_table_entry_length i hi).2 hr3
    have hne : k_oid_table.getD i [] ≠ [] := by
      intro h0
      have := (k_oid_table_entry_length i hi).1
      rw [h0] at this
      exact absurd this (by decide)
    rw [build_response_ok req _ _ _ _ _ hne hfit] at hr
    refine ⟨v, hv, hr, ?_⟩
    exact decode_response_ok req SNMP_ERR_NOERROR 0 _ (some v) hf.2.1 hf.2.2.1
      (by decide) (by decide) (fun w hw => by cases hw; exact ⟨hr1, hr2⟩)
      (by unfold SNMP_TX_BUF_SIZE at hfit; omega)
  · intro h77
    refine ⟨_, rfl, ?_, ?_⟩
    · rw [h77]; rfl
    · rw [h77]; decide

/-- Witness of C23.  The GET request for upsEstimatedChargeRemaining with version 0,
community `public` and request-id 1234567, at `remaining_capacity = 77`, is answered with
the 45 bytes that end in `02 01 4D`. -/
theorem get_reply_of_catalog_entry_witness :
    ∃ v, snmp_get_value_by_index 11 charge77Telemetry = some v ∧
      snmp_agent_reply UPS_SNMP_COMMUNITY charge77Telemetry
          (request_bytes 0 publicBytes SNMP_TYPE_GET_REQUEST 1234567
            OID_UPS_EST_CHARGE_REMAINING_STD) =
        some (response_bytes chargeRequest 0 0 (k_oid_table.getD 11 []) (some v)) ∧
      decode_response (response_bytes chargeRequest 0 0 (k_oid_table.getD 11 []) (some v)) =
        some { version := chargeRequest.version, community := chargeRequest.community,
               request_id := chargeRequest.request_id, error_status := 0, error_index := 0,
               oid := k_oid_table.getD 11 [], value := expected_value 0 (some v) } :=
  (get_reply_of_catalog_entry UPS_SNMP_COMMUNITY charge77Telemetry
    (request_bytes 0 publicBytes SNMP_TYPE_GET_REQUEST 1234567
      OID_UPS_EST_CHARGE_REMAINING_STD)
    chargeRequest 11 (by decide) (by decide) (by decide) (by decide) rfl (by decide) rfl).1

/-- Claim C24.  Catalog index 8 is upsBatteryStatus, and `snmp_get_value_by_index` answers
it with an INTEGER.  The value is 4 (depleted) when `remaining_capacity` is 0 or
`shutdown_imminent` or `need_replacement` holds; otherwise it is 3 (low) when
`below_remaining_capacity_limit` is set or `remaining_capacity` is at most
`remaining_capacity_limit`; otherwise it is 2 (normal).  It is never another value. -/
theorem battery_status_projection (t : Telemetry) :
    k_oid_table.getD 8 [] = OID_UPS_BATTERY_STATUS_STD ∧
    snmp_get_value_by_index 8 t =
      some { kind := value_kind_t.VALUE_KIND_INT32, i32 := battery_status t, octets := [] } ∧
    (t.g_battery.remaining_capacity = 0 ∨
        t.g_power_summary_present_status.shutdown_imminent = true ∨
        t.g_power_summary_present_status.need_replacement = true →
      battery_status t = 4) ∧
    (¬ (t.g_battery.remaining_capacity = 0 ∨
          t.g_power_summary_present_status.shutdown_imminent = true ∨
          t.g_power_summary_present_status.need_replacement = true) →
      (t.g_power_summary_present_status.below_remaining_capacity_limit = true ∨
        t.g_battery.remaining_capacity ≤ t.g_power_summary.remaining_capacity_limit) →
      battery_status t = 3) ∧
    (¬ (t.g_battery.remaining_capacity = 0 ∨
          t.g_power_summary_present_status.shutdown_imminent = true ∨
          t.g_power_summary_present_status.need_replacement = true) →
      ¬ (t.g_power_summary_present_status.below_remaining_capacity_limit = true ∨
        t.g_battery.remaining_capacity ≤ t.g_power_summary.remaining_capacity_limit) →
      battery_status t = 2) ∧
    (battery_status t = 2 ∨ battery_status t = 3 ∨ battery_status t = 4) := by
  refine ⟨rfl, rfl, ?_, ?_, ?_, ?_⟩
  · intro h
    unfold battery_status
    by_cases h1 : t.g_battery.remaining_capacity = 0 ∨
        t.g_power_summary_present_status.shutdown_imminent = true
    · rw [if_pos h1]
    · rw [if_neg h1]
      have h2 : t.g_power_summary_present_status.need_replacement = true := by
        rcases h with h | h | h
        · exact absurd (Or.inl h) h1
        · exact absurd (Or.inr h) h1
        · exact h
      rw [if_pos h2]
  · intro h hlow
    unfold battery_status
    rw [if_neg (fun hc => h (hc.elim Or.inl (fun x => Or.inr (Or.inl x)))),
      if_neg (fun hc => h (Or.inr (Or.inr hc))), if_pos hlow]
  · intro h hlow
    unfold battery_status
    rw [if_neg (fun hc => h (hc.elim Or.inl (fun x => Or.inr (Or.inl x)))),
      if_neg (fun hc => h (Or.inr (Or.inr hc))), if_neg hlow]
  · unfold battery_status
    (repeat' split) <;> simp

/-- Claim C25, counterexample.  After three heartbeat timeouts with threshold 3
(`hbTimeouts 3`) the degraded state has been written: `remaining_capacity` is 1,
`shutdown_imminent` and `below_remaining_capacity_limit` are set, and the upsBatteryStatus
projection (catalog index 8) is 4 (depleted), not 3 (low). -/
theorem degraded_state_reports_depleted :
    (hbTimeouts 3).telemetry.g_battery.remaining_capacity = 1 ∧
    (hbTimeouts 3).telemetry.g_power_summary_present_status.shutdown_imminent = true ∧
    (hbTimeouts 3).telemetry.g_power_summary_present_status.below_remaining_capacity_limit =
      true ∧
    snmp_get_value_by_index 8 (hbTimeouts 3).telemetry =
      some { kind := value_kind_t.VALUE_KIND_INT32, i32 := 4, octets := [] } ∧
    snmp_get_value_by_index 8 (hbTimeouts 3).telemetry ≠
      some { kind := value_kind_t.VALUE_KIND_INT32, i32 := 3, octets := [] } := by
  decide

/-- Claim C25, amended.  Whatever the telemetry was, after the degraded-state writes the
upsBatteryStatus projection is 4 (depleted), because the writes set `shutdown_imminent`;
the same holds after a final failure of a heartbeat Job whose counter reaches the
threshold.  Without the write of `shutdown_imminent` and with `need_replacement` clear,
the other degraded values (`remaining_capacity = 1`, `below_remaining_capacity_limit`)
would give 3 (low). -/
theorem degraded_state_projects_depleted (t : Telemetry) :
    snmp_get_value_by_index 8 (degraded_writes t) =
      some { kind := value_kind_t.VALUE_KIND_INT32, i32 := 4, octets := [] } ∧
    (∀ (job : uart_engine_job_t) (s : Engine), job.is_heartbeat = true →
      (if s.s_hb_cfg.failure_threshold = 0 then 5 else s.s_hb_cfg.failure_threshold) ≤
        (if s.s_hb_consecutive_failures < 255 then s.s_hb_consecutive_failures + 1
         else s.s_hb_consecutive_failures) →
      snmp_get_value_by_index 8 (on_job_final_failure job s).telemetry =
        some { kind := value_kind_t.VALUE_KIND_INT32, i32 := 4, octets := [] }) ∧
    (t.g_power_summary_present_status.need_replacement = false →
      battery_status
        { degraded_writes t with
          g_power_summary_present_status :=
            { (degraded_writes t).g_power_summary_present_status with
              shutdown_imminent := false } } = 3) := by
  have h4 : ∀ t0 : Telemetry, snmp_get_value_by_index 8 (degraded_writes t0) =
      some { kind := value_kind_t.VALUE_KIND_INT32, i32 := 4, octets := [] } := by
    intro t0
    show some (int32_value (battery_status (degraded_writes t0))) = _
    rw [battery_status_degraded]
    rfl
  refine ⟨h4 t, ?_, ?_⟩
  · intro job s hhb hth
    rw [on_job_final_failure_eq, if_pos hhb]
    simp only [if_pos hth]
    exact h4 s.telemetry
  · intro hn
    unfold battery_status degraded_writes
    simp [hn]

/-- Claim C26.  For a request that decodes, the responder sends nothing when the version
is neither 0 nor 1, when the length of the community differs from that of the configured
community, and when a byte of the community differs from the configured one.  Every
datagram it sends is a GETRESPONSE that decodes to the version, the community bytes and
the request-id of the request it answers.  A request with version 2, with the community
`publi` or with the community `publiC` gets no reply. -/
theorem reply_needs_version_and_community (community : List Nat) (t : Telemetry)
    (rx : List Nat) :
    (∀ req, snmp_decode_request rx = some req → ¬ (req.version = 0 ∨ req.version = 1) →
      snmp_agent_reply community t rx = none) ∧
    (∀ req, snmp_decode_request rx = some req → req.community.length ≠ strlen community →
      snmp_agent_reply community t rx = none) ∧
    (∀ req k, snmp_decode_request rx = some req → k < req.community.length →
      req.community.getD k 0 ≠ community.getD k 0 →
      snmp_agent_reply community t rx = none) ∧
    (∀ out, snmp_agent_reply community t rx = some out →
      ∃ req d, snmp_decode_request rx = some req ∧ decode_response out = some d ∧
        d.version = req.version ∧ d.community = req.community ∧
        d.request_id = req.request_id) ∧
    snmp_agent_reply UPS_SNMP_COMMUNITY charge77Telemetry
      (request_bytes 2 publicBytes SNMP_TYPE_GET_REQUEST 1234567
        OID_UPS_EST_CHARGE_REMAINING_STD) = none ∧
    snmp_agent_reply UPS_SNMP_COMMUNITY charge77Telemetry
      (request_bytes 0 [0x70, 0x75, 0x62, 0x6C, 0x69] SNMP_TYPE_GET_REQUEST 1234567
        OID_UPS_EST_CHARGE_REMAINING_STD) = none ∧
    snmp_agent_reply UPS_SNMP_COMMUNITY charge77Telemetry
      (request_bytes 0 [0x70, 0x75, 0x62, 0x6C, 0x69, 0x43] SNMP_TYPE_GET_REQUEST 1234567
        OID_UPS_EST_CHARGE_REMAINING_STD) = none := by
  have hrej : ∀ req, snmp_decode_request rx = some req →
      (req.community.length ≠ strlen community ∨
        memcmp_eq req.community 0 community req.community.length = false) →
      snmp_agent_reply community t rx = none := fun req hdec h =>
    snmp_agent_reply_rejected community t rx req hdec
      (Or.inr (fun hc => (community_test_iff _ _).mpr hc h))
  refine ⟨?_, ?_, ?_, ?_, by decide, by decide, by decide⟩
  · intro req hdec hv
    exact snmp_agent_reply_rejected community t rx req hdec (Or.inl hv)
  · intro req hdec hl
    exact hrej req hdec (Or.inl hl)
  · intro req k hdec hk hb
    exact hrej req hdec (Or.inr (memcmp_eq_false_of_byte _ _ k hk hb))
  · intro out h
    obtain ⟨req, oid, hdec, -, -, hd⟩ := snmp_agent_reply_decodes community t rx out h
    exact ⟨req, _, hdec, hd, rfl, rfl, rfl⟩

/-- Claim C27.  Let the adapter have an expected heartbeat reply `expect` that is not
empty.  A step of the scheduler in `HEARTBEAT_VERIFY` goes to `ENQUEUE_CONSTANT` exactly
when the capture flag `done` is set and the captured reply has the length of `expect` and
agrees with it in every byte; the step then changes nothing else but the record of the
first call.  Otherwise the step goes to `WAIT_RETRY` with
`retry_not_before = now + 5000` (modulo 2^32), the constant index 0, the dynamic index 0
and the captured reply cleared.  The flag `done` is the reply of the current attempt: the
step that submits the heartbeat clears it, a call of the capture parser sets it exactly
when it stores the reply (at most 16 bytes), and the reset for a retry clears it.  From a
constant index 0 the steps in the four states before `ENQUEUE_CONSTANT` keep it 0, so the
bootstrap after a retry starts at the first descriptor.  The engine is not touched by the
verify step. -/
theorem heartbeat_verify_step (cfg : Config) (a : Adapter) (now_ms tick2_ms : Nat)
    (b : Scheduler) (s : Engine) (expect : List Nat)
    (hst : b.s_ups_bootstrap_state = ups_bootstrap_state_t.UPS_BOOTSTRAP_HEARTBEAT_VERIFY)
    (he : a.g_sub_adapter_constant_heartbeat_expect_return = some expect)
    (hlen : a.g_sub_adapter_constant_heartbeat_expect_return_len = expect.length)
    (hne : expect ≠ []) :
    ((ups_bootstrap_task cfg a now_ms tick2_ms b s).1.s_ups_bootstrap_state =
        ups_bootstrap_state_t.UPS_BOOTSTRAP_ENQUEUE_CONSTANT ↔
      b.s_bootstrap_heartbeat_done = true ∧
      b.s_bootstrap_heartbeat_rx_len = expect.length ∧
      ∀ k, k < expect.length → b.s_bootstrap_heartbeat_rx.getD k 0 = expect.getD k 0) ∧
    ((ups_bootstrap_task cfg a now_ms tick2_ms b s).1.s_ups_bootstrap_state =
        ups_bootstrap_state_t.UPS_BOOTSTRAP_ENQUEUE_CONSTANT →
      ups_bootstrap_task cfg a now_ms tick2_ms b s =
        ({ mark_bootstrap_started now_ms b with
           s_ups_bootstrap_state := ups_bootstrap_state_t.UPS_BOOTSTRAP_ENQUEUE_CONSTANT },
         s)) ∧
    ((ups_bootstrap_task cfg a now_ms tick2_ms b s).1.s_ups_bootstrap_state ≠
        ups_bootstrap_state_t.UPS_BOOTSTRAP_ENQUEUE_CONSTANT →
      (ups_bootstrap_task cfg a now_ms tick2_ms b s).1.s_ups_bootstrap_state =
        ups_bootstrap_state_t.UPS_BOOTSTRAP_WAIT_RETRY ∧
      (ups_bootstrap_task cfg a now_ms tick2_ms b s).1.s_init_retry_not_before_ms =
        (now_ms + 5000) % 4294967296 ∧
      (ups_bootstrap_task cfg a now_ms tick2_ms b s).1.s_bootstrap_constant_idx = 0 ∧
      (ups_bootstrap_task cfg a now_ms tick2_ms b s).1.s_bootstrap_dynamic_idx = 0 ∧
      (ups_bootstrap_task cfg a now_ms tick2_ms b s).1.s_bootstrap_heartbeat_rx_len = 0 ∧
      (ups_bootstrap_task cfg a now_ms tick2_ms b s).1.s_bootstrap_heartbeat_done = false ∧
      (ups_bootstrap_task cfg a now_ms tick2_ms b s).2 = s) ∧
    (∀ (b0 : Scheduler) (s0 : Engine),
      b0.s_ups_bootstrap_state = ups_bootstrap_state_t.UPS_BOOTSTRAP_ENQUEUE_HEARTBEAT →
      (ups_bootstrap_task cfg a now_ms tick2_ms b0 s0).1.s_ups_bootstrap_state =
        ups_bootstrap_state_t.UPS_BOOTSTRAP_WAIT_HEARTBEAT_DRAIN →
      (ups_bootstrap_task cfg a now_ms tick2_ms b0 s0).1.s_bootstrap_heartbeat_done =
        false) ∧
    (∀ (cmd out_value rx_len : Nat) (rx : List Nat) (b0 : Scheduler),
      ((ups_bootstrap_heartbeat_capture cmd (some rx) rx_len out_value
          b0).2.s_bootstrap_heartbeat_done = true ↔ rx_len ≤ 16) ∧
      (rx_len ≤ 16 →
        (ups_bootstrap_heartbeat_capture cmd (some rx) rx_len out_value
          b0).2.s_bootstrap_heartbeat_rx_len = rx_len ∧
        ∀ k, k < rx_len →
          (ups_bootstrap_heartbeat_capture cmd (some rx) rx_len out_value
            b0).2.s_bootstrap_heartbeat_rx.getD k 0 = rx.getD k 0)) ∧
    (∀ (b0 : Scheduler) (s0 : Engine),
      b0.s_bootstrap_constant_idx = 0 →
      (b0.s_ups_bootstrap_state = ups_bootstrap_state_t.UPS_BOOTSTRAP_WAIT_RETRY ∨
        b0.s_ups_bootstrap_state = ups_bootstrap_state_t.UPS_BOOTSTRAP_ENQUEUE_HEARTBEAT ∨
        b0.s_ups_bootstrap_state = ups_bootstrap_state_t.UPS_BOOTSTRAP_WAIT_HEARTBEAT_DRAIN ∨
        b0.s_ups_bootstrap_state = ups_bootstrap_state_t.UPS_BOOTSTRAP_HEARTBEAT_VERIFY) →
      (ups_bootstrap_task cfg a now_ms tick2_ms b0 s0).1.s_bootstrap_constant_idx = 0) := by
  have hm := matches_expected_iff a (mark_bootstrap_started now_ms b) expect he hlen hne
  have hfld : (mark_bootstrap_started now_ms b).s_bootstrap_heartbeat_done =
        b.s_bootstrap_heartbeat_done ∧
      (mark_bootstrap_started now_ms b).s_bootstrap_heartbeat_rx_len =
        b.s_bootstrap_heartbeat_rx_len ∧
      (mark_bootstrap_started now_ms b).s_bootstrap_heartbeat_rx =
        b.s_bootstrap_heartbeat_rx ∧
      (mark_bootstrap_started now_ms b).s_ups_bootstrap_state =
        b.s_ups_bootstrap_state := by
    unfold mark_bootstrap_started
    split <;> exact ⟨rfl, rfl, rfl, rfl⟩
  rw [hfld.1, hfld.2.1, hfld.2.2.1] at hm
  have hstep : ups_bootstrap_task cfg a now_ms tick2_ms b s =
      if ups_bootstrap_heartbeat_matches_expected a (mark_bootstrap_started now_ms b) then
        ({ mark_bootstrap_started now_ms b with
           s_ups_bootstrap_state := ups_bootstrap_state_t.UPS_BOOTSTRAP_ENQUEUE_CONSTANT },
         s)
      else (ups_bootstrap_reset_for_retry now_ms (mark_bootstrap_started now_ms b), s) := by
    unfold ups_bootstrap_task bootstrap_switch
    rw [hfld.2.2.2, hst]
  refine ⟨?_, ?_, ?_, ?_, ?_, ?_⟩
  · rw [hstep, ← hm]
    cases ups_bootstrap_heartbeat_matches_expected a (mark_bootstrap_started now_ms b)
    · simp [ups_bootstrap_reset_for_retry]
    · simp
  · rw [hstep]
    cases ups_bootstrap_heartbeat_matches_expected a (mark_bootstrap_started now_ms b)
    · simp [ups_bootstrap_reset_for_retry]
    · simp
  · rw [hstep]
    cases ups_bootstrap_heartbeat_matches_expected a (mark_bootstrap_started now_ms b)
    · intro _
      exact ⟨rfl, rfl, rfl, rfl, rfl, rfl, rfl⟩
    · simp
  · intro b0 s0 h0 h1
    have hs0 : (mark_bootstrap_started now_ms b0).s_ups_bootstrap_state =
        ups_bootstrap_state_t.UPS_BOOTSTRAP_ENQUEUE_HEARTBEAT := by
      rw [← h0]; unfold mark_bootstrap_started; split <;> rfl
    unfold ups_bootstrap_task bootstrap_switch at h1 ⊢
    rw [hs0] at h1 ⊢
    simp only [] at h1 ⊢
    cases hh : a.g_sub_adapter_constant_heartbeat with
    | none =>
      try rw [hh] at h1
      simp [ups_bootstrap_reset_for_retry] at h1
    | some hb =>
      try rw [hh] at h1
      try rw [hh]
      simp only [] at h1 ⊢
      rcases hq : uart_engine_enqueue cfg (some (bootstrap_heartbeat_request hb)) s0 with
        ⟨r, s1⟩
      try rw [hq] at h1
      try rw [hq]
      cases r <;> simp only [] at h1 ⊢
      all_goals
        rw [hs0] at h1
        cases h1
  · intro cmd out_value rx_len rx b0
    unfold ups_bootstrap_heartbeat_capture UPS_BOOTSTRAP_HEARTBEAT_RX_BUF_SIZE
    simp only []
    by_cases hl : rx_len > 16
    · rw [if_pos hl]
      exact ⟨by simp; omega, fun h => absurd h (by omega)⟩
    · rw [if_neg hl]
      refine ⟨by simp; omega, fun _ => ⟨rfl, fun k hk => ?_⟩⟩
      simp only [memcpy]
      rw [List.getD_append _ _ _ _ (by simpa using hk)]
      rw [List.getD_eq_getElem _ _ (by simpa using hk)]
      simp
  · intro b0 s0 h0 hs
    have hm0 : (mark_bootstrap_started now_ms b0).s_bootstrap_constant_idx = 0 ∧
        (mark_bootstrap_started now_ms b0).s_ups_bootstrap_state =
          b0.s_ups_bootstrap_state := by
      rw [← h0]; unfold mark_bootstrap_started; split <;> exact ⟨rfl, rfl⟩
    unfold ups_bootstrap_task bootstrap_switch
    rw [hm0.2]
    rcases hs with hs | hs | hs | hs <;> rw [hs] <;> simp only []
    · split <;> exact hm0.1
    · split
      · rfl
      · split <;> exact hm0.1
    · split <;> exact hm0.1
    · split
      · exact hm0.1
      · rfl

/-- Witness of C27.  With the expected reply `AA BB`, the captured reply `AA BC` sends the
verify step at time 1000 to `WAIT_RETRY` with `retry_not_before = 6000`, and the captured
reply `AA BB` sends it to `ENQUEUE_CONSTANT`. -/
theorem heartbeat_verify_step_witness :
    ((ups_bootstrap_task defaultConfig echoAdapter 1000 1000 (verifying [0xAA, 0xBC])
        (boot healthyTelemetry)).1.s_ups_bootstrap_state =
      ups_bootstrap_state_t.UPS_BOOTSTRAP_WAIT_RETRY ∧
     (ups_bootstrap_task defaultConfig echoAdapter 1000 1000 (verifying [0xAA, 0xBC])
        (boot healthyTelemetry)).1.s_init_retry_not_before_ms = (1000 + 5000) % 4294967296) ∧
    (ups_bootstrap_task defaultConfig echoAdapter 1000 1000 (verifying [0xAA, 0xBB])
        (boot healthyTelemetry)).1.s_ups_bootstrap_state =
      ups_bootstrap_state_t.UPS_BOOTSTRAP_ENQUEUE_CONSTANT :=
  ⟨(fun h => ⟨h.1, h.2.1⟩)
    ((heartbeat_verify_step defaultConfig echoAdapter 1000 1000
      (verifying [0xAA, 0xBC]) (boot healthyTelemetry) [0xAA, 0xBB] rfl rfl rfl
      (by decide)).2.2.1 (by decide)),
   (heartbeat_verify_step defaultConfig echoAdapter 1000 1000
      (verifying [0xAA, 0xBB]) (boot healthyTelemetry) [0xAA, 0xBB] rfl rfl rfl
      (by decide)).1.mpr (by decide)⟩

/-- Claim C28.  Let the scheduler be in `WAIT_RETRY`, entered at time `t`, so that
`retry_not_before = t + 5000` modulo 2^32, and let `sub32 now t` be the time elapsed since
then, taken modulo 2^32.  A step at time `now` moves to `ENQUEUE_HEARTBEAT` exactly when
the elapsed time is at least 5000 and below 2^31 + 5000, and stays in `WAIT_RETRY`
otherwise.  So for elapsed times below 2^31 ms, wrap-around of the clock included, the
step stays while the elapsed time is below 5000 and moves as soon as it is at least
5000; below 2^31 the elapsed time is also the signed reading of the difference.  A step
that stays keeps `retry_not_before`, and no step in `WAIT_RETRY` touches the engine.  The
reset for a retry at time `t` is what enters `WAIT_RETRY` with that deadline. -/
theorem wait_retry_gate (cfg : Config) (a : Adapter) (now_ms tick2_ms t : Nat)
    (b : Scheduler) (s : Engine)
    (hst : b.s_ups_bootstrap_state = ups_bootstrap_state_t.UPS_BOOTSTRAP_WAIT_RETRY)
    (hnb : b.s_init_retry_not_before_ms = add32 t UPS_INIT_RETRY_PERIOD_MS) :
    ((ups_bootstrap_task cfg a now_ms tick2_ms b s).1.s_ups_bootstrap_state =
        ups_bootstrap_state_t.UPS_BOOTSTRAP_ENQUEUE_HEARTBEAT ↔
      5000 ≤ sub32 now_ms t ∧ sub32 now_ms t < 2147483648 + 5000) ∧
    ((ups_bootstrap_task cfg a now_ms tick2_ms b s).1.s_ups_bootstrap_state =
        ups_bootstrap_state_t.UPS_BOOTSTRAP_WAIT_RETRY ↔
      sub32 now_ms t < 5000 ∨ 2147483648 + 5000 ≤ sub32 now_ms t) ∧
    (sub32 now_ms t < 2147483648 →
      asInt32 (sub32 now_ms t) = (sub32 now_ms t : Int) ∧
      ((ups_bootstrap_task cfg a now_ms tick2_ms b s).1.s_ups_bootstrap_state =
          ups_bootstrap_state_t.UPS_BOOTSTRAP_WAIT_RETRY ↔ sub32 now_ms t < 5000) ∧
      ((ups_bootstrap_task cfg a now_ms tick2_ms b s).1.s_ups_bootstrap_state =
          ups_bootstrap_state_t.UPS_BOOTSTRAP_ENQUEUE_HEARTBEAT ↔
        5000 ≤ sub32 now_ms t)) ∧
    (ups_bootstrap_task cfg a now_ms tick2_ms b s).1.s_init_retry_not_before_ms =
      b.s_init_retry_not_before_ms ∧
    (ups_bootstrap_task cfg a now_ms tick2_ms b s).2 = s ∧
    (∀ b0 : Scheduler,
      (ups_bootstrap_reset_for_retry t b0).s_ups_bootstrap_state =
        ups_bootstrap_state_t.UPS_BOOTSTRAP_WAIT_RETRY ∧
      (ups_bootstrap_reset_for_retry t b0).s_init_retry_not_before_ms =
        (t + 5000) % 4294967296) := by
  have hm : (mark_bootstrap_started now_ms b).s_ups_bootstrap_state =
        b.s_ups_bootstrap_state ∧
      (mark_bootstrap_started now_ms b).s_init_retry_not_before_ms =
        b.s_init_retry_not_before_ms := by
    unfold mark_bootstrap_started
    split <;> exact ⟨rfl, rfl⟩
  have hstep : ups_bootstrap_task cfg a now_ms tick2_ms b s =
      if asInt32 (sub32 now_ms (add32 t UPS_INIT_RETRY_PERIOD_MS)) ≥ 0 then
        ({ mark_bootstrap_started now_ms b with
           s_ups_bootstrap_state := ups_bootstrap_state_t.UPS_BOOTSTRAP_ENQUEUE_HEARTBEAT },
         s)
      else (mark_bootstrap_started now_ms b, s) := by
    unfold ups_bootstrap_task bootstrap_switch
    rw [hm.1, hst]
    simp only []
    rw [hm.2, hnb]
  obtain ⟨har, hlt⟩ := wait_retry_arith now_ms t
  have hmove : (ups_bootstrap_task cfg a now_ms tick2_ms b s).1.s_ups_bootstrap_state =
        ups_bootstrap_state_t.UPS_BOOTSTRAP_ENQUEUE_HEARTBEAT ↔
      5000 ≤ sub32 now_ms t ∧ sub32 now_ms t < 2147483648 + 5000 := by
    rw [hstep, ← har]
    by_cases hc : asInt32 (sub32 now_ms (add32 t UPS_INIT_RETRY_PERIOD_MS)) ≥ 0
    · rw [if_pos hc]
      exact ⟨fun _ => hc, fun _ => rfl⟩
    · rw [if_neg hc]
      constructor
      · intro h
        rw [hm.1, hst] at h
        cases h
      · intro h
        exact absurd h hc
  have hstay : (ups_bootstrap_task cfg a now_ms tick2_ms b s).1.s_ups_bootstrap_state =
        ups_bootstrap_state_t.UPS_BOOTSTRAP_WAIT_RETRY ↔
      sub32 now_ms t < 5000 ∨ 2147483648 + 5000 ≤ sub32 now_ms t := by
    have hn : (sub32 now_ms t < 5000 ∨ 2147483648 + 5000 ≤ sub32 now_ms t) ↔
        ¬ asInt32 (sub32 now_ms (add32 t UPS_INIT_RETRY_PERIOD_MS)) ≥ 0 := by
      rw [ge_iff_le, har]
      omega
    rw [hstep, hn]
    by_cases hc : asInt32 (sub32 now_ms (add32 t UPS_INIT_RETRY_PERIOD_MS)) ≥ 0
    · rw [if_pos hc]
      constructor
      · intro h
        cases h
      · intro h
        exact absurd hc h
    · rw [if_neg hc]
      exact ⟨fun _ => hc, fun _ => by rw [hm.1, hst]⟩
  refine ⟨hmove, hstay, ?_, ?_, ?_, fun b0 => ⟨rfl, rfl⟩⟩
  · intro hel
    refine ⟨?_, ?_, ?_⟩
    · unfold asInt32 U32
      rw [Nat.mod_eq_of_lt hlt, if_pos hel]
    · rw [hstay]
      omega
    · rw [hmove]
      omega
  · rw [hstep]
    split
    · exact hm.2
    · exact hm.2
  · rw [hstep]
    split <;> rfl

/-- Witness of C28.  `WAIT_RETRY` is entered at time 2^32 - 1000, so the deadline wraps
to 4000: the step at time 3999 (4999 ms later) stays in `WAIT_RETRY` and the step at
time 4000 (5000 ms later) moves to `ENQUEUE_HEARTBEAT`. -/
theorem wait_retry_gate_witness :
    (ups_bootstrap_task defaultConfig echoAdapter 3999 3999 (retrying 4294966296)
        (boot healthyTelemetry)).1.s_ups_bootstrap_state =
      ups_bootstrap_state_t.UPS_BOOTSTRAP_WAIT_RETRY ∧
    (ups_bootstrap_task defaultConfig echoAdapter 4000 4000 (retrying 4294966296)
        (boot healthyTelemetry)).1.s_ups_bootstrap_state =
      ups_bootstrap_state_t.UPS_BOOTSTRAP_ENQUEUE_HEARTBEAT :=
  ⟨(wait_retry_gate defaultConfig echoAdapter 3999 3999 4294966296 (retrying 4294966296)
      (boot healthyTelemetry) rfl rfl).2.1.mpr (Or.inl (by decide)),
   (wait_retry_gate defaultConfig echoAdapter 4000 4000 4294966296 (retrying 4294966296)
      (boot healthyTelemetry) rfl rfl).1.mpr (by decide)⟩

/-- Claim C29.  One call of `ups_enqueue_full_lut_step` on a table with an index
`idx ≤ count` accepts some number `k ≤ 8` of descriptors: it submits the descriptors
`idx`, ..., `idx + k - 1` in table order, each of them is accepted, the index becomes
`idx + k ≤ count`, and the call stops because `k = 8`, because the table is exhausted or
because `uart_engine_enqueue` does not return OK for descriptor `idx + k`, which leaves
the engine as it is.  On a well-formed ring the queue grows by exactly the Jobs of these
descriptors.  The loop needs no more than 8 passes.  The descriptors of two calls in a
row are those of one slice of the table, so none is skipped or submitted twice.  A step
of the scheduler in `ENQUEUE_CONSTANT` (or `ENQUEUE_DYNAMIC`) with an index within the
table keeps the index within the table, and it leaves the state, for `ENQUEUE_DYNAMIC`
(or `WAIT_DRAIN`), exactly when the index equals the table count. -/
theorem table_pump_contract (cfg : Config) (lut : List uart_engine_request_t)
    (count idx : Nat) (s : Engine) (hidx : idx ≤ count) :
    (∃ k, k ≤ 8 ∧ idx + k ≤ count ∧
      (ups_enqueue_full_lut_step cfg (some lut) count idx s).1 = idx + k ∧
      (ups_enqueue_full_lut_step cfg (some lut) count idx s).2 =
        enqueue_all cfg (lut_slice lut idx k) s ∧
      all_accepted cfg (lut_slice lut idx k) s = true ∧
      (k = 8 ∨ idx + k = count ∨
        ((uart_engine_enqueue cfg (some (lut.getD (idx + k) zeroRequest))
            (enqueue_all cfg (lut_slice lut idx k) s)).1 ≠ uart_engine_result_t.OK ∧
          (uart_engine_enqueue cfg (some (lut.getD (idx + k) zeroRequest))
            (enqueue_all cfg (lut_slice lut idx k) s)).2 =
            enqueue_all cfg (lut_slice lut idx k) s)) ∧
      (RingWF s → count ≤ lut.length →
        RingWF (ups_enqueue_full_lut_step cfg (some lut) count idx s).2 ∧
        queued (ups_enqueue_full_lut_step cfg (some lut) count idx s).2 =
          queued s ++ ((lut.drop idx).take k).map (fun r => job_of r false))) ∧
    (∀ fuel, 8 ≤ fuel →
      ups_enqueue_full_lut_loop cfg lut count fuel 0 idx s =
        ups_enqueue_full_lut_loop cfg lut count 8 0 idx s) ∧
    (∀ k k2, lut_slice lut idx k ++ lut_slice lut (idx + k) k2 =
      lut_slice lut idx (k + k2)) ∧
    (∀ (a : Adapter) (b : Scheduler) (s0 : Engine) (now_ms tick2_ms : Nat),
      b.s_ups_bootstrap_state = ups_bootstrap_state_t.UPS_BOOTSTRAP_ENQUEUE_CONSTANT →
      b.s_bootstrap_constant_idx ≤ a.g_sub_adapter_constant_lut_count →
      (ups_bootstrap_task cfg a now_ms tick2_ms b s0).1.s_bootstrap_constant_idx ≤
        a.g_sub_adapter_constant_lut_count ∧
      ((ups_bootstrap_task cfg a now_ms tick2_ms b s0).1.s_ups_bootstrap_state =
          ups_bootstrap_state_t.UPS_BOOTSTRAP_ENQUEUE_CONSTANT ∨
        (ups_bootstrap_task cfg a now_ms tick2_ms b s0).1.s_ups_bootstrap_state =
          ups_bootstrap_state_t.UPS_BOOTSTRAP_ENQUEUE_DYNAMIC) ∧
      ((ups_bootstrap_task cfg a now_ms tick2_ms b s0).1.s_ups_bootstrap_state ≠
          ups_bootstrap_state_t.UPS_BOOTSTRAP_ENQUEUE_CONSTANT ↔
        (ups_bootstrap_task cfg a now_ms tick2_ms b s0).1.s_bootstrap_constant_idx =
          a.g_sub_adapter_constant_lut_count)) ∧
    (∀ (a : Adapter) (b : Scheduler) (s0 : Engine) (now_ms tick2_ms : Nat),
      b.s_ups_bootstrap_state = ups_bootstrap_state_t.UPS_BOOTSTRAP_ENQUEUE_DYNAMIC →
      b.s_bootstrap_dynamic_idx ≤ a.g_sub_adapter_dynamic_lut_count →
      (ups_bootstrap_task cfg a now_ms tick2_ms b s0).1.s_bootstrap_dynamic_idx ≤
        a.g_sub_adapter_dynamic_lut_count ∧
      ((ups_bootstrap_task cfg a now_ms tick2_ms b s0).1.s_ups_bootstrap_state =
          ups_bootstrap_state_t.UPS_BOOTSTRAP_ENQUEUE_DYNAMIC ∨
        (ups_bootstrap_task cfg a now_ms tick2_ms b s0).1.s_ups_bootstrap_state =
          ups_bootstrap_state_t.UPS_BOOTSTRAP_WAIT_DRAIN) ∧
      ((ups_bootstrap_task cfg a now_ms tick2_ms b s0).1.s_ups_bootstrap_state ≠
          ups_bootstrap_state_t.UPS_BOOTSTRAP_ENQUEUE_DYNAMIC ↔
        (ups_bootstrap_task cfg a now_ms tick2_ms b s0).1.s_bootstrap_dynamic_idx =
          a.g_sub_adapter_dynamic_lut_count)) := by
  have hmark : ∀ (now_ms : Nat) (b : Scheduler),
      (mark_bootstrap_started now_ms b).s_ups_bootstrap_state = b.s_ups_bootstrap_state ∧
      (mark_bootstrap_started now_ms b).s_bootstrap_constant_idx =
        b.s_bootstrap_constant_idx ∧
      (mark_bootstrap_started now_ms b).s_bootstrap_dynamic_idx =
        b.s_bootstrap_dynamic_idx := by
    intro now_ms b
    unfold mark_bootstrap_started
    split <;> exact ⟨rfl, rfl, rfl⟩
  refine ⟨?_, ?_, fun k k2 => lut_slice_append lut idx k k2, ?_, ?_⟩
  · unfold ups_enqueue_full_lut_step
    simp only []
    by_cases hge : idx ≥ count
    · rw [if_pos hge]
      refine ⟨0, by omega, by omega, rfl, rfl, rfl, Or.inr (Or.inl (by omega)), ?_⟩
      intro hwf _
      exact ⟨hwf, by simp⟩
    · rw [if_neg hge]
      obtain ⟨k, k1, k2, k3, k4, k5⟩ := lut_loop_spec cfg lut count
        UPS_ENQUEUE_BURST_PER_TICK 0 idx s (by omega) (Nat.zero_le _) hidx
      rw [k3]
      unfold UPS_ENQUEUE_BURST_PER_TICK at k1 k5
      refine ⟨k, by omega, k2, rfl, rfl, k4, ?_, ?_⟩
      · rcases k5 with k5 | k5 | k5
        · exact Or.inl (by omega)
        · exact Or.inr (Or.inl k5)
        · exact Or.inr (Or.inr ⟨k5, enqueue_not_ok_state _ _ _ k5⟩)
      · intro hwf hlen
        have := enqueue_all_queued cfg (lut_slice lut idx k) s hwf k4
        refine ⟨this.1, ?_⟩
        show queued (enqueue_all cfg (lut_slice lut idx k) s) = _
        rw [this.2, lut_slice_eq_take_drop lut idx k (by omega)]
  · intro fuel hfuel
    exact lut_loop_fuel cfg lut count fuel 8 0 idx s
      (by unfold UPS_ENQUEUE_BURST_PER_TICK; omega) (by decide)
  · intro a b s0 now_ms tick2_ms hst hb
    obtain ⟨m1, m2, m3⟩ := hmark now_ms b
    have hi := lut_step_index cfg a.g_sub_adapter_constant_lut
      a.g_sub_adapter_constant_lut_count (mark_bootstrap_started now_ms b).s_bootstrap_constant_idx
      s0 (by rw [m2]; exact hb)
    have hs := bootstrap_task_enqueue_constant cfg a now_ms tick2_ms b s0 hst
    by_cases hge : (ups_enqueue_full_lut_step cfg a.g_sub_adapter_constant_lut
        a.g_sub_adapter_constant_lut_count
        (mark_bootstrap_started now_ms b).s_bootstrap_constant_idx s0).1 ≥
        a.g_sub_adapter_constant_lut_count
    · rw [if_pos hge] at hs
      rw [hs]
      refine ⟨hi.2, Or.inr rfl, fun _ => Nat.le_antisymm hi.2 hge, fun _ h => ?_⟩
      cases h
    · rw [if_neg hge] at hs
      rw [hs]
      refine ⟨hi.2, Or.inl rfl, fun hne => absurd rfl hne, fun heq => ?_⟩
      exact absurd (Nat.le_of_eq heq.symm) hge
  · intro a b s0 now_ms tick2_ms hst hb
    obtain ⟨m1, m2, m3⟩ := hmark now_ms b
    have hi := lut_step_index cfg a.g_sub_adapter_dynamic_lut
      a.g_sub_adapter_dynamic_lut_count (mark_bootstrap_started now_ms b).s_bootstrap_dynamic_idx
      s0 (by rw [m3]; exact hb)
    have hs := bootstrap_task_enqueue_dynamic cfg a now_ms tick2_ms b s0 hst
    by_cases hge : (ups_enqueue_full_lut_step cfg a.g_sub_adapter_dynamic_lut
        a.g_sub_adapter_dynamic_lut_count
        (mark_bootstrap_started now_ms b).s_bootstrap_dynamic_idx s0).1 ≥
        a.g_sub_adapter_dynamic_lut_count
    · rw [if_pos hge] at hs
      rw [hs]
      refine ⟨hi.2, Or.inr rfl, fun _ => Nat.le_antisymm hi.2 hge, fun _ h => ?_⟩
      cases h
    · rw [if_neg hge] at hs
      rw [hs]
      refine ⟨hi.2, Or.inl rfl, fun hne => absurd rfl hne, fun heq => ?_⟩
      exact absurd (Nat.le_of_eq heq.symm) hge

/-- Witness of C29.  On a freshly initialised engine the pump over the three constant
descriptors of `echoAdapter`, called with index 0, accepts all three: the index becomes 3
and the queue holds their three Jobs in table order. -/
theorem table_pump_contract_witness :
    (∃ k, k ≤ 8 ∧ 0 + k ≤ 3 ∧
      (ups_enqueue_full_lut_step defaultConfig (some [pollReq, capacityReq, parsedReq]) 3 0
        (uart_engine_init (boot healthyTelemetry))).1 = 0 + k ∧
      (ups_enqueue_full_lut_step defaultConfig (some [pollReq, capacityReq, parsedReq]) 3 0
        (uart_engine_init (boot healthyTelemetry))).2 =
        enqueue_all defaultConfig (lut_slice [pollReq, capacityReq, parsedReq] 0 k)
          (uart_engine_init (boot healthyTelemetry))) ∧
    (ups_enqueue_full_lut_step defaultConfig (some [pollReq, capacityReq, parsedReq]) 3 0
        (uart_engine_init (boot healthyTelemetry))).1 = 3 ∧
    queued (ups_enqueue_full_lut_step defaultConfig (some [pollReq, capacityReq, parsedReq])
        3 0 (uart_engine_init (boot healthyTelemetry))).2 =
      [job_of pollReq false, job_of capacityReq false, job_of parsedReq false] :=
  ⟨(fun ⟨k, h1, h2, h3, h4, _⟩ => ⟨k, h1, h2, h3, h4⟩)
    (table_pump_contract defaultConfig [pollReq, capacityReq, parsedReq] 3 0
      (uart_engine_init (boot healthyTelemetry)) (by decide)).1,
   by decide, by decide⟩

/-- Claim C30.  Take any history of the calls `app_main` makes, in any order and with any
arguments, clock values and serial inputs: `uart_engine_init`,
`uart_engine_set_enabled`, `ups_bootstrap_task`, `ups_dynamic_update_task` and
`uart_engine_tick` (with the calls of the capture parser it makes), started from the
statics at power-on; `uart_engine_set_heartbeat` is not among them.  In the state it
reaches the heartbeat of the engine is disabled, no heartbeat is queued or active, the
counter of consecutive heartbeat failures is 0, and neither the active Job nor a queued
Job is tagged as a heartbeat.  So `on_job_final_failure` changes nothing for the active
Job or a queued Job, and the telemetry is written by the parser callbacks only: every
property of the telemetry that holds at power-on and that the parsers keep holds in the
state reached, and when the parsers write nothing the telemetry is the one of power-on.
The heartbeat that the bootstrap submits is an ordinary Job: after `uart_engine_init`
and one bootstrap step with `echoAdapter` it is the only queued Job and not tagged. -/
theorem main_flow_has_no_heartbeat (cfg : Config) (a : Adapter) (t : Telemetry)
    (calls : List MainCall) :
    (run_main cfg a calls (bootScheduler, boot t)).2.s_hb_enabled = false ∧
    (run_main cfg a calls (bootScheduler, boot t)).2.s_hb_queued_or_active = false ∧
    (run_main cfg a calls (bootScheduler, boot t)).2.s_hb_consecutive_failures = 0 ∧
    (run_main cfg a calls (bootScheduler, boot t)).2.s_active.is_heartbeat = false ∧
    (∀ j ∈ queued (run_main cfg a calls (bootScheduler, boot t)).2,
      j.is_heartbeat = false) ∧
    (∀ job, job = (run_main cfg a calls (bootScheduler, boot t)).2.s_active ∨
        job ∈ queued (run_main cfg a calls (bootScheduler, boot t)).2 →
      on_job_final_failure job (run_main cfg a calls (bootScheduler, boot t)).2 =
        (run_main cfg a calls (bootScheduler, boot t)).2) ∧
    (∀ P : Telemetry → Prop, P t → MainKeeps P calls →
      P (run_main cfg a calls (bootScheduler, boot t)).2.telemetry) ∧
    (MainKeeps (fun x => x = t) calls →
      (run_main cfg a calls (bootScheduler, boot t)).2.telemetry = t) ∧
    queued (run_main defaultConfig echoAdapter
        [MainCall.init, MainCall.bootstrap_task 0 0]
        (bootScheduler, boot healthyTelemetry)).2 =
      [job_of (bootstrap_heartbeat_request hbEchoReq) false] := by
  have hkeep : ∀ P : Telemetry → Prop, P t → MainKeeps P calls →
      HbOff P (run_main cfg a calls (bootScheduler, boot t)).2 := fun P hP hk =>
    hbOff_run_main P cfg a calls (bootScheduler, boot t) hk (hbOff_boot P t hP)
  have h := hkeep (fun _ => True) True.intro (mainKeeps_true calls)
  have hq : ∀ j ∈ queued (run_main cfg a calls (bootScheduler, boot t)).2,
      j.is_heartbeat = false := by
    intro j hj
    unfold queued at hj
    obtain ⟨i, -, hi⟩ := List.mem_map.mp hj
    rw [← hi]
    exact getD_not_heartbeat _ _ h.2.2.2.2.1
  refine ⟨h.1, h.2.1, h.2.2.1, h.2.2.2.1, hq, ?_, ?_, ?_, by decide⟩
  · intro job hjob
    have hj : job.is_heartbeat = false := by
      rcases hjob with hjob | hjob
      · rw [hjob]; exact h.2.2.2.1
      · exact hq job hjob
    unfold on_job_final_failure
    rw [hj]
    rfl
  · intro P hP hk
    exact (hkeep P hP hk).2.2.2.2.2
  · intro hk
    exact (hkeep (fun x => x = t) rfl hk).2.2.2.2.2

/-- Claim C31.  Let the engine be enabled and in `IDLE` with `s_retry_not_before_ms = 0`
(no retry was scheduled since `uart_engine_init`), a non-empty queue and the serial lock
free.  A pass of the tick loop that reads a clock value below 2^31 pops the head Job and
goes to `TX_START`.  With a clock value of 2^31 or more, that is, from 24.8 days of
uptime on, the test `(int32_t)(now - s_retry_not_before_ms) < 0` holds: the whole tick
does nothing but the heartbeat injection, no Job is popped, and the engine stays in
`IDLE`. -/
theorem stale_cooldown_blocks_idle_engine (cfg : Config) (ins : Nat → StepInput)
    (s : Engine) (hwf : RingWF s) (hen : s.s_enabled = true)
    (hidle : s.s_state = uart_engine_state_t.IDLE) (hnb : s.s_retry_not_before_ms = 0)
    (hq : s.s_q_count ≠ 0) (hlock : s.uart_lock_held = false) :
    ((ins 0).now_ms % 4294967296 < 2147483648 →
      (tick_step cfg (ins 0) s).2 = true ∧
      (tick_step cfg (ins 0) s).1.s_state = uart_engine_state_t.TX_START ∧
      (queued s).head? = some (tick_step cfg (ins 0) s).1.s_active) ∧
    (2147483648 ≤ (ins 0).now_ms % 4294967296 →
      uart_engine_tick cfg ins s =
        maybe_enqueue_heartbeat ((ins 0).now_ms % 4294967296) s ∧
      (uart_engine_tick cfg ins s).s_state = uart_engine_state_t.IDLE ∧
      (uart_engine_tick cfg ins s).s_active = s.s_active ∧
      (uart_engine_tick cfg ins s).s_q_head = s.s_q_head ∧
      s.s_q_count ≤ (uart_engine_tick cfg ins s).s_q_count ∧
      (s.s_hb_enabled = false → uart_engine_tick cfg ins s = s)) := by
  obtain ⟨f1, f2, f3, f4, f5, -, -⟩ := maybe_enqueue_heartbeat_frame (engine_now_ms (ins 0)) s
  have hgate := stale_gate_arith (ins 0).now_ms
  have hcount : s.s_q_count ≤ (maybe_enqueue_heartbeat (engine_now_ms (ins 0)) s).s_q_count := by
    rcases maybe_enqueue_heartbeat_cases (engine_now_ms (ins 0)) s with ⟨h, -⟩ | ⟨-, -, -, -, h⟩
    · rw [h]
    · rw [h]
      exact Nat.le_succ _
  constructor
  · intro hlt
    have hopen : ¬ asInt32 (sub32 (engine_now_ms (ins 0))
        (maybe_enqueue_heartbeat (engine_now_ms (ins 0)) s).s_retry_not_before_ms) < 0 := by
      rw [f5, hnb]
      intro h
      have := hgate.mp h
      unfold U32 at this
      omega
    have hstep : tick_step cfg (ins 0) s =
        tick_idle (engine_now_ms (ins 0)) (maybe_enqueue_heartbeat (engine_now_ms (ins 0)) s) := by
      unfold tick_step tick_dispatch
      rw [if_neg hopen, f1, hidle]
    obtain ⟨hw, hqd⟩ := maybe_enqueue_heartbeat_queued (engine_now_ms (ins 0)) s hwf
    rcases tick_idle_cases (engine_now_ms (ins 0)) _ hw with
      ⟨-, h0 | h0⟩ | ⟨-, -, h1, -, h2, -, h3, -, -⟩
    · omega
    · rw [f2, hlock] at h0
      cases h0
    · rw [hstep]
      refine ⟨h1, h2, ?_⟩
      have hne : queued s ≠ [] := by
        intro e
        have := length_queued s
        rw [e] at this
        exact hq this.symm
      rcases hqd with e | e
      · have h := (congrArg queued e).symm.trans h3
        rw [h]
        rfl
      · have h := e.symm.trans h3
        cases hqs : queued s with
        | nil => exact absurd hqs hne
        | cons j js =>
          rw [hqs] at h
          rw [← (List.cons.inj h).1]
          rfl
  · intro hge
    have hclosed : asInt32 (sub32 (engine_now_ms (ins 0))
        (maybe_enqueue_heartbeat (engine_now_ms (ins 0)) s).s_retry_not_before_ms) < 0 := by
      rw [f5, hnb]
      exact hgate.mpr hge
    have hstep : tick_step cfg (ins 0) s =
        (maybe_enqueue_heartbeat (engine_now_ms (ins 0)) s, false) := by
      unfold tick_step tick_dispatch
      rw [if_pos hclosed]
    have htick : uart_engine_tick cfg ins s =
        maybe_enqueue_heartbeat (engine_now_ms (ins 0)) s := by
      unfold uart_engine_tick
      rw [hen]
      exact tick_loop_stop cfg ins _ 0 s _ hstep
    rw [htick]
    refine ⟨rfl, by rw [f1, hidle], f3, f4, hcount, fun hoff => ?_⟩
    exact maybe_enqueue_heartbeat_off _ s hoff

/-- Witness of C31.  On the freshly initialised engine with `pollReq` queued, the tick at
clock value 2147483647 starts the Job and the tick at clock value 2147483648 changes
nothing: the Job stays queued and the engine stays in `IDLE`. -/
theorem stale_cooldown_blocks_idle_engine_witness :
    (tick_step defaultConfig (quietLine 2147483647 0) pollQueued).1.s_state =
      uart_engine_state_t.TX_START ∧
    uart_engine_tick defaultConfig (quietLine 2147483648) pollQueued = pollQueued ∧
    pollQueued.s_state = uart_engine_state_t.IDLE ∧
    queued pollQueued = [job_of pollReq false] :=
  ⟨((stale_cooldown_blocks_idle_engine defaultConfig (quietLine 2147483647) pollQueued
      (by decide) (by decide) (by decide) (by decide) (by decide) (by decide)).1
      (by decide)).2.1,
   ((stale_cooldown_blocks_idle_engine defaultConfig (quietLine 2147483648) pollQueued
      (by decide) (by decide) (by decide) (by decide) (by decide) (by decide)).2
      (by decide)).2.2.2.2.2 (by decide),
   by decide, by decide⟩

/-- Claim C32.  The parser is called in `PROCESS` only, with the first `s_rx_got` bytes of
`s_rx_buf`.  Take a pass of the tick loop in `RX_WAIT` on a buffer of 256 bytes with
`s_rx_got` within the cap (as in every reachable state).  The pass reads at most the room
left below the cap, and when the engine stays in `RX_WAIT` or goes to `PROCESS` the bytes
counted are those counted before followed by the bytes read; `RX_WAIT` is entered with no
byte counted, so over a run of such passes the bytes counted are exactly the bytes read
since then.  The pass goes to `PROCESS` exactly when the receive phase is done: a
fixed-length descriptor then has exactly `expected_len` bytes (none when
`expected_len = 0`), a framed one at most cap bytes, the cap being `expected_len` or 256
when that is 0, and its last bytes are the ending bytes.  When the phase is not done and a
framed reply has reached the cap, or the time since `RX_WAIT` was entered is at least
`timeout_ms`, the pass is `job_finish_failure`: the engine is back in `IDLE` and
`PROCESS`, hence the parser, is not reached.  In every reachable state in `PROCESS` the
receive phase is complete. -/
theorem parser_sees_complete_reply (cfg : Config) (inp : StepInput) (now_ms : Nat)
    (s : Engine) (hst : s.s_state = uart_engine_state_t.RX_WAIT)
    (hlen : s.s_rx_buf.length = 256)
    (hcap : request_rx_cap s.s_active.req ≤ 256)
    (hgot : s.s_rx_got ≤ request_rx_cap s.s_active.req) :
    ((tick_rx_wait cfg inp now_ms s).1.s_state = uart_engine_state_t.PROCESS ↔
      rx_phase_done cfg (rx_read inp (request_rx_cap s.s_active.req) s).1) ∧
    ((tick_rx_wait cfg inp now_ms s).1.s_state = uart_engine_state_t.RX_WAIT ∨
        (tick_rx_wait cfg inp now_ms s).1.s_state = uart_engine_state_t.PROCESS →
      (tick_rx_wait cfg inp now_ms s).1.s_active = s.s_active ∧
      (tick_rx_wait cfg inp now_ms s).1.s_rx_got ≤ request_rx_cap s.s_active.req ∧
      (tick_rx_wait cfg inp now_ms s).1.s_rx_buf.take
          (tick_rx_wait cfg inp now_ms s).1.s_rx_got =
        s.s_rx_buf.take s.s_rx_got ++
          inp.rx_avail.take (request_rx_cap s.s_active.req - s.s_rx_got)) ∧
    ((tick_rx_wait cfg inp now_ms s).1.s_state = uart_engine_state_t.PROCESS →
      (s.s_active.req.expected_ending = false →
        (tick_rx_wait cfg inp now_ms s).1.s_rx_got = s.s_active.req.expected_len ∧
        ((tick_rx_wait cfg inp now_ms s).1.s_rx_buf.take
          (tick_rx_wait cfg inp now_ms s).1.s_rx_got).length =
            s.s_active.req.expected_len) ∧
      (s.s_active.req.expected_ending = true →
        request_rx_cap s.s_active.req =
          (if s.s_active.req.expected_len = 0 then 256 else s.s_active.req.expected_len) ∧
        s.s_active.req.expected_ending_len ≤ (tick_rx_wait cfg inp now_ms s).1.s_rx_got ∧
        ∀ i, i < s.s_active.req.expected_ending_len →
          ((tick_rx_wait cfg inp now_ms s).1.s_rx_buf.take
              (tick_rx_wait cfg inp now_ms s).1.s_rx_got).getD
            ((tick_rx_wait cfg inp now_ms s).1.s_rx_got -
              s.s_active.req.expected_ending_len + i) 0 =
            s.s_active.req.expected_ending_bytes.getD i 0)) ∧
    (¬ rx_phase_done cfg (rx_read inp (request_rx_cap s.s_active.req) s).1 →
      (s.s_active.req.expected_ending = true ∧
          (rx_read inp (request_rx_cap s.s_active.req) s).1.s_rx_got ≥
            request_rx_cap s.s_active.req) ∨
        sub32 now_ms s.s_state_start_ms ≥ s.s_active.req.timeout_ms →
      (tick_rx_wait cfg inp now_ms s).1 =
        job_finish_failure cfg now_ms (rx_read inp (request_rx_cap s.s_active.req) s).1 ∧
      (tick_rx_wait cfg inp now_ms s).1.s_state = uart_engine_state_t.IDLE) ∧
    (∀ (s0 : Engine) (fn : Nat), s0.s_active.req.process_fn = some fn →
      call_process_fn inp s0 =
        inp.parser fn s0.s_active.req.cmd (s0.s_rx_buf.take s0.s_rx_got)
          s0.s_active.req.out_value s0.telemetry) ∧
    (∀ s0 : Engine, inp.tx_done = true →
      (tick_tx_wait cfg inp now_ms s0).1.s_state = uart_engine_state_t.RX_WAIT ∧
      (tick_tx_wait cfg inp now_ms s0).1.s_rx_got = 0) ∧
    (∀ inps : List StepInput,
      (rx_wait_run cfg inps s).1.s_state = uart_engine_state_t.RX_WAIT ∨
        (rx_wait_run cfg inps s).1.s_state = uart_engine_state_t.PROCESS →
      (rx_wait_run cfg inps s).1.s_rx_buf.take (rx_wait_run cfg inps s).1.s_rx_got =
        s.s_rx_buf.take s.s_rx_got ++ (rx_wait_run cfg inps s).2) ∧
    (∀ (t : Telemetry) (calls : List Call),
      (run_calls cfg calls (boot t)).s_state = uart_engine_state_t.PROCESS →
      rx_complete cfg (run_calls cfg calls (boot t))) := by
  obtain ⟨ha, hs1, hstart⟩ := rx_read_active inp (request_rx_cap s.s_active.req) s
  obtain ⟨r1, r2, -, r4, -⟩ := rx_read_facts inp s hlen hcap hgot
  have heq := tick_rx_wait_eq cfg inp now_ms s
  have hdone : (tick_rx_wait cfg inp now_ms s).1.s_state = uart_engine_state_t.PROCESS ↔
      rx_phase_done cfg (rx_read inp (request_rx_cap s.s_active.req) s).1 := by
    rw [heq]
    constructor
    · intro h
      by_contra hn
      rw [if_neg hn] at h
      split at h
      · rw [(job_finish_failure_idle cfg now_ms _).1] at h
        cases h
      · rw [hs1, hst] at h
        cases h
    · intro h
      rw [if_pos h]
  have hview := tick_rx_wait_view cfg inp now_ms s hlen hcap hgot
  refine ⟨hdone, ?_, ?_, ?_, ?_, ?_, ?_, ?_⟩
  · intro hr
    obtain ⟨v1, -, v3, v4, -, -⟩ := hview hr
    exact ⟨v1, v3, v4⟩
  · intro hp
    obtain ⟨v1, -, v3, -, v5, v6⟩ := hview (Or.inr hp)
    have hd := hdone.mp hp
    unfold rx_phase_done at hd
    rw [ha] at hd
    constructor
    · intro he
      rw [he] at hd
      simp only [Bool.false_eq_true, if_false] at hd
      have hc := request_rx_cap_fixed s.s_active.req he
      have hg : (tick_rx_wait cfg inp now_ms s).1.s_rx_got = s.s_active.req.expected_len := by
        rw [v6]
        omega
      refine ⟨hg, ?_⟩
      rw [List.length_take, v5, r1, hg]
      unfold UART_ENGINE_MAX_EXPECTED_LEN
      omega
    · intro he
      rw [he] at hd
      simp only [if_true] at hd
      obtain ⟨-, -, e3, e4⟩ := rx_ending_spec cfg _ _ _ hd
      refine ⟨?_, ?_, ?_⟩
      · unfold request_rx_cap UART_ENGINE_MAX_EXPECTED_LEN
        rw [he]
        rfl
      · rw [v6]
        exact e3
      · intro i hi
        rw [v5, v6]
        exact e4 i hi
  · intro hnd hfail
    have hcond : ((rx_read inp (request_rx_cap s.s_active.req) s).1.s_active.req.expected_ending =
          true ∧
        (rx_read inp (request_rx_cap s.s_active.req) s).1.s_rx_got ≥
          request_rx_cap s.s_active.req) ∨
        sub32 now_ms (rx_read inp (request_rx_cap s.s_active.req) s).1.s_state_start_ms ≥
          (rx_read inp (request_rx_cap s.s_active.req) s).1.s_active.req.timeout_ms := by
      rw [ha, hstart]
      exact hfail
    rw [heq, if_neg hnd, if_pos hcond]
    exact ⟨rfl, (job_finish_failure_idle cfg now_ms _).1⟩
  · intro s0 fn hfn
    unfold call_process_fn
    rw [hfn]
  · intro s0 htx
    unfold tick_tx_wait
    rw [if_pos htx]
    exact ⟨rfl, rfl⟩
  · intro inps hr
    exact rx_wait_run_view cfg inps s hlen hcap hgot hr
  · intro t calls hp
    exact (rxInv_run_calls cfg calls (boot t) (rxInv_boot cfg t)).2.2.2.2 hp

/-- Witness of C32.  The framed request with ending `0D 0A` is in `RX_WAIT` with no byte
read; the pass that finds `48 49 0D 0A` on the line goes to `PROCESS`, and the parser
view is exactly those four bytes. -/
theorem parser_sees_complete_reply_witness :
    (tick_rx_wait defaultConfig (answerLine 5 [0x48, 0x49, 0x0D, 0x0A] 0) 5
        framedInRxWait).1.s_state = uart_engine_state_t.PROCESS ∧
    (tick_rx_wait defaultConfig (answerLine 5 [0x48, 0x49, 0x0D, 0x0A] 0) 5
        framedInRxWait).1.s_rx_buf.take
      (tick_rx_wait defaultConfig (answerLine 5 [0x48, 0x49, 0x0D, 0x0A] 0) 5
        framedInRxWait).1.s_rx_got = [0x48, 0x49, 0x0D, 0x0A] :=
  ⟨(parser_sees_complete_reply defaultConfig (answerLine 5 [0x48, 0x49, 0x0D, 0x0A] 0) 5
      framedInRxWait (by decide) framedInRxWait_buf_length (by decide) (by decide)).1.mpr (by decide),
   (((parser_sees_complete_reply defaultConfig (answerLine 5 [0x48, 0x49, 0x0D, 0x0A] 0) 5
      framedInRxWait (by decide) framedInRxWait_buf_length (by decide) (by decide)).2.1
      (Or.inr (by decide))).2.2).trans (by decide)⟩

/-- Claim C33.  Take any history of calls of the public operations, started from the
statics at power-on, and the state it reaches.  There `s_rx_got` is at most the cap of
the active Job, `request_rx_cap(&s_active.req)`, which is at most 256, the size of
`s_rx_buf`.  So the destination of a read, `want = rx_cap - s_rx_got` bytes from offset
`s_rx_got`, ends inside the buffer, the bytes a read stores (at most `want`, as the driver
returns) end inside the buffer and keep the count within the cap, and the parser view, the
first `s_rx_got` bytes, lies inside the buffer. -/
theorem rx_count_within_buffer (cfg : Config) (t : Telemetry) (calls : List Call) :
    (run_calls cfg calls (boot t)).s_rx_got ≤
      request_rx_cap (run_calls cfg calls (boot t)).s_active.req ∧
    request_rx_cap (run_calls cfg calls (boot t)).s_active.req ≤
      UART_ENGINE_MAX_EXPECTED_LEN ∧
    (run_calls cfg calls (boot t)).s_rx_buf.length = UART_ENGINE_MAX_EXPECTED_LEN ∧
    UART_ENGINE_MAX_EXPECTED_LEN = 256 ∧
    (run_calls cfg calls (boot t)).s_rx_got +
        (request_rx_cap (run_calls cfg calls (boot t)).s_active.req -
          (run_calls cfg calls (boot t)).s_rx_got) % 65536 ≤
      (run_calls cfg calls (boot t)).s_rx_buf.length ∧
    (∀ inp : StepInput,
      (rx_step_bytes inp (run_calls cfg calls (boot t))).length ≤
        (request_rx_cap (run_calls cfg calls (boot t)).s_active.req -
          (run_calls cfg calls (boot t)).s_rx_got) % 65536 ∧
      (rx_read inp (request_rx_cap (run_calls cfg calls (boot t)).s_active.req)
          (run_calls cfg calls (boot t))).1.s_rx_got ≤
        request_rx_cap (run_calls cfg calls (boot t)).s_active.req ∧
      (rx_read inp (request_rx_cap (run_calls cfg calls (boot t)).s_active.req)
          (run_calls cfg calls (boot t))).1.s_rx_buf.length =
        UART_ENGINE_MAX_EXPECTED_LEN) ∧
    ((run_calls cfg calls (boot t)).s_rx_buf.take
      (run_calls cfg calls (boot t)).s_rx_got).length =
        (run_calls cfg calls (boot t)).s_rx_got := by
  have h := rxInv_run_calls cfg calls (boot t) (rxInv_boot cfg t)
  have hcap := request_rx_cap_le _ h.2.1
  have hgot := h.2.2.1
  have hlen := h.1.1
  have hmod : (request_rx_cap (run_calls cfg calls (boot t)).s_active.req -
      (run_calls cfg calls (boot t)).s_rx_got) % 65536 =
      request_rx_cap (run_calls cfg calls (boot t)).s_active.req -
        (run_calls cfg calls (boot t)).s_rx_got := by
    unfold UART_ENGINE_MAX_EXPECTED_LEN at hcap
    exact Nat.mod_eq_of_lt (by omega)
  refine ⟨hgot, hcap, hlen, rfl, ?_, ?_, ?_⟩
  · rw [hmod, hlen]
    omega
  · intro inp
    obtain ⟨r1, r2, -, -, -⟩ := rx_read_facts inp _ hlen hcap hgot
    refine ⟨?_, r2, r1⟩
    rw [hmod]
    unfold rx_step_bytes
    rw [List.length_take]
    exact Nat.min_le_left _ _
  · rw [List.length_take, hlen]
    omega

/-- Claim C34.  `snmp_decode_request_checked` is `snmp_decode_request` with every load
from the packet checked against `pkt_len`; it is a total function, so the decoder
terminates on every packet.  For every packet, of any length and content, it never ends
in `out_of_bounds`: no load is at an index outside `[0, pkt_len)`, a load being in
bounds exactly when its index is below the length.  It returns `true` exactly when the
decoder does, with the same request, and then the community view
`[community, community + community_len)` and the OID view `[oid, oid + oid_len)` end at
or before `pkt_len`, so each denotes as many bytes of the packet as its length says. -/
theorem decode_request_loads_in_bounds (pkt : List Nat) :
    snmp_decode_request_checked pkt ≠ checked_t.out_of_bounds ∧
    (∀ i, load pkt i ≠ checked_t.out_of_bounds ↔ i < pkt.length) ∧
    (snmp_decode_request_checked pkt).map (view_request pkt) =
      checked_t.of_option (snmp_decode_request pkt) ∧
    (snmp_decode_request pkt = none ↔
      snmp_decode_request_checked pkt = checked_t.refused) ∧
    (∀ req, snmp_decode_request pkt = some req →
      ∃ v, snmp_decode_request_checked pkt = checked_t.done v ∧
        req = view_request pkt v) ∧
    (∀ v, snmp_decode_request_checked pkt = checked_t.done v →
      snmp_decode_request pkt = some (view_request pkt v) ∧
      v.community + v.community_len ≤ pkt.length ∧
      v.oid + v.oid_len ≤ pkt.length ∧
      (bytes_at pkt v.community v.community_len).length = v.community_len ∧
      (bytes_at pkt v.oid v.oid_len).length = v.oid_len) := by
  have he := decode_request_checked_eq pkt
  refine ⟨?_, ?_, he, ?_, ?_, ?_⟩
  · intro hc
    rw [hc] at he
    cases hd : snmp_decode_request pkt with
    | none =>
      rw [hd] at he
      cases he
    | some req =>
      rw [hd] at he
      cases he
  · intro i
    constructor
    · intro h
      by_contra hn
      apply h
      unfold load
      rw [List.getElem?_eq_none (Nat.not_lt.mp hn)]
    · intro h
      rw [load_lt pkt i h]
      intro hc
      cases hc
  · constructor
    · intro hn
      rw [hn] at he
      cases hc : snmp_decode_request_checked pkt with
      | out_of_bounds =>
        rw [hc] at he
        cases he
      | refused => rfl
      | done v =>
        rw [hc] at he
        cases he
    · intro hr
      rw [hr] at he
      cases hd : snmp_decode_request pkt with
      | none => rfl
      | some req =>
        rw [hd] at he
        cases he
  · intro req hreq
    rw [hreq] at he
    cases hc : snmp_decode_request_checked pkt with
    | out_of_bounds =>
      rw [hc] at he
      cases he
    | refused =>
      rw [hc] at he
      cases he
    | done v =>
      rw [hc] at he
      cases he
      exact ⟨v, rfl, rfl⟩
  · intro v hv
    have hb := decode_request_checked_views pkt v hv
    exact ⟨decode_request_of_checked pkt v hv, by omega, hb.2,
      bytes_at_length pkt _ _ (by omega), bytes_at_length pkt _ _ hb.2⟩

/-- Claim C35.  A pass of the tick loop first calls `maybe_enqueue_heartbeat` with the
clock value `now` it has read.  That call pushes a Job, which is the heartbeat request
tagged as a heartbeat, exactly when the heartbeat is enabled, `s_hb_queued_or_active` is
false, the difference `now - s_hb_next_due_ms` read as a signed 32-bit value is at least 0
and the queue holds fewer than 32 Jobs.  On a push the flag becomes true and
`s_hb_next_due_ms` becomes `now + interval_ms` modulo 2^32, with 1000 in place of an
interval of 0, nothing else but the ring changes, and on a well-formed ring the queue
grows by that Job at its end.  Without a push, a full queue included, nothing changes. -/
theorem heartbeat_injection_rule (cfg : Config) (inp : StepInput) (now_ms : Nat)
    (s : Engine) :
    tick_step cfg inp s =
      tick_dispatch cfg inp (inp.now_ms % 4294967296)
        (maybe_enqueue_heartbeat (inp.now_ms % 4294967296) s) ∧
    ((maybe_enqueue_heartbeat now_ms s).s_q_count = s.s_q_count + 1 ↔
      s.s_hb_enabled = true ∧ s.s_hb_queued_or_active = false ∧
        0 ≤ asInt32 (sub32 now_ms s.s_hb_next_due_ms) ∧
        s.s_q_count < UART_ENGINE_QUEUE_SIZE) ∧
    (s.s_hb_enabled = true ∧ s.s_hb_queued_or_active = false ∧
        0 ≤ asInt32 (sub32 now_ms s.s_hb_next_due_ms) ∧
        s.s_q_count < UART_ENGINE_QUEUE_SIZE →
      maybe_enqueue_heartbeat now_ms s =
        { s with
          s_queue := s.s_queue.set s.s_q_tail
            { req := s.s_hb_cfg.req, retries_left := s.s_hb_cfg.req.max_retries,
              is_heartbeat := true },
          s_q_tail := (s.s_q_tail + 1) % UART_ENGINE_QUEUE_SIZE,
          s_q_count := s.s_q_count + 1,
          s_hb_queued_or_active := true,
          s_hb_next_due_ms :=
            (now_ms + (if s.s_hb_cfg.interval_ms = 0 then 1000
              else s.s_hb_cfg.interval_ms)) % 4294967296 } ∧
      (RingWF s →
        queued (maybe_enqueue_heartbeat now_ms s) =
          queued s ++ [{ req := s.s_hb_cfg.req, retries_left := s.s_hb_cfg.req.max_retries,
                         is_heartbeat := true }])) ∧
    (¬ (s.s_hb_enabled = true ∧ s.s_hb_queued_or_active = false ∧
        0 ≤ asInt32 (sub32 now_ms s.s_hb_next_due_ms) ∧
        s.s_q_count < UART_ENGINE_QUEUE_SIZE) →
      maybe_enqueue_heartbeat now_ms s = s) := by
  refine ⟨rfl, ?_, ?_, ?_⟩
  · rcases maybe_enqueue_heartbeat_cases now_ms s with ⟨h, hn⟩ | ⟨h1, h2, h3, h4, h⟩
    · rw [h]
      exact ⟨fun e => absurd e (by omega), fun c => absurd c hn⟩
    · rw [h]
      exact ⟨fun _ => ⟨h1, h2, h3, h4⟩, fun _ => rfl⟩
  · intro hc
    rcases maybe_enqueue_heartbeat_cases now_ms s with ⟨-, hn⟩ | ⟨-, -, -, -, h⟩
    · exact absurd hc hn
    · refine ⟨h, fun hwf => ?_⟩
      rcases (maybe_enqueue_heartbeat_queued now_ms s hwf).2 with e | e
      · rw [h] at e
        have := congrArg Engine.s_q_count e
        simp only [] at this
        omega
      · exact e
  · intro hn
    rcases maybe_enqueue_heartbeat_cases now_ms s with ⟨h, -⟩ | ⟨h1, h2, h3, h4, -⟩
    · exact h
    · exact absurd ⟨h1, h2, h3, h4⟩ hn

/-- Claim C36.  Take a pass of the tick loop that finds the engine in `PROCESS` with the
cooldown gate open, and let the transaction succeed: the Job has no parser, or its parser
returns true.  Then the telemetry after the pass is exactly the telemetry the parser left
(the telemetry before the pass when there is no parser): `on_job_success`, the clearing
of the heartbeat flag, the inter-job cooldown and `active_clear` write no telemetry field.
So whatever the parser does not write, the degraded-state fields included, is as before
the pass. -/
theorem success_writes_no_telemetry (cfg : Config) (inp : StepInput) (s : Engine)
    (hst : s.s_state = uart_engine_state_t.PROCESS)
    (hgate : 0 ≤ asInt32 (sub32 (inp.now_ms % 4294967296) s.s_retry_not_before_ms))
    (hok : (call_process_fn inp s).1 = true) :
    (tick_step cfg inp s).1.telemetry = (call_process_fn inp s).2 ∧
    (tick_step cfg inp s).1.s_state = uart_engine_state_t.IDLE ∧
    (s.s_active.req.process_fn = none → (tick_step cfg inp s).1.telemetry = s.telemetry) ∧
    (∀ fn, s.s_active.req.process_fn = some fn →
      (tick_step cfg inp s).1.telemetry =
        (inp.parser fn s.s_active.req.cmd (s.s_rx_buf.take s.s_rx_got)
          s.s_active.req.out_value s.telemetry).2) ∧
    (∀ job s0, (on_job_success job s0).telemetry = s0.telemetry) := by
  obtain ⟨f1, -, -, -, f5, -, -⟩ := maybe_enqueue_heartbeat_frame (engine_now_ms inp) s
  have hstep : (tick_step cfg inp s).1 =
      tick_process cfg inp (engine_now_ms inp)
        (maybe_enqueue_heartbeat (engine_now_ms inp) s) := by
    unfold tick_step tick_dispatch
    rw [if_neg (by rw [f5]; exact Int.not_lt.mpr hgate), f1, hst]
  have hc := call_process_fn_after_heartbeat inp (engine_now_ms inp) s
  have ht : (tick_step cfg inp s).1.telemetry = (call_process_fn inp s).2 := by
    rw [hstep, tick_process_success_telemetry cfg inp _ _ (by rw [hc]; exact hok), hc]
  refine ⟨ht, ?_, ?_, ?_, ?_⟩
  · rw [hstep]
    exact (tick_process_idle cfg inp _ _).1
  · intro hn
    rw [ht]
    unfold call_process_fn
    rw [hn]
  · intro fn hfn
    rw [ht]
    unfold call_process_fn
    rw [hfn]
  · intro job s0
    unfold on_job_success
    split <;> rfl

/-- Witness of C36.  After three heartbeat timeouts the degraded state is in the
telemetry; the poll of the battery capacity then succeeds with the answer 80.  After its
`PROCESS` step `remaining_capacity` is the 80 the parser wrote and the other fields are
the degraded ones: `shutdown_imminent` and `discharging` are still set, `ac_present` is
still clear and `remaining_time_limit_s` is still 1. -/
theorem success_writes_no_telemetry_witness :
    (tick_step defaultConfig (answerLine 2020 [80] 4) degradedInProcess).1.telemetry =
      (call_process_fn (answerLine 2020 [80] 4) degradedInProcess).2 ∧
    (tick_step defaultConfig (answerLine 2020 [80] 4) degradedInProcess).1.telemetry =
      { degradedInProcess.telemetry with
        g_battery := { degradedInProcess.telemetry.g_battery with remaining_capacity := 80 } } ∧
    degradedInProcess.telemetry = degraded_writes healthyTelemetry :=
  ⟨(success_writes_no_telemetry defaultConfig (answerLine 2020 [80] 4) degradedInProcess
      (by decide) (by decide) (by decide)).1,
   by decide, by decide⟩

/-- Claim C37.  Let `snmp_decode_request` accept the packet `p1`, with the views `v`.
The varbind list is a SEQUENCE found in the PDU; the TLV at the first byte of its
content is a SEQUENCE, the first varbind, and the TLV at the first byte of the content of
that one is the OBJECT IDENTIFIER whose value is the decoded OID: the OID is the name of
the first varbind.  Let `p2` be a packet of the same length that has the bytes of `p1`
at every offset before the end of that OID, whatever it has from there on (the value of
the first varbind, the further varbinds, the bytes after the varbind list).  Then the
decoder accepts `p2` with the same views and the same request: version, community, PDU
type, request-id and OID. -/
theorem first_varbind_name_only (p1 p2 : List Nat) (v : snmp_request_view_t)
    (hdec : snmp_decode_request_checked p1 = checked_t.done v)
    (hlen : p2.length = p1.length)
    (hag : ∀ i, i < v.oid + v.oid_len → p2.getD i 0 = p1.getD i 0) :
    snmp_decode_request p1 = some (view_request p1 v) ∧
    snmp_decode_request_checked p2 = checked_t.done v ∧
    snmp_decode_request p2 = snmp_decode_request p1 ∧
    (∃ p pdu_end vb_list_end vb_list_p vb_list_len vb_p vb_len,
      snmp_expect_tlv p1 p pdu_end SNMP_TYPE_SEQUENCE =
        some (vb_list_end, vb_list_p, vb_list_len) ∧
      snmp_expect_tlv p1 vb_list_p (vb_list_p + vb_list_len) SNMP_TYPE_SEQUENCE =
        some (vb_p + vb_len, vb_p, vb_len) ∧
      snmp_expect_tlv p1 vb_p (vb_p + vb_len) SNMP_TYPE_OBJECT_ID =
        some (v.oid + v.oid_len, v.oid, v.oid_len) ∧
      p1.getD vb_list_p 0 = SNMP_TYPE_SEQUENCE ∧
      p1.getD vb_p 0 = SNMP_TYPE_OBJECT_ID ∧
      vb_list_p < vb_p ∧ vb_p < v.oid ∧
      v.oid + v.oid_len ≤ vb_p + vb_len ∧
      vb_p + vb_len ≤ vb_list_p + vb_list_len) := by
  have hq := getElem_of_getD_agree p1 p2 (v.oid + v.oid_len) hlen hag
  have hb := decode_request_checked_views p1 v hdec
  have h2 := decode_request_checked_agree p1 p2 v hlen hdec (fun i hi => hq i (by omega))
  have d1 := decode_request_of_checked p1 v hdec
  have d2 := decode_request_of_checked p2 v h2
  refine ⟨d1, h2, ?_, ?_⟩
  · rw [d1, d2]
    unfold view_request
    rw [bytes_at_agree p1 p2 v.community v.community_len (fun i hi => hq i (by omega)),
      bytes_at_agree p1 p2 v.oid v.oid_len hq]
  · obtain ⟨r0, r1, r2, r3, r4, r5, r6, r7, r8, r9, h0, h1, hver, h2, hlt, htag, hpdu,
      h3, h4, hid, h5, h6, h7, h8, h9, e1, e2, e3, e4⟩ :=
      (decode_request_checked_iff p1 v).mp hdec
    have ho := decode_request_checked_order p1 r0 r1 r2 r4 r5 r6 r7 r8 r9 r3
      h0 h1 h2 h3 h4 h5 h6 h7 h8 h9
    have u7 := expect_tlv_of_checked p1 _ _ _ _ (by omega) h7
    have u8 := expect_tlv_of_checked p1 _ _ _ _ (by omega) h8
    have u9 := expect_tlv_of_checked p1 _ _ _ _ (by omega) h9
    have s8 := expect_tlv_sound _ _ _ _ _ u8
    have s9 := expect_tlv_sound _ _ _ _ _ u9
    refine ⟨r6.1, r3.1 + r3.2, r7.1, r7.2.1, r7.2.2, r8.2.1, r8.2.2, u7, ?_, ?_,
      s8.2.2.2.2, s9.2.2.2.2, by omega, by omega, by omega, by omega⟩
    · rw [u8, ← s8.2.1]
    · rw [u9, e3, e4, ← s9.2.1]

/-- Witness of C37.  The datagram with two varbinds and the datagram with the sixteen
bytes after the first OID overwritten differ, and both are decoded to the same request. -/
theorem first_varbind_name_only_witness :
    overwrittenRequest ≠ twoVarbindRequest ∧
    snmp_decode_request overwrittenRequest = snmp_decode_request twoVarbindRequest ∧
    snmp_decode_request twoVarbindRequest =
      some { version := 0, community := publicBytes, request_id := 7,
             pdu_type := SNMP_TYPE_GET_REQUEST,
             request_oid := some OID_UPS_EST_CHARGE_REMAINING_STD } :=
  ⟨by decide,
   (first_varbind_name_only twoVarbindRequest overwrittenRequest
      { version := 0, community := 7, community_len := 6, request_id := 7, pdu_type := 0xA0,
        oid := 30, oid_len := 10 } (by decide) (by decide) (by decide)).2.2.1,
   by decide⟩

/-- Claim C38.  The catalog has 32 entries and `snmp_get_value_by_index` succeeds exactly
for the indices 0 to 31.  Every index that `snmp_lookup_exact` or `snmp_lookup_next`
returns is below 32, so the projection that the request handler makes after a lookup
succeeds, and the handler never hands error-status 5 (GENERR) to `snmp_build_response`:
its error-status is 0, with error-index 0, after a lookup that found an entry, and 2,
with error-index 1, after one that found none. -/
theorem generr_branch_unreachable (req : snmp_request_t) (t : Telemetry) :
    k_oid_table.length = 32 ∧
    (∀ i, (∃ v, snmp_get_value_by_index i t = some v) ↔ i < 32) ∧
    (∀ oid i, snmp_lookup_exact oid = some i → i < 32) ∧
    (∀ oid i, snmp_lookup_next oid = some i → i < 32) ∧
    (∀ i, snmp_lookup req = some i → ∃ v, snmp_get_value_by_index i t = some v ∧
      response_args req t = (SNMP_ERR_NOERROR, 0, some (k_oid_table.getD i []), v)) ∧
    (snmp_lookup req = none →
      response_args req t = (SNMP_ERR_NOSUCHNAME, 1, req.request_oid, zeroValue)) ∧
    (response_args req t).1 ≠ SNMP_ERR_GENERR ∧
    SNMP_ERR_GENERR = 5 := by
  have hfound : ∀ i, snmp_lookup req = some i → ∃ v, snmp_get_value_by_index i t = some v ∧
      response_args req t = (SNMP_ERR_NOERROR, 0, some (k_oid_table.getD i []), v) := by
    intro i hi
    obtain ⟨v, hv, -⟩ := get_value_by_index_ok i (snmp_lookup_lt req i hi) t
    exact ⟨v, hv, response_args_found req t i v hi hv⟩
  refine ⟨rfl, ?_, snmp_lookup_exact_lt, snmp_lookup_next_lt, hfound,
    response_args_unknown req t, ?_, rfl⟩
  · intro i
    constructor
    · rintro ⟨v, hv⟩
      exact (get_value_by_index_range i t v hv).1
    · intro hi
      obtain ⟨v, hv, -⟩ := get_value_by_index_ok i hi t
      exact ⟨v, hv⟩
  · cases hl : snmp_lookup req with
    | none =>
      rw [response_args_unknown req t hl]
      show SNMP_ERR_NOSUCHNAME ≠ SNMP_ERR_GENERR
      decide
    | some i =>
      obtain ⟨v, -, hr⟩ := hfound i hl
      rw [hr]
      show SNMP_ERR_NOERROR ≠ SNMP_ERR_GENERR
      decide

/-- Claim C39.  Catalog index 14 is upsBatteryTemperature and its projection is an
INTEGER.  For a temperature that fits its C type (at most 32 bits): when the temperature
is at least 2731 the value is `(temperature - 2731) / 10`, the division rounding down, and
the unsigned subtraction `temperature - 2731U` is the exact difference, without
wrap-around; when the temperature is below 2731 the value is 0 and no subtraction is made.
The value is never negative, and it is at most 429496456. -/
theorem battery_temperature_projection (t : Telemetry)
    (h32 : t.g_battery.temperature < 4294967296) :
    k_oid_table.getD 14 [] = OID_UPS_BATTERY_TEMP_STD ∧
    (∃ v : Int, snmp_get_value_by_index 14 t =
        some { kind := value_kind_t.VALUE_KIND_INT32, i32 := v, octets := [] } ∧
      (2731 ≤ t.g_battery.temperature →
        v = ((t.g_battery.temperature - 2731) / 10 : Nat) ∧
        sub32 t.g_battery.temperature 2731 = t.g_battery.temperature - 2731 ∧
        (sub32 t.g_battery.temperature 2731 : Int) = (t.g_battery.temperature : Int) - 2731) ∧
      (t.g_battery.temperature < 2731 → v = 0) ∧
      0 ≤ v ∧ v ≤ 429496456) := by
  refine ⟨rfl, _, rfl, ?_, ?_, ?_⟩
  · intro hge
    have hv : (if t.g_battery.temperature ≥ 2731 then
          asInt32 ((t.g_battery.temperature - 2731) % U32 / 10) else 0) =
        ((t.g_battery.temperature - 2731) / 10 : Nat) := by
      rw [if_pos hge]
      unfold asInt32 U32
      rw [Nat.mod_eq_of_lt (show t.g_battery.temperature - 2731 < 4294967296 by omega),
        Nat.mod_eq_of_lt (show (t.g_battery.temperature - 2731) / 10 < 4294967296 by omega),
        if_pos (by omega)]
    refine ⟨hv, ?_, ?_⟩
    · unfold sub32 U32
      omega
    · unfold sub32 U32
      omega
  · intro hlt
    show (if t.g_battery.temperature ≥ 2731 then _ else (0 : Int)) = 0
    rw [if_neg (by omega)]
  · show 0 ≤ (if t.g_battery.temperature ≥ 2731 then
        asInt32 ((t.g_battery.temperature - 2731) % U32 / 10) else 0) ∧
      (if t.g_battery.temperature ≥ 2731 then
        asInt32 ((t.g_battery.temperature - 2731) % U32 / 10) else 0) ≤ 429496456
    split
    · unfold asInt32 U32
      split <;> omega
    · omega

/-- Witness of C39.  A temperature of 2981 (298.1 K) is projected to 25, one of 2730 to
0, and the largest 32-bit value to 429496456. -/
theorem battery_temperature_projection_witness :
    (∃ v : Int,
      snmp_get_value_by_index 14
          { healthyTelemetry with
            g_battery := { healthyTelemetry.g_battery with temperature := 2981 } } =
        some { kind := value_kind_t.VALUE_KIND_INT32, i32 := v, octets := [] } ∧
      0 ≤ v ∧ v ≤ 429496456) ∧
    snmp_get_value_by_index 14
        { healthyTelemetry with
          g_battery := { healthyTelemetry.g_battery with temperature := 2981 } } =
      some { kind := value_kind_t.VALUE_KIND_INT32, i32 := 25, octets := [] } ∧
    snmp_get_value_by_index 14
        { healthyTelemetry with
          g_battery := { healthyTelemetry.g_battery with temperature := 2730 } } =
      some { kind := value_kind_t.VALUE_KIND_INT32, i32 := 0, octets := [] } ∧
    snmp_get_value_by_index 14
        { healthyTelemetry with
          g_battery := { healthyTelemetry.g_battery with temperature := 4294967295 } } =
      some { kind := value_kind_t.VALUE_KIND_INT32, i32 := 429496456, octets := [] } :=
  ⟨(fun ⟨v, h1, _, _, h4, h5⟩ => ⟨v, h1, h4, h5⟩)
    (battery_temperature_projection
      { healthyTelemetry with
        g_battery := { healthyTelemetry.g_battery with temperature := 2981 } }
      (by decide)).2,
   by decide, by decide, by decide⟩

/-- Claim C40.  A step of the scheduler in `SANITY_CHECK` moves to `DONE` exactly when
`g_battery.remaining_capacity > 0`.  It then sets `s_next_dynamic_update_ms` to the clock
value plus 10000, modulo 2^32, where the clock is read a second time for this assignment;
with the clock unchanged between the two reads that is `now + 10000`.  Otherwise the step
is `ups_bootstrap_reset_for_retry(now)`: it moves to `WAIT_RETRY` with
`retry_not_before = now + 5000` modulo 2^32, the constant index 0, the dynamic index 0 and
the captured reply cleared, and it is the very update that a step in `HEARTBEAT_VERIFY`
makes when the reply does not match.  The engine is not touched. -/
theorem sanity_check_step (cfg : Config) (a : Adapter) (now_ms tick2_ms : Nat)
    (b : Scheduler) (s : Engine)
    (hst : b.s_ups_bootstrap_state = ups_bootstrap_state_t.UPS_BOOTSTRAP_SANITY_CHECK) :
    ((ups_bootstrap_task cfg a now_ms tick2_ms b s).1.s_ups_bootstrap_state =
        ups_bootstrap_state_t.UPS_BOOTSTRAP_DONE ↔
      s.telemetry.g_battery.remaining_capacity > 0) ∧
    (s.telemetry.g_battery.remaining_capacity > 0 →
      ups_bootstrap_task cfg a now_ms tick2_ms b s =
        ({ mark_bootstrap_started now_ms b with
           s_next_dynamic_update_ms := (tick2_ms + 10000) % 4294967296,
           s_ups_bootstrap_state := ups_bootstrap_state_t.UPS_BOOTSTRAP_DONE }, s) ∧
      (tick2_ms = now_ms →
        (ups_bootstrap_task cfg a now_ms tick2_ms b s).1.s_next_dynamic_update_ms =
          (now_ms + 10000) % 4294967296)) ∧
    (¬ s.telemetry.g_battery.remaining_capacity > 0 →
      ups_bootstrap_task cfg a now_ms tick2_ms b s =
        (ups_bootstrap_reset_for_retry now_ms (mark_bootstrap_started now_ms b), s) ∧
      (ups_bootstrap_task cfg a now_ms tick2_ms b s).1.s_ups_bootstrap_state =
        ups_bootstrap_state_t.UPS_BOOTSTRAP_WAIT_RETRY ∧
      (ups_bootstrap_task cfg a now_ms tick2_ms b s).1.s_init_retry_not_before_ms =
        (now_ms + 5000) % 4294967296 ∧
      (ups_bootstrap_task cfg a now_ms tick2_ms b s).1.s_bootstrap_constant_idx = 0 ∧
      (ups_bootstrap_task cfg a now_ms tick2_ms b s).1.s_bootstrap_dynamic_idx = 0 ∧
      (ups_bootstrap_task cfg a now_ms tick2_ms b s).1.s_bootstrap_heartbeat_rx_len = 0 ∧
      (ups_bootstrap_task cfg a now_ms tick2_ms b s).1.s_bootstrap_heartbeat_done = false ∧
      (ups_bootstrap_task cfg a now_ms tick2_ms b s).1.s_next_dynamic_update_ms =
        b.s_next_dynamic_update_ms) ∧
    (∀ (b0 : Scheduler) (s0 : Engine),
      b0.s_ups_bootstrap_state = ups_bootstrap_state_t.UPS_BOOTSTRAP_HEARTBEAT_VERIFY →
      ups_bootstrap_heartbeat_matches_expected a (mark_bootstrap_started now_ms b0) = false →
      ups_bootstrap_task cfg a now_ms tick2_ms b0 s0 =
        (ups_bootstrap_reset_for_retry now_ms (mark_bootstrap_started now_ms b0), s0)) ∧
    (ups_bootstrap_task cfg a now_ms tick2_ms b s).2 = s := by
  have hm := mark_bootstrap_started_state now_ms b
  have hnext : (mark_bootstrap_started now_ms b).s_next_dynamic_update_ms =
      b.s_next_dynamic_update_ms := by
    unfold mark_bootstrap_started
    split <;> rfl
  have hstep : ups_bootstrap_task cfg a now_ms tick2_ms b s =
      if s.telemetry.g_battery.remaining_capacity > 0 then
        ({ mark_bootstrap_started now_ms b with
           s_next_dynamic_update_ms := add32 tick2_ms UPS_DYNAMIC_UPDATE_PERIOD_MS,
           s_ups_bootstrap_state := ups_bootstrap_state_t.UPS_BOOTSTRAP_DONE }, s)
      else (ups_bootstrap_reset_for_retry now_ms (mark_bootstrap_started now_ms b), s) := by
    unfold ups_bootstrap_task bootstrap_switch
    rw [hm, hst]
  by_cases hrc : s.telemetry.g_battery.remaining_capacity > 0
  · rw [if_pos hrc] at hstep
    rw [hstep]
    refine ⟨⟨fun _ => hrc, fun _ => rfl⟩, fun _ => ⟨rfl, fun e => ?_⟩,
      fun h => absurd hrc h, ?_, rfl⟩
    · rw [e]; rfl
    · intro b0 s0 h0 hno
      unfold ups_bootstrap_task bootstrap_switch
      rw [mark_bootstrap_started_state, h0]
      simp only []
      rw [hno]
      rfl
  · rw [if_neg hrc] at hstep
    rw [hstep]
    refine ⟨⟨fun h => ?_, fun h => absurd h hrc⟩, fun h => absurd h hrc,
      fun _ => ⟨rfl, rfl, rfl, rfl, rfl, rfl, rfl, hnext⟩, ?_, rfl⟩
    · cases h
    · intro b0 s0 h0 hno
      unfold ups_bootstrap_task bootstrap_switch
      rw [mark_bootstrap_started_state, h0]
      simp only []
      rw [hno]
      rfl

/-- Witness of C40.  With `remaining_capacity = 80` the step at time 1000 moves to `DONE`
and schedules the next refresh at 11000; with `remaining_capacity = 0` it moves to
`WAIT_RETRY` with the deadline 6000 and both indices 0. -/
theorem sanity_check_step_witness :
    ((ups_bootstrap_task defaultConfig echoAdapter 1000 1000 sanityChecking
        (boot healthyTelemetry)).1.s_ups_bootstrap_state =
      ups_bootstrap_state_t.UPS_BOOTSTRAP_DONE ∧
     (ups_bootstrap_task defaultConfig echoAdapter 1000 1000 sanityChecking
        (boot healthyTelemetry)).1.s_next_dynamic_update_ms = 11000) ∧
    ((ups_bootstrap_task defaultConfig echoAdapter 1000 1000 sanityChecking
        (boot zeroTelemetry)).1.s_ups_bootstrap_state =
      ups_bootstrap_state_t.UPS_BOOTSTRAP_WAIT_RETRY ∧
     (ups_bootstrap_task defaultConfig echoAdapter 1000 1000 sanityChecking
        (boot zeroTelemetry)).1.s_init_retry_not_before_ms = 6000 ∧
     (ups_bootstrap_task defaultConfig echoAdapter 1000 1000 sanityChecking
        (boot zeroTelemetry)).1.s_bootstrap_constant_idx = 0 ∧
     (ups_bootstrap_task defaultConfig echoAdapter 1000 1000 sanityChecking
        (boot zeroTelemetry)).1.s_bootstrap_dynamic_idx = 0) :=
  ⟨⟨(sanity_check_step defaultConfig echoAdapter 1000 1000 sanityChecking
        (boot healthyTelemetry) rfl).1.mpr (by decide),
     ((sanity_check_step defaultConfig echoAdapter 1000 1000 sanityChecking
        (boot healthyTelemetry) rfl).2.1 (by decide)).2 rfl⟩,
   (fun h => ⟨h.2.1, h.2.2.1, h.2.2.2.1, h.2.2.2.2.1⟩)
    ((sanity_check_step defaultConfig echoAdapter 1000 1000 sanityChecking
      (boot zeroTelemetry) rfl).2.2.1 (by decide))⟩

end UartEngine
